import Mathlib

/-!
# Walk controller and impedance controller of the hexapod high level controller

A shallow embedding of `src/src/walkController.cpp`:

* `setGaitParams` (gait timing, lines 286-315) over an arbitrary ordered field with a floor
  function, so that it can be evaluated on rationals and used on reals;
* the discrete part of `updateWalk` (walk state machine, per-leg phase loop and leg state
  machine, lines 357-516) over integers and booleans;
* the velocity part of `updateWalk` (lines 323-355 and 397-399) and its odometry (lines 545-548)
  over the reals;
* `updateSwingPos` and `updatePosition` (lines 8-151) and the tip update loop of `updateWalk`
  (lines 518-540) over an arbitrary ordered field with a floor function;
* the footprint part of `init` (lines 173-283) over the reals;

and of `src/src/impedanceController.cpp`: `updateImpedance` (lines 33-61) over the reals and both
variants of `updateStiffness` (lines 63-128) over an arbitrary ordered field.

C++ `int` is modelled by `Int` without a bound (signed overflow is undefined behaviour in C++),
`double` by exact field arithmetic, `%` and `/` on `int` by `Int.tmod` and `Int.tdiv`. A division
of a `double` by zero, which gives an infinity or a NaN in C++, has the value `0` here; the
theorems about a tick that evaluates a quotient assume that its divisor is not zero.

Exact arithmetic is not enough where a `double` is converted to `int`: a rounding error below
an integer changes the result by one. For the phase length of `setGaitParams` (lines 295-299)
there is therefore a second embedding in binary64 arithmetic, `phaseLengthDouble`, over the type
`Double` with round to nearest, ties to even, after every operation.
-/

namespace Syropod

/-! ## Data model -/

/-- Walk cycle states of the walk controller (`WalkState`). -/
inductive WalkState where
  | STARTING
  | MOVING
  | STOPPING
  | STOPPED
  deriving DecidableEq

/-- Step cycle states of one leg, as used by `walkController.cpp`. -/
inductive StepState where
  | SWING
  | STANCE
  | STANCE_TRANSITION
  | SWING_TRANSITION
  | FORCE_STANCE
  | FORCE_STOP
  deriving DecidableEq

/-- Modelled from the spec: the macro `NUM_LEGS` is defined in a header that is not under src;
the specification has always six legs and compares the counters with 6. -/
def NUM_LEGS : Int := 6

/-- Integer and boolean members of `WalkController::LegStepper`. -/
structure LegStepper where
  phase : Int
  phaseOffset : Int
  state : StepState
  inCorrectPhase : Bool
  completedFirstStep : Bool
  deriving DecidableEq

/-- Integer members of `WalkController` written by `setGaitParams` and only read by
`updateWalk`: the phase length and the four phase boundaries. -/
structure GaitTiming where
  phaseLength : Int
  stanceEnd : Int
  swingStart : Int
  swingEnd : Int
  stanceStart : Int
  deriving DecidableEq

/-- The two counters `legsInCorrectPhase` and `legsCompletedFirstStep`, which the per-leg loop
reads and increments while it runs. -/
structure Counters where
  legsInCorrectPhase : Int
  legsCompletedFirstStep : Int
  deriving DecidableEq

/-- Discrete members of `WalkController` mutated by `updateWalk`. The six leg steppers
`legSteppers[l][s]` are listed in loop order, index `2*l+s`, so the front-left leg
`legSteppers[0][0]` is the head. -/
structure WalkController where
  state : WalkState
  legsInCorrectPhase : Int
  legsCompletedFirstStep : Int
  legSteppers : List LegStepper
  deriving DecidableEq

/-! ## updateWalk: walk state transitions (lines 357-387) -/

/-- State transitions for the robot state machine. `speedNonZero` is the truth value of
`normalSpeed` in the conditions `state == STOPPED && normalSpeed` and
`state == MOVING && !normalSpeed`. -/
def walkTransition (speedNonZero : Bool) (w : WalkController) : WalkController :=
  if w.state = WalkState.STOPPED ∧ speedNonZero = true then
    { w with
      state := WalkState.STARTING
      legSteppers := w.legSteppers.map (fun leg => { leg with phase := leg.phaseOffset }) }
  else if w.state = WalkState.STARTING ∧ w.legsInCorrectPhase = NUM_LEGS
      ∧ w.legsCompletedFirstStep = NUM_LEGS then
    { w with legsInCorrectPhase := 0, legsCompletedFirstStep := 0, state := WalkState.MOVING }
  else if w.state = WalkState.MOVING ∧ speedNonZero = false then
    { w with state := WalkState.STOPPING }
  else if w.state = WalkState.STOPPING ∧ w.legsInCorrectPhase = NUM_LEGS then
    { w with legsInCorrectPhase := 0, state := WalkState.STOPPED }
  else w

/-! ## updateWalk: per-leg phase loop (lines 390-480) -/

/-- STARTING branch, first block (lines 404-411): mark the first step as completed. -/
def startingCompletion (g : GaitTiming) (c : Counters) (leg : LegStepper) :
    Counters × LegStepper :=
  if c.legsInCorrectPhase = NUM_LEGS then
    if leg.phase = g.swingEnd ∧ leg.completedFirstStep = false then
      ({ c with legsCompletedFirstStep := c.legsCompletedFirstStep + 1 },
       { leg with completedFirstStep := true })
    else (c, leg)
  else (c, leg)

/-- STARTING branch, second block (lines 414-433): admit the leg, or force it into stance when
its offset starts it in mid swing. -/
def startingAdmission (g : GaitTiming) (c : Counters) (leg : LegStepper) :
    Counters × LegStepper :=
  if leg.inCorrectPhase = false then
    if g.swingStart ≤ leg.phaseOffset ∧ leg.phaseOffset < g.swingEnd then
      if leg.phase = g.swingEnd then
        ({ c with legsInCorrectPhase := c.legsInCorrectPhase + 1 },
         { leg with inCorrectPhase := true })
      else (c, { leg with state := StepState.FORCE_STANCE })
    else if leg.inCorrectPhase = false then
      ({ c with legsInCorrectPhase := c.legsInCorrectPhase + 1 },
       { leg with inCorrectPhase := true })
    else (c, leg)
  else (c, leg)

/-- STOPPING branch, first block (lines 441-452): a leg at `swingEnd` with a zero stride vector
is forced to stop; every leg but the front-left one is admitted at once. -/
def stoppingForceStop (g : GaitTiming) (frontLeft strideZero : Bool) (c : Counters)
    (leg : LegStepper) : Counters × LegStepper :=
  if strideZero = true ∧ leg.phase = g.swingEnd then
    let leg1 := { leg with state := StepState.FORCE_STOP }
    if frontLeft = false then
      if leg1.inCorrectPhase = false then
        ({ c with legsInCorrectPhase := c.legsInCorrectPhase + 1 },
         { leg1 with inCorrectPhase := true })
      else (c, leg1)
    else (c, leg1)
  else (c, leg)

/-- STOPPING branch, second block (lines 454-465): iterate the phase of a leg that is not yet
admitted; the front-left leg is admitted when it is forced to stop and back at phase zero. -/
def stoppingAdvance (g : GaitTiming) (frontLeft : Bool) (c : Counters) (leg : LegStepper) :
    Counters × LegStepper :=
  if leg.inCorrectPhase = false then
    let leg1 := { leg with phase := Int.tmod (leg.phase + 1) g.phaseLength }
    if frontLeft = true ∧ leg1.state = StepState.FORCE_STOP ∧ leg1.phase = 0 then
      ({ c with legsInCorrectPhase := c.legsInCorrectPhase + 1 },
       { leg1 with inCorrectPhase := true, state := StepState.STANCE })
    else (c, leg1)
  else (c, leg)

/-- Body of the per-leg loop after the stride vector is refreshed (lines 401-478), for the leg
with `frontLeft = (l==0 && s==0)` and `strideZero = (strideVector.norm() == 0)`. -/
def legPhaseUpdate (g : GaitTiming) (st : WalkState) (frontLeft strideZero : Bool)
    (c : Counters) (leg : LegStepper) : Counters × LegStepper :=
  match st with
  | WalkState.STARTING =>
    let r1 := startingCompletion g c leg
    let r2 := startingAdmission g r1.1 r1.2
    (r2.1, { r2.2 with phase := Int.tmod (r2.2.phase + 1) g.phaseLength })
  | WalkState.STOPPING =>
    let r1 := stoppingForceStop g frontLeft strideZero c leg
    stoppingAdvance g frontLeft r1.1 r1.2
  | WalkState.MOVING =>
    (c, { leg with phase := Int.tmod (leg.phase + 1) g.phaseLength, inCorrectPhase := false })
  | WalkState.STOPPED =>
    (c, { leg with
          inCorrectPhase := false, completedFirstStep := false, phase := 0,
          state := StepState.STANCE })

/-- The per-leg loop ("Robot State Machine"): the legs are visited in order, starting at index
`i`, and the counters are threaded through. `strideZero k` tells whether leg `k` has a zero
stride vector on this tick. -/
def robotStateMachine (g : GaitTiming) (st : WalkState) (strideZero : Nat → Bool) :
    Nat → Counters → List LegStepper → Counters × List LegStepper
  | _, c, [] => (c, [])
  | i, c, leg :: rest =>
    let r := legPhaseUpdate g st (decide (i = 0)) (strideZero i) c leg
    let rs := robotStateMachine g st strideZero (i + 1) r.1 rest
    (rs.1, r.2 :: rs.2)

/-! ## updateWalk: leg state machine (lines 482-516) -/

/-- Derivation of the step state of one leg from its phase ("Leg State Machine"). -/
def legStateMachine (g : GaitTiming) (leg : LegStepper) : LegStepper :=
  if leg.state = StepState.FORCE_STANCE then
    { leg with state := StepState.STANCE }
  else if leg.state = StepState.FORCE_STOP then
    { leg with state := StepState.FORCE_STOP }
  else if g.stanceEnd ≤ leg.phase ∧ leg.phase < g.swingStart then
    { leg with state := StepState.SWING_TRANSITION }
  else if g.swingStart ≤ leg.phase ∧ leg.phase < g.swingEnd then
    { leg with state := StepState.SWING }
  else if g.swingEnd ≤ leg.phase ∧ leg.phase < g.stanceStart then
    { leg with state := StepState.STANCE_TRANSITION }
  else if leg.phase < g.stanceEnd ∨ g.stanceStart ≤ leg.phase then
    { leg with state := StepState.STANCE }
  else leg

/-! ## updateWalk: the discrete tick -/

/-- The walk controller after the per-leg phase loop of one tick, before the leg state machine
runs. -/
def afterPhaseLoop (g : GaitTiming) (speedNonZero : Bool) (strideZero : Nat → Bool)
    (w : WalkController) : WalkController :=
  let w1 := walkTransition speedNonZero w
  let r := robotStateMachine g w1.state strideZero 0
    ⟨w1.legsInCorrectPhase, w1.legsCompletedFirstStep⟩ w1.legSteppers
  { w1 with
    legsInCorrectPhase := r.1.legsInCorrectPhase
    legsCompletedFirstStep := r.1.legsCompletedFirstStep
    legSteppers := r.2 }

/-- One tick of `updateWalk` on the discrete members: transitions, per-leg phase loop, leg state
machine. The tip position update and the odometry that follow do not touch these members. -/
def updateWalkCore (g : GaitTiming) (speedNonZero : Bool) (strideZero : Nat → Bool)
    (w : WalkController) : WalkController :=
  let w2 := afterPhaseLoop g speedNonZero strideZero w
  { w2 with legSteppers := w2.legSteppers.map (legStateMachine g) }

/-- Inputs of one discrete tick: the truth value of `normalSpeed` and, for each leg index,
whether its stride vector has norm zero. -/
structure TickInput where
  speedNonZero : Bool
  strideZero : Nat → Bool

/-- The controller after `n` ticks, tick `k` (counted from 0) receiving `inp k`. -/
def runCore (g : GaitTiming) (inp : Nat → TickInput) : Nat → WalkController → WalkController
  | 0, w => w
  | n + 1, w =>
    updateWalkCore g (inp n).speedNonZero (inp n).strideZero (runCore g inp n w)

/-! ## setGaitParams (lines 286-315) -/

/-- Conversion of a `double` to `int`: truncation toward zero. -/
def toInt {K : Type} [LinearOrderedField K] [FloorRing K] (x : K) : Int :=
  if 0 ≤ x then ⌊x⌋ else ⌈x⌉

/-- Modelled from the spec: `roundToInt` is declared in a header that is not under src; the
spec calls it `round`. Rounding to the nearest integer, halves away from zero. -/
def roundToInt {K : Type} [LinearOrderedField K] [FloorRing K] (x : K) : Int :=
  if 0 ≤ x then toInt (x + 1 / 2) else -toInt (1 / 2 - x)

/-- Gait and rate parameters read from `Parameters` by the walk controller. The phase counts are
`double` in this version of the controller (they are multiplied by `0.5`, divided to give
`swingRatio`, and `phaseOffset*normaliser` is cast to `int`); `offsetMultiplier` is indexed by
`2*l+s`. -/
structure Parameters (K : Type) where
  stancePhase : K
  swingPhase : K
  transitionPeriod : K
  phaseOffset : K
  stepFrequency : K
  offsetMultiplier : Nat → Int
  maxAcceleration : K
  maxCurvatureSpeed : K

/-- Members written by `setGaitParams`: the timing, the adjusted step frequency and the
`phaseOffset` of the six leg steppers in loop order. -/
structure GaitResult (K : Type) where
  timing : GaitTiming
  stepFrequency : K
  phaseOffsets : List Int

section Gait

variable {K : Type} [LinearOrderedField K] [FloorRing K]

/-- The local `int basePhaseLength` of `setGaitParams` (line 295). -/
def basePhaseLength (p : Parameters K) : Int :=
  toInt (p.stancePhase + p.swingPhase + p.transitionPeriod * 2)

/-- The local `double swingRatio` of `setGaitParams` (line 296). -/
def swingRatio (p : Parameters K) : K :=
  (p.swingPhase + p.transitionPeriod) / (basePhaseLength p : K)

/-- The argument of `roundToInt` on line 297: the number of ticks per unit of base phase. -/
def ticksPerUnit (p : Parameters K) (timeDelta : K) : K :=
  (1 / (2 * p.stepFrequency * timeDelta)) / ((basePhaseLength p : K) * swingRatio p)

/-- The member `phaseLength` as assigned on line 297, in exact arithmetic: the quotient is an
integer there and its conversion to `int` changes nothing. In binary64 arithmetic the quotient
can fall just below that integer and is then truncated to the integer before it; see
`phaseLengthDouble`. -/
def phaseLengthOf (p : Parameters K) (timeDelta : K) : Int :=
  toInt (((roundToInt (ticksPerUnit p timeDelta) : K) * ((basePhaseLength p : K) * swingRatio p))
    / swingRatio p)

/-- The integer `normaliser` of line 300. -/
def normaliserOf (p : Parameters K) (timeDelta : K) : Int :=
  Int.tdiv (phaseLengthOf p timeDelta) (basePhaseLength p)

/-- Translation of `WalkController::setGaitParams`. The result is `none` when the `ASSERT` on
line 299 fails or when an `int` is divided by zero (`%` on lines 299 and 312, `/` on line 300),
which is undefined in C++. The arithmetic is exact; lines 295-299 in binary64 arithmetic are
`phaseLengthDouble` and `gaitAssertDouble`. -/
def setGaitParams (p : Parameters K) (timeDelta : K) : Option (GaitResult K) :=
  let stanceEnd : Int := toInt (p.stancePhase * (1 / 2))
  let swingStart : Int := toInt ((stanceEnd : K) + p.transitionPeriod)
  let swingEnd : Int := toInt ((swingStart : K) + p.swingPhase)
  let stanceStart : Int := toInt ((swingEnd : K) + p.transitionPeriod)
  let phaseLength : Int := phaseLengthOf p timeDelta
  let stepFrequency : K := 1 / ((phaseLength : K) * timeDelta)
  if basePhaseLength p = 0 then none
  else if Int.tmod phaseLength (basePhaseLength p) ≠ 0 then none
  else if phaseLength = 0 then none
  else
    let normaliser : Int := normaliserOf p timeDelta
    some
      { timing :=
          { phaseLength := phaseLength
            stanceEnd := stanceEnd * normaliser
            swingStart := swingStart * normaliser
            swingEnd := swingEnd * normaliser
            stanceStart := stanceStart * normaliser }
        stepFrequency := stepFrequency
        phaseOffsets := (List.range 6).map (fun index =>
          Int.tmod (toInt (p.phaseOffset * (normaliser : K)) * p.offsetMultiplier index)
            phaseLength) }

end Gait

/-- Modelled from the spec: the member initialisers of the class declaration are not under src.
The walk state starts as STOPPED with both counters zero and the flags of every leg clear;
`init` (lines 251-256) sets `phase = 0` after `setGaitParams` has set `phaseOffset`. The step
state is taken as STANCE, which is what the first tick assigns in STOPPED. -/
def initController (phaseOffsets : List Int) : WalkController :=
  { state := WalkState.STOPPED
    legsInCorrectPhase := 0
    legsCompletedFirstStep := 0
    legSteppers := phaseOffsets.map (fun off =>
      { phase := 0, phaseOffset := off, state := StepState.STANCE,
        inCorrectPhase := false, completedFirstStep := false }) }

/-- States reachable from `w0` by ticks of `updateWalk` with arbitrary inputs. -/
inductive Reachable (g : GaitTiming) (w0 : WalkController) : WalkController → Prop where
  | start : Reachable g w0 w0
  | tick (speedNonZero : Bool) (strideZero : Nat → Bool) (w : WalkController) :
      Reachable g w0 w → Reachable g w0 (updateWalkCore g speedNonZero strideZero w)

/-! ## updateWalk: velocities (lines 323-355, 397-399, 543) -/

/-- Euclidean norm of a 2-vector (`Vector2d::norm`). -/
noncomputable def vnorm (v : ℝ × ℝ) : ℝ := Real.sqrt (v.1 ^ 2 + v.2 ^ 2)

/-- The walk controller with its real-valued members. `strideVector i` is the stride vector of
the leg stepper with index `i`. -/
structure Walker where
  core : WalkController
  timing : GaitTiming
  timeDelta : ℝ
  stepFrequency : ℝ
  minFootprintRadius : ℝ
  stanceRadius : ℝ
  maxAcceleration : ℝ
  maxCurvatureSpeed : ℝ
  localCentreVelocity : ℝ × ℝ
  angularVelocity : ℝ
  localCentreAcceleration : ℝ × ℝ
  strideVector : Nat → ℝ × ℝ

/-- The local `onGroundRatio` (line 323). -/
noncomputable def onGroundRatio (g : GaitTiming) : ℝ :=
  ((g.phaseLength - (g.swingEnd - g.swingStart) : Int) : ℝ) / (g.phaseLength : ℝ)

/-- The local `localVelocity` (lines 325-333). -/
noncomputable def localVelocity (W : Walker) (localNormalisedVelocity : ℝ × ℝ) : ℝ × ℝ :=
  if W.core.state ≠ WalkState.STOPPING then
    (localNormalisedVelocity.1 * 2 * W.minFootprintRadius * W.stepFrequency
        / onGroundRatio W.timing,
     localNormalisedVelocity.2 * 2 * W.minFootprintRadius * W.stepFrequency
        / onGroundRatio W.timing)
  else (0, 0)

/-- The local `normalSpeed` (line 335). -/
noncomputable def normalSpeed (W : Walker) (localNormalisedVelocity : ℝ × ℝ) : ℝ :=
  vnorm (localVelocity W localNormalisedVelocity)

/-- The member `angularVelocity` after lines 340-346. -/
noncomputable def nextAngularVelocity (W : Walker) (localNormalisedVelocity : ℝ × ℝ)
    (newCurvature : ℝ) : ℝ :=
  let newAngularVelocity := newCurvature * normalSpeed W localNormalisedVelocity / W.stanceRadius
  let dif := newAngularVelocity - W.angularVelocity
  if |dif| > 0 then
    W.angularVelocity + dif * min 1 (W.maxCurvatureSpeed * W.timeDelta / |dif|)
  else W.angularVelocity

/-- The member `localCentreVelocity` after lines 348-355. -/
noncomputable def nextCentreVelocity (W : Walker) (localNormalisedVelocity : ℝ × ℝ)
    (newCurvature : ℝ) : ℝ × ℝ :=
  let lv := localVelocity W localNormalisedVelocity
  let centralVelocity : ℝ × ℝ := (lv.1 * (1 - |newCurvature|), lv.2 * (1 - |newCurvature|))
  let diff : ℝ × ℝ :=
    (centralVelocity.1 - W.localCentreVelocity.1, centralVelocity.2 - W.localCentreVelocity.2)
  let diffLength := vnorm diff
  if diffLength > 0 then
    (W.localCentreVelocity.1 + diff.1 * min 1 (W.maxAcceleration * W.timeDelta / diffLength),
     W.localCentreVelocity.2 + diff.2 * min 1 (W.maxAcceleration * W.timeDelta / diffLength))
  else W.localCentreVelocity

/-- The stride vector assigned to a leg whose tip is at `tip` (lines 397-399), from the
velocities `v` and `omega` already updated on this tick. -/
noncomputable def strideOf (W : Walker) (v : ℝ × ℝ) (omega : ℝ) (tip : ℝ × ℝ) : ℝ × ℝ :=
  (onGroundRatio W.timing * (v.1 + omega * tip.2) / W.stepFrequency,
   onGroundRatio W.timing * (v.2 + omega * (-tip.1)) / W.stepFrequency)

/-- One tick of `WalkController::updateWalk` on the members above. `tip i` is the horizontal
part of `leg.localTipPosition` of leg `i` as the loop reads it. The result is `none` when
`ASSERT(normalSpeed < 1.01)` fails. -/
noncomputable def updateWalk (localNormalisedVelocity : ℝ × ℝ) (newCurvature : ℝ)
    (tip : Nat → ℝ × ℝ) (W : Walker) : Option Walker :=
  if normalSpeed W localNormalisedVelocity < 1.01 then
    let omega := nextAngularVelocity W localNormalisedVelocity newCurvature
    let v := nextCentreVelocity W localNormalisedVelocity newCurvature
    let stride : Nat → ℝ × ℝ := fun i => strideOf W v omega (tip i)
    some
      { W with
        core := updateWalkCore W.timing
          (decide (normalSpeed W localNormalisedVelocity ≠ 0))
          (fun i => decide (vnorm (stride i) = 0)) W.core
        angularVelocity := omega
        localCentreVelocity := v
        strideVector := stride
        localCentreAcceleration :=
          ((v.1 - W.localCentreVelocity.1) / W.timeDelta,
           (v.2 - W.localCentreVelocity.2) / W.timeDelta) }
  else none

/-- The walker after `n` ticks, tick `k` (counted from 0) receiving the command `cmd k`, the
curvature `curv k` and the tip positions `tip k`. -/
noncomputable def runWalk (cmd : Nat → ℝ × ℝ) (curv : Nat → ℝ) (tip : Nat → Nat → ℝ × ℝ) :
    Nat → Walker → Option Walker
  | 0, W => some W
  | n + 1, W => (runWalk cmd curv tip n W).bind (updateWalk (cmd n) (curv n) (tip n))

/-! ## The transition table of the specification -/

/-- The walk state transition table as the specification words it: the next state from the
current state, whether the commanded speed is non-zero, and the two counters. -/
def transitionTable (s : WalkState) (speedNonZero : Prop) [Decidable speedNonZero]
    (legsInCorrectPhase legsCompletedFirstStep : Int) : WalkState :=
  match s with
  | WalkState.STOPPED => if speedNonZero then WalkState.STARTING else WalkState.STOPPED
  | WalkState.STARTING =>
    if legsInCorrectPhase = 6 ∧ legsCompletedFirstStep = 6 then WalkState.MOVING
    else WalkState.STARTING
  | WalkState.MOVING => if speedNonZero then WalkState.MOVING else WalkState.STOPPING
  | WalkState.STOPPING =>
    if legsInCorrectPhase = 6 then WalkState.STOPPED else WalkState.STOPPING

/-- The successor of a walk state along the cycle STOPPED, STARTING, MOVING, STOPPING. -/
def WalkState.next : WalkState → WalkState
  | WalkState.STOPPED => WalkState.STARTING
  | WalkState.STARTING => WalkState.MOVING
  | WalkState.MOVING => WalkState.STOPPING
  | WalkState.STOPPING => WalkState.STOPPED

/-! ## Quantities named by the specification, and example configurations -/

/-- The rounded tick count of the specification's formula for `phase_length`:
`round((1/(2*step_frequency*time_delta)) / (swing_phase + transition_period))`. -/
def roundedTicks {K : Type} [LinearOrderedField K] [FloorRing K] (p : Parameters K)
    (timeDelta : K) : Int :=
  roundToInt ((1 / (2 * p.stepFrequency * timeDelta)) / (p.swingPhase + p.transitionPeriod))

/-- Scenario S1 of the specification: `stance_phase = 4`, `swing_phase = 2`,
`transition_period = 1`, `step_frequency = 1.0` (to be used with `time_delta = 0.02 = 1/50`); the
phase offset and the offset multipliers are left open by the scenario. -/
def s1Parameters (phaseOffset : ℚ) (offsetMultiplier : Nat → Int) : Parameters ℚ :=
  { stancePhase := 4, swingPhase := 2, transitionPeriod := 1, phaseOffset := phaseOffset,
    stepFrequency := 1, offsetMultiplier := offsetMultiplier,
    maxAcceleration := 1, maxCurvatureSpeed := 1 }

/-- The gait of scenario S1 with a step frequency of 20 Hz. -/
def fastParameters : Parameters ℚ :=
  { stancePhase := 4, swingPhase := 2, transitionPeriod := 1, phaseOffset := 2,
    stepFrequency := 20, offsetMultiplier := fun _ => 0,
    maxAcceleration := 1, maxCurvatureSpeed := 1 }

/-- A tripod gait: stance and swing of two units each, no transition period, legs alternating
between offset multipliers 0 and 1 with a phase offset of two units. -/
def tripodParameters : Parameters ℚ :=
  { stancePhase := 2, swingPhase := 2, transitionPeriod := 0, phaseOffset := 2,
    stepFrequency := 1, offsetMultiplier := fun i => if i = 1 ∨ i = 2 ∨ i = 5 then 1 else 0,
    maxAcceleration := 1, maxCurvatureSpeed := 1 }

/-! ## Counting and progress measures used in the proofs -/

/-- Number of legs whose `inCorrectPhase` flag is set. -/
def flagCount (legs : List LegStepper) : Int :=
  ((legs.countP (fun leg => leg.inCorrectPhase) : Nat) : Int)

/-- Number of legs whose `completedFirstStep` flag is set. -/
def doneCount (legs : List LegStepper) : Int :=
  ((legs.countP (fun leg => leg.completedFirstStep) : Nat) : Int)

/-- Number of phase increments that take phase `p` to `swingEnd`, going round the cycle. -/
def ticksToSwingEnd (g : GaitTiming) (p : Int) : Int :=
  if p ≤ g.swingEnd then g.swingEnd - p else g.swingEnd - p + g.phaseLength

/-- STARTING: an upper bound on the number of ticks until the leg is in correct phase. -/
def admitIn (g : GaitTiming) (leg : LegStepper) : Int :=
  if leg.inCorrectPhase = true then 0 else ticksToSwingEnd g leg.phase + 1

/-- STARTING, once all legs are in correct phase: the number of ticks until the leg has
completed its first step. -/
def completeIn (g : GaitTiming) (leg : LegStepper) : Int :=
  if leg.completedFirstStep = true then 0 else ticksToSwingEnd g leg.phase + 1

/-- STOPPING with zero stride vectors: the number of ticks until the leg is in correct phase.
The front-left leg first reaches `swingEnd`, is forced to stop and then runs on to phase 0. -/
def stopIn (g : GaitTiming) (frontLeft : Bool) (leg : LegStepper) : Int :=
  if leg.inCorrectPhase = true then 0
  else if frontLeft = true then
    if leg.state = StepState.FORCE_STOP then g.phaseLength - leg.phase
    else ticksToSwingEnd g leg.phase + (g.phaseLength - g.swingEnd)
  else ticksToSwingEnd g leg.phase + 1

/-- The timing is usable by the phase loop: a positive phase length and a swing end inside the
cycle. -/
def GaitTiming.Cyclic (g : GaitTiming) : Prop :=
  0 < g.phaseLength ∧ 0 ≤ g.swingEnd ∧ g.swingEnd < g.phaseLength

/-- Every leg has its phase in `[0, phaseLength)`. -/
def PhasesInRange (g : GaitTiming) (legs : List LegStepper) : Prop :=
  ∀ leg ∈ legs, 0 ≤ leg.phase ∧ leg.phase < g.phaseLength

/-- Bookkeeping invariant of the controller at the end of a tick: six legs, the counter
`legsInCorrectPhase` equals the number of flags set, no flag is set in MOVING or STOPPED, and
every phase and phase offset is inside the cycle. -/
def Consistent (g : GaitTiming) (w : WalkController) : Prop :=
  w.legSteppers.length = 6
    ∧ w.legsInCorrectPhase = flagCount w.legSteppers
    ∧ ((w.state = WalkState.MOVING ∨ w.state = WalkState.STOPPED) →
        ∀ leg ∈ w.legSteppers, leg.inCorrectPhase = false)
    ∧ (∀ leg ∈ w.legSteppers, (0 ≤ leg.phase ∧ leg.phase < g.phaseLength)
        ∧ (0 ≤ leg.phaseOffset ∧ leg.phaseOffset < g.phaseLength))

/-- Invariant of the controller while STARTING, at the end of a tick: six legs, both counters
equal the number of flags they count, phases inside the cycle. -/
def StartingInv (g : GaitTiming) (w : WalkController) : Prop :=
  w.state = WalkState.STARTING
    ∧ w.legSteppers.length = 6
    ∧ w.legsInCorrectPhase = flagCount w.legSteppers
    ∧ w.legsCompletedFirstStep = doneCount w.legSteppers
    ∧ PhasesInRange g w.legSteppers

/-- Condition under which a tick with a zero commanded speed runs its per-leg loop in STOPPING:
the walk state is STOPPING, or it is MOVING with no leg counted; six legs, the counter
`legsInCorrectPhase` equals the number of flags set, phases inside the cycle. -/
def StoppingInv (g : GaitTiming) (w : WalkController) : Prop :=
  (w.state = WalkState.STOPPING ∨ (w.state = WalkState.MOVING ∧ w.legsInCorrectPhase = 0))
    ∧ w.legSteppers.length = 6
    ∧ w.legsInCorrectPhase = flagCount w.legSteppers
    ∧ PhasesInRange g w.legSteppers

/-- Every leg is at most `n` zero-stride STOPPING ticks from being in correct phase; the head
of the list is the front-left leg. -/
def StopBound (g : GaitTiming) (n : Int) : List LegStepper → Prop
  | [] => True
  | fl :: rest => stopIn g true fl ≤ n ∧ ∀ leg ∈ rest, stopIn g false leg ≤ n

/-- A walker in MOVING for the examples: the tripod timing of `tripodParameters` at
`time_delta = 1/8`, twelve ticks after the initial state under a non-zero command, moving at
velocity `(1/4, 0)` and turning at `1/10`. -/
noncomputable def movingWalker : Walker :=
  { core := runCore ⟨8, 2, 2, 6, 6⟩ (fun _ => ⟨true, fun _ => false⟩) 12
      (initController [0, 4, 4, 0, 0, 4])
    timing := ⟨8, 2, 2, 6, 6⟩
    timeDelta := 1 / 8
    stepFrequency := 1
    minFootprintRadius := 1 / 10
    stanceRadius := 1 / 2
    maxAcceleration := 1
    maxCurvatureSpeed := 1
    localCentreVelocity := (1 / 4, 0)
    angularVelocity := 1 / 10
    localCentreAcceleration := (0, 0)
    strideVector := fun _ => (0, 0) }

/-- During STOPPING, `leg` is not behind the front-left leg `fl`: it is already in correct
phase, or the front-left leg is neither in correct phase nor forced to stop and `leg` is at most
as many phase increments from `swingEnd` as the front-left leg is. -/
def Ahead (g : GaitTiming) (fl leg : LegStepper) : Prop :=
  leg.inCorrectPhase = true
    ∨ (fl.inCorrectPhase = false ∧ fl.state ≠ StepState.FORCE_STOP
        ∧ ticksToSwingEnd g leg.phase ≤ ticksToSwingEnd g fl.phase)

/-- Inputs of a run that commands a non-zero speed for fourteen ticks and then zero speed, the
stride vectors being zero from then on. -/
def stopAfter14 : Nat → TickInput :=
  fun k => if k < 14 then ⟨true, fun _ => false⟩ else ⟨false, fun _ => true⟩

/-! ## Definitions for the resting walker (C11) -/

/-- The leg stepper as a tick in STOPPED leaves it: the STOPPED branch of the per-leg loop
followed by the leg state machine. -/
def restLeg (g : GaitTiming) (leg : LegStepper) : LegStepper :=
  legStateMachine g
    { leg with inCorrectPhase := false, completedFirstStep := false, phase := 0,
               state := StepState.STANCE }

/-- A gait with a stance of one unit and a swing of one unit, without transition period. -/
def shortStanceParameters : Parameters ℚ :=
  { stancePhase := 1, swingPhase := 1, transitionPeriod := 0, phaseOffset := 1,
    stepFrequency := 1, offsetMultiplier := fun i => if i = 1 ∨ i = 2 ∨ i = 5 then 1 else 0,
    maxAcceleration := 1, maxCurvatureSpeed := 1 }

/-- A walker at rest with the timing that `setGaitParams` gives for `shortStanceParameters` at
`time_delta = 1/8`. -/
noncomputable def shortStanceWalker : Walker :=
  { core := initController [0, 4, 4, 0, 0, 4]
    timing := ⟨8, 0, 0, 4, 4⟩
    timeDelta := 1 / 8
    stepFrequency := 1
    minFootprintRadius := 1 / 10
    stanceRadius := 1 / 2
    maxAcceleration := 1
    maxCurvatureSpeed := 1
    localCentreVelocity := (0, 0)
    angularVelocity := 0
    localCentreAcceleration := (0, 0)
    strideVector := fun _ => (0, 0) }

/-! ## Targets of the rate limiters (C12) -/

/-- The local `centralVelocity` of `updateWalk` (line 348), the target of the linear rate
limiter. -/
noncomputable def centralVelocity (W : Walker) (localNormalisedVelocity : ℝ × ℝ)
    (newCurvature : ℝ) : ℝ × ℝ :=
  ((localVelocity W localNormalisedVelocity).1 * (1 - |newCurvature|),
   (localVelocity W localNormalisedVelocity).2 * (1 - |newCurvature|))

/-- The local `newAngularVelocity` of `updateWalk` (line 340), the target of the angular rate
limiter. -/
noncomputable def newAngularVelocity (W : Walker) (localNormalisedVelocity : ℝ × ℝ)
    (newCurvature : ℝ) : ℝ :=
  newCurvature * normalSpeed W localNormalisedVelocity / W.stanceRadius

/-! ## Example walker at rest and tip positions (C13) -/

/-- A walker at rest in STOPPED with the tripod timing and the parameters of `movingWalker`. -/
noncomputable def restingWalker : Walker :=
  { movingWalker with
    core := initController [0, 4, 4, 0, 0, 4]
    localCentreVelocity := (0, 0)
    angularVelocity := 0 }

/-- Horizontal tip positions for the examples: the legs of row `l` (indices `2*l` and `2*l+1`)
at distance `l + 1` from the body origin, on either side. -/
noncomputable def rowTips : Nat → ℝ × ℝ :=
  fun i => if i % 2 = 0 then (-((i / 2 : Nat) : ℝ) - 1, 0) else (((i / 2 : Nat) : ℝ) + 1, 0)

/-! ## Tip positions: updateSwingPos and updatePosition (lines 8-151) -/

/-- A vector of three doubles (`Vector3d`); `x`, `y`, `z` are the components `[0]`, `[1]`,
`[2]`. -/
@[ext]
structure Vector3d (K : Type) where
  x : K
  y : K
  z : K

section TipPositions

variable {K : Type} [LinearOrderedField K] [FloorRing K]

instance : Add (Vector3d K) := ⟨fun a b => ⟨a.x + b.x, a.y + b.y, a.z + b.z⟩⟩

instance : Sub (Vector3d K) := ⟨fun a b => ⟨a.x - b.x, a.y - b.y, a.z - b.z⟩⟩

instance : SMul K (Vector3d K) := ⟨fun c a => ⟨c * a.x, c * a.y, c * a.z⟩⟩

/-- An array of five control nodes of a quartic Bezier curve (`Vector3d nodes[5]`). -/
structure ControlNodes (K : Type) where
  node0 : Vector3d K
  node1 : Vector3d K
  node2 : Vector3d K
  node3 : Vector3d K
  node4 : Vector3d K

/-- The three local arrays of `updateSwingPos`. -/
structure SwingPolygons (K : Type) where
  stanceControlNodes : ControlNodes K
  swingPrimaryControlNodes : ControlNodes K
  swingSecondaryControlNodes : ControlNodes K

/-- Modelled from the spec: `quarticBezierDot` is declared in a header that is not under src;
the spec calls it `quartic_bezier_derivative(polygon, t)`. The derivative with respect to `t` of
the quartic Bezier curve of the five nodes. -/
def quarticBezierDot (points : ControlNodes K) (t : K) : Vector3d K :=
  let s := 1 - t
  (4 * s * s * s) • (points.node1 - points.node0)
    + (12 * s * s * t) • (points.node2 - points.node1)
    + (12 * s * t * t) • (points.node3 - points.node2)
    + (4 * t * t * t) • (points.node4 - points.node3)

/-- Members of `WalkController` that a leg stepper reads through its `walker` pointer. -/
structure WalkerMembers (K : Type) where
  stepClearance : K
  maximumBodyHeight : K
  timing : GaitTiming
  stepFrequency : K
  timeDelta : K
  localCentreVelocity : K × K
  angularVelocity : K

/-- Members of `WalkController::LegStepper` read or written by `updatePosition` and
`updateSwingPos`. -/
structure TipStepper (K : Type) where
  phase : Int
  state : StepState
  strideVector : K × K
  defaultTipPosition : Vector3d K
  currentTipPosition : Vector3d K
  originTipPosition : Vector3d K

/-- The control nodes that `updateSwingPos` builds (lines 14-16 and 31-66), in the order of the
source: first the assignments of whole vectors for the horizontal plane, then the assignments of
the `z` components, which overwrite every `z` of the first part. Lines 59 and 60 read
`swingPrimaryControlNodes[0][4]`, a component past the three of node 0; the language does not
define the value, which is the parameter `overread`. -/
def swingControlNodes (walker : WalkerMembers K) (overread : K) (leg : TipStepper K) :
    SwingPolygons K :=
  let swingHeight := walker.stepClearance * walker.maximumBodyHeight
  let stanceDepth := swingHeight * (1 / 2)
  let strideVec : Vector3d K := ⟨leg.strideVector.1, leg.strideVector.2, 0⟩
  -- horizontal plane
  let st0 := leg.defaultTipPosition + (1 / 2 : K) • strideVec
  let st4 := leg.originTipPosition
  let st1 := st4 + (3 / 4 : K) • (st0 - st4)
  let st2 := st4 + (1 / 2 : K) • (st0 - st4)
  let st3 := st4 + (1 / 4 : K) • (st0 - st4)
  let p0 := st4
  let p1 := (2 : K) • st4 - st3
  let p2 := p1
  let p3 := p1
  let p4 := leg.defaultTipPosition
  let s0 := p4
  let s1 := (2 : K) • s0 - p3
  let s2 := s1
  let s3 := (2 : K) • st0 - st1
  let s4 := leg.defaultTipPosition + (1 / 2 : K) • strideVec
  -- vertical plane
  let st0 : Vector3d K := { st0 with z := leg.defaultTipPosition.z }
  let st4 : Vector3d K := { st4 with z := leg.originTipPosition.z }
  let st2 : Vector3d K := { st2 with z := st0.z + stanceDepth }
  let st1 : Vector3d K := { st1 with z := (st0.z + st2.z) / 2 }
  let st3 : Vector3d K := { st3 with z := (st4.z + st2.z) / 2 }
  let p0 : Vector3d K := { p0 with z := st4.z }
  let p1 : Vector3d K := { p1 with z := 2 * st4.z - st3.z }
  let p4 : Vector3d K := { p4 with z := p0.z + swingHeight }
  let p2 : Vector3d K := { p2 with z := overread }
  let p3 : Vector3d K := { p3 with z := overread }
  let s0 : Vector3d K := { s0 with z := p4.z }
  let s1 : Vector3d K := { s1 with z := 2 * s0.z - p3.z }
  let s2 : Vector3d K := { s2 with z := s1.z }
  let s3 : Vector3d K := { s3 with z := 2 * st0.z - st1.z }
  let s4 : Vector3d K := { s4 with z := st0.z }
  { stanceControlNodes := ⟨st0, st1, st2, st3, st4⟩
    swingPrimaryControlNodes := ⟨p0, p1, p2, p3, p4⟩
    swingSecondaryControlNodes := ⟨s0, s1, s2, s3, s4⟩ }

/-- The local `numIterations` of `updateSwingPos` (lines 19 and 27): an `int` times `2.0`,
converted back to `int`. -/
def numIterations (walker : WalkerMembers K) : Int :=
  let swingLength : K := ((walker.timing.swingEnd - walker.timing.swingStart : Int) : K)
  toInt ((roundToInt ((swingLength / (walker.timing.phaseLength : K))
      / (walker.stepFrequency * walker.timeDelta) / 2) : K) * 2)

/-- Translation of `WalkController::LegStepper::updateSwingPos(Vector3d *pos)`: the leg stepper
and `*pos` after the call. -/
def updateSwingPos (walker : WalkerMembers K) (overread : K) (leg : TipStepper K)
    (pos : Vector3d K) : TipStepper K × Vector3d K :=
  let iteration : Int := leg.phase - walker.timing.swingStart + 1
  let leg1 := if iteration = 1 then { leg with originTipPosition := pos } else leg
  let deltaT : K := 1 / (numIterations walker : K)
  let nodes := swingControlNodes walker overread leg1
  let halfSwingIteration : Int := Int.tdiv (numIterations walker) 2
  let deltaPos : Vector3d K :=
    if iteration ≤ halfSwingIteration then
      (2 * deltaT) • quarticBezierDot nodes.swingPrimaryControlNodes
        ((iteration : K) * deltaT * 2)
    else
      (2 * deltaT) • quarticBezierDot nodes.swingSecondaryControlNodes
        (((iteration - halfSwingIteration : Int) : K) * deltaT * 2)
  (leg1, pos + deltaPos)

/-- Translation of `WalkController::LegStepper::updatePosition`; `updateSwingPos` is called on
`&currentTipPosition`. -/
def updatePosition (walker : WalkerMembers K) (overread : K) (leg : TipStepper K) :
    TipStepper K :=
  if leg.state = StepState.SWING then
    let r := updateSwingPos walker overread leg leg.currentTipPosition
    { r.1 with currentTipPosition := r.2 }
  else if leg.state = StepState.STANCE ∨ leg.state = StepState.STANCE_TRANSITION
      ∨ leg.state = StepState.SWING_TRANSITION then
    let deltaPos : K × K :=
      (-(walker.localCentreVelocity.1 + walker.angularVelocity * leg.currentTipPosition.y)
          * walker.timeDelta,
       -(walker.localCentreVelocity.2 + walker.angularVelocity * (-leg.currentTipPosition.x))
          * walker.timeDelta)
    { leg with
      currentTipPosition :=
        ⟨leg.currentTipPosition.x + deltaPos.1, leg.currentTipPosition.y + deltaPos.2,
          leg.currentTipPosition.z⟩ }
  else leg

end TipPositions

/-- Example members of the walk controller for the tip position examples: the tripod timing
(phase length 8, swing band `[2, 6)`) at `time_delta = 1/8`, a swing height of
`stepClearance*maximumBodyHeight = 1`, moving at `(1/4, 0)` and turning at `1/10`. -/
def tripodMembers : WalkerMembers ℚ :=
  { stepClearance := 1 / 2
    maximumBodyHeight := 2
    timing := ⟨8, 2, 2, 6, 6⟩
    stepFrequency := 1
    timeDelta := 1 / 8
    localCentreVelocity := (1 / 4, 0)
    angularVelocity := 1 / 10 }

/-- A leg in stance with its tip at `(1, 2, -1)`. -/
def stanceLeg : TipStepper ℚ :=
  { phase := 0
    state := StepState.STANCE
    strideVector := (0, 0)
    defaultTipPosition := ⟨1, 2, -1⟩
    currentTipPosition := ⟨1, 2, -1⟩
    originTipPosition := ⟨1, 2, -1⟩ }

/-! ## The ticks of one swing -/

section SwingTicks

variable {K : Type} [LinearOrderedField K] [FloorRing K]

/-- The leg after `k` successive calls of `updateSwingPos` on its current tip position, the
phase advancing by one after each call, as the per-leg loop does from one tick to the next
inside the swing band; the default tip position and the stride vector are held fixed. -/
def swingTicks (walker : WalkerMembers K) (overread : K) : Nat → TipStepper K → TipStepper K
  | 0, leg => leg
  | k + 1, leg =>
    let leg1 := swingTicks walker overread k leg
    let r := updateSwingPos walker overread leg1 leg1.currentTipPosition
    { r.1 with currentTipPosition := r.2, phase := leg1.phase + 1 }

/-- The highest `z` of `currentTipPosition` over the first `j + 1` ticks of a swing. -/
def swingApex (walker : WalkerMembers K) (overread : K) (leg : TipStepper K) : Nat → K
  | 0 => (swingTicks walker overread 1 leg).currentTipPosition.z
  | j + 1 =>
    max (swingApex walker overread leg j)
      (swingTicks walker overread (j + 2) leg).currentTipPosition.z

/-- The sum of `k` derivative steps of size `u` over a polygon:
`u*B'(u) + u*B'(2*u) + ... + u*B'(k*u)`. -/
def accumulatedDot (points : ControlNodes K) (u : K) : Nat → Vector3d K
  | 0 => ⟨0, 0, 0⟩
  | k + 1 =>
    accumulatedDot points u k + u • quarticBezierDot points (((k + 1 : Nat) : K) * u)

/-- The closed form of `accumulatedDot` in one component with node values `p0 .. p4`. -/
def accumulatedClosed (p0 p1 p2 p3 p4 u : K) (k : Nat) : K :=
  u * (4 * (p1 - p0) * k
    + (-12 * (p1 - p0) + 12 * (p2 - p1)) * u * (k * (k + 1) / 2)
    + (12 * (p1 - p0) - 24 * (p2 - p1) + 12 * (p3 - p2)) * u ^ 2
        * (k * (k + 1) * (2 * k + 1) / 6)
    + (-4 * (p1 - p0) + 12 * (p2 - p1) - 12 * (p3 - p2) + 4 * (p4 - p3)) * u ^ 3
        * (k ^ 2 * (k + 1) ^ 2 / 4))

/-- The amount by which `m` derivative steps of size `1/m` over a polygon miss the difference
`node4 - node0` of its end nodes. -/
def knotError (points : ControlNodes K) (m : K) : Vector3d K :=
  (2 / m) • (points.node4 - points.node3 - points.node1 + points.node0)
    + (1 / m ^ 2) • (points.node4 - (2 : K) • points.node3 + (2 : K) • points.node1
        - points.node0)

end SwingTicks

/-- A leg entering its swing (`phase = swingStart = 2` of the tripod timing) one unit behind its
default tip position at the body-frame origin, with a stride vector of `(2, 0)`. -/
def swingLeg : TipStepper ℚ :=
  { phase := 2
    state := StepState.SWING
    strideVector := (2, 0)
    defaultTipPosition := ⟨0, 0, 0⟩
    currentTipPosition := ⟨-1, 0, 0⟩
    originTipPosition := ⟨-1, 0, 0⟩ }

/-- A leg entering its swing (`phase = swingStart = 2` of the tripod timing) at its default tip
position, the body-frame origin, with a zero stride vector. -/
def liftLeg : TipStepper ℚ :=
  { phase := 2
    state := StepState.SWING
    strideVector := (0, 0)
    defaultTipPosition := ⟨0, 0, 0⟩
    currentTipPosition := ⟨0, 0, 0⟩
    originTipPosition := ⟨0, 0, 0⟩ }

/-! ## updateWalk: odometry (lines 545-548) -/

/-- Modelled from the spec: the class `Quat` is declared in a header that is not under src. A
quaternion `w + x*i + y*j + z*k`; `Quat(1,0,0,0)` is the identity rotation. -/
structure Quat where
  w : ℝ
  x : ℝ
  y : ℝ
  z : ℝ

/-- Modelled from the spec: the product of two quaternions (`operator*`, used by `*=`), the
Hamilton product. -/
noncomputable def Quat.mul (a b : Quat) : Quat :=
  ⟨a.w * b.w - a.x * b.x - a.y * b.y - a.z * b.z,
   a.w * b.x + a.x * b.w + a.y * b.z - a.z * b.y,
   a.w * b.y - a.x * b.z + a.y * b.w + a.z * b.x,
   a.w * b.z + a.x * b.y - a.y * b.x + a.z * b.w⟩

/-- Modelled from the spec: `Quat::rotateVector`, the rotation `q * (0, v) * conjugate q` of a
vector by a unit quaternion. -/
noncomputable def Quat.rotateVector (q : Quat) (v : Vector3d ℝ) : Vector3d ℝ :=
  let r := Quat.mul (Quat.mul q ⟨0, v.x, v.y, v.z⟩) ⟨q.w, -q.x, -q.y, -q.z⟩
  ⟨r.x, r.y, r.z⟩

/-- Modelled from the spec: `Quat(Vector3d(0, 0, angle))`, the rotation by `angle` about the
vertical axis (the spec's `Quat(axis_angle(0, 0, angle))`). -/
noncomputable def Quat.aboutVertical (angle : ℝ) : Quat :=
  ⟨Real.cos (angle / 2), 0, 0, Real.sin (angle / 2)⟩

/-- The member `pose` of the walk controller. -/
structure Pose where
  position : Vector3d ℝ
  rotation : Quat

/-- The walk controller with its member `pose`. -/
structure PosedWalker where
  walker : Walker
  pose : Pose

/-- One tick of `updateWalk` including the odometry of lines 545-548, which reads the velocities
updated on this tick. -/
noncomputable def updateWalkPose (localNormalisedVelocity : ℝ × ℝ) (newCurvature : ℝ)
    (tip : Nat → ℝ × ℝ) (P : PosedWalker) : Option PosedWalker :=
  (updateWalk localNormalisedVelocity newCurvature tip P.walker).map (fun W1 =>
    let push : ℝ × ℝ :=
      (W1.localCentreVelocity.1 * W1.timeDelta, W1.localCentreVelocity.2 * W1.timeDelta)
    { walker := W1
      pose :=
        { position := P.pose.position + P.pose.rotation.rotateVector ⟨push.1, push.2, 0⟩
          rotation :=
            Quat.mul P.pose.rotation (Quat.aboutVertical (-W1.angularVelocity * W1.timeDelta)) } })

/-- The walker and its pose after `n` ticks with the same command, curvature and tip positions
on every tick. -/
noncomputable def runWalkPose (cmd : ℝ × ℝ) (curv : ℝ) (tip : Nat → ℝ × ℝ) :
    Nat → PosedWalker → Option PosedWalker
  | 0, P => some P
  | n + 1, P => (runWalkPose cmd curv tip n P).bind (updateWalkPose cmd curv tip)

/-- The speed that the rate limiter has reached after `k` ticks from rest toward the constant
target `t` with reach `a` per tick: `t*min(1, k*a/|t|)`. -/
noncomputable def rampedSpeed (t a : ℝ) (k : Nat) : ℝ :=
  t * min 1 (k * a / |t|)

/-- A walker as `init` leaves it, with the tripod timing and the parameters of `movingWalker`,
and its pose at height 1. -/
noncomputable def initialPosedWalker : PosedWalker :=
  { walker := restingWalker
    pose := { position := ⟨0, 0, 1⟩, rotation := ⟨1, 0, 0, 0⟩ } }

/-- The first component of the local `localVelocity` of `updateWalk` for the command `(v0, 0)`
outside STOPPING: the commanded normalised speed times
`2*minFootprintRadius*stepFrequency/onGroundRatio`. -/
noncomputable def scaledCommand (W : Walker) (v0 : ℝ) : ℝ :=
  v0 * 2 * W.minFootprintRadius * W.stepFrequency / onGroundRatio W.timing

/-! ## Impedance controller: updateImpedance (impedanceController.cpp, lines 33-61) -/

/-- Members of `Leg` that `updateImpedance` reads or writes through its accessors;
`femur_current_effort` is `current_effort` of the leg's femur joint. -/
structure ImpedanceLeg where
  mirror_dir : ℝ
  femur_current_effort : ℝ
  tip_force : ℝ
  virtual_mass : ℝ
  virtual_stiffness : ℝ
  virtual_damping_ratio : ℝ
  impedance_state : ℝ × ℝ
  delta_z : ℝ

/-- Members of `ImpedanceController` set by `init`. -/
structure ImpedanceController where
  delta_t_ : ℝ
  force_gain_ : ℝ

/-- The local `force_input` of `updateImpedance` (lines 35-44). -/
noncomputable def forceInput (leg : ImpedanceLeg) (use_joint_effort : Bool) : ℝ :=
  if use_joint_effort = true then leg.mirror_dir * leg.femur_current_effort else leg.tip_force

/-- The system function passed to `integrate_const` (lines 54-58): the derivative `dxdt` of the
state `x`. -/
noncomputable def impedanceSystem (force_input mass stiffness virtual_damping force_gain : ℝ)
    (x : ℝ × ℝ) : ℝ × ℝ :=
  (x.2, -force_input / mass * force_gain - virtual_damping / mass * x.2 - stiffness / mass * x.1)

/-- Modelled from the spec: `runge_kutta4` is library code that is not under src; the spec says
the ODE is integrated "using Runge-Kutta 4". One classical Runge-Kutta step of size `h` for a
system that does not depend on the time. -/
noncomputable def rungeKutta4 (f : ℝ × ℝ → ℝ × ℝ) (h : ℝ) (x : ℝ × ℝ) : ℝ × ℝ :=
  let k1 := f x
  let k2 := f (x.1 + h / 2 * k1.1, x.2 + h / 2 * k1.2)
  let k3 := f (x.1 + h / 2 * k2.1, x.2 + h / 2 * k2.2)
  let k4 := f (x.1 + h * k3.1, x.2 + h * k3.2)
  (x.1 + h / 6 * (k1.1 + 2 * k2.1 + 2 * k3.1 + k4.1),
   x.2 + h / 6 * (k1.2 + 2 * k2.2 + 2 * k3.2 + k4.2))

/-- Modelled from the spec: `integrate_const` is library code that is not under src; the spec
integrates "over `[0, integrator_step_time]` with step `integrator_step_time/30`". The state
after `n` steps of size `h`. -/
noncomputable def integrateConst (f : ℝ × ℝ → ℝ × ℝ) (h : ℝ) : Nat → ℝ × ℝ → ℝ × ℝ
  | 0, x => x
  | n + 1, x => rungeKutta4 f h (integrateConst f h n x)

/-- Translation of `ImpedanceController::updateImpedance`: thirty steps of size `delta_t_/30`,
then `delta_z` is set to the first component of the state. -/
noncomputable def updateImpedance (c : ImpedanceController) (leg : ImpedanceLeg)
    (use_joint_effort : Bool) : ImpedanceLeg :=
  let force_input := forceInput leg use_joint_effort
  let damping := leg.virtual_damping_ratio
  let stiffness := leg.virtual_stiffness
  let mass := leg.virtual_mass
  let virtual_damping := damping * 2 * Real.sqrt (mass * stiffness)
  let state := integrateConst
    (impedanceSystem force_input mass stiffness virtual_damping c.force_gain_)
    (c.delta_t_ / 30) 30 leg.impedance_state
  { leg with impedance_state := state, delta_z := state.1 }

/-- The leg of scenario S4: `m = 1`, `k = 100`, `zeta = 0.7`, a constant tip force of 10, at the
steady state `(-0.1, 0)`. -/
noncomputable def steadyLeg : ImpedanceLeg :=
  { mirror_dir := 1
    femur_current_effort := 0
    tip_force := 10
    virtual_mass := 1
    virtual_stiffness := 100
    virtual_damping_ratio := 7 / 10
    impedance_state := (-1 / 10, 0)
    delta_z := 0 }

/-! ## updateWalk: tip positions and inverse kinematics (lines 518-540) -/

/-- Leg states (`LegState` of `parameters_and_states.h`). -/
inductive LegState where
  | WALKING
  | MANUAL
  | WALKING_TO_MANUAL
  | MANUAL_TO_WALKING
  deriving DecidableEq

/-- Members of the model's `Leg` read by the tip update of `updateWalk`. -/
structure ModelLeg (K : Type) where
  state : LegState
  stanceTipPosition : Vector3d K

section TipUpdate

variable {K : Type} [LinearOrderedField K] [FloorRing K]

/-- The revision of the default and current tip positions from `stanceTipPosition` (lines
529-531). -/
def reviseTipPositions (stanceTipPosition : Vector3d K) (legStepper : TipStepper K) :
    TipStepper K :=
  let tipOffset := legStepper.defaultTipPosition - legStepper.currentTipPosition
  let legStepper1 := { legStepper with defaultTipPosition := stanceTipPosition }
  { legStepper1 with currentTipPosition := legStepper1.defaultTipPosition - tipOffset }

/-- Body of the tip update loop of `updateWalk` (lines 524-538) for one leg: the leg stepper
after it, and the argument of `leg.applyLocalIK` when it is called (`none` when it is not).
`deltaZ` is the entry `deltaZ[l][s]` of the impedance controller for this leg. -/
def updateTip (walker : WalkerMembers K) (overread : K) (leg : ModelLeg K) (deltaZ : K)
    (legStepper : TipStepper K) : TipStepper K × Option (Vector3d K) :=
  if leg.state = LegState.WALKING then
    let legStepper1 :=
      updatePosition walker overread (reviseTipPositions leg.stanceTipPosition legStepper)
    let adjustedPos := legStepper1.currentTipPosition
    let adjustedPos := { adjustedPos with z := adjustedPos.z - deltaZ }
    (legStepper1, some adjustedPos)
  else (legStepper, none)

end TipUpdate

/-! ## Impedance controller: updateStiffness (impedanceController.cpp, lines 63-128) -/

/-- Members of a `Leg` and of its `LegStepper` read or written by `updateStiffness`: the virtual
stiffness, the step state and the current and default tip positions. -/
structure StiffnessLeg (K : Type) where
  virtual_stiffness : K
  step_state : StepState
  current_tip_position : Vector3d K
  default_tip_position : Vector3d K

/-- The parameters read by `updateStiffness`. -/
structure StiffnessParameters (K : Type) where
  virtual_stiffness : K
  swing_stiffness_scaler : K
  load_stiffness_scaler : K

/-- The local `adjacent_leg_1_id` of both variants of `updateStiffness` (lines 68 and 110):
`(leg_id-1)%model_->getLegCount()` with the truncating `%` of C++. -/
def adjacent_leg_1_id (leg_id leg_count : Int) : Int := Int.tmod (leg_id - 1) leg_count

/-- The local `adjacent_leg_2_id` of both variants of `updateStiffness` (lines 69 and 111). -/
def adjacent_leg_2_id (leg_id leg_count : Int) : Int := Int.tmod (leg_id + 1) leg_count

section Stiffness

variable {K : Type} [LinearOrderedField K]

/-- Modelled from the spec: `Model::getLegByIDNumber` and the leg container are declared in a
header that is not under src. The container is the list of the legs in the order of their id
numbers `0 .. leg_count-1` (the specification has the legs 0 to 5); an id outside this range names
no leg, and the result `none` stands for the pointer that the callers dereference without a
check. -/
def getLegByIDNumber (legs : List (StiffnessLeg K)) (leg_id_num : Int) :
    Option (StiffnessLeg K) :=
  if 0 ≤ leg_id_num then legs[leg_id_num.toNat]? else none

/-- The call `setVirtualStiffness(value)` on the leg with id `leg_id_num` of the container. -/
def setVirtualStiffness (legs : List (StiffnessLeg K)) (leg_id_num : Nat) (value : K) :
    List (StiffnessLeg K) :=
  legs.modify (fun leg => { leg with virtual_stiffness := value }) leg_id_num

/-- Translation of `ImpedanceController::updateStiffness(Leg* leg, double step_reference)` for
the leg with id `leg_id` (lines 65-80). The result is `none` when a leg that is dereferenced does
not exist. -/
def updateStiffnessLeg (params : StiffnessParameters K) (legs : List (StiffnessLeg K))
    (leg_id : Nat) (step_reference : K) : Option (List (StiffnessLeg K)) :=
  let leg_count : Int := (legs.length : Int)
  let id1 := adjacent_leg_1_id (leg_id : Int) leg_count
  let id2 := adjacent_leg_2_id (leg_id : Int) leg_count
  match legs[leg_id]?, getLegByIDNumber legs id1, getLegByIDNumber legs id2 with
  | some _, some _, some _ =>
    let virtual_stiffness := params.virtual_stiffness
    let swing_stiffness :=
      virtual_stiffness * (step_reference * (params.swing_stiffness_scaler - 1) + 1)
    let load_stiffness :=
      virtual_stiffness * (step_reference * (params.load_stiffness_scaler - 1) + 1)
    some (setVirtualStiffness
      (setVirtualStiffness (setVirtualStiffness legs leg_id swing_stiffness)
        id1.toNat load_stiffness)
      id2.toNat load_stiffness)
  | _, _, _ => none

/-- The local `step_reference` of `updateStiffness(WalkController*)` (lines 105-107) for a leg,
with `step_clearance = walker->getStepClearance()` and
`max_body_height = walker->getMaxBodyHeight()`. -/
def stepReference (step_clearance max_body_height : K) (leg : StiffnessLeg K) : K :=
  let z_diff := leg.current_tip_position.z - leg.default_tip_position.z
  0 + |z_diff / (step_clearance * max_body_height)|

/-- Body of the second loop of `updateStiffness(WalkController*)` for the leg with id `leg_id`
(lines 101-125). The result is `none` when a leg that is dereferenced does not exist. -/
def stiffnessLoopBody (params : StiffnessParameters K) (step_clearance max_body_height : K)
    (legs : List (StiffnessLeg K)) (leg_id : Nat) : Option (List (StiffnessLeg K)) :=
  match legs[leg_id]? with
  | none => none
  | some leg =>
    if leg.step_state = StepState.SWING then
      let step_reference := stepReference step_clearance max_body_height leg
      let leg_count : Int := (legs.length : Int)
      let id1 := adjacent_leg_1_id (leg_id : Int) leg_count
      let id2 := adjacent_leg_2_id (leg_id : Int) leg_count
      match getLegByIDNumber legs id1, getLegByIDNumber legs id2 with
      | some adjacent_leg_1, some adjacent_leg_2 =>
        let virtual_stiffness := params.virtual_stiffness
        let swing_stiffness :=
          virtual_stiffness * (step_reference * (params.swing_stiffness_scaler - 1) + 1)
        let load_stiffness :=
          virtual_stiffness * (step_reference * (params.load_stiffness_scaler - 1))
        let current_stiffness_1 := adjacent_leg_1.virtual_stiffness
        let current_stiffness_2 := adjacent_leg_2.virtual_stiffness
        some (setVirtualStiffness
          (setVirtualStiffness (setVirtualStiffness legs leg_id swing_stiffness)
            id1.toNat (current_stiffness_1 + load_stiffness))
          id2.toNat (current_stiffness_2 + load_stiffness))
      | _, _ => none
    else some legs

/-- The second loop of `updateStiffness(WalkController*)` over the legs with the ids
`0 .. count-1`, in this order. -/
def stiffnessLoop (params : StiffnessParameters K) (step_clearance max_body_height : K) :
    Nat → List (StiffnessLeg K) → Option (List (StiffnessLeg K))
  | 0, legs => some legs
  | count + 1, legs =>
    match stiffnessLoop params step_clearance max_body_height count legs with
    | none => none
    | some legs1 => stiffnessLoopBody params step_clearance max_body_height legs1 count

/-- Translation of `ImpedanceController::updateStiffness(WalkController *walker)` (lines 87-128):
the reset of every leg to the configured stiffness, then the loop over the legs. -/
def updateStiffness (params : StiffnessParameters K) (step_clearance max_body_height : K)
    (legs : List (StiffnessLeg K)) : Option (List (StiffnessLeg K)) :=
  stiffnessLoop params step_clearance max_body_height legs.length
    (legs.map (fun leg => { leg with virtual_stiffness := params.virtual_stiffness }))

/-- The stiffness `virtual_stiffness*(step_reference*(swing_stiffness_scaler-1)+1)` that a
swinging leg is set to. -/
def swingStiffness (params : StiffnessParameters K) (step_reference : K) : K :=
  params.virtual_stiffness * (step_reference * (params.swing_stiffness_scaler - 1) + 1)

/-- The stiffness `virtual_stiffness*(step_reference*(load_stiffness_scaler-1))` that a swinging
leg adds to its neighbours. -/
def loadStiffness (params : StiffnessParameters K) (step_reference : K) : K :=
  params.virtual_stiffness * (step_reference * (params.load_stiffness_scaler - 1))

/-- The load that the leg with id `i` adds to a neighbour when the loop visits it: its load
stiffness if it is in SWING, zero if it is not or if there is no such leg. -/
def swingingLoad (params : StiffnessParameters K) (step_clearance max_body_height : K)
    (legs : List (StiffnessLeg K)) (i : Nat) : K :=
  match legs[i]? with
  | some leg =>
    if leg.step_state = StepState.SWING then
      loadStiffness params (stepReference step_clearance max_body_height leg)
    else 0
  | none => 0

/-- The load of leg `i` once the loop has visited the legs below `j`. -/
def visitedLoad (params : StiffnessParameters K) (step_clearance max_body_height : K)
    (legs : List (StiffnessLeg K)) (j i : Nat) : K :=
  if i < j then swingingLoad params step_clearance max_body_height legs i else 0

/-- The virtual stiffness of `leg`, the leg with id `l`, once the loop has visited the legs below
`j`: a swinging leg that has been visited has its swing stiffness plus the load of the next leg;
any other leg has the configured stiffness plus the loads of the legs before and after it, the
last leg counting as the one before leg 0. -/
def stiffnessAfter (params : StiffnessParameters K) (step_clearance max_body_height : K)
    (legs : List (StiffnessLeg K)) (j l : Nat) (leg : StiffnessLeg K) : K :=
  if leg.step_state = StepState.SWING ∧ l < j then
    swingStiffness params (stepReference step_clearance max_body_height leg)
      + visitedLoad params step_clearance max_body_height legs j (l + 1)
  else
    params.virtual_stiffness
      + (if 1 ≤ l then visitedLoad params step_clearance max_body_height legs j (l - 1) else 0)
      + visitedLoad params step_clearance max_body_height legs j (l + 1)
      + (if l = 0 then visitedLoad params step_clearance max_body_height legs j (legs.length - 1)
          else 0)

end Stiffness

/-- Scenario S5: six legs at rest height 0 with a clearance of `0.5 * 2 = 1`; the legs listed in
`swinging` are in SWING with their tips raised by `1/2`, the others are in STANCE. -/
def s5Legs (swinging : List Nat) : List (StiffnessLeg ℚ) :=
  (List.range 6).map (fun i =>
    if i ∈ swinging then ⟨0, StepState.SWING, ⟨0, 0, 1 / 2⟩, ⟨0, 0, 0⟩⟩
    else ⟨0, StepState.STANCE, ⟨0, 0, 0⟩, ⟨0, 0, 0⟩⟩)

/-- Scenario S5: `virtual_stiffness = 100`, `swing_stiffness_scaler = 0.1`,
`load_stiffness_scaler = 2`. -/
def s5Parameters : StiffnessParameters ℚ := ⟨100, 1 / 10, 2⟩

/-! ## init: the nominal footprint (walkController.cpp, lines 163-283) -/

/-- Members of the model's `Leg` read by `init`. -/
structure LegGeometry where
  femurLength : ℝ
  tibiaLength : ℝ
  hipLength : ℝ
  minLegLength : ℝ
  maxLegLength : ℝ
  rootOffset : Vector3d ℝ
  mirrorDir : ℝ

/-- Members of `Model` read by `init`; `legs l s` is `model->legs[l][s]`. -/
structure RobotModel where
  legs : Nat → Nat → LegGeometry
  minMaxKneeBend : ℝ × ℝ
  minMaxHipLift : ℝ × ℝ
  yawLimitAroundStance : Nat → ℝ
  stanceLegYaws : Nat → ℝ

/-- The parameters read by `init` after `setGaitParams`. -/
structure InitParameters where
  stepClearance : ℝ
  bodyClearance : ℝ
  stepCurvatureAllowance : ℝ
  legSpanScale : ℝ

/-- Members of `WalkController` written by `init`. -/
structure InitResult where
  maximumBodyHeight : ℝ
  bodyClearance : ℝ
  footSpreadDistances : Nat → ℝ
  identityTipPositions : Nat → Nat → Vector3d ℝ
  minFootprintRadius : ℝ
  stanceRadius : ℝ

/-- Modelled from the spec: `clamped` is declared in a header that is not under src; the spec
calls it `clamp`. The value limited to the interval from `lo` to `hi`. -/
noncomputable def clamped (x lo hi : ℝ) : ℝ := max lo (min x hi)

/-- Modelled from the spec: `solveQuadratic` is declared in a header that is not under src. The
spec uses it for the radius of the disc inscribed in the yaw sector, the root
`(-b + sqrt(b^2 - 4*a*c)) / (2*a)` of `a*x^2 + b*x + c`. -/
noncomputable def solveQuadratic (a b c : ℝ) : ℝ := (-b + Real.sqrt (b ^ 2 - 4 * a * c)) / (2 * a)

/-- The library function `atan2(y, x)`: the angle of the point `(x, y)`. -/
noncomputable def atan2 (y x : ℝ) : ℝ := Complex.arg ⟨x, y⟩

/-- Euclidean norm of a 3-vector (`Vector3d::norm`). -/
noncomputable def Vector3d.norm (v : Vector3d ℝ) : ℝ := Real.sqrt (v.x ^ 2 + v.y ^ 2 + v.z ^ 2)

/-- Body of the row loop of `init` up to the second `ASSERT(rad > 0.0)` (lines 199-234): the
locals `rad` and `horizontalRange` of row `l`, or `none` when an `ASSERT` fails. The library
functions are those of the reals: `asin` of an argument outside `[-1, 1]` and `sqrt` of a negative
number, which are NaN in C++, have the values of `Real.arcsin` and `Real.sqrt` here. -/
noncomputable def rowFootprint (model : RobotModel) (params : InitParameters)
    (bodyClearance maximumBodyHeight : ℝ) (l : Nat) : Option (ℝ × ℝ) :=
  let leg := model.legs l 0
  let legDrop := Real.arcsin ((bodyClearance * maximumBodyHeight) / leg.maxLegLength)
  let firstStage : Option (ℝ × ℝ) :=
    if legDrop > -model.minMaxHipLift.1 then
      let extraHeight :=
        bodyClearance * maximumBodyHeight - leg.femurLength * Real.sin (-model.minMaxHipLift.1)
      if extraHeight ≤ leg.tibiaLength then
        let rad := Real.sqrt (leg.tibiaLength ^ 2 - extraHeight ^ 2)
        some (rad, leg.femurLength * Real.cos (-model.minMaxHipLift.1) + rad)
      else none
    else
      some (10 ^ 10,
        Real.sqrt (leg.maxLegLength ^ 2 - (bodyClearance * maximumBodyHeight) ^ 2))
  match firstStage with
  | none => none
  | some (rad, horizontalRange) =>
    let horizontalRange := horizontalRange * params.legSpanScale
    let theta := model.yawLimitAroundStance l
    let cotanTheta := Real.tan (0.5 * Real.pi - theta)
    let rad := min rad (solveQuadratic (cotanTheta ^ 2) (2 * horizontalRange)
      (-horizontalRange ^ 2))
    if rad > 0 then
      let legTipBodyClearance :=
        max 0 (bodyClearance - params.stepCurvatureAllowance * params.stepClearance)
          * maximumBodyHeight
      let rad :=
        if legTipBodyClearance < leg.minLegLength then
          min rad ((horizontalRange
            - Real.sqrt (leg.minLegLength ^ 2 - legTipBodyClearance ^ 2)) / 2)
        else rad
      if rad > 0 then some (rad, horizontalRange) else none
    else none

/-- The identity tip position of leg `[l][s]` (lines 245-249). -/
noncomputable def identityTipPosition (model : RobotModel) (footSpreadDistance bodyClearance
    maximumBodyHeight : ℝ) (l s : Nat) : Vector3d ℝ :=
  let p := (model.legs l s).rootOffset
    + footSpreadDistance • (⟨Real.cos (model.stanceLegYaws l), Real.sin (model.stanceLegYaws l), 0⟩
        : Vector3d ℝ)
    + ⟨0, 0, -bodyClearance * maximumBodyHeight⟩
  { p with x := p.x * (model.legs l s).mirrorDir }

/-- The horizontal distance `posDif.norm()` of lines 263-267 between two tip positions. -/
noncomputable def horizontalDistance (a b : Vector3d ℝ) : ℝ :=
  let posDif := a - b
  Vector3d.norm { posDif with z := 0 }

/-- The check for overlapping radii (lines 259-274): the footprint radius after it. -/
noncomputable def overlapCheck (identityTipPositions : Nat → Nat → Vector3d ℝ)
    (minFootprintRadius : ℝ) : ℝ :=
  let step := fun (minGap : ℝ) (s : Nat) =>
    let minGap := min minGap
      (horizontalDistance (identityTipPositions 1 s) (identityTipPositions 0 s)
        - 2 * minFootprintRadius)
    min minGap
      (horizontalDistance (identityTipPositions 1 s) (identityTipPositions 2 s)
        - 2 * minFootprintRadius)
  let minGap := step (step (10 ^ 10) 0) 1
  if minGap < 0 then minFootprintRadius + minGap * 0.5 else minFootprintRadius

/-- Translation of `WalkController::init` after the call of `setGaitParams` (lines 173-283):
the result is `none` when an `ASSERT` fails. The gait part of `init` is `setGaitParams`. -/
noncomputable def initFootprint (model : RobotModel) (params : InitParameters) :
    Option InitResult :=
  let stepClearance := params.stepClearance
  if stepClearance ≥ 0 ∧ stepClearance < 1 then
    let leg00 := model.legs 0 0
    let minKnee := max 0 model.minMaxKneeBend.1
    let maxHipDrop := min (-model.minMaxHipLift.1)
      (Real.pi / 2 - atan2 (leg00.tibiaLength * Real.sin minKnee)
        (leg00.femurLength + leg00.tibiaLength * Real.cos minKnee))
    let maximumBodyHeight := leg00.femurLength * Real.sin maxHipDrop
      + leg00.tibiaLength
        * Real.sin (maxHipDrop + clamped (Real.pi / 2 - maxHipDrop) minKnee model.minMaxKneeBend.2)
    if stepClearance * maximumBodyHeight ≤ 2 * leg00.femurLength then
      let bodyClearance :=
        if params.bodyClearance = -1 then
          leg00.minLegLength / maximumBodyHeight + params.stepCurvatureAllowance * stepClearance
        else params.bodyClearance
      if bodyClearance ≥ 0 ∧ bodyClearance < 1 then
        match rowFootprint model params bodyClearance maximumBodyHeight 0,
            rowFootprint model params bodyClearance maximumBodyHeight 1,
            rowFootprint model params bodyClearance maximumBodyHeight 2 with
        | some row0, some row1, some row2 =>
          let row := fun (l : Nat) => if l = 0 then row0 else if l = 1 then row1 else row2
          let footSpreadDistances := fun (l : Nat) =>
            (model.legs l 0).hipLength + (row l).2 - (row l).1
          let minFootprintRadius :=
            min (min (min (10 ^ 10) (row0.1 * 0.8)) (row1.1 * 0.8)) (row2.1 * 0.8)
          let identityTipPositions := fun (l s : Nat) =>
            identityTipPosition model (footSpreadDistances l) bodyClearance maximumBodyHeight l s
          some
            { maximumBodyHeight := maximumBodyHeight
              bodyClearance := bodyClearance
              footSpreadDistances := footSpreadDistances
              identityTipPositions := identityTipPositions
              minFootprintRadius := overlapCheck identityTipPositions minFootprintRadius
              stanceRadius := |(identityTipPositions 1 0).x| }
        | _, _, _ => none
      else none
    else none
  else none

/-- A narrow robot for the footprint examples: femur and tibia of length 1, leg lengths between
`13/10` and 2, hips `1/10` from the centre line in rows two units apart, all legs pointing
forward (stance yaw `pi/2`) with a yaw limit of `pi/4`; the hip can drop to `pi/2` and the knee
bends between 0 and 2. Side 0 is mirrored. -/
noncomputable def narrowModel : RobotModel :=
  { legs := fun l s =>
      { femurLength := 1
        tibiaLength := 1
        hipLength := 0
        minLegLength := 13 / 10
        maxLegLength := 2
        rootOffset := ⟨1 / 10, 2 - 2 * (l : ℝ), 0⟩
        mirrorDir := if s = 0 then -1 else 1 }
    minMaxKneeBend := (0, 2)
    minMaxHipLift := (-(Real.pi / 2), Real.pi / 2)
    yawLimitAroundStance := fun _ => Real.pi / 4
    stanceLegYaws := fun _ => Real.pi / 2 }

/-- Parameters for the footprint examples: `stepClearance = 0.1`, `bodyClearance = 0.6`, no
curvature allowance, `legSpanScale = 1`. -/
noncomputable def narrowParameters : InitParameters :=
  { stepClearance := 1 / 10
    bodyClearance := 3 / 5
    stepCurvatureAllowance := 0
    legSpanScale := 1 }

/-- The members that `init` computes for the narrow robot: body height `0.6*2`, a foot spread of
`8/5 - 11/20 = 21/20`, feet `1/10` to either side of the centre line, and a footprint radius of
`0.8*(11/20) = 11/25` before the check for overlaps. -/
noncomputable def narrowResult : InitResult :=
  { maximumBodyHeight := 2
    bodyClearance := 3 / 5
    footSpreadDistances := fun l => (narrowModel.legs l 0).hipLength + 8 / 5 - 11 / 20
    identityTipPositions := fun l s =>
      ⟨if s = 0 then -(1 / 10) else 1 / 10, 2 - 2 * (l : ℝ) + 21 / 20, -(6 / 5)⟩
    minFootprintRadius :=
      overlapCheck (fun l s =>
        ⟨if s = 0 then -(1 / 10) else 1 / 10, 2 - 2 * (l : ℝ) + 21 / 20, -(6 / 5)⟩)
        (11 / 25)
    stanceRadius := |(-(1 / 10) : ℝ)| }

/-! ## Energy of the impedance model and repeated ticks -/

/-- The energy `stiffness*x0^2/2 + mass*x1^2/2` of a state `(x0, x1)` of the impedance model. -/
noncomputable def impedanceEnergy (stiffness mass : ℝ) (x : ℝ × ℝ) : ℝ :=
  stiffness * x.1 ^ 2 / 2 + mass * x.2 ^ 2 / 2

/-- The energy of the impedance state of a leg. -/
noncomputable def legEnergy (leg : ImpedanceLeg) : ℝ :=
  impedanceEnergy leg.virtual_stiffness leg.virtual_mass leg.impedance_state

/-- The leg after `n` calls of `updateImpedance`. -/
noncomputable def updateImpedanceTicks (c : ImpedanceController) (use_joint_effort : Bool) :
    Nat → ImpedanceLeg → ImpedanceLeg
  | 0, leg => leg
  | n + 1, leg => updateImpedance c (updateImpedanceTicks c use_joint_effort n leg) use_joint_effort

/-- First coefficient of a Runge-Kutta step of the unforced impedance system: with
`p = h*damping/mass` and `q = h^2*stiffness/mass` the step maps the state `x` to
`rkAlpha p q * x + rkBeta p q * h * f x`. -/
noncomputable def rkAlpha (p q : ℝ) : ℝ :=
  1 - q / 2 + p * q / 6 - (p ^ 2 * q - q ^ 2) / 24

/-- Second coefficient of a Runge-Kutta step of the unforced impedance system. -/
noncomputable def rkBeta (p q : ℝ) : ℝ :=
  1 - p / 2 + (p ^ 2 - q) / 6 + (-p ^ 3 + 2 * p * q) / 24

/-- A critically damped stiff leg without force input: `m = 1`, `k = 14400`, `zeta = 1`, in the
state `(1/120, -1)`, whose energy is 1. -/
noncomputable def stiffLeg : ImpedanceLeg :=
  { mirror_dir := 1
    femur_current_effort := 0
    tip_force := 0
    virtual_mass := 1
    virtual_stiffness := 14400
    virtual_damping_ratio := 1
    impedance_state := (1 / 120, -1)
    delta_z := 0 }

/-! ## The counters and the flags they count (C35) -/

/-- Invariant of the two counters at the end of a tick: six legs; `legsInCorrectPhase` equals the
number of `inCorrectPhase` flags set; `legsCompletedFirstStep` equals the number of
`completedFirstStep` flags set while STARTING and is zero in every other walk state; no
`inCorrectPhase` flag is set in MOVING or STOPPED and no `completedFirstStep` flag in STOPPED. -/
def CountersMatch (w : WalkController) : Prop :=
  w.legSteppers.length = 6
    ∧ w.legsInCorrectPhase = flagCount w.legSteppers
    ∧ (w.state = WalkState.STARTING → w.legsCompletedFirstStep = doneCount w.legSteppers)
    ∧ (w.state ≠ WalkState.STARTING → w.legsCompletedFirstStep = 0)
    ∧ ((w.state = WalkState.MOVING ∨ w.state = WalkState.STOPPED) →
        ∀ leg ∈ w.legSteppers, leg.inCorrectPhase = false)
    ∧ (w.state = WalkState.STOPPED → ∀ leg ∈ w.legSteppers, leg.completedFirstStep = false)

/-! ## Example walkers at the target velocity and above speed 1 (C37, C32) -/

/-- The moving tripod walker once its centre velocity has reached the target `(2/5, 0)` of the
command `(1, 0)` without turning. -/
noncomputable def cruisingWalker : Walker :=
  { movingWalker with
    localCentreVelocity := (2 / 5, 0)
    angularVelocity := 0 }

/-- The moving tripod walker with a footprint radius of `201/800`, for which the command `(1, 0)`
gives the speed `2*(201/800)*1/(1/2) = 1.005`; it moves at the velocities that the command
`(1, 0)` with curvature `1/2` has as targets at speed 1. -/
noncomputable def overspeedWalker : Walker :=
  { movingWalker with
    minFootprintRadius := 201 / 800
    localCentreVelocity := (1 / 2, 0)
    angularVelocity := 1 }

/-! ## Components of a 3-vector (C34) -/

/-- The component `v[i]` of a `Vector3d`: the vector has the components 0, 1 and 2; under any
other index there is no component, and the result is `none`. -/
def Vector3d.componentAt {K : Type} (v : Vector3d K) : Nat → Option K
  | 0 => some v.x
  | 1 => some v.y
  | 2 => some v.z
  | _ => none

/-! ## The distance of adjacent rows and a very large robot (C33) -/

/-- The smallest horizontal distance between the identity tip positions of adjacent rows (0-1 and
1-2) on the same side, over both sides. -/
noncomputable def adjacentRowDistance (identityTipPositions : Nat → Nat → Vector3d ℝ) : ℝ :=
  min (min (min
    (horizontalDistance (identityTipPositions 1 0) (identityTipPositions 0 0))
    (horizontalDistance (identityTipPositions 1 0) (identityTipPositions 2 0)))
    (horizontalDistance (identityTipPositions 1 1) (identityTipPositions 0 1)))
    (horizontalDistance (identityTipPositions 1 1) (identityTipPositions 2 1))

/-- A very large robot for the footprint examples: femur `2*10^11`, tibia `10^11`, leg lengths
between `5*10^10` and `3*10^11`, hips `10^10` from the centre line in rows `10^12` apart, all legs
pointing forward (stance yaw `pi/2`) with a yaw limit of `pi/4`; the hip cannot drop below the
horizontal and the knee bends between 0 and 2. Side 0 is mirrored. -/
noncomputable def giantModel : RobotModel :=
  { legs := fun l s =>
      { femurLength := 2 * 10 ^ 11
        tibiaLength := 10 ^ 11
        hipLength := 0
        minLegLength := 5 * 10 ^ 10
        maxLegLength := 3 * 10 ^ 11
        rootOffset := ⟨10 ^ 10, 10 ^ 12 - 10 ^ 12 * (l : ℝ), 0⟩
        mirrorDir := if s = 0 then -1 else 1 }
    minMaxKneeBend := (0, 2)
    minMaxHipLift := (0, Real.pi / 2)
    yawLimitAroundStance := fun _ => Real.pi / 4
    stanceLegYaws := fun _ => Real.pi / 2 }

/-- The members that `init` computes for the very large robot: body height `0.6*10^11`, a foot
spread of `2*10^11`, feet `10^10` to either side of the centre line, and a footprint radius of
`10^10` before the check for overlaps. -/
noncomputable def giantResult : InitResult :=
  { maximumBodyHeight := 10 ^ 11
    bodyClearance := 3 / 5
    footSpreadDistances := fun l => (giantModel.legs l 0).hipLength + 28 * 10 ^ 10 - 8 * 10 ^ 10
    identityTipPositions := fun l s =>
      ⟨if s = 0 then -(10 ^ 10) else 10 ^ 10, 10 ^ 12 - 10 ^ 12 * (l : ℝ) + 2 * 10 ^ 11,
        -(6 * 10 ^ 10)⟩
    minFootprintRadius :=
      overlapCheck (fun l s =>
        ⟨if s = 0 then -(10 ^ 10) else 10 ^ 10, 10 ^ 12 - 10 ^ 12 * (l : ℝ) + 2 * 10 ^ 11,
          -(6 * 10 ^ 10)⟩)
        (10 ^ 10)
    stanceRadius := |(-(10 ^ 10) : ℝ)| }

/-! ## Legs in the swing band and the tip update over a run (C31) -/

/-- Invariant of one leg at the end of a tick that leaves the walk state `st`, for the swing band
`[swingStart, swingEnd)`: the leg is not left in FORCE_STANCE; outside STOPPED a leg whose phase
lies in the band is in SWING, or forced to stop, or it is a leg of the start-up whose offset lies
in the band and which is not yet in correct phase; and in STOPPING a leg in correct phase is
forced to stop or at phase 0. -/
def SwingLegInv (g : GaitTiming) (st : WalkState) (leg : LegStepper) : Prop :=
  leg.state ≠ StepState.FORCE_STANCE
    ∧ (st ≠ WalkState.STOPPED → g.swingStart ≤ leg.phase ∧ leg.phase < g.swingEnd →
        leg.state = StepState.SWING ∨ leg.state = StepState.FORCE_STOP
          ∨ (st = WalkState.STARTING ∧ leg.inCorrectPhase = false
              ∧ g.swingStart ≤ leg.phaseOffset ∧ leg.phaseOffset < g.swingEnd))
    ∧ (st = WalkState.STOPPING → leg.inCorrectPhase = true →
        leg.state = StepState.FORCE_STOP ∨ leg.phase = 0)

/-- The leg as the per-leg loop of a tick finds it: the transition from STOPPED to STARTING has
seeded its phase with its phase offset. -/
def seededLeg (st st1 : WalkState) (leg : LegStepper) : LegStepper :=
  if st = WalkState.STOPPED ∧ st1 = WalkState.STARTING then { leg with phase := leg.phaseOffset }
  else leg

/-- The bookkeeping invariant together with the invariant of the legs in the swing band. -/
def SwingInv (g : GaitTiming) (w : WalkController) : Prop :=
  Consistent g w ∧ ∀ leg ∈ w.legSteppers, SwingLegInv g w.state leg

/-- Inputs of the tip update of one leg on one tick of `updateWalk` (lines 518-540): the members
that the leg stepper reads through its `walker` pointer, the value read by lines 59 and 60, the
model's leg, the entry of `deltaZ` for the leg and the stride vector that the per-leg loop of the
tick has assigned. -/
structure TipInput (K : Type) where
  walker : WalkerMembers K
  overread : K
  leg : ModelLeg K
  deltaZ : K
  strideVector : K × K

section TipRun

variable {K : Type} [LinearOrderedField K] [FloorRing K]

/-- The tip update of `updateWalk` for one leg on one tick: the leg stepper has the phase and the
step state that the per-leg loop and the leg state machine of this tick have left (`discrete`) and
the stride vector of this tick. -/
def tipTick (tin : TipInput K) (discrete : LegStepper) (t : TipStepper K) : TipStepper K :=
  (updateTip tin.walker tin.overread tin.leg tin.deltaZ
    { t with phase := discrete.phase, state := discrete.state,
             strideVector := tin.strideVector }).1

/-- The tip members of the leg with index `i` after `n` ticks of `updateWalk` from the walk
controller `w0`, tick `k` (counted from 0) receiving `inp k` and `tin k`. -/
def runTip (g : GaitTiming) (inp : Nat → TickInput) (w0 : WalkController) (i : Nat)
    (tin : Nat → TipInput K) : Nat → TipStepper K → TipStepper K
  | 0, t => t
  | n + 1, t =>
    match (runCore g inp (n + 1) w0).legSteppers[i]? with
    | some discrete => tipTick (tin n) discrete (runTip g inp w0 i tin n t)
    | none => runTip g inp w0 i tin n t

end TipRun

/-! ## Example inputs of the tip update (C31) -/

/-- Tip inputs for the examples: the tripod members, the value 0 read by lines 59 and 60, the leg
WALKING with its stance tip position at `(1, 2, -1)`, no `deltaZ` and a stride vector of
`(2, 0)`, on every tick. -/
def walkingInputs : Nat → TipInput ℚ :=
  fun _ => ⟨tripodMembers, 0, ⟨LegState.WALKING, ⟨1, 2, -1⟩⟩, 0, (2, 0)⟩

/-- The tip inputs of `walkingInputs` with the leg in MANUAL on the tick with index 1 (the second
tick), WALKING on every other tick. -/
def manualOnSecondTick : Nat → TipInput ℚ :=
  fun m =>
    ⟨tripodMembers, 0, ⟨if m = 1 then LegState.MANUAL else LegState.WALKING, ⟨1, 2, -1⟩⟩, 0,
      (2, 0)⟩

/-- A leg at rest at `(1, 2, -1)` whose origin `(7, 7, 7)` is left from an earlier swing. -/
def staleLeg : TipStepper ℚ :=
  { stanceLeg with originTipPosition := ⟨7, 7, 7⟩ }

/-! ## setGaitParams in binary64 arithmetic (lines 295-299) -/

/-- A finite `double`: the number `man * 2^exp`. The results of the operations below have
`2^52 ≤ |man| ≤ 2^53` or `man = 0`. The exponent is not bounded, so overflow to an infinity and
gradual underflow are outside the model. -/
structure Double where
  man : Int
  exp : Int
  deriving DecidableEq

/-- The number that a `Double` stands for. -/
def Double.toRat (x : Double) : ℚ := (x.man : ℚ) * (2 : ℚ) ^ x.exp

/-- The position of the leading binary digit of `n`: `2^(binLog f n) ≤ n < 2^(binLog f n + 1)`
for `0 < n ≤ f`; the first argument bounds the recursion. -/
def binLog : Nat → Nat → Nat
  | 0, _ => 0
  | f + 1, n => if n < 2 then 0 else binLog f (n / 2) + 1

/-- The integer nearest to `p / q`, the even one of the two when `p / q` is half way. -/
def roundHalfEven (p q : Nat) : Nat :=
  if 2 * (p % q) < q then p / q
  else if q < 2 * (p % q) then p / q + 1
  else if (p / q) % 2 = 0 then p / q
  else p / q + 1

/-- The `double` nearest to `p / q * 2^e` for positive `p` and `q` (round to nearest, ties to
even): with `lg` the position of the leading binary digit of `p / q`, the quotient is scaled
by `2^(52 - lg)` into `[2^52, 2^53)` and rounded to an integer. -/
def Double.roundPos (p q : Nat) (e : Int) : Double :=
  let k : Int := (binLog p p : Int) - (binLog q q : Int)
  let lg : Int := if q * 2 ^ binLog p p ≤ p * 2 ^ binLog q q then k else k - 1
  let s : Int := lg - 52
  ⟨(roundHalfEven (p * 2 ^ (-s).toNat) (q * 2 ^ s.toNat) : Nat), s + e⟩

/-- The `double` nearest to `n / q * 2^e`, for an integer `n` and a positive `q`. -/
def Double.round (n : Int) (q : Nat) (e : Int) : Double :=
  if n = 0 then ⟨0, 0⟩
  else
    let r := Double.roundPos n.natAbs q e
    ⟨Int.sign n * r.man, r.exp⟩

/-- Conversion of an `int` to `double`. -/
def Double.ofInt (n : Int) : Double := Double.round n 1 0

/-- Conversion of a `double` to `int`: truncation toward zero. -/
def Double.toInt (x : Double) : Int :=
  if 0 ≤ x.exp then x.man * 2 ^ x.exp.toNat else Int.tdiv x.man (2 ^ (-x.exp).toNat)

/-- Addition of two `double`s: the exact sum, rounded. -/
def Double.add (x y : Double) : Double :=
  Double.round (x.man * 2 ^ (x.exp - min x.exp y.exp).toNat
    + y.man * 2 ^ (y.exp - min x.exp y.exp).toNat) 1 (min x.exp y.exp)

/-- Multiplication of two `double`s: the exact product, rounded. -/
def Double.mul (x y : Double) : Double :=
  Double.round (x.man * y.man) 1 (x.exp + y.exp)

/-- Division of two `double`s: the exact quotient, rounded. A division by zero, which gives an
infinity or a NaN in C++, has the value `0` here. -/
def Double.div (x y : Double) : Double :=
  if y.man = 0 then ⟨0, 0⟩
  else Double.round (x.man * Int.sign y.man) y.man.natAbs (x.exp - y.exp)

instance : Add Double := ⟨Double.add⟩

instance : Mul Double := ⟨Double.mul⟩

instance : Div Double := ⟨Double.div⟩

/-- Modelled from the spec: `roundToInt` on a `double` (see `roundToInt`): the integer nearest
to the value of `x`, halves away from zero. -/
def Double.roundToInt (x : Double) : Int :=
  if 0 ≤ x.exp then x.man * 2 ^ x.exp.toNat
  else Int.sign x.man
    * (((2 * x.man.natAbs + 2 ^ (-x.exp).toNat) / 2 ^ ((-x.exp).toNat + 1) : Nat) : Int)

/-- The local `int basePhaseLength` of `setGaitParams` (line 295) in binary64 arithmetic. -/
def basePhaseLengthDouble (p : Parameters Double) : Int :=
  Double.toInt (p.stancePhase + p.swingPhase + p.transitionPeriod * Double.ofInt 2)

/-- The local `double swingRatio` of `setGaitParams` (line 296) in binary64 arithmetic. -/
def swingRatioDouble (p : Parameters Double) : Double :=
  (p.swingPhase + p.transitionPeriod) / Double.ofInt (basePhaseLengthDouble p)

/-- The value that line 297 passes to `roundToInt`, in binary64 arithmetic. -/
def ticksPerUnitDouble (p : Parameters Double) (timeDelta : Double) : Double :=
  (Double.ofInt 1 / (Double.ofInt 2 * p.stepFrequency * timeDelta))
    / (Double.ofInt (basePhaseLengthDouble p) * swingRatioDouble p)

/-- The `double` that line 297 converts to `int` on assignment to `phaseLength`. -/
def phaseQuotientDouble (p : Parameters Double) (timeDelta : Double) : Double :=
  (Double.ofInt (Double.roundToInt (ticksPerUnitDouble p timeDelta))
      * (Double.ofInt (basePhaseLengthDouble p) * swingRatioDouble p))
    / swingRatioDouble p

/-- The member `phaseLength` as assigned on line 297, in binary64 arithmetic. -/
def phaseLengthDouble (p : Parameters Double) (timeDelta : Double) : Int :=
  Double.toInt (phaseQuotientDouble p timeDelta)

/-- The condition of the `ASSERT` on line 299, in binary64 arithmetic. -/
def gaitAssertDouble (p : Parameters Double) (timeDelta : Double) : Prop :=
  Int.tmod (phaseLengthDouble p timeDelta) (basePhaseLengthDouble p) = 0

instance (p : Parameters Double) (timeDelta : Double) :
    Decidable (gaitAssertDouble p timeDelta) :=
  inferInstanceAs (Decidable (Int.tmod _ _ = 0))

/-- A gait with a long swing: `stance_phase = 4`, `swing_phase = 8`, `transition_period = 1`,
`step_frequency = 0.5` (to be used with `time_delta = 0.125`), as `double`s. Every value is a
binary fraction and so is held exactly. -/
def longSwingDoubles : Parameters Double :=
  { stancePhase := Double.ofInt 4, swingPhase := Double.ofInt 8,
    transitionPeriod := Double.ofInt 1, phaseOffset := Double.ofInt 2,
    stepFrequency := ⟨1, -1⟩, offsetMultiplier := fun _ => 0,
    maxAcceleration := Double.ofInt 1, maxCurvatureSpeed := Double.ofInt 1 }

/-- The gait `longSwingDoubles` in exact arithmetic. -/
def longSwingParameters : Parameters ℚ :=
  { stancePhase := 4, swingPhase := 8, transitionPeriod := 1, phaseOffset := 2,
    stepFrequency := 1 / 2, offsetMultiplier := fun _ => 0,
    maxAcceleration := 1, maxCurvatureSpeed := 1 }

/-- Scenario S1 (`s1Parameters`) as `double`s, to be used with the `double` nearest to
`time_delta = 0.02`. -/
def s1Doubles : Parameters Double :=
  { stancePhase := Double.ofInt 4, swingPhase := Double.ofInt 2,
    transitionPeriod := Double.ofInt 1, phaseOffset := Double.ofInt 2,
    stepFrequency := Double.ofInt 1, offsetMultiplier := fun _ => 0,
    maxAcceleration := Double.ofInt 1, maxCurvatureSpeed := Double.ofInt 1 }

/-! ## STARTING: the legs against the number of ticks since the start (C27) -/

/-- One leg, `t` iterations of the STARTING loop after its phase was seeded with its offset: the
phase is the offset advanced `t` times round the cycle; a leg that is not yet in correct phase
has an offset in the swing band `[swingStart, swingEnd)` and has not yet passed `swingEnd`
(before the first iteration, `t = 0`, no leg is in correct phase); a leg in correct phase has
an offset outside the band or has passed `swingEnd`. -/
def StartClockLeg (g : GaitTiming) (t : Int) (leg : LegStepper) : Prop :=
  leg.phase = (leg.phaseOffset + t) % g.phaseLength
    ∧ (leg.inCorrectPhase = false →
        t = 0 ∨ (g.swingStart ≤ leg.phaseOffset ∧ leg.phaseOffset < g.swingEnd
          ∧ leg.phaseOffset + t ≤ g.swingEnd))
    ∧ (leg.inCorrectPhase = true →
        ¬ (g.swingStart ≤ leg.phaseOffset ∧ leg.phaseOffset < g.swingEnd)
          ∨ g.swingEnd < leg.phaseOffset + t)

/-- Invariant of the controller at the end of a tick: the bookkeeping invariant, and while the
walk state is STARTING all legs have run the same number `t ≥ 1` of iterations of the STARTING
loop since they were seeded. -/
def StartClock (g : GaitTiming) (w : WalkController) : Prop :=
  Consistent g w
    ∧ (w.state = WalkState.STARTING →
        ∃ t : Int, 1 ≤ t ∧ ∀ leg ∈ w.legSteppers, StartClockLeg g t leg)

/-! # Theorems -/

/-! ## Basic facts about one tick -/

theorem updateWalkCore_state (g : GaitTiming) (b : Bool) (sz : Nat → Bool)
    (w : WalkController) :
    (updateWalkCore g b sz w).state = (walkTransition b w).state := rfl

theorem walkTransition_state (b : Bool) (w : WalkController) :
    (walkTransition b w).state
      = transitionTable w.state (b = true) w.legsInCorrectPhase w.legsCompletedFirstStep := by
  unfold walkTransition transitionTable NUM_LEGS
  cases hs : w.state <;> cases b <;> simp [hs] <;> split_ifs <;> simp_all

theorem transitionTable_step (s : WalkState) (P : Prop) [Decidable P] (a c : Int) :
    transitionTable s P a c = s ∨ transitionTable s P a c = s.next := by
  unfold transitionTable WalkState.next
  cases s <;> dsimp only <;> split_ifs <;> simp

theorem legStateMachine_phase (g : GaitTiming) (leg : LegStepper) :
    (legStateMachine g leg).phase = leg.phase := by
  unfold legStateMachine
  split_ifs <;> rfl

theorem legStateMachine_phaseOffset (g : GaitTiming) (leg : LegStepper) :
    (legStateMachine g leg).phaseOffset = leg.phaseOffset := by
  unfold legStateMachine
  split_ifs <;> rfl

theorem legStateMachine_inCorrectPhase (g : GaitTiming) (leg : LegStepper) :
    (legStateMachine g leg).inCorrectPhase = leg.inCorrectPhase := by
  unfold legStateMachine
  split_ifs <;> rfl

theorem legStateMachine_completedFirstStep (g : GaitTiming) (leg : LegStepper) :
    (legStateMachine g leg).completedFirstStep = leg.completedFirstStep := by
  unfold legStateMachine
  split_ifs <;> rfl

theorem robotStateMachine_moving (g : GaitTiming) (sz : Nat → Bool) (legs : List LegStepper) :
    ∀ (i : Nat) (c : Counters),
      robotStateMachine g WalkState.MOVING sz i c legs
        = (c, legs.map (fun leg =>
            { leg with phase := Int.tmod (leg.phase + 1) g.phaseLength,
                       inCorrectPhase := false })) := by
  induction legs with
  | nil => intro i c; rfl
  | cons leg rest ih =>
    intro i c
    simp [robotStateMachine, legPhaseUpdate, ih]

theorem walkTransition_legs_of_moving (b : Bool) (w : WalkController)
    (h : (walkTransition b w).state = WalkState.MOVING) :
    (walkTransition b w).legSteppers = w.legSteppers := by
  unfold walkTransition at h ⊢
  split_ifs at h ⊢ <;> simp_all

/-! ## C1: the walk state transition table -/

/-- C1: on every tick of `updateWalk` (the divisor `onGroundRatio` of `normalSpeed` being
non-zero when the tick computes it) the walk state after the tick (which is the state after the
transition step, the rest of the tick does not assign it) is the one the transition table gives
from the state before, the truth of `normalSpeed != 0` and the two counters; the tick yields no
state exactly when `ASSERT(normalSpeed < 1.01)` fails. The table moves the state by at most one
step along the cycle STOPPED, STARTING, MOVING, STOPPING, STOPPED. -/
theorem walk_state_follows_table (cmd : ℝ × ℝ) (curv : ℝ) (tip : Nat → ℝ × ℝ) (W : Walker)
    (_hground : W.core.state ≠ WalkState.STOPPING → onGroundRatio W.timing ≠ 0) :
    (updateWalk cmd curv tip W).map (fun W1 => W1.core.state)
        = (if normalSpeed W cmd < 1.01 then
            some (transitionTable W.core.state (normalSpeed W cmd ≠ 0)
              W.core.legsInCorrectPhase W.core.legsCompletedFirstStep)
          else none)
      ∧ (walkTransition (decide (normalSpeed W cmd ≠ 0)) W.core).state
          = transitionTable W.core.state (normalSpeed W cmd ≠ 0)
              W.core.legsInCorrectPhase W.core.legsCompletedFirstStep
      ∧ (transitionTable W.core.state (normalSpeed W cmd ≠ 0)
              W.core.legsInCorrectPhase W.core.legsCompletedFirstStep = W.core.state
          ∨ transitionTable W.core.state (normalSpeed W cmd ≠ 0)
              W.core.legsInCorrectPhase W.core.legsCompletedFirstStep
            = W.core.state.next) := by
  have key : (walkTransition (decide (normalSpeed W cmd ≠ 0)) W.core).state
      = transitionTable W.core.state (normalSpeed W cmd ≠ 0)
          W.core.legsInCorrectPhase W.core.legsCompletedFirstStep := by
    rw [walkTransition_state]
    unfold transitionTable
    cases W.core.state <;> simp
  refine ⟨?_, key, transitionTable_step _ _ _ _⟩
  unfold updateWalk
  split_ifs with h
  · simp only [Option.map_some']
    rw [updateWalkCore_state, key]
  · rfl

/-! ## C2: phase advance in MOVING -/

/-- C2: on a tick whose per-leg loop runs with walk state MOVING (the state after the transition
step is MOVING), every leg keeps its place in the list and its phase after the tick is
`(phase + 1) % phaseLength`. -/
theorem moving_phase_advance (g : GaitTiming) (b : Bool) (sz : Nat → Bool)
    (w : WalkController) (h : (walkTransition b w).state = WalkState.MOVING) :
    (updateWalkCore g b sz w).legSteppers.map (fun leg => leg.phase)
      = w.legSteppers.map (fun leg => Int.tmod (leg.phase + 1) g.phaseLength) := by
  unfold updateWalkCore afterPhaseLoop
  simp only [h, robotStateMachine_moving, walkTransition_legs_of_moving b w h, List.map_map]
  apply List.map_congr_left
  intro leg _
  simp [legStateMachine_phase]

/-- Witness for C2: a controller in MOVING with six legs, commanded a non-zero speed. -/
theorem moving_phase_advance_witness :
    (walkTransition true
        ⟨WalkState.MOVING, 0, 0,
          [⟨3, 0, StepState.STANCE, false, true⟩, ⟨1, 2, StepState.SWING, false, true⟩,
           ⟨1, 2, StepState.SWING, false, true⟩, ⟨3, 0, StepState.STANCE, false, true⟩,
           ⟨3, 0, StepState.STANCE, false, true⟩, ⟨1, 2, StepState.SWING, false, true⟩]⟩).state
        = WalkState.MOVING
      ∧ (updateWalkCore ⟨4, 1, 1, 3, 3⟩ true (fun _ => false)
          ⟨WalkState.MOVING, 0, 0,
            [⟨3, 0, StepState.STANCE, false, true⟩, ⟨1, 2, StepState.SWING, false, true⟩,
             ⟨1, 2, StepState.SWING, false, true⟩, ⟨3, 0, StepState.STANCE, false, true⟩,
             ⟨3, 0, StepState.STANCE, false, true⟩,
             ⟨1, 2, StepState.SWING, false, true⟩]⟩).legSteppers.map (fun leg => leg.phase)
        = [0, 2, 2, 0, 0, 2] :=
  ⟨by decide, moving_phase_advance ⟨4, 1, 1, 3, 3⟩ true (fun _ => false) _ (by decide)⟩

/-! ## C6: the leg state machine -/

/-- C6: in the leg state machine a leg entering as FORCE_STANCE leaves as STANCE, a leg entering
as FORCE_STOP stays FORCE_STOP, and any other leg leaves as SWING_TRANSITION, SWING,
STANCE_TRANSITION or STANCE according to the band its phase lies in; only the step state is
assigned. With ordered boundaries the four bands are disjoint and cover every phase, so exactly
one of the four conditions holds. -/
theorem leg_state_from_phase_bands (g : GaitTiming) (leg : LegStepper)
    (hord : 0 ≤ g.stanceEnd ∧ g.stanceEnd ≤ g.swingStart ∧ g.swingStart ≤ g.swingEnd
      ∧ g.swingEnd ≤ g.stanceStart) :
    (leg.state = StepState.FORCE_STANCE → (legStateMachine g leg).state = StepState.STANCE)
      ∧ (leg.state = StepState.FORCE_STOP
          → (legStateMachine g leg).state = StepState.FORCE_STOP)
      ∧ (leg.state ≠ StepState.FORCE_STANCE → leg.state ≠ StepState.FORCE_STOP →
          ((legStateMachine g leg).state = StepState.SWING_TRANSITION
              ↔ g.stanceEnd ≤ leg.phase ∧ leg.phase < g.swingStart)
            ∧ ((legStateMachine g leg).state = StepState.SWING
              ↔ g.swingStart ≤ leg.phase ∧ leg.phase < g.swingEnd)
            ∧ ((legStateMachine g leg).state = StepState.STANCE_TRANSITION
              ↔ g.swingEnd ≤ leg.phase ∧ leg.phase < g.stanceStart)
            ∧ ((legStateMachine g leg).state = StepState.STANCE
              ↔ ¬ (g.stanceEnd ≤ leg.phase ∧ leg.phase < g.swingStart)
                ∧ ¬ (g.swingStart ≤ leg.phase ∧ leg.phase < g.swingEnd)
                ∧ ¬ (g.swingEnd ≤ leg.phase ∧ leg.phase < g.stanceStart)))
      ∧ (¬ ((g.stanceEnd ≤ leg.phase ∧ leg.phase < g.swingStart)
              ∧ (g.swingStart ≤ leg.phase ∧ leg.phase < g.swingEnd))
          ∧ ¬ ((g.stanceEnd ≤ leg.phase ∧ leg.phase < g.swingStart)
              ∧ (g.swingEnd ≤ leg.phase ∧ leg.phase < g.stanceStart))
          ∧ ¬ ((g.swingStart ≤ leg.phase ∧ leg.phase < g.swingEnd)
              ∧ (g.swingEnd ≤ leg.phase ∧ leg.phase < g.stanceStart))
          ∧ ((leg.phase < g.stanceEnd ∨ g.stanceStart ≤ leg.phase)
              ↔ ¬ (g.stanceEnd ≤ leg.phase ∧ leg.phase < g.swingStart)
                ∧ ¬ (g.swingStart ≤ leg.phase ∧ leg.phase < g.swingEnd)
                ∧ ¬ (g.swingEnd ≤ leg.phase ∧ leg.phase < g.stanceStart)))
      ∧ (legStateMachine g leg).phase = leg.phase
      ∧ (legStateMachine g leg).inCorrectPhase = leg.inCorrectPhase
      ∧ (legStateMachine g leg).completedFirstStep = leg.completedFirstStep := by
  obtain ⟨h0, h1, h2, h3⟩ := hord
  refine ⟨?_, ?_, ?_, ⟨?_, ?_, ?_, ?_⟩, legStateMachine_phase g leg,
    legStateMachine_inCorrectPhase g leg, legStateMachine_completedFirstStep g leg⟩
  · intro h
    simp [legStateMachine, h]
  · intro h
    simp [legStateMachine, h]
  · intro hfs hfp
    unfold legStateMachine
    simp only [hfs, hfp, if_false]
    refine ⟨?_, ?_, ?_, ?_⟩ <;> split_ifs <;> (try simp) <;> (try omega)
  · omega
  · omega
  · omega
  · constructor <;> intro h <;> omega

/-- Witness for C6: the tripod timing with a leg in the swing band. -/
theorem leg_state_from_phase_bands_witness :
    (legStateMachine ⟨8, 2, 2, 6, 6⟩ ⟨3, 4, StepState.STANCE, true, false⟩).state
      = StepState.SWING :=
  ((leg_state_from_phase_bands ⟨8, 2, 2, 6, 6⟩ ⟨3, 4, StepState.STANCE, true, false⟩
      (by decide)).2.2.1 (by decide) (by decide)).2.1.mpr (by decide)

/-! ## setGaitParams in closed form -/

section GaitLemmas

variable {K : Type} [LinearOrderedField K] [FloorRing K]

theorem toInt_intCast (n : Int) : toInt (n : K) = n := by
  unfold toInt
  split_ifs <;> simp

theorem toInt_nonneg {x : K} (h : 0 ≤ x) : 0 ≤ toInt x := by
  unfold toInt
  rw [if_pos h]
  exact Int.floor_nonneg.mpr h

theorem roundToInt_nonneg {x : K} (h : 0 ≤ x) : 0 ≤ roundToInt x := by
  unfold roundToInt
  rw [if_pos h]
  exact toInt_nonneg (by linarith)

theorem phaseLengthOf_eq (p : Parameters K) (timeDelta : K) (hb : basePhaseLength p ≠ 0)
    (hs : p.swingPhase + p.transitionPeriod ≠ 0) :
    phaseLengthOf p timeDelta = roundedTicks p timeDelta * basePhaseLength p := by
  have hbK : (basePhaseLength p : K) ≠ 0 := by exact_mod_cast hb
  have h1 : (basePhaseLength p : K) * swingRatio p = p.swingPhase + p.transitionPeriod := by
    unfold swingRatio
    field_simp
  have h2 : swingRatio p ≠ 0 := by
    unfold swingRatio
    exact div_ne_zero hs hbK
  unfold phaseLengthOf ticksPerUnit
  rw [h1]
  have h3 : ((roundToInt ((1 / (2 * p.stepFrequency * timeDelta))
        / (p.swingPhase + p.transitionPeriod)) : Int) : K)
        * (p.swingPhase + p.transitionPeriod) / swingRatio p
      = ((roundedTicks p timeDelta * basePhaseLength p : Int) : K) := by
    unfold swingRatio roundedTicks
    push_cast
    field_simp
    ring
  rw [h3, toInt_intCast]

theorem setGaitParams_eq (p : Parameters K) (timeDelta : K) (hb : basePhaseLength p ≠ 0)
    (hs : p.swingPhase + p.transitionPeriod ≠ 0) (hk : roundedTicks p timeDelta ≠ 0) :
    setGaitParams p timeDelta = some
      { timing :=
          { phaseLength := roundedTicks p timeDelta * basePhaseLength p
            stanceEnd := toInt (p.stancePhase * (1 / 2)) * roundedTicks p timeDelta
            swingStart :=
              toInt ((toInt (p.stancePhase * (1 / 2)) : K) + p.transitionPeriod)
                * roundedTicks p timeDelta
            swingEnd :=
              toInt ((toInt ((toInt (p.stancePhase * (1 / 2)) : K) + p.transitionPeriod) : K)
                  + p.swingPhase) * roundedTicks p timeDelta
            stanceStart :=
              toInt ((toInt ((toInt ((toInt (p.stancePhase * (1 / 2)) : K)
                  + p.transitionPeriod) : K) + p.swingPhase) : K) + p.transitionPeriod)
                * roundedTicks p timeDelta }
        stepFrequency :=
          1 / (((roundedTicks p timeDelta * basePhaseLength p : Int) : K) * timeDelta)
        phaseOffsets := (List.range 6).map (fun index =>
          Int.tmod (toInt (p.phaseOffset * (roundedTicks p timeDelta : K))
              * p.offsetMultiplier index)
            (roundedTicks p timeDelta * basePhaseLength p)) } := by
  have hL := phaseLengthOf_eq p timeDelta hb hs
  have hn : normaliserOf p timeDelta = roundedTicks p timeDelta := by
    unfold normaliserOf
    rw [hL]
    exact Int.mul_tdiv_cancel _ hb
  have hmod : Int.tmod (roundedTicks p timeDelta * basePhaseLength p) (basePhaseLength p) = 0 :=
    Int.mul_tmod_left _ _
  have hL0 : roundedTicks p timeDelta * basePhaseLength p ≠ 0 := mul_ne_zero hk hb
  unfold setGaitParams
  simp only [hL, hn, hb, hmod, hL0, if_false, ne_eq, not_true_eq_false]

end GaitLemmas

/-! ## Phase quantisation in exact arithmetic -/

/-- Phase quantisation in exact arithmetic (for binary64 arithmetic see `phaseLengthDouble`):
for a gait configuration with positive step frequency and time step, with
`swing_phase + transition_period > 0` and a positive integer
`base = stance_phase + swing_phase + 2*transition_period`, and whose rounded tick count
`round((1/(2*step_frequency*time_delta))/(swing_phase + transition_period))` is not zero,
`setGaitParams` returns (the ASSERT holds), `phase_length` is that count times `base` and is
positive, `phase_length % base = 0`, the four boundaries are integer multiples of
`normaliser = phase_length / base`, and the adjusted step frequency satisfies
`step_frequency * phase_length * time_delta = 1`. -/
theorem gait_phase_length_quantised {K : Type} [LinearOrderedField K] [FloorRing K]
    (p : Parameters K) (timeDelta : K) (base : Int)
    (hf : 0 < p.stepFrequency) (hdt : 0 < timeDelta)
    (hsw : 0 < p.swingPhase + p.transitionPeriod)
    (hbase : p.stancePhase + p.swingPhase + p.transitionPeriod * 2 = (base : K))
    (hpos : 0 < base)
    (hk : roundedTicks p timeDelta ≠ 0) :
    ∃ r : GaitResult K, setGaitParams p timeDelta = some r
      ∧ r.timing.phaseLength = roundedTicks p timeDelta * base
      ∧ 0 < r.timing.phaseLength
      ∧ Int.tmod r.timing.phaseLength base = 0
      ∧ (∃ a : Int, r.timing.stanceEnd = a * Int.tdiv r.timing.phaseLength base)
      ∧ (∃ a : Int, r.timing.swingStart = a * Int.tdiv r.timing.phaseLength base)
      ∧ (∃ a : Int, r.timing.swingEnd = a * Int.tdiv r.timing.phaseLength base)
      ∧ (∃ a : Int, r.timing.stanceStart = a * Int.tdiv r.timing.phaseLength base)
      ∧ r.stepFrequency * (r.timing.phaseLength : K) * timeDelta = 1 := by
  have hb : basePhaseLength p = base := by
    unfold basePhaseLength
    rw [hbase, toInt_intCast]
  have hb0 : basePhaseLength p ≠ 0 := by
    rw [hb]
    exact ne_of_gt hpos
  have hk0 : 0 ≤ roundedTicks p timeDelta := by
    unfold roundedTicks
    apply roundToInt_nonneg
    have : 0 < 2 * p.stepFrequency * timeDelta := by positivity
    positivity
  have hkpos : 0 < roundedTicks p timeDelta := lt_of_le_of_ne hk0 (Ne.symm hk)
  have hLpos : 0 < roundedTicks p timeDelta * base := Int.mul_pos hkpos hpos
  have hdiv : Int.tdiv (roundedTicks p timeDelta * base) base = roundedTicks p timeDelta :=
    Int.mul_tdiv_cancel _ (ne_of_gt hpos)
  have hLK : ((roundedTicks p timeDelta * base : Int) : K) ≠ 0 := by
    exact_mod_cast ne_of_gt hLpos
  subst hb
  refine ⟨_, setGaitParams_eq p timeDelta hb0 (ne_of_gt hsw) hk, rfl, hLpos,
    Int.mul_tmod_left _ _, ?_, ?_, ?_, ?_, ?_⟩
  · dsimp only
    rw [hdiv]
    exact ⟨_, rfl⟩
  · dsimp only
    rw [hdiv]
    exact ⟨_, rfl⟩
  · dsimp only
    rw [hdiv]
    exact ⟨_, rfl⟩
  · dsimp only
    rw [hdiv]
    exact ⟨_, rfl⟩
  · dsimp only
    field_simp

theorem s1_basePhaseLength (po : ℚ) (om : Nat → Int) :
    basePhaseLength (s1Parameters po om) = 8 := by
  have h : (4 : ℚ) + 2 + 1 * 2 = ((8 : Int) : ℚ) := by norm_num
  simp only [basePhaseLength, s1Parameters, h, toInt_intCast]

theorem s1_roundedTicks (po : ℚ) (om : Nat → Int) :
    roundedTicks (s1Parameters po om) (1 / 50) = 8 := by
  unfold roundedTicks s1Parameters roundToInt toInt
  norm_num [Int.floor_eq_iff]

/-- Scenario S1 in exact arithmetic: the rounded tick count is 8. -/
theorem gait_phase_length_quantised_witness :
    ∃ r : GaitResult ℚ, setGaitParams (s1Parameters 0 (fun _ => 0)) (1 / 50) = some r
      ∧ r.timing.phaseLength = roundedTicks (s1Parameters 0 (fun _ => 0)) (1 / 50) * 8
      ∧ 0 < r.timing.phaseLength
      ∧ Int.tmod r.timing.phaseLength 8 = 0
      ∧ (∃ a : Int, r.timing.stanceEnd = a * Int.tdiv r.timing.phaseLength 8)
      ∧ (∃ a : Int, r.timing.swingStart = a * Int.tdiv r.timing.phaseLength 8)
      ∧ (∃ a : Int, r.timing.swingEnd = a * Int.tdiv r.timing.phaseLength 8)
      ∧ (∃ a : Int, r.timing.stanceStart = a * Int.tdiv r.timing.phaseLength 8)
      ∧ r.stepFrequency * (r.timing.phaseLength : ℚ) * (1 / 50) = 1 :=
  gait_phase_length_quantised (s1Parameters 0 (fun _ => 0)) (1 / 50) 8
    (by norm_num [s1Parameters]) (by norm_num) (by norm_num [s1Parameters])
    (by norm_num [s1Parameters]) (by norm_num)
    (by rw [s1_roundedTicks]; norm_num)

/-- A step period too short for the tick, in exact arithmetic: with the gait of scenario S1,
`time_delta = 0.02` and a step frequency of 20 Hz (all positive,
`swing_phase + transition_period = 3 > 0`) the rounded tick count is 0, so `phase_length` is 0,
no step frequency satisfies `step_frequency * phase_length * time_delta = 1`, and
`setGaitParams` does not return (line 312 takes a remainder modulo zero). -/
theorem gait_fast_step_frequency_fails :
    0 < fastParameters.stepFrequency ∧ (0 : ℚ) < 1 / 50
      ∧ 0 < fastParameters.swingPhase + fastParameters.transitionPeriod
      ∧ roundedTicks fastParameters (1 / 50) = 0
      ∧ phaseLengthOf fastParameters (1 / 50) = 0
      ∧ (¬ ∃ f : ℚ, f * ((phaseLengthOf fastParameters (1 / 50) : Int) : ℚ) * (1 / 50) = 1)
      ∧ setGaitParams fastParameters (1 / 50) = none := by
  have hb : basePhaseLength fastParameters = 8 := by
    have h : (4 : ℚ) + 2 + 1 * 2 = ((8 : Int) : ℚ) := by norm_num
    simp only [basePhaseLength, fastParameters, h, toInt_intCast]
  have hk : roundedTicks fastParameters (1 / 50) = 0 := by
    unfold roundedTicks fastParameters roundToInt toInt
    norm_num [Int.floor_eq_iff]
  have hL : phaseLengthOf fastParameters (1 / 50) = 0 := by
    rw [phaseLengthOf_eq _ _ (by rw [hb]; norm_num) (by norm_num [fastParameters]), hk]
    simp
  refine ⟨by norm_num [fastParameters], by norm_num, by norm_num [fastParameters], hk, hL,
    ?_, ?_⟩
  · rw [hL]
    simp
  · unfold setGaitParams
    simp only [hb, hL]
    rfl

/-! ## C5: scenario S1 -/

/-- C5 (amended): in scenario S1 `setGaitParams` computes `base = 8`, `swing_ratio = 0.375` and
`phase_length = 64`, a positive multiple of 8; the adjusted step frequency is `0.78125`, so that
`step_frequency * phase_length * time_delta = 1` and one cycle lasts
`phase_length * time_delta = 1.28`. It is the swing together with one transition,
`phase_length * swing_ratio * time_delta = 0.48`, that lies within `0.5 = 1/(2*step_frequency)`
up to `(swing_phase + transition_period) * time_delta / 2 = 0.03`. -/
theorem s1_gait_values (po : ℚ) (om : Nat → Int) :
    basePhaseLength (s1Parameters po om) = 8
      ∧ swingRatio (s1Parameters po om) = 375 / 1000
      ∧ ∃ r : GaitResult ℚ, setGaitParams (s1Parameters po om) (1 / 50) = some r
        ∧ r.timing.phaseLength = 64
        ∧ (0 < r.timing.phaseLength ∧ Int.tmod r.timing.phaseLength 8 = 0)
        ∧ r.stepFrequency = 78125 / 100000
        ∧ r.stepFrequency * (r.timing.phaseLength : ℚ) * (1 / 50) = 1
        ∧ (r.timing.phaseLength : ℚ) * (1 / 50) = 128 / 100
        ∧ (r.timing.phaseLength : ℚ) * swingRatio (s1Parameters po om) * (1 / 50) = 48 / 100
        ∧ |(r.timing.phaseLength : ℚ) * swingRatio (s1Parameters po om) * (1 / 50) - 1 / 2|
            ≤ 3 / 100 := by
  have hb := s1_basePhaseLength po om
  have hk := s1_roundedTicks po om
  have hr : swingRatio (s1Parameters po om) = 375 / 1000 := by
    unfold swingRatio
    rw [hb]
    norm_num [s1Parameters]
  refine ⟨hb, hr, _, setGaitParams_eq _ _ (by rw [hb]; norm_num)
    (by norm_num [s1Parameters]) (by rw [hk]; norm_num), ?_⟩
  simp only [hb, hk, hr]
  norm_num [abs_le, show Int.tmod 64 8 = 0 from rfl]

/-- C5 as stated fails: in scenario S1 the phase length is 64, and `64 * 0.02 = 1.28` is not
within `1.0` up to `time_delta = 0.02`. -/
theorem s1_cycle_time_is_not_one :
    ∃ r : GaitResult ℚ, setGaitParams (s1Parameters 0 (fun _ => 0)) (1 / 50) = some r
      ∧ r.timing.phaseLength = 64
      ∧ ¬ (|(r.timing.phaseLength : ℚ) * (1 / 50) - 1| ≤ 1 / 50) := by
  refine ⟨_, setGaitParams_eq _ _ (by rw [s1_basePhaseLength]; norm_num)
    (by norm_num [s1Parameters]) (by rw [s1_roundedTicks]; norm_num), ?_⟩
  simp only [s1_basePhaseLength, s1_roundedTicks]
  norm_num [abs_le]

/-! ## The per-leg loop: generic facts -/

/-- Loop rule for `robotStateMachine`: a property `C` of the counters and a property of the legs
that every iteration with index at least `n` maintains hold after the loop. -/
theorem robotStateMachine_all (g : GaitTiming) (st : WalkState) (sz : Nat → Bool) (n : Nat)
    (C : Counters → Prop) (P Q : LegStepper → Prop)
    (h : ∀ i, n ≤ i → ∀ c leg, C c → P leg →
      C (legPhaseUpdate g st (decide (i = 0)) (sz i) c leg).1
        ∧ Q (legPhaseUpdate g st (decide (i = 0)) (sz i) c leg).2) :
    ∀ (legs : List LegStepper) (i : Nat), n ≤ i → ∀ c, C c → (∀ l ∈ legs, P l) →
      C (robotStateMachine g st sz i c legs).1
        ∧ ∀ l ∈ (robotStateMachine g st sz i c legs).2, Q l := by
  intro legs
  induction legs with
  | nil =>
    intro i _ c hc _
    exact ⟨hc, by simp [robotStateMachine]⟩
  | cons leg rest ih =>
    intro i hi c hc hP
    have h1 := h i hi c leg hc (hP leg (List.mem_cons_self _ _))
    have h2 := ih (i + 1) (by omega) _ h1.1
      (fun l hl => hP l (List.mem_cons_of_mem _ hl))
    refine ⟨h2.1, ?_⟩
    intro l hl
    simp only [robotStateMachine, List.mem_cons] at hl
    rcases hl with rfl | hl
    · exact h1.2
    · exact h2.2 l hl

theorem robotStateMachine_length (g : GaitTiming) (st : WalkState) (sz : Nat → Bool) :
    ∀ (legs : List LegStepper) (i : Nat) (c : Counters),
      (robotStateMachine g st sz i c legs).2.length = legs.length := by
  intro legs
  induction legs with
  | nil => intro i c; rfl
  | cons leg rest ih =>
    intro i c
    simp [robotStateMachine, ih]

theorem tmod_succ_range {p L : Int} (h0 : 0 ≤ p) (hL : 0 < L) :
    0 ≤ Int.tmod (p + 1) L ∧ Int.tmod (p + 1) L < L :=
  ⟨Int.tmod_nonneg _ (by omega), Int.tmod_lt_of_pos _ hL⟩

/-- One iteration of the loop keeps the phase of a leg within `[0, phaseLength)` and does not
touch its phase offset. -/
theorem legPhaseUpdate_range (g : GaitTiming) (st : WalkState) (fl b : Bool) (c : Counters)
    (leg : LegStepper) (hL : 0 < g.phaseLength)
    (h : 0 ≤ leg.phase ∧ leg.phase < g.phaseLength) :
    (0 ≤ (legPhaseUpdate g st fl b c leg).2.phase
        ∧ (legPhaseUpdate g st fl b c leg).2.phase < g.phaseLength)
      ∧ (legPhaseUpdate g st fl b c leg).2.phaseOffset = leg.phaseOffset := by
  have ht := tmod_succ_range h.1 hL
  cases st
  · simp only [legPhaseUpdate, startingCompletion, startingAdmission]
    split_ifs <;> exact ⟨ht, rfl⟩
  · exact ⟨ht, rfl⟩
  · simp only [legPhaseUpdate, stoppingForceStop, stoppingAdvance]
    split_ifs <;> first | exact ⟨ht, rfl⟩ | exact ⟨h, rfl⟩
  · exact ⟨⟨le_refl _, hL⟩, rfl⟩

/-- Phases and phase offsets within `[0, phaseLength)` are kept by one tick. -/
theorem updateWalkCore_range (g : GaitTiming) (b : Bool) (sz : Nat → Bool) (w : WalkController)
    (hL : 0 < g.phaseLength)
    (h : ∀ leg ∈ w.legSteppers, (0 ≤ leg.phase ∧ leg.phase < g.phaseLength)
      ∧ (0 ≤ leg.phaseOffset ∧ leg.phaseOffset < g.phaseLength)) :
    ∀ leg ∈ (updateWalkCore g b sz w).legSteppers,
      (0 ≤ leg.phase ∧ leg.phase < g.phaseLength)
        ∧ (0 ≤ leg.phaseOffset ∧ leg.phaseOffset < g.phaseLength) := by
  have h1 : ∀ leg ∈ (walkTransition b w).legSteppers,
      (0 ≤ leg.phase ∧ leg.phase < g.phaseLength)
        ∧ (0 ≤ leg.phaseOffset ∧ leg.phaseOffset < g.phaseLength) := by
    unfold walkTransition
    split_ifs
    · intro leg hleg
      simp only [List.mem_map] at hleg
      obtain ⟨l0, hl0, rfl⟩ := hleg
      exact ⟨(h l0 hl0).2, (h l0 hl0).2⟩
    all_goals exact h
  have h2 := (robotStateMachine_all g (walkTransition b w).state sz 0 (fun _ => True)
    (fun leg => (0 ≤ leg.phase ∧ leg.phase < g.phaseLength)
        ∧ (0 ≤ leg.phaseOffset ∧ leg.phaseOffset < g.phaseLength))
    (fun leg => (0 ≤ leg.phase ∧ leg.phase < g.phaseLength)
        ∧ (0 ≤ leg.phaseOffset ∧ leg.phaseOffset < g.phaseLength))
    (fun i _ c leg _ hleg => by
      have := legPhaseUpdate_range g (walkTransition b w).state (decide (i = 0)) (sz i) c leg
        hL hleg.1
      exact ⟨trivial, this.1, by rw [this.2]; exact hleg.2⟩)
    (walkTransition b w).legSteppers 0 (le_refl _)
    ⟨(walkTransition b w).legsInCorrectPhase, (walkTransition b w).legsCompletedFirstStep⟩
    trivial h1).2
  intro leg hleg
  simp only [updateWalkCore, afterPhaseLoop, List.mem_map] at hleg
  obtain ⟨l0, hl0, rfl⟩ := hleg
  rw [legStateMachine_phase, legStateMachine_phaseOffset]
  exact h2 l0 hl0

/-! ## C3: the phase stays within the cycle -/

/-- C3: let `setGaitParams` return for a gait configuration with non-negative phase counts,
non-negative offset multipliers and non-negative phase offset, with `phaseLength > 0`. Then the
phase offset it gives each leg lies in `[0, phaseLength)`, and in every state reachable from the
initial state by ticks of `updateWalk` with any inputs every leg has
`0 <= phase < phaseLength` (and still carries such a phase offset). -/
theorem phase_within_cycle {K : Type} [LinearOrderedField K] [FloorRing K]
    (p : Parameters K) (timeDelta : K) (r : GaitResult K)
    (hset : setGaitParams p timeDelta = some r)
    (hL : 0 < r.timing.phaseLength)
    (hmul : ∀ i, 0 ≤ p.offsetMultiplier i) (hoff : 0 ≤ p.phaseOffset)
    (hgait : 0 ≤ p.stancePhase + p.swingPhase + p.transitionPeriod * 2) :
    (∀ off ∈ r.phaseOffsets, 0 ≤ off ∧ off < r.timing.phaseLength)
      ∧ ∀ w, Reachable r.timing (initController r.phaseOffsets) w →
          ∀ leg ∈ w.legSteppers,
            (0 ≤ leg.phase ∧ leg.phase < r.timing.phaseLength)
              ∧ (0 ≤ leg.phaseOffset ∧ leg.phaseOffset < r.timing.phaseLength) := by
  have hoffs : ∀ off ∈ r.phaseOffsets, 0 ≤ off ∧ off < r.timing.phaseLength := by
    unfold setGaitParams at hset
    simp only at hset
    split_ifs at hset with h1 h2 h3
    simp only [Option.some.injEq] at hset
    subst hset
    simp only at hL ⊢
    intro off hmem
    simp only [List.mem_map, List.mem_range] at hmem
    obtain ⟨i, _, rfl⟩ := hmem
    have hn : 0 ≤ normaliserOf p timeDelta :=
      Int.tdiv_nonneg (le_of_lt hL) (toInt_nonneg hgait)
    have hnK : (0 : K) ≤ (normaliserOf p timeDelta : K) := by exact_mod_cast hn
    have hprod : 0 ≤ toInt (p.phaseOffset * (normaliserOf p timeDelta : K))
        * p.offsetMultiplier i :=
      mul_nonneg (toInt_nonneg (mul_nonneg hoff hnK)) (hmul i)
    exact ⟨Int.tmod_nonneg _ hprod, Int.tmod_lt_of_pos _ hL⟩
  refine ⟨hoffs, ?_⟩
  intro w hw
  induction hw with
  | start =>
    intro leg hleg
    simp only [initController, List.mem_map] at hleg
    obtain ⟨off, hoffmem, rfl⟩ := hleg
    exact ⟨⟨le_refl _, hL⟩, hoffs off hoffmem⟩
  | tick b sz w _ ih => exact updateWalkCore_range r.timing b sz w hL ih

theorem tripod_basePhaseLength : basePhaseLength tripodParameters = 4 := by
  have h : (2 : ℚ) + 2 + 0 * 2 = ((4 : Int) : ℚ) := by norm_num
  simp only [basePhaseLength, tripodParameters, h, toInt_intCast]

theorem tripod_roundedTicks : roundedTicks tripodParameters (1 / 8) = 2 := by
  unfold roundedTicks tripodParameters roundToInt toInt
  norm_num [Int.floor_eq_iff]

/-- The tripod gait at `time_delta = 1/8` and `step_frequency = 1`: eight ticks per cycle, swing
band `[2, 6)`, legs 1, 2 and 5 offset by half a cycle. -/
theorem tripod_setGaitParams :
    setGaitParams tripodParameters (1 / 8)
      = some ⟨⟨8, 2, 2, 6, 6⟩, 1, [0, 4, 4, 0, 0, 4]⟩ := by
  rw [setGaitParams_eq _ _ (by rw [tripod_basePhaseLength]; norm_num)
    (by norm_num [tripodParameters]) (by rw [tripod_roundedTicks]; norm_num)]
  simp only [tripod_basePhaseLength, tripod_roundedTicks]
  have e1 : toInt ((2 : ℚ) * (1 / 2)) = 1 := by
    have : (2 : ℚ) * (1 / 2) = ((1 : Int) : ℚ) := by norm_num
    rw [this, toInt_intCast]
  have e2 : toInt ((2 : ℚ) * ((2 : Int) : ℚ)) = 4 := by
    have : (2 : ℚ) * ((2 : Int) : ℚ) = ((4 : Int) : ℚ) := by norm_num
    rw [this, toInt_intCast]
  simp only [tripodParameters, e1, e2]
  have e3 : toInt (((1 : Int) : ℚ) + 0) = 1 := by
    have : ((1 : Int) : ℚ) + 0 = ((1 : Int) : ℚ) := by norm_num
    rw [this, toInt_intCast]
  have e4 : toInt (((1 : Int) : ℚ) + 2) = 3 := by
    have : ((1 : Int) : ℚ) + 2 = ((3 : Int) : ℚ) := by norm_num
    rw [this, toInt_intCast]
  have e5 : toInt (((3 : Int) : ℚ) + 0) = 3 := by
    have : ((3 : Int) : ℚ) + 0 = ((3 : Int) : ℚ) := by norm_num
    rw [this, toInt_intCast]
  simp only [e3, e4, e5]
  norm_num
  decide

/-- Witness for C3: the tripod gait at `time_delta = 1/8`. -/
theorem phase_within_cycle_witness :
    (∀ off ∈ [(0 : Int), 4, 4, 0, 0, 4], 0 ≤ off ∧ off < 8)
      ∧ ∀ w, Reachable ⟨8, 2, 2, 6, 6⟩ (initController [0, 4, 4, 0, 0, 4]) w →
          ∀ leg ∈ w.legSteppers,
            (0 ≤ leg.phase ∧ leg.phase < 8) ∧ (0 ≤ leg.phaseOffset ∧ leg.phaseOffset < 8) :=
  phase_within_cycle tripodParameters (1 / 8) ⟨⟨8, 2, 2, 6, 6⟩, 1, [0, 4, 4, 0, 0, 4]⟩
    tripod_setGaitParams (by decide)
    (by intro i; simp only [tripodParameters]; split_ifs <;> decide)
    (by norm_num [tripodParameters]) (by norm_num [tripodParameters])

/-! ## C9: admission of the front-left leg while stopping -/

theorem walkTransition_legs_of_stopping (b : Bool) (w : WalkController)
    (h : (walkTransition b w).state = WalkState.STOPPING) :
    (walkTransition b w).legSteppers = w.legSteppers := by
  unfold walkTransition at h ⊢
  split_ifs at h ⊢ <;> simp_all

/-- The front-left leg after the per-leg loop of a STOPPING tick: the loop body applied to it
with `frontLeft = true`. -/
theorem afterPhaseLoop_head_of_stopping (g : GaitTiming) (b : Bool) (sz : Nat → Bool)
    (w : WalkController) (fl : LegStepper) (rest : List LegStepper)
    (hst : (walkTransition b w).state = WalkState.STOPPING)
    (hlegs : w.legSteppers = fl :: rest) :
    (afterPhaseLoop g b sz w).legSteppers.head?
      = some (legPhaseUpdate g WalkState.STOPPING true (sz 0)
          ⟨(walkTransition b w).legsInCorrectPhase,
            (walkTransition b w).legsCompletedFirstStep⟩ fl).2 := by
  unfold afterPhaseLoop
  simp only [hst, walkTransition_legs_of_stopping b w hst, hlegs, robotStateMachine,
    List.head?_cons, decide_True]

/-- The STOPPING loop body on the front-left leg: the only way its flag gets set. -/
theorem stopping_front_left_admission (g : GaitTiming) (c : Counters) (sz0 : Bool)
    (fl : LegStepper) (hbefore : fl.inCorrectPhase = false)
    (hafter : (legPhaseUpdate g WalkState.STOPPING true sz0 c fl).2.inCorrectPhase = true) :
    (fl.state = StepState.FORCE_STOP ∨ (sz0 = true ∧ fl.phase = g.swingEnd))
      ∧ Int.tmod (fl.phase + 1) g.phaseLength = 0
      ∧ (legPhaseUpdate g WalkState.STOPPING true sz0 c fl).2
          = { fl with phase := 0, inCorrectPhase := true, state := StepState.STANCE } := by
  revert hafter
  simp only [legPhaseUpdate, stoppingForceStop, stoppingAdvance, hbefore]
  split_ifs with h1 h2 h3 <;> intro hafter <;> simp_all

theorem legStateMachine_stance_at_zero (g : GaitTiming) (leg : LegStepper)
    (hs : leg.state = StepState.STANCE) (hp : leg.phase = 0)
    (h1 : 0 < g.stanceEnd) (h2 : g.stanceEnd ≤ g.swingStart) (h3 : g.swingStart ≤ g.swingEnd) :
    (legStateMachine g leg).state = StepState.STANCE := by
  unfold legStateMachine
  simp only [hs, hp]
  split_ifs <;> first | rfl | omega

/-- C9: on a tick whose per-leg loop runs in STOPPING, if the front-left leg (the head of the leg
list) is not in correct phase before the tick and is in correct phase after it, then when its
admission is checked it is in FORCE_STOP (it already was, or it is forced to stop on this tick
because its stride is zero and its phase equals `swingEnd`), its phase after the advance of this
tick is 0, and the loop leaves it with step state STANCE at phase 0; the leg state machine that
ends the tick keeps STANCE whenever phase 0 lies in the stance band
(`0 < stanceEnd <= swingStart <= swingEnd`). -/
theorem front_left_admitted_at_phase_zero (g : GaitTiming) (b : Bool) (sz : Nat → Bool)
    (w : WalkController) (fl : LegStepper) (rest : List LegStepper)
    (hst : (walkTransition b w).state = WalkState.STOPPING)
    (hlegs : w.legSteppers = fl :: rest)
    (hbefore : fl.inCorrectPhase = false)
    (hafter : (updateWalkCore g b sz w).legSteppers.head?.map (fun leg => leg.inCorrectPhase)
      = some true) :
    (fl.state = StepState.FORCE_STOP ∨ (sz 0 = true ∧ fl.phase = g.swingEnd))
      ∧ Int.tmod (fl.phase + 1) g.phaseLength = 0
      ∧ (afterPhaseLoop g b sz w).legSteppers.head?
          = some { fl with phase := 0, inCorrectPhase := true, state := StepState.STANCE }
      ∧ (updateWalkCore g b sz w).legSteppers.head?.map (fun leg => leg.phase) = some 0
      ∧ (0 < g.stanceEnd → g.stanceEnd ≤ g.swingStart → g.swingStart ≤ g.swingEnd →
          (updateWalkCore g b sz w).legSteppers.head?.map (fun leg => leg.state)
            = some StepState.STANCE) := by
  have hhead := afterPhaseLoop_head_of_stopping g b sz w fl rest hst hlegs
  have hcore : (updateWalkCore g b sz w).legSteppers.head?
      = some (legStateMachine g (legPhaseUpdate g WalkState.STOPPING true (sz 0)
          ⟨(walkTransition b w).legsInCorrectPhase,
            (walkTransition b w).legsCompletedFirstStep⟩ fl).2) := by
    unfold updateWalkCore
    simp only [List.head?_map, hhead, Option.map_some']
  rw [hcore] at hafter ⊢
  rw [hhead]
  simp only [Option.map_some', Option.some.injEq, legStateMachine_inCorrectPhase,
    legStateMachine_phase] at hafter ⊢
  obtain ⟨hA, hB, hC⟩ := stopping_front_left_admission g _ (sz 0) fl hbefore hafter
  refine ⟨hA, hB, hC, ?_, ?_⟩
  · rw [hC]
  · intro h1 h2 h3
    exact legStateMachine_stance_at_zero g _ (by rw [hC]) (by rw [hC]) h1 h2 h3

/-- Witness for C9: the front-left leg, forced to stop earlier, at the last phase of the cycle. -/
theorem front_left_admitted_at_phase_zero_witness :
    (updateWalkCore ⟨8, 2, 2, 6, 6⟩ false (fun _ => true)
        ⟨WalkState.STOPPING, 0, 0,
          [⟨7, 0, StepState.FORCE_STOP, false, true⟩,
           ⟨3, 4, StepState.SWING, false, true⟩]⟩).legSteppers.head?.map
        (fun leg => leg.state) = some StepState.STANCE :=
  (front_left_admitted_at_phase_zero ⟨8, 2, 2, 6, 6⟩ false (fun _ => true)
    ⟨WalkState.STOPPING, 0, 0,
      [⟨7, 0, StepState.FORCE_STOP, false, true⟩, ⟨3, 4, StepState.SWING, false, true⟩]⟩
    ⟨7, 0, StepState.FORCE_STOP, false, true⟩ [⟨3, 4, StepState.SWING, false, true⟩]
    (by decide) rfl rfl (by decide)).2.2.2.2 (by decide) (by decide) (by decide)

/-! ## Phase arithmetic and counting -/

theorem tmod_succ_eq {p L : Int} (h0 : 0 ≤ p) (hL : p < L) :
    Int.tmod (p + 1) L = if p + 1 = L then 0 else p + 1 := by
  rw [Int.tmod_eq_emod (by omega) (by omega)]
  split_ifs with h
  · rw [h, Int.emod_self]
  · exact Int.emod_eq_of_lt (by omega) (by omega)

theorem ticksToSwingEnd_bounds (g : GaitTiming) (hg : g.Cyclic) {p : Int}
    (hp : 0 ≤ p ∧ p < g.phaseLength) :
    0 ≤ ticksToSwingEnd g p ∧ ticksToSwingEnd g p < g.phaseLength := by
  obtain ⟨h1, h2, h3⟩ := hg
  unfold ticksToSwingEnd
  split_ifs <;> omega

/-- Counting rule for the loop: if every iteration changes a counter by as much as it changes
the indicator of a flag of its leg, the loop changes the counter by as much as it changes the
number of flags set. -/
theorem robotStateMachine_count (g : GaitTiming) (st : WalkState) (sz : Nat → Bool)
    (proj : Counters → Int) (flag : LegStepper → Bool)
    (h : ∀ fl b c leg,
      proj (legPhaseUpdate g st fl b c leg).1 + (if flag leg = true then 1 else 0)
        = proj c + (if flag (legPhaseUpdate g st fl b c leg).2 = true then 1 else 0)) :
    ∀ (legs : List LegStepper) (i : Nat) (c : Counters),
      proj (robotStateMachine g st sz i c legs).1 + ((legs.countP flag : Nat) : Int)
        = proj c + (((robotStateMachine g st sz i c legs).2.countP flag : Nat) : Int) := by
  intro legs
  induction legs with
  | nil => intro i c; simp [robotStateMachine]
  | cons leg rest ih =>
    intro i c
    have h1 := h (decide (i = 0)) (sz i) c leg
    have h2 := ih (i + 1) (legPhaseUpdate g st (decide (i = 0)) (sz i) c leg).1
    simp only [robotStateMachine, List.countP_cons]
    push_cast
    split_ifs at h1 ⊢ <;> omega

theorem flagCount_map_legStateMachine (g : GaitTiming) (legs : List LegStepper) :
    flagCount (legs.map (legStateMachine g)) = flagCount legs := by
  unfold flagCount
  rw [List.countP_map]
  congr 2
  funext leg
  exact legStateMachine_inCorrectPhase g leg

theorem doneCount_map_legStateMachine (g : GaitTiming) (legs : List LegStepper) :
    doneCount (legs.map (legStateMachine g)) = doneCount legs := by
  unfold doneCount
  rw [List.countP_map]
  congr 2
  funext leg
  exact legStateMachine_completedFirstStep g leg

theorem flagCount_eq_length_iff (legs : List LegStepper) :
    flagCount legs = (legs.length : Int) ↔ ∀ leg ∈ legs, leg.inCorrectPhase = true := by
  unfold flagCount
  rw [Int.natCast_inj, List.countP_eq_length]

theorem doneCount_eq_length_iff (legs : List LegStepper) :
    doneCount legs = (legs.length : Int) ↔ ∀ leg ∈ legs, leg.completedFirstStep = true := by
  unfold doneCount
  rw [Int.natCast_inj, List.countP_eq_length]

theorem flagCount_eq_zero_iff (legs : List LegStepper) :
    flagCount legs = 0 ↔ ∀ leg ∈ legs, leg.inCorrectPhase = false := by
  unfold flagCount
  rw [Int.natCast_eq_zero, List.countP_eq_zero]
  simp

/-! ## STARTING: one loop iteration -/

theorem ticksToSwingEnd_succ (g : GaitTiming) (hg : g.Cyclic) {p : Int}
    (hp : 0 ≤ p ∧ p < g.phaseLength) (hne : p ≠ g.swingEnd) :
    ticksToSwingEnd g (Int.tmod (p + 1) g.phaseLength) = ticksToSwingEnd g p - 1 := by
  obtain ⟨h1, h2, h3⟩ := hg
  rw [tmod_succ_eq hp.1 hp.2]
  unfold ticksToSwingEnd
  split_ifs <;> omega

theorem starting_leg_phase (g : GaitTiming) (fl b : Bool) (c : Counters) (leg : LegStepper) :
    (legPhaseUpdate g WalkState.STARTING fl b c leg).2.phase
      = Int.tmod (leg.phase + 1) g.phaseLength := by
  simp only [legPhaseUpdate, startingCompletion, startingAdmission]
  split_ifs <;> rfl

theorem starting_leg_flag_iff (g : GaitTiming) (fl b : Bool) (c : Counters) (leg : LegStepper) :
    (legPhaseUpdate g WalkState.STARTING fl b c leg).2.inCorrectPhase = true
      ↔ (leg.inCorrectPhase = true
          ∨ ¬ (g.swingStart ≤ leg.phaseOffset ∧ leg.phaseOffset < g.swingEnd)
          ∨ leg.phase = g.swingEnd) := by
  simp only [legPhaseUpdate, startingCompletion, startingAdmission]
  split_ifs <;> simp_all

theorem starting_leg_done_iff (g : GaitTiming) (fl b : Bool) (c : Counters) (leg : LegStepper) :
    (legPhaseUpdate g WalkState.STARTING fl b c leg).2.completedFirstStep = true
      ↔ (leg.completedFirstStep = true
          ∨ (c.legsInCorrectPhase = 6 ∧ leg.phase = g.swingEnd)) := by
  simp only [legPhaseUpdate, startingCompletion, startingAdmission, NUM_LEGS]
  split_ifs <;> simp_all

theorem starting_leg_counters (g : GaitTiming) (fl b : Bool) (c : Counters) (leg : LegStepper) :
    (legPhaseUpdate g WalkState.STARTING fl b c leg).1.legsInCorrectPhase
          + (if leg.inCorrectPhase = true then 1 else 0)
        = c.legsInCorrectPhase
          + (if (legPhaseUpdate g WalkState.STARTING fl b c leg).2.inCorrectPhase = true
              then 1 else 0)
      ∧ (legPhaseUpdate g WalkState.STARTING fl b c leg).1.legsCompletedFirstStep
          + (if leg.completedFirstStep = true then 1 else 0)
        = c.legsCompletedFirstStep
          + (if (legPhaseUpdate g WalkState.STARTING fl b c leg).2.completedFirstStep = true
              then 1 else 0) := by
  simp only [legPhaseUpdate, startingCompletion, startingAdmission]
  split_ifs <;> simp_all

theorem starting_leg_admit (g : GaitTiming) (hg : g.Cyclic) (fl b : Bool) (c : Counters)
    (leg : LegStepper) (hr : 0 ≤ leg.phase ∧ leg.phase < g.phaseLength) :
    admitIn g (legPhaseUpdate g WalkState.STARTING fl b c leg).2 = 0
      ∨ admitIn g (legPhaseUpdate g WalkState.STARTING fl b c leg).2 ≤ admitIn g leg - 1 := by
  by_cases hflag : (legPhaseUpdate g WalkState.STARTING fl b c leg).2.inCorrectPhase = true
  · left
    simp [admitIn, hflag]
  · right
    have hiff := starting_leg_flag_iff g fl b c leg
    have hn : ¬ (leg.inCorrectPhase = true
          ∨ ¬ (g.swingStart ≤ leg.phaseOffset ∧ leg.phaseOffset < g.swingEnd)
          ∨ leg.phase = g.swingEnd) := fun h => hflag (hiff.mpr h)
    have h1 : ¬ leg.inCorrectPhase = true := fun h => hn (Or.inl h)
    have h2 : leg.phase ≠ g.swingEnd := fun h => hn (Or.inr (Or.inr h))
    simp only [admitIn, hflag, h1, if_false, starting_leg_phase,
      ticksToSwingEnd_succ g hg hr h2, Bool.false_eq_true]
    omega

theorem starting_leg_complete (g : GaitTiming) (hg : g.Cyclic) (fl b : Bool) (c : Counters)
    (leg : LegStepper) (hr : 0 ≤ leg.phase ∧ leg.phase < g.phaseLength)
    (hc : c.legsInCorrectPhase = 6) (hf : leg.inCorrectPhase = true) :
    (legPhaseUpdate g WalkState.STARTING fl b c leg).1.legsInCorrectPhase = 6
      ∧ (completeIn g (legPhaseUpdate g WalkState.STARTING fl b c leg).2 = 0
        ∨ completeIn g (legPhaseUpdate g WalkState.STARTING fl b c leg).2
            ≤ completeIn g leg - 1) := by
  constructor
  · have h1 := (starting_leg_counters g fl b c leg).1
    have h2 := (starting_leg_flag_iff g fl b c leg).mpr (Or.inl hf)
    simp only [hf, h2, if_true] at h1
    omega
  · by_cases hdone : (legPhaseUpdate g WalkState.STARTING fl b c leg).2.completedFirstStep = true
    · left
      simp [completeIn, hdone]
    · right
      have hiff := starting_leg_done_iff g fl b c leg
      have hn : ¬ (leg.completedFirstStep = true
          ∨ (c.legsInCorrectPhase = 6 ∧ leg.phase = g.swingEnd)) := fun h => hdone (hiff.mpr h)
      have h1 : ¬ leg.completedFirstStep = true := fun h => hn (Or.inl h)
      have h2 : leg.phase ≠ g.swingEnd := fun h => hn (Or.inr ⟨hc, h⟩)
      simp only [completeIn, hdone, h1, if_false, starting_leg_phase,
        ticksToSwingEnd_succ g hg hr h2, Bool.false_eq_true]
      omega

/-! ## STARTING: one tick -/

theorem admitIn_legStateMachine (g : GaitTiming) (leg : LegStepper) :
    admitIn g (legStateMachine g leg) = admitIn g leg := by
  unfold admitIn
  rw [legStateMachine_inCorrectPhase, legStateMachine_phase]

theorem completeIn_legStateMachine (g : GaitTiming) (leg : LegStepper) :
    completeIn g (legStateMachine g leg) = completeIn g leg := by
  unfold completeIn
  rw [legStateMachine_completedFirstStep, legStateMachine_phase]

theorem walkTransition_starting_stay (b : Bool) (w : WalkController)
    (hs : w.state = WalkState.STARTING)
    (hno : ¬ (w.legsInCorrectPhase = 6 ∧ w.legsCompletedFirstStep = 6)) :
    walkTransition b w = w := by
  unfold walkTransition NUM_LEGS
  simp [hs, hno]

theorem walkTransition_starting_go (b : Bool) (w : WalkController)
    (hs : w.state = WalkState.STARTING)
    (hgo : w.legsInCorrectPhase = 6 ∧ w.legsCompletedFirstStep = 6) :
    (walkTransition b w).state = WalkState.MOVING := by
  unfold walkTransition NUM_LEGS
  simp [hs, hgo]

/-- One tick in STARTING that does not leave STARTING: the invariant is kept, every leg gets one
tick closer to admission, and once all legs are admitted every leg gets one tick closer to the
completion of its first step. -/
theorem starting_tick (g : GaitTiming) (hg : g.Cyclic) (b : Bool) (sz : Nat → Bool)
    (w : WalkController) (hinv : StartingInv g w)
    (hno : ¬ (w.legsInCorrectPhase = 6 ∧ w.legsCompletedFirstStep = 6)) :
    StartingInv g (updateWalkCore g b sz w)
      ∧ (∀ a : Int, (∀ leg ∈ w.legSteppers, admitIn g leg ≤ a) →
          ∀ leg ∈ (updateWalkCore g b sz w).legSteppers,
            admitIn g leg = 0 ∨ admitIn g leg ≤ a - 1)
      ∧ ((∀ leg ∈ w.legSteppers, leg.inCorrectPhase = true) →
          ∀ m : Int, (∀ leg ∈ w.legSteppers, completeIn g leg ≤ m) →
            ∀ leg ∈ (updateWalkCore g b sz w).legSteppers,
              leg.inCorrectPhase = true ∧ (completeIn g leg = 0 ∨ completeIn g leg ≤ m - 1)) := by
  obtain ⟨hs, hlen, hcount, hcomp, hrange⟩ := hinv
  have hw := walkTransition_starting_stay b w hs hno
  have hlegs : (updateWalkCore g b sz w).legSteppers
      = (robotStateMachine g WalkState.STARTING sz 0
          ⟨w.legsInCorrectPhase, w.legsCompletedFirstStep⟩ w.legSteppers).2.map
          (legStateMachine g) := by
    simp only [updateWalkCore, afterPhaseLoop, hw, hs]
  have hc1 : (updateWalkCore g b sz w).legsInCorrectPhase
      = (robotStateMachine g WalkState.STARTING sz 0
          ⟨w.legsInCorrectPhase, w.legsCompletedFirstStep⟩ w.legSteppers).1.legsInCorrectPhase := by
    simp only [updateWalkCore, afterPhaseLoop, hw, hs]
  have hc2 : (updateWalkCore g b sz w).legsCompletedFirstStep
      = (robotStateMachine g WalkState.STARTING sz 0
          ⟨w.legsInCorrectPhase, w.legsCompletedFirstStep⟩
          w.legSteppers).1.legsCompletedFirstStep := by
    simp only [updateWalkCore, afterPhaseLoop, hw, hs]
  have hcnt1 := robotStateMachine_count g WalkState.STARTING sz
    (fun c => c.legsInCorrectPhase) (fun leg => leg.inCorrectPhase)
    (fun fl b c leg => (starting_leg_counters g fl b c leg).1) w.legSteppers 0
    ⟨w.legsInCorrectPhase, w.legsCompletedFirstStep⟩
  have hcnt2 := robotStateMachine_count g WalkState.STARTING sz
    (fun c => c.legsCompletedFirstStep) (fun leg => leg.completedFirstStep)
    (fun fl b c leg => (starting_leg_counters g fl b c leg).2) w.legSteppers 0
    ⟨w.legsInCorrectPhase, w.legsCompletedFirstStep⟩
  refine ⟨⟨?_, ?_, ?_, ?_, ?_⟩, ?_, ?_⟩
  · rw [updateWalkCore_state, hw, hs]
  · rw [hlegs, List.length_map, robotStateMachine_length, hlen]
  · rw [hc1, hlegs, flagCount_map_legStateMachine]
    unfold flagCount at hcount ⊢
    simp only at hcnt1
    omega
  · rw [hc2, hlegs, doneCount_map_legStateMachine]
    unfold doneCount at hcomp ⊢
    simp only at hcnt2
    omega
  · intro leg hleg
    rw [hlegs, List.mem_map] at hleg
    obtain ⟨l0, hl0, rfl⟩ := hleg
    rw [legStateMachine_phase]
    exact (robotStateMachine_all g WalkState.STARTING sz 0 (fun _ => True)
      (fun leg => 0 ≤ leg.phase ∧ leg.phase < g.phaseLength)
      (fun leg => 0 ≤ leg.phase ∧ leg.phase < g.phaseLength)
      (fun i _ c leg _ h =>
        ⟨trivial, (legPhaseUpdate_range g _ _ _ c leg hg.1 h).1⟩)
      w.legSteppers 0 (le_refl _) _ trivial hrange).2 l0 hl0
  · intro a ha leg hleg
    rw [hlegs, List.mem_map] at hleg
    obtain ⟨l0, hl0, rfl⟩ := hleg
    rw [admitIn_legStateMachine]
    exact (robotStateMachine_all g WalkState.STARTING sz 0 (fun _ => True)
      (fun leg => (0 ≤ leg.phase ∧ leg.phase < g.phaseLength) ∧ admitIn g leg ≤ a)
      (fun leg => admitIn g leg = 0 ∨ admitIn g leg ≤ a - 1)
      (fun i _ c leg _ h => by
        refine ⟨trivial, ?_⟩
        rcases starting_leg_admit g hg (decide (i = 0)) (sz i) c leg h.1 with h0 | h1
        · exact Or.inl h0
        · exact Or.inr (by have := h.2; omega))
      w.legSteppers 0 (le_refl _) _ trivial
      (fun l hl => ⟨hrange l hl, ha l hl⟩)).2 l0 hl0
  · intro hall m hm leg hleg
    rw [hlegs, List.mem_map] at hleg
    obtain ⟨l0, hl0, rfl⟩ := hleg
    rw [completeIn_legStateMachine, legStateMachine_inCorrectPhase]
    have h6 : w.legsInCorrectPhase = 6 := by
      rw [hcount, (flagCount_eq_length_iff w.legSteppers).mpr hall, hlen]
      rfl
    exact (robotStateMachine_all g WalkState.STARTING sz 0
      (fun c => c.legsInCorrectPhase = 6)
      (fun leg => (0 ≤ leg.phase ∧ leg.phase < g.phaseLength)
        ∧ leg.inCorrectPhase = true ∧ completeIn g leg ≤ m)
      (fun leg => leg.inCorrectPhase = true
        ∧ (completeIn g leg = 0 ∨ completeIn g leg ≤ m - 1))
      (fun i _ c leg hc h => by
        have h1 := starting_leg_complete g hg (decide (i = 0)) (sz i) c leg h.1 hc h.2.1
        refine ⟨h1.1, (starting_leg_flag_iff g _ _ c leg).mpr (Or.inl h.2.1), ?_⟩
        rcases h1.2 with h0 | h2
        · exact Or.inl h0
        · exact Or.inr (by have := h.2.2; omega))
      w.legSteppers 0 (le_refl _) _ h6
      (fun l hl => ⟨hrange l hl, hall l hl, hm l hl⟩)).2 l0 hl0

/-! ## C7: start-up -/

theorem runCore_succ (g : GaitTiming) (inp : Nat → TickInput) (n : Nat) (w : WalkController) :
    runCore g inp (n + 1) w
      = updateWalkCore g (inp n).speedNonZero (inp n).strideZero (runCore g inp n w) := rfl

theorem admitIn_bounds (g : GaitTiming) (hg : g.Cyclic) (leg : LegStepper)
    (hr : 0 ≤ leg.phase ∧ leg.phase < g.phaseLength) :
    0 ≤ admitIn g leg ∧ admitIn g leg ≤ g.phaseLength
      ∧ (admitIn g leg ≤ 0 → leg.inCorrectPhase = true) := by
  have hb := ticksToSwingEnd_bounds g hg hr
  unfold admitIn
  split_ifs with h
  · exact ⟨le_refl _, le_of_lt hg.1, fun _ => h⟩
  · exact ⟨by omega, by omega, fun h0 => by omega⟩

theorem completeIn_bounds (g : GaitTiming) (hg : g.Cyclic) (leg : LegStepper)
    (hr : 0 ≤ leg.phase ∧ leg.phase < g.phaseLength) :
    0 ≤ completeIn g leg ∧ completeIn g leg ≤ g.phaseLength
      ∧ (completeIn g leg ≤ 0 → leg.completedFirstStep = true) := by
  have hb := ticksToSwingEnd_bounds g hg hr
  unfold completeIn
  split_ifs with h
  · exact ⟨le_refl _, le_of_lt hg.1, fun _ => h⟩
  · exact ⟨by omega, by omega, fun h0 => by omega⟩

/-- The first tick of a start-up: the transition out of STOPPED seeds the phases, and the tick
is the STARTING tick of the seeded controller. -/
theorem first_starting_tick (g : GaitTiming) (sz : Nat → Bool) (w0 : WalkController)
    (hstop : w0.state = WalkState.STOPPED) (hc1 : w0.legsInCorrectPhase = 0) :
    updateWalkCore g true sz w0
      = updateWalkCore g true sz
          { w0 with
            state := WalkState.STARTING
            legSteppers := w0.legSteppers.map (fun leg => { leg with phase := leg.phaseOffset }) }
    := by
  have h1 : walkTransition true w0 = { w0 with
      state := WalkState.STARTING
      legSteppers := w0.legSteppers.map (fun leg => { leg with phase := leg.phaseOffset }) } := by
    unfold walkTransition
    simp [hstop]
  have h2 : walkTransition true { w0 with
      state := WalkState.STARTING
      legSteppers := w0.legSteppers.map (fun leg => { leg with phase := leg.phaseOffset }) }
      = { w0 with
      state := WalkState.STARTING
      legSteppers := w0.legSteppers.map (fun leg => { leg with phase := leg.phaseOffset }) } := by
    apply walkTransition_starting_stay _ _ rfl
    simp [hc1]
  unfold updateWalkCore afterPhaseLoop
  rw [h1, h2]

/-- Progress of a start-up: after `n >= 1` ticks with a non-zero commanded speed the controller
has been MOVING at some tick, or it is STARTING with every leg at most `phaseLength - n` ticks
from admission and, from tick `phaseLength` on, at most `2*phaseLength - n` ticks from the
completion of its first step. -/
theorem startup_progress (g : GaitTiming) (hg : g.Cyclic) (w0 : WalkController)
    (inp : Nat → TickInput)
    (hstop : w0.state = WalkState.STOPPED) (hc1 : w0.legsInCorrectPhase = 0)
    (hc2 : w0.legsCompletedFirstStep = 0) (hlen : w0.legSteppers.length = 6)
    (hlegs : ∀ leg ∈ w0.legSteppers, leg.inCorrectPhase = false
      ∧ leg.completedFirstStep = false
      ∧ 0 ≤ leg.phaseOffset ∧ leg.phaseOffset < g.phaseLength)
    (hspeed : ∀ k, (inp k).speedNonZero = true) (n : Nat) :
    (∃ T : Nat, T ≤ n + 1 ∧ (runCore g inp T w0).state = WalkState.MOVING)
      ∨ (StartingInv g (runCore g inp (n + 1) w0)
        ∧ (∀ leg ∈ (runCore g inp (n + 1) w0).legSteppers,
            admitIn g leg ≤ max (g.phaseLength - (n + 1 : Nat)) 0)
        ∧ (g.phaseLength ≤ (n + 1 : Nat) →
            ∀ leg ∈ (runCore g inp (n + 1) w0).legSteppers,
              completeIn g leg ≤ max (2 * g.phaseLength - (n + 1 : Nat)) 0)) := by
  induction n with
  | zero =>
    right
    have hseed : StartingInv g { w0 with
        state := WalkState.STARTING
        legSteppers := w0.legSteppers.map (fun leg => { leg with phase := leg.phaseOffset }) } := by
      refine ⟨rfl, by simp [hlen], ?_, ?_, ?_⟩
      · show w0.legsInCorrectPhase = _
        rw [hc1, eq_comm, flagCount_eq_zero_iff]
        intro leg hleg
        simp only [List.mem_map] at hleg
        obtain ⟨l0, hl0, rfl⟩ := hleg
        exact (hlegs l0 hl0).1
      · show w0.legsCompletedFirstStep = _
        rw [hc2, eq_comm]
        unfold doneCount
        rw [Int.natCast_eq_zero, List.countP_eq_zero]
        intro leg hleg
        simp only [List.mem_map] at hleg
        obtain ⟨l0, hl0, rfl⟩ := hleg
        simp [(hlegs l0 hl0).2.1]
      · intro leg hleg
        simp only [List.mem_map] at hleg
        obtain ⟨l0, hl0, rfl⟩ := hleg
        exact (hlegs l0 hl0).2.2
    have hno : ¬ (({ w0 with
        state := WalkState.STARTING
        legSteppers := w0.legSteppers.map (fun leg => { leg with phase := leg.phaseOffset }) }
          : WalkController).legsInCorrectPhase = 6 ∧ ({ w0 with
        state := WalkState.STARTING
        legSteppers := w0.legSteppers.map (fun leg => { leg with phase := leg.phaseOffset }) }
          : WalkController).legsCompletedFirstStep = 6) := by
      simp [hc1]
    have htick := starting_tick g hg true (inp 0).strideZero _ hseed hno
    have hrun : runCore g inp (0 + 1) w0 = updateWalkCore g true (inp 0).strideZero
        { w0 with
          state := WalkState.STARTING
          legSteppers := w0.legSteppers.map (fun leg => { leg with phase := leg.phaseOffset }) }
        := by
      rw [runCore_succ, hspeed 0]
      exact first_starting_tick g _ w0 hstop hc1
    rw [hrun]
    refine ⟨htick.1, ?_, ?_⟩
    · intro leg hleg
      have h1 := htick.2.1 g.phaseLength
        (fun l hl => (admitIn_bounds g hg l (hseed.2.2.2.2 l hl)).2.1) leg hleg
      push_cast
      omega
    · intro _ leg hleg
      have h1 := (completeIn_bounds g hg leg (htick.1.2.2.2.2 leg hleg)).2.1
      have := hg.1
      push_cast
      omega
  | succ n ih =>
    rcases ih with ⟨T, hT, hmov⟩ | ⟨hinv, hadm, hcomp⟩
    · exact Or.inl ⟨T, by omega, hmov⟩
    · by_cases hgo : (runCore g inp (n + 1) w0).legsInCorrectPhase = 6
          ∧ (runCore g inp (n + 1) w0).legsCompletedFirstStep = 6
      · left
        refine ⟨n + 1 + 1, le_refl _, ?_⟩
        rw [runCore_succ, updateWalkCore_state]
        exact walkTransition_starting_go _ _ hinv.1 hgo
      · right
        have htick := starting_tick g hg (inp (n + 1)).speedNonZero (inp (n + 1)).strideZero
          _ hinv hgo
        rw [runCore_succ]
        refine ⟨htick.1, ?_, ?_⟩
        · intro leg hleg
          have h1 := htick.2.1 _ hadm leg hleg
          push_cast at h1 ⊢
          omega
        · intro hL leg hleg
          have hb := completeIn_bounds g hg leg (htick.1.2.2.2.2 leg hleg)
          by_cases hLn : g.phaseLength ≤ (n + 1 : Nat)
          · have hall : ∀ l ∈ (runCore g inp (n + 1) w0).legSteppers,
                l.inCorrectPhase = true := by
              intro l hl
              apply (admitIn_bounds g hg l (hinv.2.2.2.2 l hl)).2.2
              have := hadm l hl
              push_cast at this hLn
              omega
            have h1 := (htick.2.2 hall _ (hcomp hLn) leg hleg).2
            push_cast at h1 hLn ⊢
            omega
          · push_cast at hL hLn ⊢
            omega

/-- C7 (amended): for every gait timing with a positive phase length, `swingEnd` inside the
cycle and per-leg phase offsets in `[0, phaseLength)` (such as `setGaitParams` produces),
starting from walk state STOPPED with both counters zero and the flags of all six legs clear, if
every tick commands a non-zero speed then the walk state is MOVING after some number `T` of ticks
with `T <= 2*phaseLength + 1`. -/
theorem startup_reaches_moving (g : GaitTiming) (hg : g.Cyclic) (w0 : WalkController)
    (inp : Nat → TickInput)
    (hstop : w0.state = WalkState.STOPPED) (hc1 : w0.legsInCorrectPhase = 0)
    (hc2 : w0.legsCompletedFirstStep = 0) (hlen : w0.legSteppers.length = 6)
    (hlegs : ∀ leg ∈ w0.legSteppers, leg.inCorrectPhase = false
      ∧ leg.completedFirstStep = false
      ∧ 0 ≤ leg.phaseOffset ∧ leg.phaseOffset < g.phaseLength)
    (hspeed : ∀ k, (inp k).speedNonZero = true) :
    ∃ T : Nat, (T : Int) ≤ 2 * g.phaseLength + 1
      ∧ (runCore g inp T w0).state = WalkState.MOVING := by
  have hL := hg.1
  obtain ⟨n, hn⟩ : ∃ n : Nat, ((n + 1 : Nat) : Int) = 2 * g.phaseLength :=
    ⟨(2 * g.phaseLength).toNat - 1, by omega⟩
  rcases startup_progress g hg w0 inp hstop hc1 hc2 hlen hlegs hspeed n with
    ⟨T, hT, hmov⟩ | ⟨hinv, hadm, hcomp⟩
  · exact ⟨T, by omega, hmov⟩
  · refine ⟨n + 1 + 1, by omega, ?_⟩
    rw [runCore_succ, updateWalkCore_state]
    apply walkTransition_starting_go _ _ hinv.1
    have hflag : ∀ leg ∈ (runCore g inp (n + 1) w0).legSteppers,
        leg.inCorrectPhase = true := by
      intro leg hleg
      apply (admitIn_bounds g hg leg (hinv.2.2.2.2 leg hleg)).2.2
      have := hadm leg hleg
      omega
    have hdone : ∀ leg ∈ (runCore g inp (n + 1) w0).legSteppers,
        leg.completedFirstStep = true := by
      intro leg hleg
      apply (completeIn_bounds g hg leg (hinv.2.2.2.2 leg hleg)).2.2
      have := hcomp (by omega) leg hleg
      omega
    constructor
    · rw [hinv.2.2.1, (flagCount_eq_length_iff _).mpr hflag, hinv.2.1]
      rfl
    · rw [hinv.2.2.2.1, (doneCount_eq_length_iff _).mpr hdone, hinv.2.1]
      rfl

/-- Witness for C7 (amended): the tripod gait of `tripod_setGaitParams` from the initial state,
with a non-zero command on every tick. -/
theorem startup_reaches_moving_witness :
    ∃ T : Nat, (T : Int) ≤ 2 * 8 + 1
      ∧ (runCore ⟨8, 2, 2, 6, 6⟩ (fun _ => ⟨true, fun _ => false⟩) T
          (initController [0, 4, 4, 0, 0, 4])).state = WalkState.MOVING :=
  startup_reaches_moving ⟨8, 2, 2, 6, 6⟩ ⟨by decide, by decide, by decide⟩ (initController [0, 4, 4, 0, 0, 4])
    (fun _ => ⟨true, fun _ => false⟩) rfl rfl rfl rfl (by decide) (fun _ => rfl)

/-- C7 as stated fails: for the tripod gait produced by `setGaitParams` (phase length 8, swing
band `[2, 6)`, legs 1, 2 and 5 offset by 4), starting from the initial state and commanding a
non-zero speed on every tick, the walk state is not MOVING after any number of ticks up to the
phase length 8; it first is after 12 ticks. -/
theorem startup_exceeds_phase_length :
    setGaitParams tripodParameters (1 / 8) = some ⟨⟨8, 2, 2, 6, 6⟩, 1, [0, 4, 4, 0, 0, 4]⟩
      ∧ (∀ T : Nat, T ≤ 11 →
          (runCore ⟨8, 2, 2, 6, 6⟩ (fun _ => ⟨true, fun _ => false⟩) T
            (initController [0, 4, 4, 0, 0, 4])).state ≠ WalkState.MOVING)
      ∧ (runCore ⟨8, 2, 2, 6, 6⟩ (fun _ => ⟨true, fun _ => false⟩) 12
            (initController [0, 4, 4, 0, 0, 4])).state = WalkState.MOVING := by
  refine ⟨tripod_setGaitParams, ?_, ?_⟩
  · decide
  · decide

/-! ## STOPPING: one loop iteration -/

theorem legStateMachine_forceStop_iff (g : GaitTiming) (leg : LegStepper) :
    (legStateMachine g leg).state = StepState.FORCE_STOP ↔ leg.state = StepState.FORCE_STOP := by
  unfold legStateMachine
  split_ifs <;> simp_all

theorem stopIn_legStateMachine (g : GaitTiming) (fl : Bool) (leg : LegStepper) :
    stopIn g fl (legStateMachine g leg) = stopIn g fl leg := by
  unfold stopIn
  simp only [legStateMachine_inCorrectPhase, legStateMachine_phase,
    legStateMachine_forceStop_iff]

theorem stopping_leg_counters (g : GaitTiming) (fl b : Bool) (c : Counters) (leg : LegStepper) :
    (legPhaseUpdate g WalkState.STOPPING fl b c leg).1.legsInCorrectPhase
          + (if leg.inCorrectPhase = true then 1 else 0)
        = c.legsInCorrectPhase
          + (if (legPhaseUpdate g WalkState.STOPPING fl b c leg).2.inCorrectPhase = true
              then 1 else 0) := by
  obtain ⟨ph, off, st, flag, done⟩ := leg
  cases flag <;> cases fl <;> by_cases hp : b = true ∧ ph = g.swingEnd
    <;> simp only [legPhaseUpdate, stoppingForceStop, stoppingAdvance, hp]
    <;> simp <;> split_ifs <;> simp_all

theorem stopping_leg_flag_iff (g : GaitTiming) (fl b : Bool) (c : Counters) (leg : LegStepper) :
    (legPhaseUpdate g WalkState.STOPPING fl b c leg).2.inCorrectPhase = true
      ↔ (leg.inCorrectPhase = true
          ∨ (fl = false ∧ b = true ∧ leg.phase = g.swingEnd)
          ∨ (fl = true ∧ (leg.state = StepState.FORCE_STOP ∨ (b = true ∧ leg.phase = g.swingEnd))
              ∧ Int.tmod (leg.phase + 1) g.phaseLength = 0)) := by
  obtain ⟨ph, off, st, flag, done⟩ := leg
  rcases eq_or_ne ph g.swingEnd with rfl | hp <;> cases flag <;> cases fl <;> cases b
    <;> by_cases hs : st = StepState.FORCE_STOP
    <;> simp [legPhaseUpdate, stoppingForceStop, stoppingAdvance, *]
    <;> split_ifs <;> simp_all

theorem stopping_leg_unflagged (g : GaitTiming) (fl b : Bool) (c : Counters) (leg : LegStepper)
    (h : (legPhaseUpdate g WalkState.STOPPING fl b c leg).2.inCorrectPhase = false) :
    (legPhaseUpdate g WalkState.STOPPING fl b c leg).2.phase
        = Int.tmod (leg.phase + 1) g.phaseLength
      ∧ ((legPhaseUpdate g WalkState.STOPPING fl b c leg).2.state = StepState.FORCE_STOP
          ↔ (leg.state = StepState.FORCE_STOP ∨ (b = true ∧ leg.phase = g.swingEnd))) := by
  obtain ⟨ph, off, st, flag, done⟩ := leg
  revert h
  rcases eq_or_ne ph g.swingEnd with rfl | hp <;> cases flag <;> cases fl <;> cases b
    <;> by_cases hs : st = StepState.FORCE_STOP
    <;> simp [legPhaseUpdate, stoppingForceStop, stoppingAdvance, *]
    <;> split_ifs <;> simp_all

theorem stopping_leg_progress (g : GaitTiming) (hg : g.Cyclic) (fl : Bool) (c : Counters)
    (leg : LegStepper) (hr : 0 ≤ leg.phase ∧ leg.phase < g.phaseLength) :
    stopIn g fl (legPhaseUpdate g WalkState.STOPPING fl true c leg).2 = 0
      ∨ stopIn g fl (legPhaseUpdate g WalkState.STOPPING fl true c leg).2
          ≤ stopIn g fl leg - 1 := by
  by_cases hflag : (legPhaseUpdate g WalkState.STOPPING fl true c leg).2.inCorrectPhase = true
  · left
    simp [stopIn, hflag]
  · right
    have hflag' : (legPhaseUpdate g WalkState.STOPPING fl true c leg).2.inCorrectPhase = false := by
      simpa using hflag
    obtain ⟨hph, hst⟩ := stopping_leg_unflagged g fl true c leg hflag'
    have hiff := stopping_leg_flag_iff g fl true c leg
    have hn := fun h => hflag (hiff.mpr h)
    have h1 : ¬ leg.inCorrectPhase = true := fun h => hn (Or.inl h)
    have ht := tmod_succ_eq hr.1 hr.2
    obtain ⟨g1, g2, g3⟩ := hg
    unfold stopIn
    simp only [hflag', h1, hph, hst, Bool.false_eq_true, if_false, true_and]
    cases fl
    · have h2 : leg.phase ≠ g.swingEnd := fun h => hn (Or.inr (Or.inl ⟨rfl, rfl, h⟩))
      simp only [Bool.false_eq_true, if_false]
      rw [ticksToSwingEnd_succ g ⟨g1, g2, g3⟩ hr h2]
      omega
    · simp only [if_true]
      by_cases hf : leg.state = StepState.FORCE_STOP ∨ leg.phase = g.swingEnd
      · have hz : Int.tmod (leg.phase + 1) g.phaseLength ≠ 0 :=
          fun h => hn (Or.inr (Or.inr ⟨rfl, by simpa using hf, h⟩))
        rw [if_pos hf]
        rw [ht] at hz ⊢
        unfold ticksToSwingEnd
        split_ifs at hz ⊢ <;> omega
      · rw [if_neg hf]
        have h2 : leg.phase ≠ g.swingEnd := fun h => hf (Or.inr h)
        have h3 : ¬ leg.state = StepState.FORCE_STOP := fun h => hf (Or.inl h)
        rw [if_neg h3, ticksToSwingEnd_succ g ⟨g1, g2, g3⟩ hr h2]
        omega

theorem stopIn_bounds (g : GaitTiming) (hg : g.Cyclic) (fl : Bool) (leg : LegStepper)
    (hr : 0 ≤ leg.phase ∧ leg.phase < g.phaseLength) :
    0 ≤ stopIn g fl leg ∧ stopIn g fl leg ≤ 2 * g.phaseLength
      ∧ (stopIn g fl leg ≤ 0 → leg.inCorrectPhase = true) := by
  have hb := ticksToSwingEnd_bounds g hg hr
  obtain ⟨h1, h2, h3⟩ := hg
  unfold stopIn
  split_ifs with h
  · exact ⟨le_refl _, by omega, fun _ => h⟩
  · exact ⟨by omega, by omega, fun h0 => by omega⟩
  · exact ⟨by omega, by omega, fun h0 => by omega⟩
  · exact ⟨by omega, by omega, fun h0 => by omega⟩

/-! ## STOPPING: one tick -/

theorem walkTransition_stopping_go (b : Bool) (w : WalkController)
    (hs : w.state = WalkState.STOPPING) (hgo : w.legsInCorrectPhase = 6) :
    (walkTransition b w).state = WalkState.STOPPED := by
  unfold walkTransition NUM_LEGS
  simp [hs, hgo]

theorem walkTransition_stopped_stay (w : WalkController) (hs : w.state = WalkState.STOPPED) :
    (walkTransition false w).state = WalkState.STOPPED := by
  unfold walkTransition
  simp [hs]

/-- With a zero commanded speed and fewer than six legs counted, the transition step leaves the
controller in STOPPING with everything else untouched. -/
theorem walkTransition_to_stopping (g : GaitTiming) (w : WalkController)
    (hinv : StoppingInv g w) (hno : w.legsInCorrectPhase ≠ 6) :
    walkTransition false w = { w with state := WalkState.STOPPING } := by
  unfold walkTransition NUM_LEGS
  rcases hinv.1 with hs | ⟨hs, _⟩
  · simp [hs, hno]
    cases w
    simp_all
  · simp [hs]

/-- One tick with a zero commanded speed from a controller that is stopping (or MOVING) and
has fewer than six legs counted: the loop runs in STOPPING, the invariant is kept, and when every
stride vector is zero every leg gets one tick closer to being in correct phase. -/
theorem stopping_tick (g : GaitTiming) (hg : g.Cyclic) (sz : Nat → Bool) (w : WalkController)
    (hinv : StoppingInv g w) (hno : w.legsInCorrectPhase ≠ 6) :
    (updateWalkCore g false sz w).state = WalkState.STOPPING
      ∧ StoppingInv g (updateWalkCore g false sz w)
      ∧ ((∀ i, sz i = true) → ∀ n : Int, StopBound g n w.legSteppers →
          StopBound g (max (n - 1) 0) (updateWalkCore g false sz w).legSteppers) := by
  have hw := walkTransition_to_stopping g w hinv hno
  obtain ⟨_, hlen, hcount, hrange⟩ := hinv
  have hstate : (updateWalkCore g false sz w).state = WalkState.STOPPING := by
    rw [updateWalkCore_state, hw]
  have hlegs : (updateWalkCore g false sz w).legSteppers
      = (robotStateMachine g WalkState.STOPPING sz 0
          ⟨w.legsInCorrectPhase, w.legsCompletedFirstStep⟩ w.legSteppers).2.map
          (legStateMachine g) := by
    simp only [updateWalkCore, afterPhaseLoop, hw]
  have hc1 : (updateWalkCore g false sz w).legsInCorrectPhase
      = (robotStateMachine g WalkState.STOPPING sz 0
          ⟨w.legsInCorrectPhase, w.legsCompletedFirstStep⟩ w.legSteppers).1.legsInCorrectPhase := by
    simp only [updateWalkCore, afterPhaseLoop, hw]
  have hcnt1 := robotStateMachine_count g WalkState.STOPPING sz
    (fun c => c.legsInCorrectPhase) (fun leg => leg.inCorrectPhase)
    (fun fl b c leg => stopping_leg_counters g fl b c leg) w.legSteppers 0
    ⟨w.legsInCorrectPhase, w.legsCompletedFirstStep⟩
  refine ⟨hstate, ⟨Or.inl hstate, ?_, ?_, ?_⟩, ?_⟩
  · rw [hlegs, List.length_map, robotStateMachine_length, hlen]
  · rw [hc1, hlegs, flagCount_map_legStateMachine]
    unfold flagCount at hcount ⊢
    simp only at hcnt1
    omega
  · intro leg hleg
    rw [hlegs, List.mem_map] at hleg
    obtain ⟨l0, hl0, rfl⟩ := hleg
    rw [legStateMachine_phase]
    exact (robotStateMachine_all g WalkState.STOPPING sz 0 (fun _ => True)
      (fun leg => 0 ≤ leg.phase ∧ leg.phase < g.phaseLength)
      (fun leg => 0 ≤ leg.phase ∧ leg.phase < g.phaseLength)
      (fun i _ c leg _ h =>
        ⟨trivial, (legPhaseUpdate_range g _ _ _ c leg hg.1 h).1⟩)
      w.legSteppers 0 (le_refl _) _ trivial hrange).2 l0 hl0
  · intro hsz n hb
    rw [hlegs]
    cases hl : w.legSteppers with
    | nil => simp [robotStateMachine, StopBound]
    | cons fl rest =>
      rw [hl] at hb hrange
      obtain ⟨hfl, hrest⟩ := hb
      simp only [robotStateMachine, List.map_cons, StopBound, decide_True, hsz]
      constructor
      · rw [stopIn_legStateMachine]
        rcases stopping_leg_progress g hg true _ fl (hrange fl (List.mem_cons_self _ _))
          with h0 | h1
        · rw [h0]; exact le_max_right _ _
        · exact le_trans (by omega) (le_max_left _ _)
      · intro leg hleg
        rw [List.mem_map] at hleg
        obtain ⟨l0, hl0, rfl⟩ := hleg
        rw [stopIn_legStateMachine]
        exact (robotStateMachine_all g WalkState.STOPPING sz 1 (fun _ => True)
          (fun leg => (0 ≤ leg.phase ∧ leg.phase < g.phaseLength) ∧ stopIn g false leg ≤ n)
          (fun leg => stopIn g false leg ≤ max (n - 1) 0)
          (fun i hi c leg _ h => by
            refine ⟨trivial, ?_⟩
            have hi0 : decide (i = 0) = false := by simp; omega
            simp only [hi0, hsz i]
            rcases stopping_leg_progress g hg false c leg h.1 with h0 | h1
            · rw [h0]; exact le_max_right _ _
            · exact le_trans (by have := h.2; omega) (le_max_left _ _))
          rest 1 (le_refl _) _ trivial
          (fun l hl' => ⟨hrange l (List.mem_cons_of_mem _ hl'), hrest l hl'⟩)).2 l0 hl0

/-! ## Velocities under a zero command -/

theorem vnorm_nonneg (v : ℝ × ℝ) : 0 ≤ vnorm v := Real.sqrt_nonneg _

theorem vnorm_zero : vnorm (0, 0) = 0 := by
  simp [vnorm]

theorem vnorm_eq_zero {v : ℝ × ℝ} (h : vnorm v = 0) : v = (0, 0) := by
  unfold vnorm at h
  have h0 : v.1 ^ 2 + v.2 ^ 2 = 0 := (Real.sqrt_eq_zero (by positivity)).mp h
  have h1 : v.1 = 0 := by nlinarith [sq_nonneg v.1, sq_nonneg v.2]
  have h2 : v.2 = 0 := by nlinarith [sq_nonneg v.1, sq_nonneg v.2]
  exact Prod.ext h1 h2

theorem vnorm_scale (c : ℝ) (v : ℝ × ℝ) : vnorm (c * v.1, c * v.2) = |c| * vnorm v := by
  unfold vnorm
  have h : (c * v.1) ^ 2 + (c * v.2) ^ 2 = c ^ 2 * (v.1 ^ 2 + v.2 ^ 2) := by ring
  rw [h, Real.sqrt_mul (sq_nonneg c), Real.sqrt_sq_eq_abs]

theorem vnorm_neg (v : ℝ × ℝ) : vnorm (0 - v.1, 0 - v.2) = vnorm v := by
  unfold vnorm
  congr 1
  ring

/-- The rate limiter toward zero on a scalar: the magnitude drops by `d`, or to zero. -/
theorem scalar_decay (x d : ℝ) :
    |(if |0 - x| > 0 then x + (0 - x) * min 1 (d / |0 - x|) else x)| ≤ max (|x| - d) 0 := by
  have habs : |0 - x| = |x| := by rw [zero_sub, abs_neg]
  rw [habs]
  split_ifs with h
  · rcases le_total 1 (d / |x|) with h1 | h1
    · rw [min_eq_left h1]
      have : x + (0 - x) * 1 = 0 := by ring
      rw [this, abs_zero]
      exact le_max_right _ _
    · rw [min_eq_right h1]
      have hx : x + (0 - x) * (d / |x|) = (1 - d / |x|) * x := by ring
      have h2 : 0 ≤ 1 - d / |x| := by linarith
      rw [hx, abs_mul, abs_of_nonneg h2]
      have h3 : (1 - d / |x|) * |x| = |x| - d := by
        field_simp
      rw [h3]
      exact le_max_left _ _
  · have hx : |x| = 0 := le_antisymm (not_lt.mp h) (abs_nonneg x)
    rw [hx]
    exact le_trans (by linarith) (le_max_right _ _)

/-- The rate limiter toward zero on a vector: the norm drops by `d`, or to zero. -/
theorem vector_decay (v : ℝ × ℝ) (d : ℝ) :
    vnorm (if vnorm (0 - v.1, 0 - v.2) > 0 then
        (v.1 + (0 - v.1) * min 1 (d / vnorm (0 - v.1, 0 - v.2)),
         v.2 + (0 - v.2) * min 1 (d / vnorm (0 - v.1, 0 - v.2)))
      else v) ≤ max (vnorm v - d) 0 := by
  rw [vnorm_neg]
  split_ifs with h
  · rcases le_total 1 (d / vnorm v) with h1 | h1
    · rw [min_eq_left h1]
      have h2 : (v.1 + (0 - v.1) * 1, v.2 + (0 - v.2) * 1) = ((0 : ℝ), (0 : ℝ)) := by
        ext <;> simp
      rw [h2, vnorm_zero]
      exact le_max_right _ _
    · rw [min_eq_right h1]
      have h2 : (v.1 + (0 - v.1) * (d / vnorm v), v.2 + (0 - v.2) * (d / vnorm v))
          = ((1 - d / vnorm v) * v.1, (1 - d / vnorm v) * v.2) := by
        ext <;> simp <;> ring
      have h3 : 0 ≤ 1 - d / vnorm v := by linarith
      rw [h2, vnorm_scale, abs_of_nonneg h3]
      have h4 : (1 - d / vnorm v) * vnorm v = vnorm v - d := by
        field_simp
      rw [h4]
      exact le_max_left _ _
  · have hx : vnorm v = 0 := le_antisymm (not_lt.mp h) (vnorm_nonneg v)
    rw [hx]
    exact le_trans (by linarith) (le_max_right _ _)

theorem localVelocity_zero (W : Walker) : localVelocity W (0, 0) = (0, 0) := by
  unfold localVelocity
  split_ifs <;> simp

theorem normalSpeed_zero (W : Walker) : normalSpeed W (0, 0) = 0 := by
  unfold normalSpeed
  rw [localVelocity_zero, vnorm_zero]

theorem nextAngularVelocity_decay (W : Walker) (curv : ℝ) :
    |nextAngularVelocity W (0, 0) curv|
      ≤ max (|W.angularVelocity| - W.maxCurvatureSpeed * W.timeDelta) 0 := by
  unfold nextAngularVelocity
  simp only [normalSpeed_zero, mul_zero, zero_div]
  exact scalar_decay W.angularVelocity _

theorem nextCentreVelocity_decay (W : Walker) (curv : ℝ) :
    vnorm (nextCentreVelocity W (0, 0) curv)
      ≤ max (vnorm W.localCentreVelocity - W.maxAcceleration * W.timeDelta) 0 := by
  unfold nextCentreVelocity
  simp only [localVelocity_zero, zero_mul]
  exact vector_decay W.localCentreVelocity _

theorem strideOf_zero (W : Walker) (tip : ℝ × ℝ) : strideOf W (0, 0) 0 tip = (0, 0) := by
  unfold strideOf
  simp

/-! ## The bookkeeping invariant -/

theorem robotStateMachine_stopped (g : GaitTiming) (sz : Nat → Bool) (legs : List LegStepper) :
    ∀ (i : Nat) (c : Counters),
      robotStateMachine g WalkState.STOPPED sz i c legs
        = (c, legs.map (fun leg =>
            { leg with inCorrectPhase := false, completedFirstStep := false, phase := 0,
                       state := StepState.STANCE })) := by
  induction legs with
  | nil => intro i c; rfl
  | cons leg rest ih =>
    intro i c
    simp [robotStateMachine, legPhaseUpdate, ih]

/-- The transition step keeps the number of legs and their flags; it leaves the counter
`legsInCorrectPhase` alone unless it enters MOVING or STOPPED, where it resets it. -/
theorem walkTransition_bookkeeping (b : Bool) (w : WalkController) :
    (walkTransition b w).legSteppers.length = w.legSteppers.length
      ∧ flagCount (walkTransition b w).legSteppers = flagCount w.legSteppers
      ∧ ((walkTransition b w).legsInCorrectPhase = w.legsInCorrectPhase
          ∨ ((walkTransition b w).legsInCorrectPhase = 0
              ∧ (walkTransition b w).state ≠ w.state))
      ∧ (((walkTransition b w).state = WalkState.MOVING
            ∨ (walkTransition b w).state = WalkState.STOPPED) →
          (walkTransition b w).state = w.state ∨ (walkTransition b w).legsInCorrectPhase = 0) := by
  unfold walkTransition
  split_ifs with h1 h2 h3 h4
  · refine ⟨by simp, ?_, Or.inl rfl, by simp⟩
    unfold flagCount
    rw [List.countP_map]
    rfl
  · exact ⟨rfl, rfl, Or.inr ⟨rfl, by simp [h2.1]⟩, fun _ => Or.inr rfl⟩
  · exact ⟨rfl, rfl, Or.inl rfl, by simp⟩
  · exact ⟨rfl, rfl, Or.inr ⟨rfl, by simp [h4.1]⟩, fun _ => Or.inr rfl⟩
  · exact ⟨rfl, rfl, Or.inl rfl, fun _ => Or.inl rfl⟩

/-- The bookkeeping invariant is kept by every tick. -/
theorem updateWalkCore_consistent (g : GaitTiming) (hg : g.Cyclic) (b : Bool)
    (sz : Nat → Bool) (w : WalkController) (h : Consistent g w) :
    Consistent g (updateWalkCore g b sz w) := by
  obtain ⟨hlen, hcount, hclear, hrange⟩ := h
  obtain ⟨t1, t2, t3, t4⟩ := walkTransition_bookkeeping b w
  have hlegs : (updateWalkCore g b sz w).legSteppers
      = (robotStateMachine g (walkTransition b w).state sz 0
          ⟨(walkTransition b w).legsInCorrectPhase,
            (walkTransition b w).legsCompletedFirstStep⟩
          (walkTransition b w).legSteppers).2.map (legStateMachine g) := rfl
  have hc1 : (updateWalkCore g b sz w).legsInCorrectPhase
      = (robotStateMachine g (walkTransition b w).state sz 0
          ⟨(walkTransition b w).legsInCorrectPhase,
            (walkTransition b w).legsCompletedFirstStep⟩
          (walkTransition b w).legSteppers).1.legsInCorrectPhase := rfl
  have hst : (updateWalkCore g b sz w).state = (walkTransition b w).state := rfl
  refine ⟨?_, ?_, ?_, updateWalkCore_range g b sz w hg.1 hrange⟩
  · rw [hlegs, List.length_map, robotStateMachine_length, t1, hlen]
  · rw [hc1, hlegs, flagCount_map_legStateMachine]
    cases hs : (walkTransition b w).state
    · have hcnt := robotStateMachine_count g WalkState.STARTING sz
        (fun c => c.legsInCorrectPhase) (fun leg => leg.inCorrectPhase)
        (fun fl b c leg => (starting_leg_counters g fl b c leg).1)
        (walkTransition b w).legSteppers 0
        ⟨(walkTransition b w).legsInCorrectPhase, (walkTransition b w).legsCompletedFirstStep⟩
      have hsame : (walkTransition b w).legsInCorrectPhase = w.legsInCorrectPhase := by
        unfold walkTransition at hs ⊢
        split_ifs at hs ⊢ <;> simp_all
      unfold flagCount at hcount t2 ⊢
      simp only at hcnt
      omega
    · rw [robotStateMachine_moving]
      have h0 : (walkTransition b w).legsInCorrectPhase = 0 := by
        rcases t4 (Or.inl hs) with h | h
        · rcases t3 with h3 | h3
          · rw [h3, hcount, flagCount_eq_zero_iff]
            exact hclear (Or.inl (by rw [← h, hs]))
          · exact h3.1
        · exact h
      simp only [h0]
      rw [eq_comm, flagCount_eq_zero_iff]
      intro leg hleg
      simp only [List.mem_map] at hleg
      obtain ⟨l0, _, rfl⟩ := hleg
      rfl
    · have hcnt := robotStateMachine_count g WalkState.STOPPING sz
        (fun c => c.legsInCorrectPhase) (fun leg => leg.inCorrectPhase)
        (fun fl b c leg => stopping_leg_counters g fl b c leg)
        (walkTransition b w).legSteppers 0
        ⟨(walkTransition b w).legsInCorrectPhase, (walkTransition b w).legsCompletedFirstStep⟩
      have hsame : (walkTransition b w).legsInCorrectPhase = w.legsInCorrectPhase := by
        unfold walkTransition at hs ⊢
        split_ifs at hs ⊢ <;> simp_all
      unfold flagCount at hcount t2 ⊢
      simp only at hcnt
      omega
    · rw [robotStateMachine_stopped]
      have h0 : (walkTransition b w).legsInCorrectPhase = 0 := by
        rcases t4 (Or.inr hs) with h | h
        · rcases t3 with h3 | h3
          · rw [h3, hcount, flagCount_eq_zero_iff]
            exact hclear (Or.inr (by rw [← h, hs]))
          · exact h3.1
        · exact h
      simp only [h0]
      rw [eq_comm, flagCount_eq_zero_iff]
      intro leg hleg
      simp only [List.mem_map] at hleg
      obtain ⟨l0, _, rfl⟩ := hleg
      rfl
  · intro hms leg hleg
    rw [hst] at hms
    rw [hlegs, List.mem_map] at hleg
    obtain ⟨l0, hl0, rfl⟩ := hleg
    rw [legStateMachine_inCorrectPhase]
    rcases hms with hs | hs
    · rw [hs, robotStateMachine_moving] at hl0
      simp only [List.mem_map] at hl0
      obtain ⟨l1, _, rfl⟩ := hl0
      rfl
    · rw [hs, robotStateMachine_stopped] at hl0
      simp only [List.mem_map] at hl0
      obtain ⟨l1, _, rfl⟩ := hl0
      rfl

theorem initController_consistent (g : GaitTiming) (hg : g.Cyclic) (offs : List Int)
    (hlen : offs.length = 6) (hoffs : ∀ off ∈ offs, 0 ≤ off ∧ off < g.phaseLength) :
    Consistent g (initController offs) := by
  refine ⟨by simp [initController, hlen], ?_, ?_, ?_⟩
  · show (0 : Int) = _
    rw [eq_comm, flagCount_eq_zero_iff]
    intro leg hleg
    simp only [initController, List.mem_map] at hleg
    obtain ⟨off, _, rfl⟩ := hleg
    rfl
  · intro _ leg hleg
    simp only [initController, List.mem_map] at hleg
    obtain ⟨off, _, rfl⟩ := hleg
    rfl
  · intro leg hleg
    simp only [initController, List.mem_map] at hleg
    obtain ⟨off, hoff, rfl⟩ := hleg
    exact ⟨⟨le_refl _, hg.1⟩, hoffs off hoff⟩

/-- Every state reachable from the initial state satisfies the bookkeeping invariant. -/
theorem reachable_consistent (g : GaitTiming) (hg : g.Cyclic) (offs : List Int)
    (hlen : offs.length = 6) (hoffs : ∀ off ∈ offs, 0 ≤ off ∧ off < g.phaseLength)
    (w : WalkController) (hw : Reachable g (initController offs) w) : Consistent g w := by
  induction hw with
  | start => exact initController_consistent g hg offs hlen hoffs
  | tick b sz w _ ih => exact updateWalkCore_consistent g hg b sz w ih

theorem reachable_runCore (g : GaitTiming) (inp : Nat → TickInput) (w0 : WalkController)
    (n : Nat) : Reachable g w0 (runCore g inp n w0) := by
  induction n with
  | zero => exact Reachable.start
  | succ n ih => exact Reachable.tick _ _ _ ih

/-! ## C8: shutdown -/

theorem stopBound_of_range (g : GaitTiming) (hg : g.Cyclic) (legs : List LegStepper)
    (hr : PhasesInRange g legs) : StopBound g (2 * g.phaseLength) legs := by
  cases legs with
  | nil => trivial
  | cons fl rest =>
    exact ⟨(stopIn_bounds g hg true fl (hr fl (List.mem_cons_self _ _))).2.1,
      fun leg hleg => (stopIn_bounds g hg false leg (hr leg (List.mem_cons_of_mem _ hleg))).2.1⟩

theorem all_flagged_of_stopBound (g : GaitTiming) (hg : g.Cyclic) (legs : List LegStepper)
    (hr : PhasesInRange g legs) (n : Int) (hn : n ≤ 0) (hb : StopBound g n legs) :
    ∀ leg ∈ legs, leg.inCorrectPhase = true := by
  cases legs with
  | nil => simp
  | cons fl rest =>
    intro leg hleg
    rcases List.mem_cons.mp hleg with rfl | h
    · exact (stopIn_bounds g hg true leg (hr leg hleg)).2.2 (le_trans hb.1 hn)
    · exact (stopIn_bounds g hg false leg (hr leg hleg)).2.2 (le_trans (hb.2 leg h) hn)

/-- One tick of `updateWalk` with a zero command: the ASSERT holds, the parameters are kept, the
velocities decay, and the discrete members take a tick with a zero speed, in which every stride
vector is zero as soon as both velocities are. -/
theorem updateWalk_zero_command (curv : ℝ) (tip : Nat → ℝ × ℝ) (W : Walker) :
    ∃ W1 : Walker, updateWalk (0, 0) curv tip W = some W1
      ∧ W1.timing = W.timing ∧ W1.timeDelta = W.timeDelta
      ∧ W1.maxAcceleration = W.maxAcceleration ∧ W1.maxCurvatureSpeed = W.maxCurvatureSpeed
      ∧ vnorm W1.localCentreVelocity
          ≤ max (vnorm W.localCentreVelocity - W.maxAcceleration * W.timeDelta) 0
      ∧ |W1.angularVelocity| ≤ max (|W.angularVelocity| - W.maxCurvatureSpeed * W.timeDelta) 0
      ∧ ∃ sz : Nat → Bool, W1.core = updateWalkCore W.timing false sz W.core
          ∧ (vnorm W1.localCentreVelocity = 0 → W1.angularVelocity = 0 → ∀ i, sz i = true) := by
  have hlt : normalSpeed W (0, 0) < 1.01 := by
    rw [normalSpeed_zero]
    norm_num
  unfold updateWalk
  rw [if_pos hlt]
  refine ⟨_, rfl, rfl, rfl, rfl, rfl, nextCentreVelocity_decay W curv,
    nextAngularVelocity_decay W curv,
    fun i => decide (vnorm (strideOf W (nextCentreVelocity W (0, 0) curv)
      (nextAngularVelocity W (0, 0) curv) (tip i)) = 0), ?_, ?_⟩
  · simp only [normalSpeed_zero, ne_eq, not_true_eq_false, decide_False]
  · intro hv hw i
    simp only at hv hw
    rw [vnorm_eq_zero hv, hw]
    simp only [strideOf_zero, vnorm_zero, decide_True]

theorem stopBound_mono (g : GaitTiming) (legs : List LegStepper) (m n : Int) (hmn : m ≤ n)
    (h : StopBound g m legs) : StopBound g n legs := by
  cases legs with
  | nil => trivial
  | cons fl rest => exact ⟨le_trans h.1 hmn, fun leg hleg => le_trans (h.2 leg hleg) hmn⟩

theorem decay_step {x V d : ℝ} (n : Nat) (hd : 0 ≤ d) (hx : x ≤ max (V - n * d) 0) :
    max (x - d) 0 ≤ max (V - (n + 1 : Nat) * d) 0 := by
  apply max_le _ (le_max_right _ _)
  rcases le_max_iff.mp hx with h | h
  · apply le_max_of_le_left
    push_cast
    linarith
  · apply le_max_of_le_right
    linarith

theorem decayed_zero {x V d : ℝ} (n N0 : Nat) (hd : 0 ≤ d) (hx0 : 0 ≤ x)
    (hV : V ≤ N0 * d) (hn : N0 ≤ n) (hx : x ≤ max (V - n * d) 0) : x = 0 := by
  have h1 : (N0 : ℝ) * d ≤ (n : ℝ) * d :=
    mul_le_mul_of_nonneg_right (by exact_mod_cast hn) hd
  have h2 : max (V - n * d) 0 = 0 := max_eq_right (by linarith)
  rw [h2] at hx
  exact le_antisymm hx hx0

/-- Progress of a shutdown under zero commands: after `n` ticks the walker exists, its
velocities have decayed by `n` rate steps, and its discrete part is STOPPED, or still stopping
with every leg, from the tick `N0` at which the velocities have vanished, at most
`2*phaseLength - (n - N0)` ticks from being in correct phase. -/
theorem shutdown_progress (W : Walker) (curv : Nat → ℝ) (tip : Nat → Nat → ℝ × ℝ)
    (hg : W.timing.Cyclic) (hinv : StoppingInv W.timing W.core)
    (hdt : 0 < W.timeDelta) (hacc : 0 < W.maxAcceleration) (hcurv : 0 < W.maxCurvatureSpeed)
    (N0 : Nat)
    (hV : vnorm W.localCentreVelocity ≤ N0 * (W.maxAcceleration * W.timeDelta))
    (hO : |W.angularVelocity| ≤ N0 * (W.maxCurvatureSpeed * W.timeDelta)) (n : Nat) :
    ∃ Wn : Walker, runWalk (fun _ => (0, 0)) curv tip n W = some Wn
      ∧ Wn.timing = W.timing ∧ Wn.timeDelta = W.timeDelta
      ∧ Wn.maxAcceleration = W.maxAcceleration ∧ Wn.maxCurvatureSpeed = W.maxCurvatureSpeed
      ∧ vnorm Wn.localCentreVelocity
          ≤ max (vnorm W.localCentreVelocity - n * (W.maxAcceleration * W.timeDelta)) 0
      ∧ |Wn.angularVelocity|
          ≤ max (|W.angularVelocity| - n * (W.maxCurvatureSpeed * W.timeDelta)) 0
      ∧ (Wn.core.state = WalkState.STOPPED
          ∨ (StoppingInv W.timing Wn.core
            ∧ (N0 ≤ n → StopBound W.timing
                (max (2 * W.timing.phaseLength - ((n : Int) - (N0 : Int))) 0)
                Wn.core.legSteppers))) := by
  have hda : 0 ≤ W.maxAcceleration * W.timeDelta := le_of_lt (mul_pos hacc hdt)
  have hdc : 0 ≤ W.maxCurvatureSpeed * W.timeDelta := le_of_lt (mul_pos hcurv hdt)
  induction n with
  | zero =>
    refine ⟨W, rfl, rfl, rfl, rfl, rfl, ?_, ?_, Or.inr ⟨hinv, ?_⟩⟩
    · exact le_max_of_le_left (by simp)
    · exact le_max_of_le_left (by simp)
    · intro hN
      apply stopBound_mono _ _ _ _ _ (stopBound_of_range W.timing hg _ hinv.2.2.2)
      have := hg.1
      omega
  | succ n ih =>
    obtain ⟨Wn, hrun, ht, hdtn, han, hcn, hvn, hon, hcore⟩ := ih
    obtain ⟨W1, hstep, ht1, hdt1, ha1, hc1, hv1, ho1, sz, hcore1, hsz⟩ :=
      updateWalk_zero_command (curv n) (tip n) Wn
    rw [han, hdtn] at hv1
    rw [hcn, hdtn] at ho1
    rw [ht] at ht1 hcore1
    have hv1' := le_trans hv1 (decay_step n hda hvn)
    have ho1' := le_trans ho1 (decay_step n hdc hon)
    refine ⟨W1, ?_, ht1, hdt1.trans hdtn, ha1.trans han, hc1.trans hcn, hv1', ho1', ?_⟩
    · show (runWalk (fun _ => (0, 0)) curv tip n W).bind _ = _
      rw [hrun]
      exact hstep
    · rcases hcore with hstopped | ⟨hinvn, hbound⟩
      · left
        rw [hcore1, updateWalkCore_state]
        exact walkTransition_stopped_stay _ hstopped
      · by_cases h6 : Wn.core.legsInCorrectPhase = 6
        · left
          rw [hcore1, updateWalkCore_state]
          apply walkTransition_stopping_go _ _ _ h6
          rcases hinvn.1 with hs | ⟨_, h0⟩
          · exact hs
          · omega
        · right
          obtain ⟨_, hinv1, hdec⟩ := stopping_tick W.timing hg sz Wn.core hinvn h6
          rw [← hcore1] at hinv1 hdec
          refine ⟨hinv1, ?_⟩
          intro hN
          by_cases hNn : N0 ≤ n
          · have hz1 : vnorm W1.localCentreVelocity = 0 :=
              decayed_zero (n + 1) N0 hda (vnorm_nonneg _) hV (by omega) hv1'
            have hz2 : W1.angularVelocity = 0 :=
              abs_eq_zero.mp (decayed_zero (n + 1) N0 hdc (abs_nonneg _) hO (by omega) ho1')
            apply stopBound_mono _ _ _ _ _ (hdec (hsz hz1 hz2) _ (hbound hNn))
            push_cast
            omega
          · apply stopBound_mono _ _ _ _ _ (stopBound_of_range W.timing hg _ hinv1.2.2.2)
            have := hg.1
            push_cast
            omega

/-- C8: let the discrete part of the walker be a state reachable from the initial state (six
legs, phase offsets inside the cycle, a cyclic timing with `swingEnd` inside the cycle and a
non-negative `swingStart`) whose walk state is MOVING, with any velocities, let `time_delta`,
`max_acceleration` and `max_curvature_speed` be positive, and let `stanceRadius` and
`stepFrequency`, by which the tick divides, be non-zero. If every subsequent tick commands zero
velocity (with any curvature and any tip positions, in exact real arithmetic), every tick returns
and there is a number `n` of ticks after which the walk state is STOPPED. -/
theorem shutdown_reaches_stopped (W : Walker) (offs : List Int) (curv : Nat → ℝ)
    (tip : Nat → Nat → ℝ × ℝ)
    (hg : W.timing.Cyclic) (_hstart : 0 ≤ W.timing.swingStart) (hlen : offs.length = 6)
    (hoffs : ∀ off ∈ offs, 0 ≤ off ∧ off < W.timing.phaseLength)
    (hreach : Reachable W.timing (initController offs) W.core)
    (hmoving : W.core.state = WalkState.MOVING)
    (hdt : 0 < W.timeDelta) (hacc : 0 < W.maxAcceleration) (hcurv : 0 < W.maxCurvatureSpeed)
    (_hradius : W.stanceRadius ≠ 0) (_hfrequency : W.stepFrequency ≠ 0) :
    ∃ (n : Nat) (W1 : Walker), runWalk (fun _ => (0, 0)) curv tip n W = some W1
      ∧ W1.core.state = WalkState.STOPPED := by
  obtain ⟨hl, hcount, hclear, hrange⟩ := reachable_consistent W.timing hg offs hlen hoffs _ hreach
  have hc0 : W.core.legsInCorrectPhase = 0 := by
    rw [hcount, flagCount_eq_zero_iff]
    exact hclear (Or.inl hmoving)
  have hinv : StoppingInv W.timing W.core :=
    ⟨Or.inr ⟨hmoving, hc0⟩, hl, hcount, fun leg hleg => (hrange leg hleg).1⟩
  have hda : 0 < W.maxAcceleration * W.timeDelta := mul_pos hacc hdt
  have hdc : 0 < W.maxCurvatureSpeed * W.timeDelta := mul_pos hcurv hdt
  obtain ⟨N0, hN0⟩ := exists_nat_ge
    (max (vnorm W.localCentreVelocity / (W.maxAcceleration * W.timeDelta))
      (|W.angularVelocity| / (W.maxCurvatureSpeed * W.timeDelta)))
  have hV : vnorm W.localCentreVelocity ≤ N0 * (W.maxAcceleration * W.timeDelta) :=
    (div_le_iff₀ hda).mp (le_trans (le_max_left _ _) hN0)
  have hO : |W.angularVelocity| ≤ N0 * (W.maxCurvatureSpeed * W.timeDelta) :=
    (div_le_iff₀ hdc).mp (le_trans (le_max_right _ _) hN0)
  obtain ⟨Wn, hrun, ht, _, _, _, _, _, hcore⟩ :=
    shutdown_progress W curv tip hg hinv hdt hacc hcurv N0 hV hO
      (N0 + (2 * W.timing.phaseLength).toNat)
  rcases hcore with hstopped | ⟨hinvn, hbound⟩
  · exact ⟨_, Wn, hrun, hstopped⟩
  · have hL := hg.1
    have hflag := all_flagged_of_stopBound W.timing hg _ hinvn.2.2.2 _ (le_refl _)
      (stopBound_mono _ _ _ 0 (by push_cast; omega) (hbound (by omega)))
    have h6 : Wn.core.legsInCorrectPhase = 6 := by
      rw [hinvn.2.2.1, (flagCount_eq_length_iff _).mpr hflag, hinvn.2.1]
      rfl
    have hs : Wn.core.state = WalkState.STOPPING := by
      rcases hinvn.1 with hs | ⟨_, h0⟩
      · exact hs
      · omega
    obtain ⟨W1, hstep, _, _, _, _, _, _, sz, hcore1, _⟩ :=
      updateWalk_zero_command (curv (N0 + (2 * W.timing.phaseLength).toNat))
        (tip (N0 + (2 * W.timing.phaseLength).toNat)) Wn
    refine ⟨N0 + (2 * W.timing.phaseLength).toNat + 1, W1, ?_, ?_⟩
    · show (runWalk (fun _ => (0, 0)) curv tip _ W).bind _ = _
      rw [hrun]
      exact hstep
    · rw [hcore1, updateWalkCore_state]
      exact walkTransition_stopping_go _ _ hs h6

/-- Witness for C8: the moving tripod walker, stopped with zero curvature. -/
theorem shutdown_reaches_stopped_witness :
    ∃ (n : Nat) (W1 : Walker),
      runWalk (fun _ => (0, 0)) (fun _ => 0) (fun _ _ => (0, 0)) n movingWalker = some W1
        ∧ W1.core.state = WalkState.STOPPED :=
  shutdown_reaches_stopped movingWalker [0, 4, 4, 0, 0, 4] (fun _ => 0) (fun _ _ => (0, 0))
    ⟨by decide, by decide, by decide⟩ (by decide) rfl (by decide)
    (reachable_runCore _ _ _ 12) (by decide)
    (by norm_num [movingWalker]) (by norm_num [movingWalker]) (by norm_num [movingWalker])
    (by norm_num [movingWalker]) (by norm_num [movingWalker])

/-! ## C10: order of admission while stopping -/

theorem ticksToSwingEnd_pos (g : GaitTiming) (hg : g.Cyclic) {p : Int}
    (hp : 0 ≤ p ∧ p < g.phaseLength) (hne : p ≠ g.swingEnd) : 0 < ticksToSwingEnd g p := by
  obtain ⟨h1, h2, h3⟩ := hg
  unfold ticksToSwingEnd
  split_ifs <;> omega

theorem ticksToSwingEnd_self (g : GaitTiming) : ticksToSwingEnd g g.swingEnd = 0 := by
  simp [ticksToSwingEnd]

theorem ahead_legStateMachine (g : GaitTiming) (fl leg : LegStepper) :
    Ahead g (legStateMachine g fl) (legStateMachine g leg) ↔ Ahead g fl leg := by
  unfold Ahead
  simp only [legStateMachine_inCorrectPhase, legStateMachine_phase, ne_eq,
    legStateMachine_forceStop_iff]

/-- One STOPPING loop iteration of the front-left leg and of another leg with a zero stride
vector keeps the other leg ahead. -/
theorem ahead_step (g : GaitTiming) (hg : g.Cyclic) (b0 : Bool) (c0 c1 : Counters)
    (fl leg : LegStepper) (hfl : 0 ≤ fl.phase ∧ fl.phase < g.phaseLength)
    (hleg : 0 ≤ leg.phase ∧ leg.phase < g.phaseLength) (h : Ahead g fl leg) :
    Ahead g (legPhaseUpdate g WalkState.STOPPING true b0 c0 fl).2
      (legPhaseUpdate g WalkState.STOPPING false true c1 leg).2 := by
  by_cases hflag : (legPhaseUpdate g WalkState.STOPPING false true c1 leg).2.inCorrectPhase = true
  · exact Or.inl hflag
  · right
    have hiff := stopping_leg_flag_iff g false true c1 leg
    have hn := fun x => hflag (hiff.mpr x)
    have h1 : ¬ leg.inCorrectPhase = true := fun x => hn (Or.inl x)
    have h2 : leg.phase ≠ g.swingEnd := fun x => hn (Or.inr (Or.inl ⟨rfl, rfl, x⟩))
    rcases h with h | ⟨a1, a2, a3⟩
    · exact absurd h h1
    · have hpos := ticksToSwingEnd_pos g hg hleg h2
      have h3 : fl.phase ≠ g.swingEnd := by
        intro x
        rw [x, ticksToSwingEnd_self] at a3
        omega
      have hflf : (legPhaseUpdate g WalkState.STOPPING true b0 c0 fl).2.inCorrectPhase = false := by
        rw [← Bool.not_eq_true, stopping_leg_flag_iff]
        simp [a1, a2, h3]
      have hlegf : (legPhaseUpdate g WalkState.STOPPING false true c1 leg).2.inCorrectPhase
          = false := by simpa using hflag
      obtain ⟨p1, s1⟩ := stopping_leg_unflagged g true b0 c0 fl hflf
      obtain ⟨p2, _⟩ := stopping_leg_unflagged g false true c1 leg hlegf
      refine ⟨hflf, ?_, ?_⟩
      · rw [ne_eq, s1]
        simp [a2, h3]
      · rw [p1, p2, ticksToSwingEnd_succ g hg hfl h3, ticksToSwingEnd_succ g hg hleg h2]
        omega

/-- The leg at position `k` after the STOPPING loop is the loop body applied to the leg at
position `k` before it, with some value of the counters. -/
theorem robotStateMachine_stopping_get (g : GaitTiming) (sz : Nat → Bool) :
    ∀ (legs : List LegStepper) (i : Nat) (c : Counters) (k : Nat) (leg : LegStepper),
      legs[k]? = some leg →
        ∃ c1, (robotStateMachine g WalkState.STOPPING sz i c legs).2[k]?
          = some (legPhaseUpdate g WalkState.STOPPING (decide (i + k = 0)) (sz (i + k)) c1 leg).2
    := by
  intro legs
  induction legs with
  | nil => intro i c k leg h; simp at h
  | cons l0 rest ih =>
    intro i c k leg h
    cases k with
    | zero =>
      simp only [List.getElem?_cons_zero, Option.some.injEq] at h
      subst h
      exact ⟨c, by simp [robotStateMachine]⟩
    | succ k =>
      simp only [List.getElem?_cons_succ] at h
      obtain ⟨c1, hc1⟩ := ih (i + 1) (legPhaseUpdate g WalkState.STOPPING (decide (i = 0))
        (sz i) c l0).1 k leg h
      refine ⟨c1, ?_⟩
      simp only [robotStateMachine, List.getElem?_cons_succ]
      rw [hc1]
      have e : i + 1 + k = i + (k + 1) := by omega
      rw [e]

/-- One tick whose loop runs in STOPPING keeps a leg with a zero stride vector ahead of the
front-left leg, and keeps the phases inside the cycle. -/
theorem ahead_tick (g : GaitTiming) (hg : g.Cyclic) (b : Bool) (sz : Nat → Bool)
    (w : WalkController) (j : Nat) (hj : 1 ≤ j) (fl leg : LegStepper)
    (hst : (walkTransition b w).state = WalkState.STOPPING)
    (h0 : w.legSteppers[0]? = some fl) (hjl : w.legSteppers[j]? = some leg)
    (hrange : PhasesInRange g w.legSteppers) (hsz : sz j = true) (h : Ahead g fl leg) :
    ∃ fl1 leg1, (updateWalkCore g b sz w).legSteppers[0]? = some fl1
      ∧ (updateWalkCore g b sz w).legSteppers[j]? = some leg1
      ∧ Ahead g fl1 leg1
      ∧ PhasesInRange g (updateWalkCore g b sz w).legSteppers := by
  have hlegs : (updateWalkCore g b sz w).legSteppers
      = (robotStateMachine g WalkState.STOPPING sz 0
          ⟨(walkTransition b w).legsInCorrectPhase,
            (walkTransition b w).legsCompletedFirstStep⟩ w.legSteppers).2.map
          (legStateMachine g) := by
    simp only [updateWalkCore, afterPhaseLoop, hst, walkTransition_legs_of_stopping b w hst]
  obtain ⟨c0, e0⟩ := robotStateMachine_stopping_get g sz w.legSteppers 0
    ⟨(walkTransition b w).legsInCorrectPhase, (walkTransition b w).legsCompletedFirstStep⟩
    0 fl h0
  obtain ⟨c1, e1⟩ := robotStateMachine_stopping_get g sz w.legSteppers 0
    ⟨(walkTransition b w).legsInCorrectPhase, (walkTransition b w).legsCompletedFirstStep⟩
    j leg hjl
  have hj0 : decide (j = 0) = false := by simp; omega
  simp only [Nat.zero_add, hj0, hsz, Nat.add_zero, decide_True] at e0 e1
  refine ⟨legStateMachine g (legPhaseUpdate g WalkState.STOPPING true (sz 0) c0 fl).2,
    legStateMachine g (legPhaseUpdate g WalkState.STOPPING false true c1 leg).2, ?_, ?_, ?_, ?_⟩
  · rw [hlegs, List.getElem?_map, e0]
    rfl
  · rw [hlegs, List.getElem?_map, e1]
    rfl
  · rw [ahead_legStateMachine]
    exact ahead_step g hg _ c0 c1 fl leg (hrange fl (List.getElem?_mem h0))
      (hrange leg (List.getElem?_mem hjl)) h
  · intro l hl
    rw [hlegs, List.mem_map] at hl
    obtain ⟨l0, hl0, rfl⟩ := hl
    rw [legStateMachine_phase]
    exact (robotStateMachine_all g WalkState.STOPPING sz 0 (fun _ => True)
      (fun leg => 0 ≤ leg.phase ∧ leg.phase < g.phaseLength)
      (fun leg => 0 ≤ leg.phase ∧ leg.phase < g.phaseLength)
      (fun i _ c leg _ h =>
        ⟨trivial, (legPhaseUpdate_range g _ _ _ c leg hg.1 h).1⟩)
      w.legSteppers 0 (le_refl _) _ trivial hrange).2 l0 hl0

/-- C10 (amended): in a shutdown, take a leg other than the front-left one (index `j >= 1`)
that, when the stopping begins, is at most as many phase increments from `swingEnd` as the
front-left leg (which is neither in correct phase nor forced to stop then), and whose stride
vector is zero on every tick. As long as every tick runs its per-leg loop in STOPPING, that leg
is admitted no later than the front-left leg: after any number of such ticks, if the front-left
leg's `inCorrectPhase` flag is set then so is that leg's. -/
theorem front_left_last_among_nearer_legs (g : GaitTiming) (hg : g.Cyclic)
    (inp : Nat → TickInput) (w : WalkController) (j : Nat) (hj : 1 ≤ j) (fl leg : LegStepper)
    (h0 : w.legSteppers[0]? = some fl) (hjl : w.legSteppers[j]? = some leg)
    (hrange : PhasesInRange g w.legSteppers)
    (hflag : fl.inCorrectPhase = false) (hforce : fl.state ≠ StepState.FORCE_STOP)
    (hnear : ticksToSwingEnd g leg.phase ≤ ticksToSwingEnd g fl.phase)
    (hstride : ∀ m, (inp m).strideZero j = true) (n : Nat)
    (hstopping : ∀ m, m < n →
      (walkTransition (inp m).speedNonZero (runCore g inp m w)).state = WalkState.STOPPING) :
    ∃ fl1 leg1, (runCore g inp n w).legSteppers[0]? = some fl1
      ∧ (runCore g inp n w).legSteppers[j]? = some leg1
      ∧ (fl1.inCorrectPhase = true → leg1.inCorrectPhase = true) := by
  have key : ∃ fl1 leg1, (runCore g inp n w).legSteppers[0]? = some fl1
      ∧ (runCore g inp n w).legSteppers[j]? = some leg1
      ∧ Ahead g fl1 leg1 ∧ PhasesInRange g (runCore g inp n w).legSteppers := by
    induction n with
    | zero => exact ⟨fl, leg, h0, hjl, Or.inr ⟨hflag, hforce, hnear⟩, hrange⟩
    | succ n ih =>
      obtain ⟨fl1, leg1, e0, e1, ha, hr⟩ := ih (fun m hm => hstopping m (by omega))
      rw [runCore_succ]
      exact ahead_tick g hg _ _ _ j hj fl1 leg1 (hstopping n (by omega)) e0 e1 hr
        (hstride n) ha
  obtain ⟨fl1, leg1, e0, e1, ha, _⟩ := key
  refine ⟨fl1, leg1, e0, e1, ?_⟩
  intro hf
  rcases ha with h | ⟨h, _⟩
  · exact h
  · rw [hf] at h
    exact absurd h (by simp)

/-- Witness for C10 (amended): the tripod gait stopped after fourteen ticks, when the front-left
leg and leg 3 are both at `swingEnd`; two ticks later both are in correct phase. -/
theorem front_left_last_among_nearer_legs_witness :
    ∃ fl1 leg1,
      (runCore ⟨8, 2, 2, 6, 6⟩ (fun _ => ⟨false, fun _ => true⟩) 2
        (runCore ⟨8, 2, 2, 6, 6⟩ stopAfter14 14
          (initController [0, 4, 4, 0, 0, 4]))).legSteppers[0]? = some fl1
      ∧ (runCore ⟨8, 2, 2, 6, 6⟩ (fun _ => ⟨false, fun _ => true⟩) 2
        (runCore ⟨8, 2, 2, 6, 6⟩ stopAfter14 14
          (initController [0, 4, 4, 0, 0, 4]))).legSteppers[3]? = some leg1
      ∧ (fl1.inCorrectPhase = true → leg1.inCorrectPhase = true) :=
  front_left_last_among_nearer_legs ⟨8, 2, 2, 6, 6⟩ ⟨by decide, by decide, by decide⟩
    (fun _ => ⟨false, fun _ => true⟩)
    (runCore ⟨8, 2, 2, 6, 6⟩ stopAfter14 14 (initController [0, 4, 4, 0, 0, 4])) 3 (by decide)
    ⟨6, 0, StepState.STANCE, false, true⟩ ⟨6, 0, StepState.STANCE, false, true⟩
    (by decide) (by decide) (by unfold PhasesInRange; decide) rfl (by decide) (by decide)
    (fun _ => rfl) 2 (by decide)

/-- C10 as stated fails: with the tripod gait (phase length 8, `swingEnd = 6`), commanding a
non-zero speed for fourteen ticks from the initial state and zero speed afterwards (stride
vectors zero from then on), the walk state is MOVING after 14 ticks and STOPPING after ticks 15
to 19; the front-left leg's flag is set on tick 16, the flags of legs 1, 2 and 5 only on tick
19, three ticks later; the walk state is STOPPED after tick 20. -/
theorem front_left_not_last :
    (runCore ⟨8, 2, 2, 6, 6⟩ stopAfter14 14 (initController [0, 4, 4, 0, 0, 4])).state
        = WalkState.MOVING
      ∧ (∀ n : Nat, 15 ≤ n → n ≤ 19 →
          (runCore ⟨8, 2, 2, 6, 6⟩ stopAfter14 n (initController [0, 4, 4, 0, 0, 4])).state
            = WalkState.STOPPING)
      ∧ (runCore ⟨8, 2, 2, 6, 6⟩ stopAfter14 15
            (initController [0, 4, 4, 0, 0, 4])).legSteppers.map (fun leg => leg.inCorrectPhase)
          = [false, false, false, true, true, false]
      ∧ (runCore ⟨8, 2, 2, 6, 6⟩ stopAfter14 16
            (initController [0, 4, 4, 0, 0, 4])).legSteppers.map (fun leg => leg.inCorrectPhase)
          = [true, false, false, true, true, false]
      ∧ (runCore ⟨8, 2, 2, 6, 6⟩ stopAfter14 18
            (initController [0, 4, 4, 0, 0, 4])).legSteppers.map (fun leg => leg.inCorrectPhase)
          = [true, false, false, true, true, false]
      ∧ (runCore ⟨8, 2, 2, 6, 6⟩ stopAfter14 19
            (initController [0, 4, 4, 0, 0, 4])).legSteppers.map (fun leg => leg.inCorrectPhase)
          = [true, true, true, true, true, true]
      ∧ (runCore ⟨8, 2, 2, 6, 6⟩ stopAfter14 20 (initController [0, 4, 4, 0, 0, 4])).state
          = WalkState.STOPPED := by
  refine ⟨by decide, ?_, by decide, by decide, by decide, by decide, by decide⟩
  intro n h1 h2
  interval_cases n <;> decide

/-! ## C11: a stopped walker under zero commands -/

theorem updateWalkCore_stopped (g : GaitTiming) (sz : Nat → Bool) (w : WalkController)
    (hs : w.state = WalkState.STOPPED) :
    updateWalkCore g false sz w = { w with legSteppers := w.legSteppers.map (restLeg g) } := by
  have hw : walkTransition false w = w := by
    unfold walkTransition
    simp [hs]
  unfold updateWalkCore afterPhaseLoop
  simp only [hw, hs, robotStateMachine_stopped, List.map_map]
  rfl

theorem restLeg_idem (g : GaitTiming) (leg : LegStepper) :
    restLeg g (restLeg g leg) = restLeg g leg := by
  unfold restLeg
  rw [legStateMachine_phaseOffset]

/-- Under zero commands a STOPPED walker stays STOPPED, and from the first tick on its legs are
the rest legs of the initial ones. -/
theorem runWalk_stopped (W : Walker) (curv : Nat → ℝ) (tip : Nat → Nat → ℝ × ℝ)
    (hs : W.core.state = WalkState.STOPPED) (n : Nat) :
    ∃ Wn : Walker, runWalk (fun _ => (0, 0)) curv tip (n + 1) W = some Wn
      ∧ Wn.timing = W.timing
      ∧ Wn.core = { W.core with legSteppers := W.core.legSteppers.map (restLeg W.timing) } := by
  induction n with
  | zero =>
    obtain ⟨W1, h1, ht, _, _, _, _, _, sz, hc, _⟩ := updateWalk_zero_command (curv 0) (tip 0) W
    refine ⟨W1, ?_, ht, ?_⟩
    · show (some W).bind _ = _
      exact h1
    · rw [hc, updateWalkCore_stopped _ _ _ hs]
  | succ n ih =>
    obtain ⟨Wn, hn, ht, hc⟩ := ih
    obtain ⟨W1, h1, ht1, _, _, _, _, _, sz, hc1, _⟩ :=
      updateWalk_zero_command (curv (n + 1)) (tip (n + 1)) Wn
    refine ⟨W1, ?_, ht1.trans ht, ?_⟩
    · show (runWalk (fun _ => (0, 0)) curv tip (n + 1) W).bind _ = _
      rw [hn]
      exact h1
    · rw [hc1, updateWalkCore_stopped _ _ _ (by rw [hc]; exact hs), hc, ht]
      simp only [List.map_map]
      congr 1
      apply List.map_congr_left
      intro leg _
      exact restLeg_idem _ leg

theorem restLeg_phase (g : GaitTiming) (leg : LegStepper) : (restLeg g leg).phase = 0 := by
  unfold restLeg
  rw [legStateMachine_phase]

theorem restLeg_state (g : GaitTiming) (leg : LegStepper)
    (h : 0 < g.stanceEnd ∧ g.stanceEnd ≤ g.swingStart ∧ g.swingStart ≤ g.swingEnd
      ∧ g.swingEnd ≤ g.phaseLength) :
    (restLeg g leg).state = StepState.STANCE := by
  unfold restLeg legStateMachine
  simp only
  split_ifs <;> first | rfl | omega

theorem shortStance_basePhaseLength : basePhaseLength shortStanceParameters = 2 := by
  have h : (1 : ℚ) + 1 + 0 * 2 = ((2 : Int) : ℚ) := by norm_num
  simp only [basePhaseLength, shortStanceParameters, h, toInt_intCast]

theorem shortStance_roundedTicks : roundedTicks shortStanceParameters (1 / 8) = 4 := by
  unfold roundedTicks shortStanceParameters roundToInt toInt
  norm_num [Int.floor_eq_iff]

/-- The gait with a stance of one unit and a swing of one unit at `time_delta = 1/8`: the stance
end `toInt (1 * (1/2))` is 0, so the swing band is `[0, 4)`. -/
theorem shortStance_setGaitParams :
    setGaitParams shortStanceParameters (1 / 8)
      = some ⟨⟨8, 0, 0, 4, 4⟩, 1, [0, 4, 4, 0, 0, 4]⟩ := by
  rw [setGaitParams_eq _ _ (by rw [shortStance_basePhaseLength]; norm_num)
    (by norm_num [shortStanceParameters]) (by rw [shortStance_roundedTicks]; norm_num)]
  simp only [shortStance_basePhaseLength, shortStance_roundedTicks]
  have e1 : toInt ((1 : ℚ) * (1 / 2)) = 0 := by
    unfold toInt
    norm_num [Int.floor_eq_iff]
  have e2 : toInt ((1 : ℚ) * ((4 : Int) : ℚ)) = 4 := by
    have : (1 : ℚ) * ((4 : Int) : ℚ) = ((4 : Int) : ℚ) := by norm_num
    rw [this, toInt_intCast]
  simp only [shortStanceParameters, e1, e2]
  have e3 : toInt (((0 : Int) : ℚ) + 0) = 0 := by
    have : ((0 : Int) : ℚ) + 0 = ((0 : Int) : ℚ) := by norm_num
    rw [this, toInt_intCast]
  have e4 : toInt (((0 : Int) : ℚ) + 1) = 1 := by
    have : ((0 : Int) : ℚ) + 1 = ((1 : Int) : ℚ) := by norm_num
    rw [this, toInt_intCast]
  have e5 : toInt (((1 : Int) : ℚ) + 0) = 1 := by
    have : ((1 : Int) : ℚ) + 0 = ((1 : Int) : ℚ) := by norm_num
    rw [this, toInt_intCast]
  simp only [e3, e4, e5]
  norm_num
  decide

/-- C11 (amended): let the timing have its phase boundaries in order inside the cycle with a
positive stance end, `0 < stanceEnd <= swingStart <= swingEnd <= phaseLength`. Starting from any
walker whose walk state is STOPPED and commanding velocity (0,0) with curvature 0 on every tick,
for every `N >= 1` the `N` ticks return, the walk state is STOPPED, no leg is added or removed,
and every leg has phase 0 and step state STANCE. -/
theorem stopped_walker_stays_at_rest (W : Walker) (tip : Nat → Nat → ℝ × ℝ) (N : Nat)
    (hstopped : W.core.state = WalkState.STOPPED) (hN : 1 ≤ N)
    (horder : 0 < W.timing.stanceEnd ∧ W.timing.stanceEnd ≤ W.timing.swingStart
      ∧ W.timing.swingStart ≤ W.timing.swingEnd ∧ W.timing.swingEnd ≤ W.timing.phaseLength) :
    ∃ W1 : Walker, runWalk (fun _ => (0, 0)) (fun _ => 0) tip N W = some W1
      ∧ W1.core.state = WalkState.STOPPED
      ∧ W1.core.legSteppers.length = W.core.legSteppers.length
      ∧ ∀ leg ∈ W1.core.legSteppers, leg.phase = 0 ∧ leg.state = StepState.STANCE := by
  obtain ⟨n, rfl⟩ : ∃ n, N = n + 1 := ⟨N - 1, by omega⟩
  obtain ⟨Wn, hrun, _, hcore⟩ := runWalk_stopped W (fun _ => 0) tip hstopped n
  refine ⟨Wn, hrun, ?_, ?_, ?_⟩
  · rw [hcore]
    exact hstopped
  · rw [hcore]
    simp
  · intro leg hleg
    rw [hcore] at hleg
    simp only [List.mem_map] at hleg
    obtain ⟨l0, _, rfl⟩ := hleg
    exact ⟨restLeg_phase _ l0, restLeg_state _ l0 horder⟩

/-- Witness for C11: the tripod timing (phase length 8, boundaries 2, 2, 6, 6), ten ticks from
the initial state. -/
theorem stopped_walker_stays_at_rest_witness :
    ∃ W1 : Walker,
      runWalk (fun _ => (0, 0)) (fun _ => 0) (fun _ _ => (0, 0)) 10
          { movingWalker with core := initController [0, 4, 4, 0, 0, 4] } = some W1
        ∧ W1.core.state = WalkState.STOPPED
        ∧ W1.core.legSteppers.length = 6
        ∧ ∀ leg ∈ W1.core.legSteppers, leg.phase = 0 ∧ leg.state = StepState.STANCE :=
  stopped_walker_stays_at_rest { movingWalker with core := initController [0, 4, 4, 0, 0, 4] }
    (fun _ _ => (0, 0)) 10 rfl (by decide) ⟨by decide, by decide, by decide, by decide⟩

/-- C11 as stated fails: `setGaitParams` accepts a gait with a stance of one unit and a swing of
one unit (`time_delta = 1/8`) and gives phase length 8 with `stanceEnd = swingStart = 0` and
`swingEnd = stanceStart = 4`, because `stance_phase*0.5` is truncated to 0. From the initial
state, STOPPED, after ten ticks with command (0,0) and curvature 0 the walk state is STOPPED and
every leg has phase 0, but the step state of every leg is SWING: phase 0 lies in the band
`[swingStart, swingEnd)`. -/
theorem stopped_legs_in_swing :
    setGaitParams shortStanceParameters (1 / 8)
        = some ⟨⟨8, 0, 0, 4, 4⟩, 1, [0, 4, 4, 0, 0, 4]⟩
      ∧ ∃ W1 : Walker,
          runWalk (fun _ => (0, 0)) (fun _ => 0) (fun _ _ => (0, 0)) 10 shortStanceWalker
            = some W1
          ∧ W1.core.state = WalkState.STOPPED
          ∧ W1.core.legSteppers.map (fun leg => (leg.phase, leg.state))
            = [(0, StepState.SWING), (0, StepState.SWING), (0, StepState.SWING),
               (0, StepState.SWING), (0, StepState.SWING), (0, StepState.SWING)] := by
  refine ⟨shortStance_setGaitParams, ?_⟩
  obtain ⟨Wn, hrun, _, hcore⟩ :=
    runWalk_stopped shortStanceWalker (fun _ => 0) (fun _ _ => (0, 0)) rfl 9
  refine ⟨Wn, hrun, ?_, ?_⟩
  · rw [hcore]
    rfl
  · rw [hcore]
    decide

/-! ## C12: rate limiting of the velocities -/

/-- One step of the scalar rate limiter of `updateWalk` from `x` toward `t` with reach `a`: the
change is a fraction of the gap, at most `a` in magnitude, and closes the gap exactly when the
gap is at most `a`. -/
theorem scalar_rate_step (x t a : ℝ) (ha : 0 ≤ a) :
    (∃ s : ℝ, 0 ≤ s ∧ s ≤ 1
        ∧ (if |t - x| > 0 then x + (t - x) * min 1 (a / |t - x|) else x) - x = s * (t - x))
      ∧ |(if |t - x| > 0 then x + (t - x) * min 1 (a / |t - x|) else x) - x| ≤ a
      ∧ ((if |t - x| > 0 then x + (t - x) * min 1 (a / |t - x|) else x) = t ↔ |t - x| ≤ a) := by
  split_ifs with h
  · have hs0 : 0 ≤ min 1 (a / |t - x|) := le_min zero_le_one (div_nonneg ha (le_of_lt h))
    have hs1 : min 1 (a / |t - x|) ≤ 1 := min_le_left _ _
    have hd : x + (t - x) * min 1 (a / |t - x|) - x = min 1 (a / |t - x|) * (t - x) := by ring
    refine ⟨⟨_, hs0, hs1, hd⟩, ?_, ?_⟩
    · rw [hd, abs_mul, abs_of_nonneg hs0]
      calc min 1 (a / |t - x|) * |t - x| ≤ a / |t - x| * |t - x| :=
            mul_le_mul_of_nonneg_right (min_le_right _ _) (le_of_lt h)
        _ = a := div_mul_cancel₀ a (ne_of_gt h)
    · have hne : t - x ≠ 0 := fun h0 => by rw [h0, abs_zero] at h; exact lt_irrefl _ h
      constructor
      · intro heq
        have h1 : (t - x) * min 1 (a / |t - x|) = (t - x) * 1 := by linarith
        have h2 : min 1 (a / |t - x|) = 1 := mul_left_cancel₀ hne h1
        have h3 : 1 ≤ a / |t - x| := by
          rw [← h2]
          exact min_le_right _ _
        exact (one_le_div h).mp h3
      · intro hle
        have h3 : 1 ≤ a / |t - x| := (one_le_div h).mpr hle
        rw [min_eq_left h3]
        ring
  · have h0 : |t - x| = 0 := le_antisymm (not_lt.mp h) (abs_nonneg _)
    have hx : t - x = 0 := abs_eq_zero.mp h0
    refine ⟨⟨0, le_refl _, zero_le_one, by simp⟩, by simpa using ha, ?_⟩
    constructor
    · intro _
      rw [h0]
      exact ha
    · intro _
      linarith

/-- One step of the vector rate limiter of `updateWalk` from `v` toward `t` with reach `a`. -/
theorem vector_rate_step (v t : ℝ × ℝ) (a : ℝ) (ha : 0 ≤ a) :
    (∃ s : ℝ, 0 ≤ s ∧ s ≤ 1
        ∧ (if vnorm (t.1 - v.1, t.2 - v.2) > 0 then
            (v.1 + (t.1 - v.1) * min 1 (a / vnorm (t.1 - v.1, t.2 - v.2)),
             v.2 + (t.2 - v.2) * min 1 (a / vnorm (t.1 - v.1, t.2 - v.2)))
          else v) - v = s • (t - v))
      ∧ vnorm ((if vnorm (t.1 - v.1, t.2 - v.2) > 0 then
            (v.1 + (t.1 - v.1) * min 1 (a / vnorm (t.1 - v.1, t.2 - v.2)),
             v.2 + (t.2 - v.2) * min 1 (a / vnorm (t.1 - v.1, t.2 - v.2)))
          else v) - v) ≤ a
      ∧ ((if vnorm (t.1 - v.1, t.2 - v.2) > 0 then
            (v.1 + (t.1 - v.1) * min 1 (a / vnorm (t.1 - v.1, t.2 - v.2)),
             v.2 + (t.2 - v.2) * min 1 (a / vnorm (t.1 - v.1, t.2 - v.2)))
          else v) = t ↔ vnorm (t - v) ≤ a) := by
  have hd : (t.1 - v.1, t.2 - v.2) = t - v := rfl
  rw [hd]
  set n := vnorm (t - v) with hn
  split_ifs with h
  · have hs0 : 0 ≤ min 1 (a / n) := le_min zero_le_one (div_nonneg ha (le_of_lt h))
    have hs1 : min 1 (a / n) ≤ 1 := min_le_left _ _
    have hdiff : (v.1 + (t.1 - v.1) * min 1 (a / n), v.2 + (t.2 - v.2) * min 1 (a / n)) - v
        = (min 1 (a / n) * (t - v).1, min 1 (a / n) * (t - v).2) := by
      ext <;> simp <;> ring
    refine ⟨⟨_, hs0, hs1, ?_⟩, ?_, ?_⟩
    · rw [hdiff]
      rfl
    · rw [hdiff, vnorm_scale, abs_of_nonneg hs0]
      calc min 1 (a / n) * n ≤ a / n * n :=
            mul_le_mul_of_nonneg_right (min_le_right _ _) (le_of_lt h)
        _ = a := div_mul_cancel₀ a (ne_of_gt h)
    · constructor
      · intro heq
        have h1 : (t.1 - v.1) * min 1 (a / n) = (t.1 - v.1) * 1 := by
          have := congrArg Prod.fst heq
          simp only at this
          linarith
        have h2 : (t.2 - v.2) * min 1 (a / n) = (t.2 - v.2) * 1 := by
          have := congrArg Prod.snd heq
          simp only at this
          linarith
        have hone : min 1 (a / n) = 1 := by
          by_contra hneq
          have e1 : t.1 - v.1 = 0 := by
            by_contra hx
            exact hneq (mul_left_cancel₀ hx h1)
          have e2 : t.2 - v.2 = 0 := by
            by_contra hx
            exact hneq (mul_left_cancel₀ hx h2)
          have : n = 0 := by
            rw [hn]
            unfold vnorm
            simp [e1, e2]
          rw [this] at h
          exact lt_irrefl _ h
        have h3 : 1 ≤ a / n := by
          rw [← hone]
          exact min_le_right _ _
        exact (one_le_div h).mp h3
      · intro hle
        have h3 : 1 ≤ a / n := (one_le_div h).mpr hle
        rw [min_eq_left h3]
        ext <;> simp
  · have h0 : n = 0 := le_antisymm (not_lt.mp h) (vnorm_nonneg _)
    have hx : t - v = (0, 0) := vnorm_eq_zero h0
    have htv : t = v := by
      have h1 := congrArg Prod.fst hx
      have h2 := congrArg Prod.snd hx
      simp only [Prod.fst_sub, Prod.snd_sub] at h1 h2
      ext <;> linarith
    refine ⟨⟨0, le_refl _, zero_le_one, by simp⟩, ?_, ?_⟩
    · rw [sub_self]
      show vnorm (0, 0) ≤ a
      rw [vnorm_zero]
      exact ha
    · constructor
      · intro _
        rw [h0]
        exact ha
      · intro _
        exact htv.symm

/-- C12: on a tick with `time_delta > 0`, `max_acceleration >= 0` and `max_curvature_speed >= 0`
whose ASSERT holds (exact real arithmetic, the divisors `stanceRadius` and, outside STOPPING,
`onGroundRatio` non-zero), `updateWalk` returns and

* the change of `localCentreVelocity` is a fraction `s` in `[0, 1]` of the gap to the target
  `centralVelocity = localVelocity*(1 - |curvature|)`, its norm is at most
  `max_acceleration*time_delta`, and the new velocity is the target exactly when the gap is at
  most that long;
* the change of `angularVelocity` is a fraction in `[0, 1]` of the gap to the target
  `newAngularVelocity`, at most `max_curvature_speed*time_delta` in magnitude, and the new value
  is the target exactly when the gap is at most that large;
* the norm of `localCentreAcceleration` is at most `max_acceleration`. -/
theorem velocity_changes_are_rate_limited (cmd : ℝ × ℝ) (curv : ℝ) (tip : Nat → ℝ × ℝ)
    (W : Walker) (hdt : 0 < W.timeDelta) (hacc : 0 ≤ W.maxAcceleration)
    (hcs : 0 ≤ W.maxCurvatureSpeed) (_hradius : W.stanceRadius ≠ 0)
    (_hground : W.core.state ≠ WalkState.STOPPING → onGroundRatio W.timing ≠ 0)
    (hassert : normalSpeed W cmd < 1.01) :
    ∃ W1 : Walker, updateWalk cmd curv tip W = some W1
      ∧ (∃ s : ℝ, 0 ≤ s ∧ s ≤ 1
          ∧ W1.localCentreVelocity - W.localCentreVelocity
            = s • (centralVelocity W cmd curv - W.localCentreVelocity))
      ∧ vnorm (W1.localCentreVelocity - W.localCentreVelocity)
          ≤ W.maxAcceleration * W.timeDelta
      ∧ (W1.localCentreVelocity = centralVelocity W cmd curv
          ↔ vnorm (centralVelocity W cmd curv - W.localCentreVelocity)
              ≤ W.maxAcceleration * W.timeDelta)
      ∧ (∃ s : ℝ, 0 ≤ s ∧ s ≤ 1
          ∧ W1.angularVelocity - W.angularVelocity
            = s * (newAngularVelocity W cmd curv - W.angularVelocity))
      ∧ |W1.angularVelocity - W.angularVelocity| ≤ W.maxCurvatureSpeed * W.timeDelta
      ∧ (W1.angularVelocity = newAngularVelocity W cmd curv
          ↔ |newAngularVelocity W cmd curv - W.angularVelocity|
              ≤ W.maxCurvatureSpeed * W.timeDelta)
      ∧ W1.localCentreAcceleration
          = ((W1.localCentreVelocity.1 - W.localCentreVelocity.1) / W.timeDelta,
             (W1.localCentreVelocity.2 - W.localCentreVelocity.2) / W.timeDelta)
      ∧ vnorm W1.localCentreAcceleration ≤ W.maxAcceleration := by
  obtain ⟨hv1, hv2, hv3⟩ := vector_rate_step W.localCentreVelocity (centralVelocity W cmd curv)
    (W.maxAcceleration * W.timeDelta) (mul_nonneg hacc (le_of_lt hdt))
  obtain ⟨hw1, hw2, hw3⟩ := scalar_rate_step W.angularVelocity (newAngularVelocity W cmd curv)
    (W.maxCurvatureSpeed * W.timeDelta) (mul_nonneg hcs (le_of_lt hdt))
  unfold updateWalk
  rw [if_pos hassert]
  refine ⟨_, rfl, hv1, hv2, hv3, hw1, hw2, hw3, rfl, ?_⟩
  have hscale : ((nextCentreVelocity W cmd curv).1 - W.localCentreVelocity.1) / W.timeDelta
        = 1 / W.timeDelta * (nextCentreVelocity W cmd curv - W.localCentreVelocity).1
      ∧ ((nextCentreVelocity W cmd curv).2 - W.localCentreVelocity.2) / W.timeDelta
        = 1 / W.timeDelta * (nextCentreVelocity W cmd curv - W.localCentreVelocity).2 := by
    constructor <;> simp only [Prod.fst_sub, Prod.snd_sub] <;> ring
  show vnorm (((nextCentreVelocity W cmd curv).1 - W.localCentreVelocity.1) / W.timeDelta,
    ((nextCentreVelocity W cmd curv).2 - W.localCentreVelocity.2) / W.timeDelta) ≤ _
  rw [hscale.1, hscale.2, vnorm_scale, abs_of_pos (one_div_pos.mpr hdt)]
  calc 1 / W.timeDelta * vnorm (nextCentreVelocity W cmd curv - W.localCentreVelocity)
      ≤ 1 / W.timeDelta * (W.maxAcceleration * W.timeDelta) :=
        mul_le_mul_of_nonneg_left hv2 (le_of_lt (one_div_pos.mpr hdt))
    _ = W.maxAcceleration := by field_simp

theorem vnorm_along_x (c : ℝ) : vnorm (c, 0) = |c| := by
  unfold vnorm
  simp [Real.sqrt_sq_eq_abs]

theorem movingWalker_localVelocity : localVelocity movingWalker (1, 0) = (2 / 5, 0) := by
  have hs : movingWalker.core.state = WalkState.MOVING := by
    unfold movingWalker
    decide
  unfold localVelocity
  rw [if_pos (by rw [hs]; decide)]
  norm_num [movingWalker, onGroundRatio]

theorem movingWalker_normalSpeed : normalSpeed movingWalker (1, 0) = 2 / 5 := by
  unfold normalSpeed
  rw [movingWalker_localVelocity, vnorm_along_x]
  norm_num

/-- Witness for C12: the moving tripod walker, commanded `(1, 0)` with curvature `1/2`. -/
theorem velocity_changes_are_rate_limited_witness :
    ∃ W1 : Walker, updateWalk (1, 0) (1 / 2) (fun _ => (0, 0)) movingWalker = some W1
      ∧ (∃ s : ℝ, 0 ≤ s ∧ s ≤ 1
          ∧ W1.localCentreVelocity - movingWalker.localCentreVelocity
            = s • (centralVelocity movingWalker (1, 0) (1 / 2)
                - movingWalker.localCentreVelocity))
      ∧ vnorm (W1.localCentreVelocity - movingWalker.localCentreVelocity)
          ≤ movingWalker.maxAcceleration * movingWalker.timeDelta
      ∧ (W1.localCentreVelocity = centralVelocity movingWalker (1, 0) (1 / 2)
          ↔ vnorm (centralVelocity movingWalker (1, 0) (1 / 2)
                - movingWalker.localCentreVelocity)
              ≤ movingWalker.maxAcceleration * movingWalker.timeDelta)
      ∧ (∃ s : ℝ, 0 ≤ s ∧ s ≤ 1
          ∧ W1.angularVelocity - movingWalker.angularVelocity
            = s * (newAngularVelocity movingWalker (1, 0) (1 / 2)
                - movingWalker.angularVelocity))
      ∧ |W1.angularVelocity - movingWalker.angularVelocity|
          ≤ movingWalker.maxCurvatureSpeed * movingWalker.timeDelta
      ∧ (W1.angularVelocity = newAngularVelocity movingWalker (1, 0) (1 / 2)
          ↔ |newAngularVelocity movingWalker (1, 0) (1 / 2) - movingWalker.angularVelocity|
              ≤ movingWalker.maxCurvatureSpeed * movingWalker.timeDelta)
      ∧ W1.localCentreAcceleration
          = ((W1.localCentreVelocity.1 - movingWalker.localCentreVelocity.1)
                / movingWalker.timeDelta,
             (W1.localCentreVelocity.2 - movingWalker.localCentreVelocity.2)
                / movingWalker.timeDelta)
      ∧ vnorm W1.localCentreAcceleration ≤ movingWalker.maxAcceleration :=
  velocity_changes_are_rate_limited (1, 0) (1 / 2) (fun _ => (0, 0)) movingWalker
    (by norm_num [movingWalker]) (by norm_num [movingWalker]) (by norm_num [movingWalker])
    (by norm_num [movingWalker]) (fun _ => by norm_num [movingWalker, onGroundRatio])
    (by rw [movingWalker_normalSpeed]; norm_num)

/-! ## C13: stride vectors -/

/-- With a zero centre velocity the stride vector of a leg is the tip position turned by a
quarter and scaled by `onGroundRatio*omega/stepFrequency`. -/
theorem vnorm_strideOf_turning (W : Walker) (omega : ℝ) (tip : ℝ × ℝ) :
    vnorm (strideOf W (0, 0) omega tip)
      = |onGroundRatio W.timing * omega / W.stepFrequency| * vnorm tip := by
  have h : strideOf W (0, 0) omega tip
      = (onGroundRatio W.timing * omega / W.stepFrequency * tip.2,
         onGroundRatio W.timing * omega / W.stepFrequency * (-tip.1)) := by
    unfold strideOf
    ext <;> simp <;> ring
  have h2 : vnorm (tip.2, -tip.1) = vnorm tip := by
    unfold vnorm
    congr 1
    ring
  rw [h, vnorm_scale (onGroundRatio W.timing * omega / W.stepFrequency) (tip.2, -tip.1), h2]

/-- C13: on every tick that passes the ASSERT (exact real arithmetic, divisors non-zero)
`updateWalk` returns and gives every leg `i` the stride vector
`onGroundRatio*(v_centre + omega*(y_tip, -x_tip))/stepFrequency`, with the velocities as updated
on this tick and `onGroundRatio = (phaseLength - (swingEnd - swingStart))/phaseLength`. When the
updated `v_centre` is zero, the stride norms are proportional to the horizontal distances of the
tips from the body origin: for any two legs the cross products of norms and distances agree,
the ratio of the norms equals the ratio of the distances whenever the second stride is not zero,
and a leg with the smaller distance has the smaller stride (strictly smaller for a strictly
smaller distance when the other stride is not zero). -/
theorem stride_vectors_scale_with_radius (cmd : ℝ × ℝ) (curv : ℝ) (tip : Nat → ℝ × ℝ)
    (W : Walker) (_hradius : W.stanceRadius ≠ 0) (_hfrequency : W.stepFrequency ≠ 0)
    (_hlength : W.timing.phaseLength ≠ 0)
    (_hground : W.core.state ≠ WalkState.STOPPING → onGroundRatio W.timing ≠ 0)
    (hassert : normalSpeed W cmd < 1.01) :
    ∃ W1 : Walker, updateWalk cmd curv tip W = some W1
      ∧ (∀ i, W1.strideVector i
          = (onGroundRatio W.timing
                * (W1.localCentreVelocity.1 + W1.angularVelocity * (tip i).2) / W.stepFrequency,
             onGroundRatio W.timing
                * (W1.localCentreVelocity.2 + W1.angularVelocity * (-(tip i).1))
                / W.stepFrequency))
      ∧ onGroundRatio W.timing
          = ((W.timing.phaseLength - (W.timing.swingEnd - W.timing.swingStart) : Int) : ℝ)
              / (W.timing.phaseLength : ℝ)
      ∧ (W1.localCentreVelocity = (0, 0) →
          (∀ i j, vnorm (W1.strideVector i) * vnorm (tip j)
              = vnorm (W1.strideVector j) * vnorm (tip i))
          ∧ (∀ i j, vnorm (W1.strideVector j) ≠ 0 →
              vnorm (W1.strideVector i) / vnorm (W1.strideVector j)
                = vnorm (tip i) / vnorm (tip j))
          ∧ (∀ i j, vnorm (tip i) ≤ vnorm (tip j) →
              vnorm (W1.strideVector i) ≤ vnorm (W1.strideVector j))
          ∧ (∀ i j, vnorm (tip i) < vnorm (tip j) → vnorm (W1.strideVector j) ≠ 0 →
              vnorm (W1.strideVector i) < vnorm (W1.strideVector j))) := by
  unfold updateWalk
  rw [if_pos hassert]
  refine ⟨_, rfl, fun i => rfl, rfl, ?_⟩
  intro hv
  simp only at hv
  have hs : ∀ i, vnorm (strideOf W (nextCentreVelocity W cmd curv)
        (nextAngularVelocity W cmd curv) (tip i))
      = |onGroundRatio W.timing * nextAngularVelocity W cmd curv / W.stepFrequency|
          * vnorm (tip i) := by
    intro i
    rw [hv]
    exact vnorm_strideOf_turning W _ _
  simp only [hs]
  have hc := abs_nonneg (onGroundRatio W.timing * nextAngularVelocity W cmd curv
    / W.stepFrequency)
  refine ⟨fun i j => by ring, ?_, fun i j hij => mul_le_mul_of_nonneg_left hij hc, ?_⟩
  · intro i j hj
    have hc0 : |onGroundRatio W.timing * nextAngularVelocity W cmd curv / W.stepFrequency| ≠ 0 :=
      left_ne_zero_of_mul hj
    exact mul_div_mul_left _ _ hc0
  · intro i j hij hj
    have hc0 : |onGroundRatio W.timing * nextAngularVelocity W cmd curv / W.stepFrequency| ≠ 0 :=
      left_ne_zero_of_mul hj
    exact mul_lt_mul_of_pos_left hij (lt_of_le_of_ne hc (Ne.symm hc0))

theorem updateWalk_velocities (cmd : ℝ × ℝ) (curv : ℝ) (tip : Nat → ℝ × ℝ) (W W1 : Walker)
    (h : updateWalk cmd curv tip W = some W1) :
    W1.localCentreVelocity = nextCentreVelocity W cmd curv
      ∧ W1.angularVelocity = nextAngularVelocity W cmd curv := by
  unfold updateWalk at h
  split_ifs at h
  simp only [Option.some.injEq] at h
  subst h
  exact ⟨rfl, rfl⟩

theorem restingWalker_localVelocity : localVelocity restingWalker (1, 0) = (2 / 5, 0) := by
  unfold localVelocity
  rw [if_pos (by unfold restingWalker initController; decide)]
  norm_num [restingWalker, movingWalker, onGroundRatio]

theorem restingWalker_normalSpeed : normalSpeed restingWalker (1, 0) = 2 / 5 := by
  unfold normalSpeed
  rw [restingWalker_localVelocity, vnorm_along_x]
  norm_num

/-- Turning on the spot from rest (curvature 1): the centre velocity stays zero. -/
theorem restingWalker_turning : nextCentreVelocity restingWalker (1, 0) 1 = (0, 0) := by
  unfold nextCentreVelocity
  simp only [restingWalker_localVelocity]
  have h : vnorm ((2 / 5 : ℝ) * (1 - |(1 : ℝ)|) - restingWalker.localCentreVelocity.1,
      (0 : ℝ) * (1 - |(1 : ℝ)|) - restingWalker.localCentreVelocity.2) = 0 := by
    have : ((2 / 5 : ℝ) * (1 - |(1 : ℝ)|) - restingWalker.localCentreVelocity.1,
        (0 : ℝ) * (1 - |(1 : ℝ)|) - restingWalker.localCentreVelocity.2) = ((0 : ℝ), (0 : ℝ)) := by
      ext <;> simp [restingWalker]
    rw [this, vnorm_zero]
  rw [if_neg (by rw [h]; exact lt_irrefl _)]
  rfl

/-- Witness for C13 (scenario S6): the tripod walker at rest, commanded `(1, 0)` with curvature
1, the legs of row `l` at distance `l + 1` from the body origin. -/
theorem stride_vectors_scale_with_radius_witness :
    ∃ W1 : Walker, updateWalk (1, 0) 1 rowTips restingWalker = some W1
      ∧ W1.localCentreVelocity = (0, 0)
      ∧ (∀ i j, vnorm (W1.strideVector i) * vnorm (rowTips j)
            = vnorm (W1.strideVector j) * vnorm (rowTips i))
      ∧ (∀ i j, vnorm (W1.strideVector j) ≠ 0 →
            vnorm (W1.strideVector i) / vnorm (W1.strideVector j)
              = vnorm (rowTips i) / vnorm (rowTips j))
      ∧ (∀ i j, vnorm (rowTips i) ≤ vnorm (rowTips j) →
            vnorm (W1.strideVector i) ≤ vnorm (W1.strideVector j))
      ∧ (∀ i j, vnorm (rowTips i) < vnorm (rowTips j) → vnorm (W1.strideVector j) ≠ 0 →
            vnorm (W1.strideVector i) < vnorm (W1.strideVector j)) := by
  obtain ⟨W1, h, _, _, himp⟩ :=
    stride_vectors_scale_with_radius (1, 0) 1 rowTips restingWalker
      (by norm_num [restingWalker, movingWalker]) (by norm_num [restingWalker, movingWalker])
      (by norm_num [restingWalker, movingWalker])
      (fun _ => by norm_num [restingWalker, movingWalker, onGroundRatio])
      (by rw [restingWalker_normalSpeed]; norm_num)
  have hv : W1.localCentreVelocity = (0, 0) := by
    rw [(updateWalk_velocities _ _ _ _ _ h).1]
    exact restingWalker_turning
  exact ⟨W1, h, hv, himp hv⟩

/-! ## C14 and C15: continuity of the swing polygons -/

@[simp]
theorem vector3d_add_x {K : Type} [LinearOrderedField K] (a b : Vector3d K) :
    (a + b).x = a.x + b.x := rfl

@[simp]
theorem vector3d_add_y {K : Type} [LinearOrderedField K] (a b : Vector3d K) :
    (a + b).y = a.y + b.y := rfl

@[simp]
theorem vector3d_add_z {K : Type} [LinearOrderedField K] (a b : Vector3d K) :
    (a + b).z = a.z + b.z := rfl

@[simp]
theorem vector3d_sub_x {K : Type} [LinearOrderedField K] (a b : Vector3d K) :
    (a - b).x = a.x - b.x := rfl

@[simp]
theorem vector3d_sub_y {K : Type} [LinearOrderedField K] (a b : Vector3d K) :
    (a - b).y = a.y - b.y := rfl

@[simp]
theorem vector3d_sub_z {K : Type} [LinearOrderedField K] (a b : Vector3d K) :
    (a - b).z = a.z - b.z := rfl

@[simp]
theorem vector3d_smul_x {K : Type} [LinearOrderedField K] (c : K) (a : Vector3d K) :
    (c • a).x = c * a.x := rfl

@[simp]
theorem vector3d_smul_y {K : Type} [LinearOrderedField K] (c : K) (a : Vector3d K) :
    (c • a).y = c * a.y := rfl

@[simp]
theorem vector3d_smul_z {K : Type} [LinearOrderedField K] (c : K) (a : Vector3d K) :
    (c • a).z = c * a.z := rfl

/-- The derivative of the quartic Bezier curve at its two ends. -/
theorem quarticBezierDot_ends {K : Type} [LinearOrderedField K] (points : ControlNodes K) :
    quarticBezierDot points 0 = (4 : K) • (points.node1 - points.node0)
      ∧ quarticBezierDot points 1 = (4 : K) • (points.node4 - points.node3) := by
  constructor <;> ext <;> simp [quarticBezierDot]

/-- C14: for every default tip position, origin tip position, stride vector, swing height (the
product `stepClearance*maximumBodyHeight`) and every value read by lines 59 and 60, the polygons
built by `updateSwingPos` satisfy, in all three components: secondary node 0 equals primary node
4, and `4*(P4 - P3) = 4*(S1 - S0)`; these are the derivatives `quarticBezierDot` of the primary
polygon at `t = 1` and of the secondary polygon at `t = 0`, which are therefore equal. -/
theorem swing_halves_join_smoothly {K : Type} [LinearOrderedField K] [FloorRing K]
    (walker : WalkerMembers K) (overread : K) (leg : TipStepper K) :
    (swingControlNodes walker overread leg).swingSecondaryControlNodes.node0
        = (swingControlNodes walker overread leg).swingPrimaryControlNodes.node4
      ∧ (4 : K) • ((swingControlNodes walker overread leg).swingPrimaryControlNodes.node4
            - (swingControlNodes walker overread leg).swingPrimaryControlNodes.node3)
          = (4 : K) • ((swingControlNodes walker overread leg).swingSecondaryControlNodes.node1
            - (swingControlNodes walker overread leg).swingSecondaryControlNodes.node0)
      ∧ quarticBezierDot (swingControlNodes walker overread leg).swingPrimaryControlNodes 1
          = (4 : K) • ((swingControlNodes walker overread leg).swingPrimaryControlNodes.node4
            - (swingControlNodes walker overread leg).swingPrimaryControlNodes.node3)
      ∧ quarticBezierDot (swingControlNodes walker overread leg).swingSecondaryControlNodes 0
          = (4 : K) • ((swingControlNodes walker overread leg).swingSecondaryControlNodes.node1
            - (swingControlNodes walker overread leg).swingSecondaryControlNodes.node0)
      ∧ quarticBezierDot (swingControlNodes walker overread leg).swingPrimaryControlNodes 1
          = quarticBezierDot
              (swingControlNodes walker overread leg).swingSecondaryControlNodes 0 := by
  have hjoin : (swingControlNodes walker overread leg).swingSecondaryControlNodes.node0
      = (swingControlNodes walker overread leg).swingPrimaryControlNodes.node4 := by
    ext <;> simp [swingControlNodes]
  have hder : (4 : K) • ((swingControlNodes walker overread leg).swingPrimaryControlNodes.node4
        - (swingControlNodes walker overread leg).swingPrimaryControlNodes.node3)
      = (4 : K) • ((swingControlNodes walker overread leg).swingSecondaryControlNodes.node1
        - (swingControlNodes walker overread leg).swingSecondaryControlNodes.node0) := by
    ext <;> simp [swingControlNodes] <;> ring
  have h1 := (quarticBezierDot_ends
    (swingControlNodes walker overread leg).swingPrimaryControlNodes).2
  have h0 := (quarticBezierDot_ends
    (swingControlNodes walker overread leg).swingSecondaryControlNodes).1
  exact ⟨hjoin, hder, h1, h0, by rw [h1, h0, hder]⟩

/-- C15: for every default tip position, origin tip position, stride vector, swing height and
every value read by lines 59 and 60, the swing polygons built by `updateSwingPos` join the stance
polygon in all three components. At swing exit secondary node 4 equals stance node 0 and
`4*(S4 - S3) = 4*(stance1 - stance0)`, the derivative of the secondary polygon at `t = 1` and of
the stance polygon at `t = 0`; at swing entry primary node 0 equals stance node 4 and
`4*(P1 - P0) = 4*(stance4 - stance3)`, the derivative of the primary polygon at `t = 0` and of
the stance polygon at `t = 1`. -/
theorem swing_joins_stance_smoothly {K : Type} [LinearOrderedField K] [FloorRing K]
    (walker : WalkerMembers K) (overread : K) (leg : TipStepper K) :
    (swingControlNodes walker overread leg).swingSecondaryControlNodes.node4
        = (swingControlNodes walker overread leg).stanceControlNodes.node0
      ∧ (4 : K) • ((swingControlNodes walker overread leg).swingSecondaryControlNodes.node4
            - (swingControlNodes walker overread leg).swingSecondaryControlNodes.node3)
          = (4 : K) • ((swingControlNodes walker overread leg).stanceControlNodes.node1
            - (swingControlNodes walker overread leg).stanceControlNodes.node0)
      ∧ quarticBezierDot (swingControlNodes walker overread leg).swingSecondaryControlNodes 1
          = quarticBezierDot (swingControlNodes walker overread leg).stanceControlNodes 0
      ∧ (swingControlNodes walker overread leg).swingPrimaryControlNodes.node0
          = (swingControlNodes walker overread leg).stanceControlNodes.node4
      ∧ (4 : K) • ((swingControlNodes walker overread leg).swingPrimaryControlNodes.node1
            - (swingControlNodes walker overread leg).swingPrimaryControlNodes.node0)
          = (4 : K) • ((swingControlNodes walker overread leg).stanceControlNodes.node4
            - (swingControlNodes walker overread leg).stanceControlNodes.node3)
      ∧ quarticBezierDot (swingControlNodes walker overread leg).swingPrimaryControlNodes 0
          = quarticBezierDot (swingControlNodes walker overread leg).stanceControlNodes 1 := by
  have hexit : (swingControlNodes walker overread leg).swingSecondaryControlNodes.node4
      = (swingControlNodes walker overread leg).stanceControlNodes.node0 := by
    ext <;> simp [swingControlNodes]
  have hexitDot :
      (4 : K) • ((swingControlNodes walker overread leg).swingSecondaryControlNodes.node4
        - (swingControlNodes walker overread leg).swingSecondaryControlNodes.node3)
      = (4 : K) • ((swingControlNodes walker overread leg).stanceControlNodes.node1
        - (swingControlNodes walker overread leg).stanceControlNodes.node0) := by
    ext <;> simp [swingControlNodes] <;> ring
  have hentry : (swingControlNodes walker overread leg).swingPrimaryControlNodes.node0
      = (swingControlNodes walker overread leg).stanceControlNodes.node4 := by
    ext <;> simp [swingControlNodes]
  have hentryDot :
      (4 : K) • ((swingControlNodes walker overread leg).swingPrimaryControlNodes.node1
        - (swingControlNodes walker overread leg).swingPrimaryControlNodes.node0)
      = (4 : K) • ((swingControlNodes walker overread leg).stanceControlNodes.node4
        - (swingControlNodes walker overread leg).stanceControlNodes.node3) := by
    ext <;> simp [swingControlNodes] <;> ring
  refine ⟨hexit, hexitDot, ?_, hentry, hentryDot, ?_⟩
  · rw [(quarticBezierDot_ends _).2, (quarticBezierDot_ends _).1, hexitDot]
  · rw [(quarticBezierDot_ends _).1, (quarticBezierDot_ends _).2, hentryDot]

/-! ## C18: the stance update of updatePosition -/

/-- C18: for a leg whose step state is STANCE, STANCE_TRANSITION or SWING_TRANSITION, one call
of `updatePosition` changes `currentTipPosition` by exactly
`(-(v_centre + omega*(y, -x))*time_delta, 0)`, where `(x, y)` is the tip position before the
call, and changes no other member (`originTipPosition` included); with `v_centre = 0` and
`omega = 0` the leg is unchanged. For a leg in FORCE_STOP or FORCE_STANCE the call changes
nothing at all. -/
theorem stance_update_moves_tip_in_plane {K : Type} [LinearOrderedField K] [FloorRing K]
    (walker : WalkerMembers K) (overread : K) (leg : TipStepper K) :
    ((leg.state = StepState.STANCE ∨ leg.state = StepState.STANCE_TRANSITION
        ∨ leg.state = StepState.SWING_TRANSITION) →
      (updatePosition walker overread leg).currentTipPosition - leg.currentTipPosition
          = ⟨-(walker.localCentreVelocity.1
                + walker.angularVelocity * leg.currentTipPosition.y) * walker.timeDelta,
             -(walker.localCentreVelocity.2
                + walker.angularVelocity * (-leg.currentTipPosition.x)) * walker.timeDelta,
             0⟩
        ∧ (updatePosition walker overread leg).currentTipPosition.z = leg.currentTipPosition.z
        ∧ updatePosition walker overread leg
            = { leg with
                currentTipPosition := (updatePosition walker overread leg).currentTipPosition }
        ∧ (updatePosition walker overread leg).originTipPosition = leg.originTipPosition
        ∧ (walker.localCentreVelocity = (0, 0) → walker.angularVelocity = 0 →
            updatePosition walker overread leg = leg))
      ∧ ((leg.state = StepState.FORCE_STOP ∨ leg.state = StepState.FORCE_STANCE) →
          updatePosition walker overread leg = leg) := by
  constructor
  · intro hstate
    have hns : leg.state ≠ StepState.SWING := by
      rcases hstate with h | h | h <;> rw [h] <;> decide
    have hup : updatePosition walker overread leg
        = { leg with
            currentTipPosition :=
              ⟨leg.currentTipPosition.x
                  + -(walker.localCentreVelocity.1
                      + walker.angularVelocity * leg.currentTipPosition.y) * walker.timeDelta,
                leg.currentTipPosition.y
                  + -(walker.localCentreVelocity.2
                      + walker.angularVelocity * (-leg.currentTipPosition.x))
                    * walker.timeDelta,
                leg.currentTipPosition.z⟩ } := by
      unfold updatePosition
      rw [if_neg hns, if_pos hstate]
    refine ⟨?_, ?_, ?_, ?_, ?_⟩
    · rw [hup]
      ext <;> simp
    · rw [hup]
    · rw [hup]
    · rw [hup]
    · intro hv hw
      rw [hup, hv, hw]
      simp
  · intro hstate
    unfold updatePosition
    have h1 : leg.state ≠ StepState.SWING := by
      rcases hstate with h | h <;> rw [h] <;> decide
    have h2 : ¬(leg.state = StepState.STANCE ∨ leg.state = StepState.STANCE_TRANSITION
        ∨ leg.state = StepState.SWING_TRANSITION) := by
      rcases hstate with h | h <;> rw [h] <;> decide
    rw [if_neg h1, if_neg h2]

/-- Witness for C18: a leg in STANCE at `(1, 2, -1)` and the same leg in FORCE_STOP. -/
theorem stance_update_moves_tip_in_plane_witness :
    (updatePosition tripodMembers 0 stanceLeg).currentTipPosition - stanceLeg.currentTipPosition
        = ⟨-(1 / 4 + 1 / 10 * 2) * (1 / 8), -(0 + 1 / 10 * (-1)) * (1 / 8), 0⟩
      ∧ (updatePosition tripodMembers 0 stanceLeg).originTipPosition = ⟨1, 2, -1⟩
      ∧ updatePosition tripodMembers 0 { stanceLeg with state := StepState.FORCE_STOP }
        = { stanceLeg with state := StepState.FORCE_STOP } :=
  ⟨((stance_update_moves_tip_in_plane tripodMembers 0 stanceLeg).1 (Or.inl rfl)).1,
    ((stance_update_moves_tip_in_plane tripodMembers 0 stanceLeg).1 (Or.inl rfl)).2.2.2.1,
    (stance_update_moves_tip_in_plane tripodMembers 0
      { stanceLeg with state := StepState.FORCE_STOP }).2 (Or.inl rfl)⟩

/-! ## Sums of derivative steps -/

theorem accumulatedDot_closed {K : Type} [LinearOrderedField K] (points : ControlNodes K)
    (u : K) (k : Nat) :
    accumulatedDot points u k
      = ⟨accumulatedClosed points.node0.x points.node1.x points.node2.x points.node3.x
            points.node4.x u k,
          accumulatedClosed points.node0.y points.node1.y points.node2.y points.node3.y
            points.node4.y u k,
          accumulatedClosed points.node0.z points.node1.z points.node2.z points.node3.z
            points.node4.z u k⟩ := by
  induction k with
  | zero => ext <;> simp [accumulatedDot, accumulatedClosed]
  | succ k ih =>
    rw [accumulatedDot, ih]
    ext <;> simp [quarticBezierDot, accumulatedClosed] <;> ring

theorem accumulatedClosed_full {K : Type} [LinearOrderedField K] (p0 p1 p2 p3 p4 u : K)
    (m : Nat) (hu : u * m = 1) :
    accumulatedClosed p0 p1 p2 p3 p4 u m
      = p4 - p0 + (2 / (m : K)) * (p4 - p3 - p1 + p0)
          + (1 / (m : K) ^ 2) * (p4 - 2 * p3 + 2 * p1 - p0) := by
  have hm : (m : K) ≠ 0 := by
    intro h
    rw [h, mul_zero] at hu
    exact zero_ne_one hu
  have hu2 : u = 1 / (m : K) := by
    field_simp
    exact hu
  rw [hu2]
  unfold accumulatedClosed
  field_simp
  ring

/-- The sum of `m` derivative steps of size `1/m` over a polygon is the difference of its end
nodes plus `knotError`. -/
theorem accumulatedDot_full {K : Type} [LinearOrderedField K] (points : ControlNodes K)
    (u : K) (m : Nat) (hu : u * m = 1) :
    accumulatedDot points u m = points.node4 - points.node0 + knotError points (m : K) := by
  rw [accumulatedDot_closed]
  ext <;> simp only [accumulatedClosed_full _ _ _ _ _ u m hu, knotError, vector3d_add_x,
    vector3d_add_y, vector3d_add_z, vector3d_sub_x, vector3d_sub_y, vector3d_sub_z,
    vector3d_smul_x, vector3d_smul_y, vector3d_smul_z] <;> ring

/-! ## The ticks of a swing with fixed default tip position and stride -/

theorem swingControlNodes_congr {K : Type} [LinearOrderedField K] [FloorRing K]
    (walker : WalkerMembers K) (overread : K) (a b : TipStepper K)
    (hd : a.defaultTipPosition = b.defaultTipPosition)
    (ho : a.originTipPosition = b.originTipPosition) (hs : a.strideVector = b.strideVector) :
    swingControlNodes walker overread a = swingControlNodes walker overread b := by
  unfold swingControlNodes
  rw [hd, ho, hs]

theorem numIterations_half {K : Type} [LinearOrderedField K] [FloorRing K]
    (walker : WalkerMembers K) (m : Nat) (hn : numIterations walker = 2 * (m : Int)) :
    Int.tdiv (numIterations walker) 2 = (m : Int) := by
  rw [hn]
  exact Int.mul_tdiv_cancel_left _ (by norm_num)

theorem vector3d_add_zero {K : Type} [LinearOrderedField K] (a : Vector3d K) :
    a + (⟨0, 0, 0⟩ : Vector3d K) = a := by
  ext <;> simp

/-- The members of a leg after `k` ticks of a swing that starts at `phase = swingStart` with
`numIterations = 2*m`: the first call captures the origin, the polygons stay those built from
that origin, and the position is the start plus the derivative steps taken so far, the first `m`
over the primary polygon and the rest over the secondary one. -/
theorem swingTicks_members {K : Type} [LinearOrderedField K] [FloorRing K]
    (walker : WalkerMembers K) (overread : K) (leg : TipStepper K) (m : Nat)
    (hphase : leg.phase = walker.timing.swingStart)
    (hn : numIterations walker = 2 * (m : Int)) (k : Nat) :
    (swingTicks walker overread k leg).phase = walker.timing.swingStart + k
      ∧ (swingTicks walker overread k leg).state = leg.state
      ∧ (swingTicks walker overread k leg).strideVector = leg.strideVector
      ∧ (swingTicks walker overread k leg).defaultTipPosition = leg.defaultTipPosition
      ∧ (0 < k → (swingTicks walker overread k leg).originTipPosition = leg.currentTipPosition)
      ∧ (swingTicks walker overread k leg).currentTipPosition
          = leg.currentTipPosition
            + accumulatedDot (swingControlNodes walker overread
                { leg with originTipPosition := leg.currentTipPosition }).swingPrimaryControlNodes
                (2 * (1 / (numIterations walker : K))) (min k m)
            + accumulatedDot (swingControlNodes walker overread
                { leg with originTipPosition := leg.currentTipPosition }).swingSecondaryControlNodes
                (2 * (1 / (numIterations walker : K))) (k - m) := by
  induction k with
  | zero =>
    refine ⟨by simp [swingTicks, hphase], rfl, rfl, rfl, fun h => absurd h (lt_irrefl _), ?_⟩
    simp only [swingTicks, Nat.zero_min, Nat.zero_sub, accumulatedDot, vector3d_add_zero]
  | succ k ih =>
    obtain ⟨h1, h2, h3, h4, h5, h6⟩ := ih
    have hiter : (swingTicks walker overread k leg).phase - walker.timing.swingStart + 1
        = (k : Int) + 1 := by
      rw [h1]
      ring
    have hnodes : swingControlNodes walker overread
        (if (swingTicks walker overread k leg).phase - walker.timing.swingStart + 1 = 1 then
          { swingTicks walker overread k leg with
            originTipPosition := (swingTicks walker overread k leg).currentTipPosition }
         else swingTicks walker overread k leg)
        = swingControlNodes walker overread
            { leg with originTipPosition := leg.currentTipPosition } := by
      apply swingControlNodes_congr
      · split_ifs <;> exact h4
      · split_ifs with hi
        · have hk : k = 0 := by
            rw [hiter] at hi
            omega
          subst hk
          rfl
        · have hk : 0 < k := by
            rw [hiter] at hi
            omega
          exact h5 hk
      · split_ifs <;> exact h3
    have hhalf := numIterations_half walker m hn
    refine ⟨?_, ?_, ?_, ?_, ?_, ?_⟩
    · simp only [swingTicks, h1]
      push_cast
      ring
    · simp only [swingTicks, updateSwingPos]
      split_ifs <;> exact h2
    · simp only [swingTicks, updateSwingPos]
      split_ifs <;> exact h3
    · simp only [swingTicks, updateSwingPos]
      split_ifs <;> exact h4
    · intro _
      simp only [swingTicks, updateSwingPos]
      split_ifs with hi
      · have hk : k = 0 := by
          rw [hiter] at hi
          omega
        subst hk
        rfl
      · have hk : 0 < k := by
          rw [hiter] at hi
          omega
        exact h5 hk
    · simp only [swingTicks, updateSwingPos]
      rw [hnodes, hiter, hhalf, h6]
      by_cases hle : (k : Int) + 1 ≤ (m : Int)
      · have hkm : k + 1 ≤ m := by omega
        rw [if_pos hle, min_eq_left hkm, min_eq_left (Nat.le_of_succ_le hkm),
          Nat.sub_eq_zero_of_le hkm, Nat.sub_eq_zero_of_le (Nat.le_of_succ_le hkm)]
        simp only [accumulatedDot]
        have ht : (((k : Int) + 1 : Int) : K) * (1 / (numIterations walker : K)) * 2
            = ((k + 1 : Nat) : K) * (2 * (1 / (numIterations walker : K))) := by
          push_cast
          ring
        rw [ht]
        ext <;> simp <;> ring
      · have hkm : m ≤ k := by omega
        rw [if_neg hle, min_eq_right hkm, min_eq_right (Nat.le_succ_of_le hkm),
          Nat.succ_sub hkm]
        simp only [accumulatedDot]
        have ht : (((k : Int) + 1 - (m : Int) : Int) : K) * (1 / (numIterations walker : K)) * 2
            = ((k - m + 1 : Nat) : K) * (2 * (1 / (numIterations walker : K))) := by
          push_cast [Nat.cast_sub hkm]
          ring
        rw [ht]
        ext <;> simp <;> ring

theorem derivative_step_size {K : Type} [LinearOrderedField K] [FloorRing K]
    (walker : WalkerMembers K) (m : Nat) (hn : numIterations walker = 2 * (m : Int))
    (hm : 0 < m) : 2 * (1 / (numIterations walker : K)) * (m : K) = 1 := by
  have hmK : (m : K) ≠ 0 := Nat.cast_ne_zero.mpr (Nat.pos_iff_ne_zero.mp hm)
  rw [hn]
  push_cast
  field_simp

theorem swingPrimary_node0 {K : Type} [LinearOrderedField K] [FloorRing K]
    (walker : WalkerMembers K) (overread : K) (leg : TipStepper K) :
    (swingControlNodes walker overread leg).swingPrimaryControlNodes.node0
      = leg.originTipPosition := by
  ext <;> simp [swingControlNodes]

theorem swingSecondary_node0 {K : Type} [LinearOrderedField K] [FloorRing K]
    (walker : WalkerMembers K) (overread : K) (leg : TipStepper K) :
    (swingControlNodes walker overread leg).swingSecondaryControlNodes.node0
      = (swingControlNodes walker overread leg).swingPrimaryControlNodes.node4 := by
  ext <;> simp [swingControlNodes]

/-- After the first `m` ticks of a swing with `numIterations = 2*m` the tip is at primary node 4
plus the `knotError` of the primary polygon. -/
theorem swingTicks_half {K : Type} [LinearOrderedField K] [FloorRing K]
    (walker : WalkerMembers K) (overread : K) (leg : TipStepper K) (m : Nat)
    (hphase : leg.phase = walker.timing.swingStart)
    (hn : numIterations walker = 2 * (m : Int)) (hm : 0 < m) :
    (swingTicks walker overread m leg).currentTipPosition
      = (swingControlNodes walker overread
            { leg with originTipPosition := leg.currentTipPosition }).swingPrimaryControlNodes.node4
        + knotError (swingControlNodes walker overread
            { leg with originTipPosition := leg.currentTipPosition }).swingPrimaryControlNodes
            (m : K) := by
  have h := (swingTicks_members walker overread leg m hphase hn m).2.2.2.2.2
  rw [h, min_self, Nat.sub_self,
    accumulatedDot_full _ _ m (derivative_step_size walker m hn hm), swingPrimary_node0]
  ext <;> simp [accumulatedDot] <;> ring

/-- After all `2*m` ticks of a swing with `numIterations = 2*m` the tip is at secondary node 4
plus the `knotError` of both polygons. -/
theorem swingTicks_full {K : Type} [LinearOrderedField K] [FloorRing K]
    (walker : WalkerMembers K) (overread : K) (leg : TipStepper K) (m : Nat)
    (hphase : leg.phase = walker.timing.swingStart)
    (hn : numIterations walker = 2 * (m : Int)) (hm : 0 < m) :
    (swingTicks walker overread (2 * m) leg).currentTipPosition
      = (swingControlNodes walker overread
            { leg with
              originTipPosition := leg.currentTipPosition }).swingSecondaryControlNodes.node4
        + (knotError (swingControlNodes walker overread
            { leg with originTipPosition := leg.currentTipPosition }).swingPrimaryControlNodes
            (m : K)
          + knotError (swingControlNodes walker overread
            { leg with originTipPosition := leg.currentTipPosition }).swingSecondaryControlNodes
            (m : K)) := by
  have h := (swingTicks_members walker overread leg m hphase hn (2 * m)).2.2.2.2.2
  have h1 : min (2 * m) m = m := min_eq_right (by omega)
  have h2 : 2 * m - m = m := by omega
  rw [h, h1, h2, accumulatedDot_full _ _ m (derivative_step_size walker m hn hm),
    accumulatedDot_full _ _ m (derivative_step_size walker m hn hm), swingPrimary_node0,
    swingSecondary_node0]
  ext <;> simp <;> ring

/-! ## C17: the derivative-form update and the knots -/

theorem tripodMembers_numIterations : numIterations tripodMembers = 2 * ((2 : Nat) : Int) := by
  have h : (((6 - 2 : Int) : ℚ) / ((8 : Int) : ℚ)) / (1 * (1 / 8)) / 2 = 2 := by norm_num
  have h2 : ((2 : Int) : ℚ) * 2 = ((4 : Int) : ℚ) := by norm_num
  have hr : roundToInt (2 : ℚ) = 2 := by
    unfold roundToInt toInt
    norm_num [Int.floor_eq_iff]
  simp only [numIterations, tripodMembers, h, hr, h2, toInt_intCast]
  rfl

theorem vector3d_add_eq_self {K : Type} [LinearOrderedField K] (a e : Vector3d K) :
    a + e = a ↔ e = ⟨0, 0, 0⟩ := by
  constructor
  · intro h
    have hx := congrArg Vector3d.x h
    have hy := congrArg Vector3d.y h
    have hz := congrArg Vector3d.z h
    simp only [vector3d_add_x, vector3d_add_y, vector3d_add_z] at hx hy hz
    ext
    · show e.x = 0
      linarith
    · show e.y = 0
      linarith
    · show e.z = 0
      linarith
  · intro h
    rw [h]
    exact vector3d_add_zero a

/-- C17 (amended): for every default tip position, origin, stride vector, swing height and every
`numIterations = 2*m` with `m >= 1`, with the default tip position and the stride vector held
fixed over a swing that starts at `phase = swingStart` (so that the polygons are those built from
the tip position captured by the first call), after the first `m` calls of `updateSwingPos` the
tip position is primary node 4 plus the error
`(2/m)*(P4 - P3 - P1 + P0) + (1/m^2)*(P4 - 2*P3 + 2*P1 - P0)`, and after all `2*m` calls it is
secondary node 4 plus that error and the same error of the secondary polygon. Horizontally the
position after `2*m` calls is `default + stride/2 + (3*(default - origin) - stride/2)/m^2`.
The position after `m` calls is primary node 4 exactly when the error of the primary polygon
is zero. For every control polygon the sum of the `m` derivative steps
`2*dt*B'(2*i*dt)`, `i = 1 .. m`, is `node4 - node0` plus the error of that polygon. -/
theorem swing_updates_reach_knots_up_to_error {K : Type} [LinearOrderedField K] [FloorRing K]
    (walker : WalkerMembers K) (overread : K) (leg : TipStepper K) (m : Nat)
    (hphase : leg.phase = walker.timing.swingStart)
    (hn : numIterations walker = 2 * (m : Int)) (hm : 0 < m) :
    (swingTicks walker overread m leg).currentTipPosition
        = (swingControlNodes walker overread
              { leg with
                originTipPosition := leg.currentTipPosition }).swingPrimaryControlNodes.node4
          + knotError (swingControlNodes walker overread
              { leg with originTipPosition := leg.currentTipPosition }).swingPrimaryControlNodes
              (m : K)
      ∧ (swingTicks walker overread (2 * m) leg).currentTipPosition
        = (swingControlNodes walker overread
              { leg with
                originTipPosition := leg.currentTipPosition }).swingSecondaryControlNodes.node4
          + (knotError (swingControlNodes walker overread
              { leg with originTipPosition := leg.currentTipPosition }).swingPrimaryControlNodes
              (m : K)
            + knotError (swingControlNodes walker overread
              { leg with
                originTipPosition := leg.currentTipPosition }).swingSecondaryControlNodes
              (m : K))
      ∧ (swingTicks walker overread (2 * m) leg).currentTipPosition.x
        = leg.defaultTipPosition.x + leg.strideVector.1 / 2
          + (3 * (leg.defaultTipPosition.x - leg.currentTipPosition.x) - leg.strideVector.1 / 2)
            / (m : K) ^ 2
      ∧ (swingTicks walker overread (2 * m) leg).currentTipPosition.y
        = leg.defaultTipPosition.y + leg.strideVector.2 / 2
          + (3 * (leg.defaultTipPosition.y - leg.currentTipPosition.y) - leg.strideVector.2 / 2)
            / (m : K) ^ 2
      ∧ ((swingTicks walker overread m leg).currentTipPosition
          = (swingControlNodes walker overread
              { leg with
                originTipPosition := leg.currentTipPosition }).swingPrimaryControlNodes.node4
        ↔ knotError (swingControlNodes walker overread
              { leg with originTipPosition := leg.currentTipPosition }).swingPrimaryControlNodes
              (m : K) = ⟨0, 0, 0⟩)
      ∧ ∀ points : ControlNodes K,
          accumulatedDot points (2 * (1 / (numIterations walker : K))) m
            = points.node4 - points.node0 + knotError points (m : K) := by
  have hmK : (m : K) ≠ 0 := Nat.cast_ne_zero.mpr (Nat.pos_iff_ne_zero.mp hm)
  have hhalf := swingTicks_half walker overread leg m hphase hn hm
  have hfull := swingTicks_full walker overread leg m hphase hn hm
  refine ⟨hhalf, hfull, ?_, ?_, ?_,
    fun points => accumulatedDot_full points _ m (derivative_step_size walker m hn hm)⟩
  · rw [hfull]
    simp only [knotError, swingControlNodes, vector3d_add_x, vector3d_sub_x, vector3d_smul_x]
    field_simp
    ring
  · rw [hfull]
    simp only [knotError, swingControlNodes, vector3d_add_y, vector3d_sub_y, vector3d_smul_y]
    field_simp
    ring
  · rw [hhalf]
    exact vector3d_add_eq_self _ _

/-- Witness for C17: the tripod timing at `time_delta = 1/8` (`numIterations = 4`) and a leg that
enters its swing one unit behind the default tip position with stride `(2, 0)`. -/
theorem swing_updates_reach_knots_up_to_error_witness :
    (swingTicks tripodMembers 1 4 swingLeg).currentTipPosition.x
        = 0 + 2 / 2 + (3 * (0 - (-1)) - 2 / 2) / ((2 : Nat) : ℚ) ^ 2
      ∧ (swingTicks tripodMembers 1 4 swingLeg).currentTipPosition.y
        = 0 + 0 / 2 + (3 * (0 - 0) - 0 / 2) / ((2 : Nat) : ℚ) ^ 2 :=
  ⟨(swing_updates_reach_knots_up_to_error tripodMembers 1 swingLeg 2 rfl
      tripodMembers_numIterations (by decide)).2.2.1,
    (swing_updates_reach_knots_up_to_error tripodMembers 1 swingLeg 2 rfl
      tripodMembers_numIterations (by decide)).2.2.2.1⟩

/-- C17 as stated fails: with the tripod timing at `time_delta = 1/8` (`numIterations = 4`), a
leg that enters its swing at `(-1, 0, 0)` with default tip position `(0, 0, 0)` and stride
`(2, 0)` has primary node 4 at `x = 0` and secondary node 4 at `x = 1`, but after the first two
calls of `updateSwingPos` its `x` is `9/4` and after all four calls it is `3/2`. -/
theorem swing_ticks_miss_the_knots :
    numIterations tripodMembers = 4
      ∧ (swingControlNodes tripodMembers 1 swingLeg).swingPrimaryControlNodes.node4.x = 0
      ∧ (swingControlNodes tripodMembers 1 swingLeg).swingSecondaryControlNodes.node4.x = 1
      ∧ (swingTicks tripodMembers 1 2 swingLeg).currentTipPosition.x = 9 / 4
      ∧ (swingTicks tripodMembers 1 4 swingLeg).currentTipPosition.x = 3 / 2 := by
  have hhalf := swingTicks_half tripodMembers 1 swingLeg 2 rfl tripodMembers_numIterations
    (by decide)
  have hfull := swingTicks_full tripodMembers 1 swingLeg 2 rfl tripodMembers_numIterations
    (by decide)
  refine ⟨tripodMembers_numIterations, ?_, ?_, ?_, ?_⟩
  · simp [swingControlNodes, swingLeg]
  · norm_num [swingControlNodes, swingLeg]
  · rw [hhalf]
    norm_num [knotError, swingControlNodes, swingLeg]
  · rw [show (4 : Nat) = 2 * 2 from rfl, hfull]
    norm_num [knotError, swingControlNodes, swingLeg]

/-! ## C16: the height reached by a swing -/

theorem swingApex_ge {K : Type} [LinearOrderedField K] [FloorRing K]
    (walker : WalkerMembers K) (overread : K) (leg : TipStepper K) (j k : Nat)
    (hk : k ≤ j) :
    (swingTicks walker overread (k + 1) leg).currentTipPosition.z
      ≤ swingApex walker overread leg j := by
  induction j with
  | zero =>
    have h0 : k = 0 := by omega
    subst h0
    exact le_refl _
  | succ j ih =>
    rcases Nat.lt_or_ge k (j + 1) with h | h
    · exact le_trans (ih (by omega)) (le_max_left _ _)
    · have hkj : k = j + 1 := by omega
      subst hkj
      exact le_max_right _ _

/-- C16 (amended): for every swing that starts at `phase = swingStart` with
`numIterations = 2*m`, `m >= 1` (any origin, default tip position and stride, held fixed), the
junction knot of the two polygons, primary node 4 and secondary node 0, has
`z = origin.z + stepClearance*maximumBodyHeight`, where the origin is the tip position at the
first call. The `z` that `currentTipPosition` has after the first `m` calls of `updateSwingPos`
is that height plus
`(2/m)*(origin.z/2 + default.z/2 + 5*h/4 - r) + (1/m^2)*(3*origin.z - default.z + h/2 - 2*r)`,
where `h` is the swing height and `r` the `z` that lines 59 and 60 give to primary nodes 2 and
3; the maximum over the `2*m` ticks of the swing is at least this value. -/
theorem swing_height_at_junction {K : Type} [LinearOrderedField K] [FloorRing K]
    (walker : WalkerMembers K) (overread : K) (leg : TipStepper K) (m : Nat)
    (hphase : leg.phase = walker.timing.swingStart)
    (hn : numIterations walker = 2 * (m : Int)) (hm : 0 < m) :
    (swingControlNodes walker overread
          { leg with originTipPosition := leg.currentTipPosition }).swingPrimaryControlNodes.node4.z
        = leg.currentTipPosition.z + walker.stepClearance * walker.maximumBodyHeight
      ∧ (swingControlNodes walker overread
          { leg with
            originTipPosition := leg.currentTipPosition }).swingSecondaryControlNodes.node0.z
        = leg.currentTipPosition.z + walker.stepClearance * walker.maximumBodyHeight
      ∧ (swingTicks walker overread m leg).currentTipPosition.z
        = leg.currentTipPosition.z + walker.stepClearance * walker.maximumBodyHeight
          + (2 / (m : K)) * (leg.currentTipPosition.z / 2 + leg.defaultTipPosition.z / 2
              + 5 * (walker.stepClearance * walker.maximumBodyHeight) / 4 - overread)
          + (1 / (m : K) ^ 2) * (3 * leg.currentTipPosition.z - leg.defaultTipPosition.z
              + walker.stepClearance * walker.maximumBodyHeight / 2 - 2 * overread)
      ∧ (swingTicks walker overread m leg).currentTipPosition.z
          ≤ swingApex walker overread leg (2 * m - 1) := by
  have hmK : (m : K) ≠ 0 := Nat.cast_ne_zero.mpr (Nat.pos_iff_ne_zero.mp hm)
  refine ⟨by simp [swingControlNodes], by simp [swingControlNodes], ?_, ?_⟩
  · rw [swingTicks_half walker overread leg m hphase hn hm]
    simp only [knotError, swingControlNodes, vector3d_add_z, vector3d_sub_z, vector3d_smul_z]
    field_simp
    ring
  · obtain ⟨k, rfl⟩ : ∃ k, m = k + 1 := ⟨m - 1, by omega⟩
    exact swingApex_ge walker overread leg _ k (by omega)

/-- Witness for C16: the tripod timing at `time_delta = 1/8` (`numIterations = 4`), swing height
1, a leg lifting off at its default tip position, and the value 1 read by lines 59 and 60. -/
theorem swing_height_at_junction_witness :
    (swingTicks tripodMembers 1 2 liftLeg).currentTipPosition.z
        = 0 + 1 / 2 * 2 + (2 / ((2 : Nat) : ℚ)) * (0 / 2 + 0 / 2 + 5 * (1 / 2 * 2) / 4 - 1)
          + (1 / ((2 : Nat) : ℚ) ^ 2) * (3 * 0 - 0 + 1 / 2 * 2 / 2 - 2 * 1)
      ∧ (swingTicks tripodMembers 1 2 liftLeg).currentTipPosition.z
          ≤ swingApex tripodMembers 1 liftLeg 3 :=
  ⟨(swing_height_at_junction tripodMembers 1 liftLeg 2 rfl tripodMembers_numIterations
      (by decide)).2.2.1,
    (swing_height_at_junction tripodMembers 1 liftLeg 2 rfl tripodMembers_numIterations
      (by decide)).2.2.2⟩

/-- The heights of the example swing after each of its four ticks. -/
theorem liftLeg_heights :
    (swingTicks tripodMembers 1 1 liftLeg).currentTipPosition.z = 7 / 8
      ∧ (swingTicks tripodMembers 1 2 liftLeg).currentTipPosition.z = 7 / 8
      ∧ (swingTicks tripodMembers 1 3 liftLeg).currentTipPosition.z = 0
      ∧ (swingTicks tripodMembers 1 4 liftLeg).currentTipPosition.z = 1 / 2 := by
  have h := fun k => (swingTicks_members tripodMembers 1 liftLeg 2 rfl
    tripodMembers_numIterations k).2.2.2.2.2
  have hu : (2 : ℚ) * (1 / ((numIterations tripodMembers : Int) : ℚ)) = 1 / 2 := by
    rw [tripodMembers_numIterations]
    norm_num
  refine ⟨?_, ?_, ?_, ?_⟩
  · rw [h 1, hu, accumulatedDot_closed, accumulatedDot_closed]
    norm_num [accumulatedClosed, swingControlNodes, liftLeg, tripodMembers]
  · rw [h 2, hu, accumulatedDot_closed, accumulatedDot_closed]
    norm_num [accumulatedClosed, swingControlNodes, liftLeg, tripodMembers]
  · rw [h 3, hu, accumulatedDot_closed, accumulatedDot_closed]
    norm_num [accumulatedClosed, swingControlNodes, liftLeg, tripodMembers]
  · rw [h 4, hu, accumulatedDot_closed, accumulatedDot_closed]
    norm_num [accumulatedClosed, swingControlNodes, liftLeg, tripodMembers]

/-- C16 as stated fails: with the tripod timing at `time_delta = 1/8` (`numIterations = 4`, an
even number), swing height `stepClearance*maximumBodyHeight = 1`, a leg that lifts off at its
default tip position `(0, 0, 0)` with zero stride, and with primary nodes 2 and 3 at the height
`origin.z + swing height = 1` that the comments of lines 59 and 60 intend, the `z` of
`currentTipPosition` after the four calls of `updateSwingPos` is `7/8`, `7/8`, `0` and `1/2`;
the maximum is `7/8`, which differs from `origin.z + swing height = 1` by more than `1e-6`. -/
theorem swing_apex_misses_clearance :
    numIterations tripodMembers = 4
      ∧ liftLeg.defaultTipPosition.z
          ≤ liftLeg.currentTipPosition.z
            + tripodMembers.stepClearance * tripodMembers.maximumBodyHeight
      ∧ swingApex tripodMembers 1 liftLeg 3 = 7 / 8
      ∧ ¬ |swingApex tripodMembers 1 liftLeg 3
            - (liftLeg.currentTipPosition.z
                + tripodMembers.stepClearance * tripodMembers.maximumBodyHeight)|
          ≤ 1 / 1000000 := by
  obtain ⟨h1, h2, h3, h4⟩ := liftLeg_heights
  have hapex : swingApex tripodMembers 1 liftLeg 3 = 7 / 8 := by
    simp only [swingApex, h1, h2, h3, h4]
    norm_num
  refine ⟨tripodMembers_numIterations, by norm_num [liftLeg, tripodMembers], hapex, ?_⟩
  rw [hapex]
  norm_num [liftLeg, tripodMembers, abs_le]

/-! ## C19: odometry under a constant straight command -/

/-- One step of the rate limiter from the speed reached after `k` ticks gives the speed reached
after `k + 1` ticks. -/
theorem rampedSpeed_step (t a : ℝ) (ha : 0 ≤ a) (k : Nat) :
    (if |t - rampedSpeed t a k| > 0 then
        rampedSpeed t a k + (t - rampedSpeed t a k) * min 1 (a / |t - rampedSpeed t a k|)
      else rampedSpeed t a k) = rampedSpeed t a (k + 1) := by
  by_cases ht : t = 0
  · subst ht
    simp [rampedSpeed]
  · have hT : 0 < |t| := abs_pos.mpr ht
    have he : 0 ≤ a / |t| := div_nonneg ha (le_of_lt hT)
    have hc0 : 0 ≤ (k : ℝ) * a / |t| := div_nonneg (mul_nonneg (Nat.cast_nonneg k) ha) (le_of_lt hT)
    have hsucc : ((k + 1 : Nat) : ℝ) * a / |t| = (k : ℝ) * a / |t| + a / |t| := by
      push_cast
      ring
    unfold rampedSpeed
    rw [hsucc]
    generalize (k : ℝ) * a / |t| = c at hc0
    rcases le_or_lt 1 c with h1 | h1
    · rw [min_eq_left h1, mul_one, sub_self, abs_zero, if_neg (lt_irrefl 0),
        min_eq_left (by linarith), mul_one]
    · rw [min_eq_right (le_of_lt h1)]
      have hd : t - t * c = t * (1 - c) := by ring
      have h1c : 0 < 1 - c := by linarith
      have habs : |t - t * c| = |t| * (1 - c) := by
        rw [hd, abs_mul, abs_of_pos h1c]
      have hpos : |t| * (1 - c) > 0 := mul_pos hT h1c
      rw [habs, if_pos hpos]
      have hq : a / (|t| * (1 - c)) = a / |t| / (1 - c) := by
        rw [div_div]
      rw [hq, hd]
      rcases le_or_lt (1 - c) (a / |t|) with h2 | h2
      · have h3 : 1 ≤ a / |t| / (1 - c) := (one_le_div h1c).mpr h2
        rw [min_eq_left h3, min_eq_left (by linarith)]
        ring
      · have h3 : a / |t| / (1 - c) ≤ 1 := (div_le_one h1c).mpr (le_of_lt h2)
        rw [min_eq_right h3, min_eq_right (by linarith)]
        field_simp
        ring

theorem rampedSpeed_zero (t a : ℝ) : rampedSpeed t a 0 = 0 := by
  simp [rampedSpeed]

/-- When the target is within reach of one step, the ramp is at the target from the first tick
on. -/
theorem rampedSpeed_reached (t a : ℝ) (h : |t| ≤ a) (k : Nat) : rampedSpeed t a (k + 1) = t := by
  by_cases ht : t = 0
  · subst ht
    simp [rampedSpeed]
  · have hT : 0 < |t| := abs_pos.mpr ht
    have ha : 0 ≤ a := le_trans (le_of_lt hT) h
    have h1 : 1 ≤ ((k + 1 : Nat) : ℝ) * a / |t| := by
      rw [one_le_div hT]
      have hk : (1 : ℝ) ≤ ((k + 1 : Nat) : ℝ) := by
        push_cast
        linarith [Nat.cast_nonneg (α := ℝ) k]
      calc |t| ≤ a := h
        _ = 1 * a := (one_mul a).symm
        _ ≤ ((k + 1 : Nat) : ℝ) * a := mul_le_mul_of_nonneg_right hk ha
    unfold rampedSpeed
    rw [min_eq_left h1, mul_one]

/-- On a tick the walk state does not become STOPPING when it was not STOPPING and a zero speed
occurs only in STOPPED. -/
theorem walkTransition_not_stopping (b : Bool) (w : WalkController)
    (hs : w.state ≠ WalkState.STOPPING) (hb : b = false → w.state = WalkState.STOPPED) :
    (walkTransition b w).state ≠ WalkState.STOPPING
      ∧ (b = false → (walkTransition b w).state = WalkState.STOPPED) := by
  rw [walkTransition_state]
  unfold transitionTable
  cases hstate : w.state <;> cases b <;> simp_all
  split_ifs <;> simp

theorem localVelocity_straight (W : Walker) (v0 : ℝ) (hs : W.core.state ≠ WalkState.STOPPING) :
    localVelocity W (v0, 0) = (scaledCommand W v0, 0) := by
  unfold localVelocity scaledCommand
  rw [if_pos hs]
  simp

/-- One tick of `updateWalk` outside STOPPING with the command `(v0, 0)`, curvature 0, no angular
velocity and a centre velocity along x: the parameters are kept, the angular velocity stays zero,
the centre velocity takes one rate-limited step toward `(scaledCommand, 0)`, and the walk state
is the one the transition step gives. -/
theorem updateWalk_straight (W : Walker) (tip : Nat → ℝ × ℝ) (v0 s : ℝ)
    (hs : W.core.state ≠ WalkState.STOPPING) (hv : W.localCentreVelocity = (s, 0))
    (hw : W.angularVelocity = 0) (hassert : |scaledCommand W v0| < 1.01) :
    ∃ W1 : Walker, updateWalk (v0, 0) 0 tip W = some W1
      ∧ W1.timing = W.timing ∧ W1.timeDelta = W.timeDelta
      ∧ W1.stepFrequency = W.stepFrequency ∧ W1.minFootprintRadius = W.minFootprintRadius
      ∧ W1.maxAcceleration = W.maxAcceleration
      ∧ W1.angularVelocity = 0
      ∧ W1.localCentreVelocity
        = ((if |scaledCommand W v0 - s| > 0 then
              s + (scaledCommand W v0 - s)
                * min 1 (W.maxAcceleration * W.timeDelta / |scaledCommand W v0 - s|)
            else s), 0)
      ∧ W1.core.state
        = (walkTransition (decide (|scaledCommand W v0| ≠ 0)) W.core).state := by
  have hlv := localVelocity_straight W v0 hs
  have hns : normalSpeed W (v0, 0) = |scaledCommand W v0| := by
    unfold normalSpeed
    rw [hlv, vnorm_along_x]
  have hang : nextAngularVelocity W (v0, 0) 0 = 0 := by
    unfold nextAngularVelocity
    simp [hw]
  have hcen : nextCentreVelocity W (v0, 0) 0
      = ((if |scaledCommand W v0 - s| > 0 then
            s + (scaledCommand W v0 - s)
              * min 1 (W.maxAcceleration * W.timeDelta / |scaledCommand W v0 - s|)
          else s), 0) := by
    unfold nextCentreVelocity
    simp only [hlv, hv, abs_zero, sub_zero, mul_one, mul_zero, sub_self, vnorm_along_x]
    split_ifs <;> simp
  unfold updateWalk
  rw [if_pos (by rw [hns]; exact hassert)]
  refine ⟨_, rfl, rfl, rfl, rfl, rfl, rfl, hang, hcen, ?_⟩
  simp only [updateWalkCore_state, hns]

theorem quat_rotate_identity (v : Vector3d ℝ) :
    Quat.rotateVector ⟨1, 0, 0, 0⟩ v = v := by
  ext <;> simp [Quat.rotateVector, Quat.mul]

theorem quat_mul_no_turn (t : ℝ) :
    Quat.mul ⟨1, 0, 0, 0⟩ (Quat.aboutVertical (-0 * t)) = ⟨1, 0, 0, 0⟩ := by
  simp [Quat.mul, Quat.aboutVertical]

/-- The walker and its pose after `n` ticks from rest with the command `(v0, 0)` and curvature
0: the parameters are kept, the walk state is never STOPPING, the angular velocity and the
rotation stay zero and the identity, the centre velocity is the ramp after `n` steps, and the
position has moved along x by `time_delta` times the sum of the ramp speeds. -/
theorem runWalkPose_straight (P : PosedWalker) (tip : Nat → ℝ × ℝ) (v0 : ℝ)
    (hstate : P.walker.core.state = WalkState.STOPPED)
    (hv : P.walker.localCentreVelocity = (0, 0)) (hw : P.walker.angularVelocity = 0)
    (hrot : P.pose.rotation = ⟨1, 0, 0, 0⟩)
    (hdt : 0 < P.walker.timeDelta) (hacc : 0 ≤ P.walker.maxAcceleration)
    (hassert : |scaledCommand P.walker v0| < 1.01) (n : Nat) :
    ∃ Pn : PosedWalker, runWalkPose (v0, 0) 0 tip n P = some Pn
      ∧ (Pn.walker.timing = P.walker.timing ∧ Pn.walker.timeDelta = P.walker.timeDelta
          ∧ Pn.walker.stepFrequency = P.walker.stepFrequency
          ∧ Pn.walker.minFootprintRadius = P.walker.minFootprintRadius
          ∧ Pn.walker.maxAcceleration = P.walker.maxAcceleration)
      ∧ (Pn.walker.core.state ≠ WalkState.STOPPING
          ∧ (decide (|scaledCommand P.walker v0| ≠ 0) = false →
              Pn.walker.core.state = WalkState.STOPPED))
      ∧ Pn.walker.angularVelocity = 0
      ∧ Pn.walker.localCentreVelocity
          = (rampedSpeed (scaledCommand P.walker v0)
              (P.walker.maxAcceleration * P.walker.timeDelta) n, 0)
      ∧ Pn.pose.rotation = ⟨1, 0, 0, 0⟩
      ∧ Pn.pose.position
          = P.pose.position
            + ⟨P.walker.timeDelta * ∑ k in Finset.range n,
                rampedSpeed (scaledCommand P.walker v0)
                  (P.walker.maxAcceleration * P.walker.timeDelta) (k + 1), 0, 0⟩ := by
  induction n with
  | zero =>
    refine ⟨P, rfl, ⟨rfl, rfl, rfl, rfl, rfl⟩, ⟨?_, fun _ => hstate⟩, hw, ?_, hrot, ?_⟩
    · rw [hstate]
      decide
    · rw [hv, rampedSpeed_zero]
    · ext <;> simp
  | succ n ih =>
    obtain ⟨Pn, hrun, ⟨p1, p2, p3, p4, p5⟩, ⟨hs1, hs2⟩, hwn, hvn, hrn, hpn⟩ := ih
    have hsc : scaledCommand Pn.walker v0 = scaledCommand P.walker v0 := by
      unfold scaledCommand
      rw [p1, p3, p4]
    obtain ⟨W1, hstep, q1, q2, q3, q4, q5, hw1, hv1, hst1⟩ :=
      updateWalk_straight Pn.walker tip v0 _ hs1 hvn hwn (by rw [hsc]; exact hassert)
    rw [hsc, p5, p2, rampedSpeed_step _ _ (mul_nonneg hacc (le_of_lt hdt))] at hv1
    rw [hsc] at hst1
    have htr := walkTransition_not_stopping _ Pn.walker.core hs1 hs2
    refine ⟨{ walker := W1
              pose :=
                { position := Pn.pose.position + Pn.pose.rotation.rotateVector
                    ⟨W1.localCentreVelocity.1 * W1.timeDelta,
                      W1.localCentreVelocity.2 * W1.timeDelta, 0⟩
                  rotation := Quat.mul Pn.pose.rotation
                    (Quat.aboutVertical (-W1.angularVelocity * W1.timeDelta)) } },
      ?_, ⟨q1.trans p1, q2.trans p2, q3.trans p3, q4.trans p4, q5.trans p5⟩,
      ⟨?_, ?_⟩, hw1, hv1, ?_, ?_⟩
    · show (runWalkPose (v0, 0) 0 tip n P).bind _ = _
      rw [hrun]
      show updateWalkPose (v0, 0) 0 tip Pn = _
      unfold updateWalkPose
      rw [hstep]
      rfl
    · rw [hst1]
      exact htr.1
    · rw [hst1]
      exact htr.2
    · show Quat.mul Pn.pose.rotation (Quat.aboutVertical (-W1.angularVelocity * W1.timeDelta))
        = _
      rw [hrn, hw1]
      exact quat_mul_no_turn _
    · show Pn.pose.position + Pn.pose.rotation.rotateVector
          ⟨W1.localCentreVelocity.1 * W1.timeDelta, W1.localCentreVelocity.2 * W1.timeDelta, 0⟩
        = _
      rw [hrn, quat_rotate_identity, hpn, hv1, q2, p2, Finset.sum_range_succ]
      ext
      · simp
        ring
      · simp
      · simp

theorem vector3d_add_sub_cancel {K : Type} [LinearOrderedField K] (a d : Vector3d K) :
    a + d - a = d := by
  ext <;> simp

/-- C19 (amended): from the state left by `init` (STOPPED, zero velocities, identity rotation;
any position), with `time_delta > 0`, `max_acceleration >= 0`, non-zero divisors and the scaled
command `t = v0*2*minFootprintRadius*stepFrequency/onGroundRatio` below the asserted bound, for
every `N >= 0` and every `v0` the `N` calls of `updateWalk` with command `(v0, 0)` and curvature
0 return, leave `pose.rotation` the identity and change `pose.position` by exactly
`(time_delta * (s_1 + ... + s_N), 0, 0)`, where `s_k = t*min(1, k*max_acceleration*time_delta/|t|)`
is the centre speed after `k` ticks. When `|t| <= max_acceleration*time_delta` the change is
`(N*time_delta*t, 0, 0)`, and it is `(N*time_delta*v0, 0, 0)` when moreover
`2*minFootprintRadius*stepFrequency/onGroundRatio = 1`. -/
theorem odometry_sums_ramped_velocity (P : PosedWalker) (tip : Nat → ℝ × ℝ) (v0 : ℝ) (N : Nat)
    (hstate : P.walker.core.state = WalkState.STOPPED)
    (hv : P.walker.localCentreVelocity = (0, 0)) (hw : P.walker.angularVelocity = 0)
    (hrot : P.pose.rotation = ⟨1, 0, 0, 0⟩)
    (hdt : 0 < P.walker.timeDelta) (hacc : 0 ≤ P.walker.maxAcceleration)
    (_hradius : P.walker.stanceRadius ≠ 0) (_hfrequency : P.walker.stepFrequency ≠ 0)
    (_hground : onGroundRatio P.walker.timing ≠ 0)
    (hassert : |scaledCommand P.walker v0| < 1.01) :
    ∃ PN : PosedWalker, runWalkPose (v0, 0) 0 tip N P = some PN
      ∧ PN.pose.rotation = ⟨1, 0, 0, 0⟩
      ∧ PN.pose.position - P.pose.position
          = ⟨P.walker.timeDelta * ∑ k in Finset.range N,
              rampedSpeed (scaledCommand P.walker v0)
                (P.walker.maxAcceleration * P.walker.timeDelta) (k + 1), 0, 0⟩
      ∧ (|scaledCommand P.walker v0| ≤ P.walker.maxAcceleration * P.walker.timeDelta →
          PN.pose.position - P.pose.position
            = ⟨N * P.walker.timeDelta * scaledCommand P.walker v0, 0, 0⟩)
      ∧ (|scaledCommand P.walker v0| ≤ P.walker.maxAcceleration * P.walker.timeDelta →
          2 * P.walker.minFootprintRadius * P.walker.stepFrequency
              / onGroundRatio P.walker.timing = 1 →
          PN.pose.position - P.pose.position = ⟨N * P.walker.timeDelta * v0, 0, 0⟩) := by
  obtain ⟨PN, hrun, _, _, _, _, hrn, hpn⟩ :=
    runWalkPose_straight P tip v0 hstate hv hw hrot hdt hacc hassert N
  have hdiff : PN.pose.position - P.pose.position
      = ⟨P.walker.timeDelta * ∑ k in Finset.range N,
          rampedSpeed (scaledCommand P.walker v0)
            (P.walker.maxAcceleration * P.walker.timeDelta) (k + 1), 0, 0⟩ := by
    rw [hpn]
    exact vector3d_add_sub_cancel _ _
  have hreached : |scaledCommand P.walker v0| ≤ P.walker.maxAcceleration * P.walker.timeDelta →
      PN.pose.position - P.pose.position
        = ⟨N * P.walker.timeDelta * scaledCommand P.walker v0, 0, 0⟩ := by
    intro hle
    rw [hdiff]
    have hsum : ∑ k in Finset.range N, rampedSpeed (scaledCommand P.walker v0)
        (P.walker.maxAcceleration * P.walker.timeDelta) (k + 1)
        = N * scaledCommand P.walker v0 := by
      rw [Finset.sum_congr rfl (fun k _ => rampedSpeed_reached _ _ hle k)]
      simp
    rw [hsum]
    congr 1
    ring
  refine ⟨PN, hrun, hrn, hdiff, hreached, ?_⟩
  intro hle hscale
  rw [hreached hle]
  have ht : scaledCommand P.walker v0 = v0 := by
    have h : scaledCommand P.walker v0
        = v0 * (2 * P.walker.minFootprintRadius * P.walker.stepFrequency
            / onGroundRatio P.walker.timing) := by
      unfold scaledCommand
      ring
    rw [h, hscale, mul_one]
  rw [ht]

theorem initialPosedWalker_scaledCommand : scaledCommand initialPosedWalker.walker 1 = 2 / 5 := by
  norm_num [scaledCommand, initialPosedWalker, restingWalker, movingWalker, onGroundRatio]

/-- Witness for C19: the tripod walker as `init` leaves it, commanded `(1, 0)` for eight
ticks. -/
theorem odometry_sums_ramped_velocity_witness :
    ∃ PN : PosedWalker,
      runWalkPose (1, 0) 0 (fun _ => (0, 0)) 8 initialPosedWalker = some PN
        ∧ PN.pose.rotation = ⟨1, 0, 0, 0⟩
        ∧ PN.pose.position - initialPosedWalker.pose.position
          = ⟨initialPosedWalker.walker.timeDelta * ∑ k in Finset.range 8,
              rampedSpeed (scaledCommand initialPosedWalker.walker 1)
                (initialPosedWalker.walker.maxAcceleration
                  * initialPosedWalker.walker.timeDelta) (k + 1), 0, 0⟩ := by
  obtain ⟨PN, h1, h2, h3, _⟩ :=
    odometry_sums_ramped_velocity initialPosedWalker (fun _ => (0, 0)) 1 8 rfl rfl rfl rfl
      (by norm_num [initialPosedWalker, restingWalker, movingWalker])
      (by norm_num [initialPosedWalker, restingWalker, movingWalker])
      (by norm_num [initialPosedWalker, restingWalker, movingWalker])
      (by norm_num [initialPosedWalker, restingWalker, movingWalker])
      (by norm_num [initialPosedWalker, restingWalker, movingWalker, onGroundRatio])
      (by rw [initialPosedWalker_scaledCommand]; norm_num [abs_lt])
  exact ⟨PN, h1, h2, h3⟩

/-- C19 as stated fails: the tripod walker as `init` leaves it (`time_delta = 1/8`,
`minFootprintRadius = 1/10`, `stepFrequency = 1`, `onGroundRatio = 1/2`, `max_acceleration = 1`)
and the command `v0 = 1` with curvature 0. The target speed is `1*2*(1/10)*1/(1/2) = 2/5` and
the first tick can reach `1/8`, so after one tick `pose.position` has moved by `1/64` along x
and not by `N*time_delta*v0 = 1/8`; after eight ticks it has moved by `11/32`, not by 1. -/
theorem odometry_is_not_commanded_distance :
    (∃ P1 : PosedWalker,
        runWalkPose (1, 0) 0 (fun _ => (0, 0)) 1 initialPosedWalker = some P1
          ∧ P1.pose.position = ⟨1 / 64, 0, 1⟩
          ∧ P1.pose.position - initialPosedWalker.pose.position
              ≠ ⟨(1 : Nat) * initialPosedWalker.walker.timeDelta * 1, 0, 0⟩)
      ∧ ∃ P8 : PosedWalker,
        runWalkPose (1, 0) 0 (fun _ => (0, 0)) 8 initialPosedWalker = some P8
          ∧ P8.pose.position = ⟨11 / 32, 0, 1⟩
          ∧ P8.pose.position - initialPosedWalker.pose.position
              ≠ ⟨(8 : Nat) * initialPosedWalker.walker.timeDelta * 1, 0, 0⟩ := by
  have hrun := fun n => runWalkPose_straight initialPosedWalker (fun _ => (0, 0)) 1 rfl rfl rfl
    rfl (by norm_num [initialPosedWalker, restingWalker, movingWalker])
    (by norm_num [initialPosedWalker, restingWalker, movingWalker])
    (by rw [initialPosedWalker_scaledCommand]; norm_num [abs_lt]) n
  have hA : initialPosedWalker.walker.maxAcceleration * initialPosedWalker.walker.timeDelta
      = 1 / 8 := by
    norm_num [initialPosedWalker, restingWalker, movingWalker]
  have hdt : initialPosedWalker.walker.timeDelta = 1 / 8 := by
    norm_num [initialPosedWalker, restingWalker, movingWalker]
  have hp0 : initialPosedWalker.pose.position = ⟨0, 0, 1⟩ := rfl
  have habs : |(2 / 5 : ℝ)| = 2 / 5 := abs_of_pos (by norm_num)
  constructor
  · obtain ⟨P1, h1, _, _, _, _, _, hpos⟩ := hrun 1
    rw [initialPosedWalker_scaledCommand, hA, hdt, hp0] at hpos
    have hx : P1.pose.position = ⟨1 / 64, 0, 1⟩ := by
      rw [hpos]
      ext <;> norm_num [Finset.sum_range_succ, rampedSpeed, habs]
    refine ⟨P1, h1, hx, ?_⟩
    rw [hx, hp0, hdt]
    intro h
    have := congrArg Vector3d.x h
    norm_num at this
  · obtain ⟨P8, h8, _, _, _, _, _, hpos⟩ := hrun 8
    rw [initialPosedWalker_scaledCommand, hA, hdt, hp0] at hpos
    have hx : P8.pose.position = ⟨11 / 32, 0, 1⟩ := by
      rw [hpos]
      ext <;> norm_num [Finset.sum_range_succ, rampedSpeed, habs]
    refine ⟨P8, h8, hx, ?_⟩
    rw [hx, hp0, hdt]
    intro h
    have := congrArg Vector3d.x h
    norm_num at this

/-! ## C20: steady state of the impedance model -/

/-- The derivative of the impedance system vanishes at `(-force_gain*force_input/stiffness, 0)`. -/
theorem impedanceSystem_steady (force_input mass stiffness virtual_damping force_gain : ℝ)
    (hm : mass ≠ 0) (hk : stiffness ≠ 0) :
    impedanceSystem force_input mass stiffness virtual_damping force_gain
      (-force_gain * force_input / stiffness, 0) = (0, 0) := by
  unfold impedanceSystem
  ext
  · rfl
  · simp only
    field_simp
    ring

/-- A Runge-Kutta step leaves a point where the derivative vanishes unchanged. -/
theorem rungeKutta4_fixed (f : ℝ × ℝ → ℝ × ℝ) (h : ℝ) (x : ℝ × ℝ) (hx : f x = (0, 0)) :
    rungeKutta4 f h x = x := by
  have e : (x.1 + h / 2 * (0 : ℝ), x.2 + h / 2 * (0 : ℝ)) = x := by
    ext <;> simp
  have e2 : (x.1 + h * (0 : ℝ), x.2 + h * (0 : ℝ)) = x := by
    ext <;> simp
  unfold rungeKutta4
  simp only [hx, e, e2]
  ext <;> simp

theorem integrateConst_fixed (f : ℝ × ℝ → ℝ × ℝ) (h : ℝ) (x : ℝ × ℝ) (hx : f x = (0, 0))
    (n : Nat) : integrateConst f h n x = x := by
  induction n with
  | zero => rfl
  | succ n ih => rw [integrateConst, ih, rungeKutta4_fixed f h x hx]

theorem updateImpedance_inputs (c : ImpedanceController) (leg : ImpedanceLeg) (u : Bool) :
    forceInput (updateImpedance c leg u) u = forceInput leg u
      ∧ (updateImpedance c leg u).virtual_mass = leg.virtual_mass
      ∧ (updateImpedance c leg u).virtual_stiffness = leg.virtual_stiffness
      ∧ (updateImpedance c leg u).virtual_damping_ratio = leg.virtual_damping_ratio :=
  ⟨rfl, rfl, rfl, rfl⟩

/-- C20: for every mass > 0, stiffness > 0, damping ratio, force gain, integrator step time > 0
and constant force input, at the state `(x0, x1) = (-force_gain*force_input/stiffness, 0)` the
derivative of the impedance system is zero, every Runge-Kutta step of any size and any number
of them leave the state unchanged, and so does `updateImpedance`, which publishes
`delta_z = -force_gain*force_input/stiffness`, also after any number of further ticks. -/
theorem impedance_steady_state_is_fixed (c : ImpedanceController) (leg : ImpedanceLeg)
    (use_joint_effort : Bool) (hm : 0 < leg.virtual_mass) (hk : 0 < leg.virtual_stiffness)
    (_hstep : 0 < c.delta_t_)
    (hstate : leg.impedance_state
      = (-c.force_gain_ * forceInput leg use_joint_effort / leg.virtual_stiffness, 0)) :
    (∀ h : ℝ, rungeKutta4
        (impedanceSystem (forceInput leg use_joint_effort) leg.virtual_mass leg.virtual_stiffness
          (leg.virtual_damping_ratio * 2 * Real.sqrt (leg.virtual_mass * leg.virtual_stiffness))
          c.force_gain_) h leg.impedance_state = leg.impedance_state)
      ∧ (∀ (h : ℝ) (n : Nat), integrateConst
        (impedanceSystem (forceInput leg use_joint_effort) leg.virtual_mass leg.virtual_stiffness
          (leg.virtual_damping_ratio * 2 * Real.sqrt (leg.virtual_mass * leg.virtual_stiffness))
          c.force_gain_) h n leg.impedance_state = leg.impedance_state)
      ∧ (updateImpedance c leg use_joint_effort).impedance_state = leg.impedance_state
      ∧ (updateImpedance c leg use_joint_effort).delta_z
          = -c.force_gain_ * forceInput leg use_joint_effort / leg.virtual_stiffness
      ∧ ∀ n : Nat,
          ((fun l => updateImpedance c l use_joint_effort)^[n + 1] leg).impedance_state
              = leg.impedance_state
            ∧ ((fun l => updateImpedance c l use_joint_effort)^[n + 1] leg).delta_z
              = -c.force_gain_ * forceInput leg use_joint_effort / leg.virtual_stiffness := by
  have hzero : impedanceSystem (forceInput leg use_joint_effort) leg.virtual_mass
      leg.virtual_stiffness
      (leg.virtual_damping_ratio * 2 * Real.sqrt (leg.virtual_mass * leg.virtual_stiffness))
      c.force_gain_ leg.impedance_state = (0, 0) := by
    rw [hstate]
    exact impedanceSystem_steady _ _ _ _ _ (ne_of_gt hm) (ne_of_gt hk)
  have hstay : (updateImpedance c leg use_joint_effort).impedance_state
      = leg.impedance_state := integrateConst_fixed _ _ _ hzero 30
  have hdz : (updateImpedance c leg use_joint_effort).delta_z
      = -c.force_gain_ * forceInput leg use_joint_effort / leg.virtual_stiffness := by
    show (updateImpedance c leg use_joint_effort).impedance_state.1 = _
    rw [hstay, hstate]
  refine ⟨fun h => rungeKutta4_fixed _ h _ hzero, fun h n => integrateConst_fixed _ h _ hzero n,
    hstay, hdz, ?_⟩
  have hiter : ∀ n : Nat,
      (fun l => updateImpedance c l use_joint_effort)^[n + 1] leg
        = updateImpedance c leg use_joint_effort := by
    intro n
    induction n with
    | zero => rfl
    | succ n ih =>
      rw [Function.iterate_succ_apply', ih]
      have hz2 : impedanceSystem (forceInput leg use_joint_effort) leg.virtual_mass
          leg.virtual_stiffness
          (leg.virtual_damping_ratio * 2
            * Real.sqrt (leg.virtual_mass * leg.virtual_stiffness))
          c.force_gain_ (updateImpedance c leg use_joint_effort).impedance_state = (0, 0) := by
        rw [hstay]
        exact hzero
      have hs2 := integrateConst_fixed _ (c.delta_t_ / 30) _ hz2 30
      show ({ updateImpedance c leg use_joint_effort with
          impedance_state := _, delta_z := _ } : ImpedanceLeg) = _
      simp only [(updateImpedance_inputs c leg use_joint_effort).1,
        (updateImpedance_inputs c leg use_joint_effort).2.1,
        (updateImpedance_inputs c leg use_joint_effort).2.2.1,
        (updateImpedance_inputs c leg use_joint_effort).2.2.2, hs2]
      rfl
  intro n
  rw [hiter n]
  exact ⟨hstay, hdz⟩

/-- Witness for C20 (scenario S4): `m = 1`, `k = 100`, `zeta = 0.7`, `force_gain = 1`,
`force_input = 10` and an integrator step time of `1/50`: `delta_z` stays at `-0.1`. -/
theorem impedance_steady_state_is_fixed_witness :
    (updateImpedance ⟨1 / 50, 1⟩ steadyLeg false).impedance_state = (-1 / 10, 0)
      ∧ (updateImpedance ⟨1 / 50, 1⟩ steadyLeg false).delta_z = -1 / 10
      ∧ ∀ n : Nat,
          ((fun l => updateImpedance ⟨1 / 50, 1⟩ l false)^[n + 1] steadyLeg).delta_z
            = -1 / 10 := by
  have hstate : steadyLeg.impedance_state
      = (-(1 : ℝ) * forceInput steadyLeg false / steadyLeg.virtual_stiffness, 0) := by
    norm_num [steadyLeg, forceInput]
  have hval : -(1 : ℝ) * forceInput steadyLeg false / steadyLeg.virtual_stiffness = -1 / 10 := by
    norm_num [steadyLeg, forceInput]
  obtain ⟨_, _, h3, h4, h5⟩ := impedance_steady_state_is_fixed ⟨1 / 50, 1⟩ steadyLeg false
    (by norm_num [steadyLeg]) (by norm_num [steadyLeg]) (by norm_num) hstate
  refine ⟨h3, ?_, fun n => ?_⟩
  · rw [h4]
    exact hval
  · rw [(h5 n).2]
    exact hval

/-! ## Example of the transition table on a tick -/

/-- Witness for C1: the moving tripod walker, commanded `(1, 0)`: the speed is `2/5`, the ASSERT
holds and the walk state stays MOVING. -/
theorem walk_state_follows_table_witness :
    (updateWalk (1, 0) 0 (fun _ => (0, 0)) movingWalker).map (fun W1 => W1.core.state)
      = some WalkState.MOVING := by
  have hs : movingWalker.core.state = WalkState.MOVING := by
    unfold movingWalker
    decide
  have h := (walk_state_follows_table (1, 0) 0 (fun _ => (0, 0)) movingWalker
    (fun _ => by norm_num [movingWalker, onGroundRatio])).1
  rw [h, movingWalker_normalSpeed, hs]
  norm_num [transitionTable]

/-! ## STARTING: completion of the first step once all legs are in correct phase -/

/-- The leg at position `k` after the per-leg loop is the loop body applied to the leg at
position `k` before it, with a value of the counters that satisfies every property `C` which the
loop body keeps on the legs of the list. -/
theorem robotStateMachine_get (g : GaitTiming) (st : WalkState) (sz : Nat → Bool)
    (C : Counters → Prop) (P : LegStepper → Prop)
    (h : ∀ fl b c leg, C c → P leg → C (legPhaseUpdate g st fl b c leg).1) :
    ∀ (legs : List LegStepper) (i : Nat) (c : Counters), C c → (∀ l ∈ legs, P l) →
      ∀ (k : Nat) (leg : LegStepper), legs[k]? = some leg →
        ∃ c1, C c1 ∧ (robotStateMachine g st sz i c legs).2[k]?
          = some (legPhaseUpdate g st (decide (i + k = 0)) (sz (i + k)) c1 leg).2 := by
  intro legs
  induction legs with
  | nil => intro i c _ _ k leg hk; simp at hk
  | cons l0 rest ih =>
    intro i c hc hP k leg hk
    cases k with
    | zero =>
      simp only [List.getElem?_cons_zero, Option.some.injEq] at hk
      subst hk
      exact ⟨c, hc, by simp [robotStateMachine]⟩
    | succ k =>
      simp only [List.getElem?_cons_succ] at hk
      obtain ⟨c1, hc1, hget⟩ := ih (i + 1) (legPhaseUpdate g st (decide (i = 0)) (sz i) c l0).1
        (h _ _ c l0 hc (hP l0 (List.mem_cons_self _ _)))
        (fun l hl => hP l (List.mem_cons_of_mem _ hl)) k leg hk
      refine ⟨c1, hc1, ?_⟩
      simp only [robotStateMachine, List.getElem?_cons_succ]
      rw [hget]
      have e : i + 1 + k = i + (k + 1) := by omega
      rw [e]

/-- An iteration of the STARTING loop on a leg in correct phase leaves `legsInCorrectPhase`
as it is. -/
theorem starting_leg_admitted_counter (g : GaitTiming) (fl b : Bool) (c : Counters)
    (leg : LegStepper) (hf : leg.inCorrectPhase = true) :
    (legPhaseUpdate g WalkState.STARTING fl b c leg).1.legsInCorrectPhase
      = c.legsInCorrectPhase := by
  have h1 := (starting_leg_counters g fl b c leg).1
  have h2 := (starting_leg_flag_iff g fl b c leg).mpr (Or.inl hf)
  simp only [hf, h2, if_true] at h1
  omega

/-- One tick in STARTING that starts with all six legs in correct phase
(`legsInCorrectPhase = 6`, every flag set) and not all first steps completed: every leg whose
phase equals `swingEnd` and that is not yet marked as having completed its first step is marked
on this tick, and `legsCompletedFirstStep` grows by exactly the number of legs newly marked; the
walk state is still STARTING. -/
theorem first_step_marked_when_all_admitted (g : GaitTiming) (b : Bool) (sz : Nat → Bool)
    (w : WalkController) (hs : w.state = WalkState.STARTING)
    (hcount : w.legsInCorrectPhase = 6)
    (hall : ∀ leg ∈ w.legSteppers, leg.inCorrectPhase = true)
    (hno : w.legsCompletedFirstStep ≠ 6) :
    (updateWalkCore g b sz w).state = WalkState.STARTING
      ∧ (∀ (k : Nat) (leg : LegStepper), w.legSteppers[k]? = some leg →
          leg.phase = g.swingEnd → leg.completedFirstStep = false →
          ∃ leg1, (updateWalkCore g b sz w).legSteppers[k]? = some leg1
            ∧ leg1.completedFirstStep = true ∧ leg1.inCorrectPhase = true)
      ∧ (updateWalkCore g b sz w).legsCompletedFirstStep + doneCount w.legSteppers
          = w.legsCompletedFirstStep + doneCount (updateWalkCore g b sz w).legSteppers := by
  have hw := walkTransition_starting_stay b w hs (fun h => hno h.2)
  have hlegs : (updateWalkCore g b sz w).legSteppers
      = (robotStateMachine g WalkState.STARTING sz 0
          ⟨w.legsInCorrectPhase, w.legsCompletedFirstStep⟩ w.legSteppers).2.map
          (legStateMachine g) := by
    simp only [updateWalkCore, afterPhaseLoop, hw, hs]
  have hc2 : (updateWalkCore g b sz w).legsCompletedFirstStep
      = (robotStateMachine g WalkState.STARTING sz 0
          ⟨w.legsInCorrectPhase, w.legsCompletedFirstStep⟩
          w.legSteppers).1.legsCompletedFirstStep := by
    simp only [updateWalkCore, afterPhaseLoop, hw, hs]
  refine ⟨by rw [updateWalkCore_state, hw, hs], ?_, ?_⟩
  · intro k leg hk hphase hdone
    obtain ⟨c1, hc1, hget⟩ := robotStateMachine_get g WalkState.STARTING sz
      (fun c => c.legsInCorrectPhase = 6) (fun leg => leg.inCorrectPhase = true)
      (fun fl b c leg hc hf => (starting_leg_admitted_counter g fl b c leg hf).trans hc)
      w.legSteppers 0 ⟨w.legsInCorrectPhase, w.legsCompletedFirstStep⟩ hcount hall k leg hk
    refine ⟨legStateMachine g
      (legPhaseUpdate g WalkState.STARTING (decide (0 + k = 0)) (sz (0 + k)) c1 leg).2, ?_, ?_, ?_⟩
    · rw [hlegs, List.getElem?_map, hget]
      rfl
    · rw [legStateMachine_completedFirstStep]
      exact (starting_leg_done_iff g _ _ c1 leg).mpr (Or.inr ⟨hc1, hphase⟩)
    · rw [legStateMachine_inCorrectPhase]
      exact (starting_leg_flag_iff g _ _ c1 leg).mpr
        (Or.inl (hall leg (List.getElem?_mem hk)))
  · have hcnt2 := robotStateMachine_count g WalkState.STARTING sz
      (fun c => c.legsCompletedFirstStep) (fun leg => leg.completedFirstStep)
      (fun fl b c leg => (starting_leg_counters g fl b c leg).2) w.legSteppers 0
      ⟨w.legsInCorrectPhase, w.legsCompletedFirstStep⟩
    rw [hc2, hlegs, doneCount_map_legStateMachine]
    unfold doneCount
    simp only at hcnt2
    omega

/-! ## C28: legs that start in mid swing -/

/-- The leg at position `k` after a tick that stays in STARTING: the STARTING loop body and the
leg state machine applied to the leg at position `k` before the tick. -/
theorem starting_tick_get (g : GaitTiming) (b : Bool) (sz : Nat → Bool) (w : WalkController)
    (hs : w.state = WalkState.STARTING)
    (hno : ¬ (w.legsInCorrectPhase = 6 ∧ w.legsCompletedFirstStep = 6))
    (k : Nat) (leg : LegStepper) (hk : w.legSteppers[k]? = some leg) :
    ∃ c1, (updateWalkCore g b sz w).legSteppers[k]?
      = some (legStateMachine g
          (legPhaseUpdate g WalkState.STARTING (decide (0 + k = 0)) (sz (0 + k)) c1 leg).2) := by
  have hw := walkTransition_starting_stay b w hs hno
  have hlegs : (updateWalkCore g b sz w).legSteppers
      = (robotStateMachine g WalkState.STARTING sz 0
          ⟨w.legsInCorrectPhase, w.legsCompletedFirstStep⟩ w.legSteppers).2.map
          (legStateMachine g) := by
    simp only [updateWalkCore, afterPhaseLoop, hw, hs]
  obtain ⟨c1, _, hget⟩ := robotStateMachine_get g WalkState.STARTING sz
    (fun _ => True) (fun _ => True) (fun _ _ _ _ _ _ => trivial)
    w.legSteppers 0 ⟨w.legsInCorrectPhase, w.legsCompletedFirstStep⟩ trivial
    (fun _ _ => trivial) k leg hk
  refine ⟨c1, ?_⟩
  rw [hlegs, List.getElem?_map, hget]
  rfl

/-- An iteration of the STARTING loop on a leg that is not in correct phase, whose offset lies
in the swing band and whose phase is not `swingEnd`: the leg is forced into stance and its phase
advances; after the leg state machine its step state is STANCE. -/
theorem starting_leg_wait (g : GaitTiming) (fl b : Bool) (c : Counters) (leg : LegStepper)
    (hf : leg.inCorrectPhase = false)
    (hband : g.swingStart ≤ leg.phaseOffset ∧ leg.phaseOffset < g.swingEnd)
    (hne : leg.phase ≠ g.swingEnd) :
    legStateMachine g (legPhaseUpdate g WalkState.STARTING fl b c leg).2
      = { leg with state := StepState.STANCE, phase := Int.tmod (leg.phase + 1) g.phaseLength }
    := by
  simp only [legPhaseUpdate, startingCompletion, startingAdmission, legStateMachine]
  simp [hf, hband, hne]

/-- While a leg is not in correct phase, fewer than six legs are counted. -/
theorem flagCount_lt_of_unflagged (legs : List LegStepper) (hlen : legs.length = 6)
    (k : Nat) (leg : LegStepper) (hk : legs[k]? = some leg) (hf : leg.inCorrectPhase = false) :
    flagCount legs ≠ 6 := by
  intro h6
  have hall := (flagCount_eq_length_iff legs).mp (by rw [h6, hlen]; rfl)
  have := hall leg (List.getElem?_mem hk)
  rw [hf] at this
  exact Bool.false_ne_true this

/-- The controller seeded by the transition from STOPPED to STARTING satisfies the STARTING
invariant. -/
theorem seeded_startingInv (g : GaitTiming) (w0 : WalkController)
    (hc1 : w0.legsInCorrectPhase = 0)
    (hc2 : w0.legsCompletedFirstStep = 0) (hlen : w0.legSteppers.length = 6)
    (hlegs : ∀ leg ∈ w0.legSteppers, leg.inCorrectPhase = false
      ∧ leg.completedFirstStep = false
      ∧ 0 ≤ leg.phaseOffset ∧ leg.phaseOffset < g.phaseLength) :
    StartingInv g { w0 with
        state := WalkState.STARTING
        legSteppers := w0.legSteppers.map (fun leg => { leg with phase := leg.phaseOffset }) } := by
  refine ⟨rfl, by simp [hlen], ?_, ?_, ?_⟩
  · show w0.legsInCorrectPhase = _
    rw [hc1, eq_comm, flagCount_eq_zero_iff]
    intro leg hleg
    simp only [List.mem_map] at hleg
    obtain ⟨l0, hl0, rfl⟩ := hleg
    exact (hlegs l0 hl0).1
  · show w0.legsCompletedFirstStep = _
    rw [hc2, eq_comm]
    unfold doneCount
    rw [Int.natCast_eq_zero, List.countP_eq_zero]
    intro leg hleg
    simp only [List.mem_map] at hleg
    obtain ⟨l0, hl0, rfl⟩ := hleg
    simp [(hlegs l0 hl0).2.1]
  · intro leg hleg
    simp only [List.mem_map] at hleg
    obtain ⟨l0, hl0, rfl⟩ := hleg
    exact (hlegs l0 hl0).2.2

/-- A leg whose offset lies in the swing band, `k` ticks into a start-up with
`1 <= k <= swingEnd - phaseOffset`: the controller is STARTING and keeps its invariant, the leg
is in STANCE, not in correct phase, and its phase is `phaseOffset + k`. -/
theorem band_leg_progress (g : GaitTiming) (hg : g.Cyclic) (w0 : WalkController)
    (inp : Nat → TickInput)
    (hstop : w0.state = WalkState.STOPPED) (hc1 : w0.legsInCorrectPhase = 0)
    (hc2 : w0.legsCompletedFirstStep = 0) (hlen : w0.legSteppers.length = 6)
    (hlegs : ∀ leg ∈ w0.legSteppers, leg.inCorrectPhase = false
      ∧ leg.completedFirstStep = false
      ∧ 0 ≤ leg.phaseOffset ∧ leg.phaseOffset < g.phaseLength)
    (hspeed : (inp 0).speedNonZero = true)
    (i : Nat) (leg0 : LegStepper) (hi : w0.legSteppers[i]? = some leg0)
    (hband : g.swingStart ≤ leg0.phaseOffset ∧ leg0.phaseOffset < g.swingEnd) (n : Nat)
    (hn : ((n + 1 : Nat) : Int) ≤ g.swingEnd - leg0.phaseOffset) :
    StartingInv g (runCore g inp (n + 1) w0)
      ∧ (runCore g inp (n + 1) w0).legSteppers[i]?
          = some { leg0 with state := StepState.STANCE,
                             phase := leg0.phaseOffset + ((n + 1 : Nat) : Int) } := by
  have h0 := hlegs leg0 (List.getElem?_mem hi)
  induction n with
  | zero =>
    have hseed := seeded_startingInv g w0 hc1 hc2 hlen hlegs
    have hno : ¬ (({ w0 with
        state := WalkState.STARTING
        legSteppers := w0.legSteppers.map (fun leg => { leg with phase := leg.phaseOffset }) }
          : WalkController).legsInCorrectPhase = 6 ∧ ({ w0 with
        state := WalkState.STARTING
        legSteppers := w0.legSteppers.map (fun leg => { leg with phase := leg.phaseOffset }) }
          : WalkController).legsCompletedFirstStep = 6) := by
      simp [hc1]
    have hrun : runCore g inp (0 + 1) w0 = updateWalkCore g true (inp 0).strideZero
        { w0 with
          state := WalkState.STARTING
          legSteppers := w0.legSteppers.map (fun leg => { leg with phase := leg.phaseOffset }) }
        := by
      rw [runCore_succ, hspeed]
      exact first_starting_tick g _ w0 hstop hc1
    rw [hrun]
    refine ⟨(starting_tick g hg true _ _ hseed hno).1, ?_⟩
    obtain ⟨c1, hget⟩ := starting_tick_get g true (inp 0).strideZero _ rfl hno i
      { leg0 with phase := leg0.phaseOffset } (by simp [List.getElem?_map, hi])
    have hwait := starting_leg_wait g (decide (0 + i = 0)) ((inp 0).strideZero (0 + i)) c1
      { leg0 with phase := leg0.phaseOffset } h0.1 hband
      (by show leg0.phaseOffset ≠ g.swingEnd; omega)
    rw [hget, hwait]
    have ht : Int.tmod (leg0.phaseOffset + 1) g.phaseLength = leg0.phaseOffset + 1 := by
      rw [tmod_succ_eq h0.2.2.1 h0.2.2.2, if_neg]
      have := hg.2.2
      omega
    simp only [ht]
    push_cast
    rfl
  | succ n ih =>
    obtain ⟨hinv, hleg⟩ := ih (by push_cast at hn ⊢; omega)
    have hno : ¬ ((runCore g inp (n + 1) w0).legsInCorrectPhase = 6
        ∧ (runCore g inp (n + 1) w0).legsCompletedFirstStep = 6) := by
      intro h
      refine flagCount_lt_of_unflagged _ hinv.2.1 i _ hleg h0.1 ?_
      rw [← hinv.2.2.1]
      exact h.1
    rw [runCore_succ]
    refine ⟨(starting_tick g hg _ _ _ hinv hno).1, ?_⟩
    obtain ⟨c1, hget⟩ := starting_tick_get g (inp (n + 1)).speedNonZero (inp (n + 1)).strideZero
      _ hinv.1 hno i _ hleg
    have hne : leg0.phaseOffset + ((n + 1 : Nat) : Int) ≠ g.swingEnd := by
      push_cast at hn ⊢
      omega
    have hwait := starting_leg_wait g (decide (0 + i = 0)) ((inp (n + 1)).strideZero (0 + i)) c1
      { leg0 with state := StepState.STANCE,
                  phase := leg0.phaseOffset + ((n + 1 : Nat) : Int) } h0.1 hband hne
    rw [hget, hwait]
    have ht : Int.tmod (leg0.phaseOffset + ((n + 1 : Nat) : Int) + 1) g.phaseLength
        = leg0.phaseOffset + ((n + 1 + 1 : Nat) : Int) := by
      rw [tmod_succ_eq (by have := h0.2.2.1; omega)
        (by have := hg.2.2; push_cast at hn ⊢; omega), if_neg]
      · push_cast
        ring
      · have := hg.2.2
        push_cast at hn ⊢
        omega
    simp only [ht]

/-- The leg at position `k` after the per-leg loop of a tick whose loop runs in STARTING: the
STARTING loop body applied to the leg at position `k` after the walk state transition. -/
theorem starting_loop_get (g : GaitTiming) (b : Bool) (sz : Nat → Bool) (w : WalkController)
    (hs : (walkTransition b w).state = WalkState.STARTING)
    (k : Nat) (leg : LegStepper) (hk : (walkTransition b w).legSteppers[k]? = some leg) :
    ∃ c1, (afterPhaseLoop g b sz w).legSteppers[k]?
      = some (legPhaseUpdate g WalkState.STARTING (decide (0 + k = 0)) (sz (0 + k)) c1 leg).2 := by
  obtain ⟨c1, _, hget⟩ := robotStateMachine_get g WalkState.STARTING sz
    (fun _ => True) (fun _ => True) (fun _ _ _ _ _ _ => trivial)
    (walkTransition b w).legSteppers 0
    ⟨(walkTransition b w).legsInCorrectPhase, (walkTransition b w).legsCompletedFirstStep⟩ trivial
    (fun _ _ => trivial) k leg hk
  refine ⟨c1, ?_⟩
  simp only [afterPhaseLoop, hs]
  exact hget

/-- An iteration of the STARTING loop on a leg that is not in correct phase, whose offset lies
in the swing band and whose phase is not `swingEnd`, sets its step state to FORCE_STANCE and
leaves its flag clear. -/
theorem starting_leg_forced (g : GaitTiming) (fl b : Bool) (c : Counters) (leg : LegStepper)
    (hf : leg.inCorrectPhase = false)
    (hband : g.swingStart ≤ leg.phaseOffset ∧ leg.phaseOffset < g.swingEnd)
    (hne : leg.phase ≠ g.swingEnd) :
    (legPhaseUpdate g WalkState.STARTING fl b c leg).2.state = StepState.FORCE_STANCE
      ∧ (legPhaseUpdate g WalkState.STARTING fl b c leg).2.inCorrectPhase = false := by
  simp only [legPhaseUpdate, startingCompletion, startingAdmission]
  simp [hf, hband, hne]

/-- The transition from STOPPED under a non-zero speed seeds the phases. -/
theorem walkTransition_seed (w0 : WalkController) (hstop : w0.state = WalkState.STOPPED) :
    walkTransition true w0 = { w0 with
      state := WalkState.STARTING
      legSteppers := w0.legSteppers.map (fun leg => { leg with phase := leg.phaseOffset }) } := by
  unfold walkTransition
  simp [hstop]

/-- C28: start from walk state STOPPED with both counters zero, six legs with clear flags and
phase offsets in `[0, phaseLength)`, a timing with `0 <= swingEnd < phaseLength`, and a non-zero
commanded speed on the first tick, so that the first tick is the STOPPED -> STARTING tick. For a
leg whose phase offset lies in the swing band `[swingStart, swingEnd)`: on each of the first
`swingEnd - phaseOffset` ticks the per-leg loop forces it to FORCE_STANCE, and at the end of the
tick the walk state is STARTING, the leg is in STANCE (so not in SWING), it is not in correct
phase and its phase is `phaseOffset` plus the number of ticks; on the next tick, which starts
with its phase equal to `swingEnd`, it is admitted. At the end of all these ticks
`legsInCorrectPhase` equals the number of flags set, so the admission counts once. A leg whose
offset is outside the band is in correct phase at the end of the first tick. -/
theorem mid_swing_legs_wait_in_stance (g : GaitTiming) (hg : g.Cyclic) (w0 : WalkController)
    (inp : Nat → TickInput)
    (hstop : w0.state = WalkState.STOPPED) (hc1 : w0.legsInCorrectPhase = 0)
    (hc2 : w0.legsCompletedFirstStep = 0) (hlen : w0.legSteppers.length = 6)
    (hlegs : ∀ leg ∈ w0.legSteppers, leg.inCorrectPhase = false
      ∧ leg.completedFirstStep = false
      ∧ 0 ≤ leg.phaseOffset ∧ leg.phaseOffset < g.phaseLength)
    (hspeed : (inp 0).speedNonZero = true)
    (i : Nat) (leg0 : LegStepper) (hi : w0.legSteppers[i]? = some leg0) :
    (g.swingStart ≤ leg0.phaseOffset ∧ leg0.phaseOffset < g.swingEnd →
      (∀ n : Nat, ((n + 1 : Nat) : Int) ≤ g.swingEnd - leg0.phaseOffset →
        (∃ leg, (afterPhaseLoop g (inp n).speedNonZero (inp n).strideZero
              (runCore g inp n w0)).legSteppers[i]? = some leg
            ∧ leg.state = StepState.FORCE_STANCE)
          ∧ (runCore g inp (n + 1) w0).state = WalkState.STARTING
          ∧ (runCore g inp (n + 1) w0).legsInCorrectPhase
              = flagCount (runCore g inp (n + 1) w0).legSteppers
          ∧ ∃ leg, (runCore g inp (n + 1) w0).legSteppers[i]? = some leg
              ∧ leg.state = StepState.STANCE ∧ leg.inCorrectPhase = false
              ∧ leg.phase = leg0.phaseOffset + ((n + 1 : Nat) : Int))
      ∧ (∀ n : Nat, (n : Int) = g.swingEnd - leg0.phaseOffset →
          (∃ leg, (runCore g inp n w0).legSteppers[i]? = some leg ∧ leg.phase = g.swingEnd
              ∧ leg.inCorrectPhase = false)
          ∧ (runCore g inp (n + 1) w0).legsInCorrectPhase
              = flagCount (runCore g inp (n + 1) w0).legSteppers
          ∧ ∃ leg, (runCore g inp (n + 1) w0).legSteppers[i]? = some leg
              ∧ leg.inCorrectPhase = true))
    ∧ (¬ (g.swingStart ≤ leg0.phaseOffset ∧ leg0.phaseOffset < g.swingEnd) →
        ∃ leg, (runCore g inp 1 w0).legSteppers[i]? = some leg ∧ leg.inCorrectPhase = true) := by
  have h0 := hlegs leg0 (List.getElem?_mem hi)
  have hseedleg : (walkTransition true w0).legSteppers[i]?
      = some { leg0 with phase := leg0.phaseOffset } := by
    rw [walkTransition_seed w0 hstop]
    simp [List.getElem?_map, hi]
  have hseedstate : (walkTransition true w0).state = WalkState.STARTING := by
    rw [walkTransition_seed w0 hstop]
  refine ⟨fun hband => ⟨?_, ?_⟩, ?_⟩
  · intro n hn
    have hprog := band_leg_progress g hg w0 inp hstop hc1 hc2 hlen hlegs hspeed i leg0 hi hband
      n hn
    refine ⟨?_, hprog.1.1, hprog.1.2.2.1, _, hprog.2, rfl, h0.1, rfl⟩
    cases n with
    | zero =>
      rw [hspeed]
      obtain ⟨c1, hget⟩ := starting_loop_get g true (inp 0).strideZero w0 hseedstate i _ hseedleg
      exact ⟨_, hget, (starting_leg_forced g _ _ c1 { leg0 with phase := leg0.phaseOffset }
        h0.1 hband (by show leg0.phaseOffset ≠ g.swingEnd; omega)).1⟩
    | succ m =>
      have hprev := band_leg_progress g hg w0 inp hstop hc1 hc2 hlen hlegs hspeed i leg0 hi
        hband m (by push_cast at hn ⊢; omega)
      have hno : ¬ ((runCore g inp (m + 1) w0).legsInCorrectPhase = 6
          ∧ (runCore g inp (m + 1) w0).legsCompletedFirstStep = 6) := by
        intro h
        refine flagCount_lt_of_unflagged _ hprev.1.2.1 i _ hprev.2 h0.1 ?_
        rw [← hprev.1.2.2.1]
        exact h.1
      have hw := walkTransition_starting_stay (inp (m + 1)).speedNonZero _ hprev.1.1 hno
      obtain ⟨c1, hget⟩ := starting_loop_get g (inp (m + 1)).speedNonZero
        (inp (m + 1)).strideZero (runCore g inp (m + 1) w0) (by rw [hw]; exact hprev.1.1) i _
        (by rw [hw]; exact hprev.2)
      exact ⟨_, hget, (starting_leg_forced g _ _ c1
        { leg0 with state := StepState.STANCE,
                    phase := leg0.phaseOffset + ((m + 1 : Nat) : Int) } h0.1 hband
        (by show leg0.phaseOffset + ((m + 1 : Nat) : Int) ≠ g.swingEnd
            push_cast at hn ⊢
            omega)).1⟩
  · intro n hn
    obtain ⟨m, rfl⟩ : ∃ m, n = m + 1 := ⟨n - 1, by omega⟩
    have hprev := band_leg_progress g hg w0 inp hstop hc1 hc2 hlen hlegs hspeed i leg0 hi
      hband m (by omega)
    have hno : ¬ ((runCore g inp (m + 1) w0).legsInCorrectPhase = 6
        ∧ (runCore g inp (m + 1) w0).legsCompletedFirstStep = 6) := by
      intro h
      refine flagCount_lt_of_unflagged _ hprev.1.2.1 i _ hprev.2 h0.1 ?_
      rw [← hprev.1.2.2.1]
      exact h.1
    refine ⟨⟨_, hprev.2, by show leg0.phaseOffset + ((m + 1 : Nat) : Int) = g.swingEnd; omega,
      h0.1⟩, ?_, ?_⟩
    · rw [runCore_succ]
      exact (starting_tick g hg _ _ _ hprev.1 hno).1.2.2.1
    · rw [runCore_succ]
      obtain ⟨c1, hget⟩ := starting_tick_get g (inp (m + 1)).speedNonZero
        (inp (m + 1)).strideZero _ hprev.1.1 hno i _ hprev.2
      refine ⟨_, hget, ?_⟩
      rw [legStateMachine_inCorrectPhase]
      exact (starting_leg_flag_iff g _ _ c1 _).mpr
        (Or.inr (Or.inr (by show leg0.phaseOffset + ((m + 1 : Nat) : Int) = g.swingEnd; omega)))
  · intro hout
    have hno : ¬ (({ w0 with
        state := WalkState.STARTING
        legSteppers := w0.legSteppers.map (fun leg => { leg with phase := leg.phaseOffset }) }
          : WalkController).legsInCorrectPhase = 6 ∧ ({ w0 with
        state := WalkState.STARTING
        legSteppers := w0.legSteppers.map (fun leg => { leg with phase := leg.phaseOffset }) }
          : WalkController).legsCompletedFirstStep = 6) := by
      simp [hc1]
    have hrun : runCore g inp 1 w0 = updateWalkCore g true (inp 0).strideZero
        { w0 with
          state := WalkState.STARTING
          legSteppers := w0.legSteppers.map (fun leg => { leg with phase := leg.phaseOffset }) }
        := by
      rw [runCore_succ, hspeed]
      exact first_starting_tick g _ w0 hstop hc1
    rw [hrun]
    obtain ⟨c1, hget⟩ := starting_tick_get g true (inp 0).strideZero _ rfl hno i
      { leg0 with phase := leg0.phaseOffset } (by simp [List.getElem?_map, hi])
    refine ⟨_, hget, ?_⟩
    rw [legStateMachine_inCorrectPhase]
    exact (starting_leg_flag_iff g _ _ c1 _).mpr (Or.inr (Or.inl hout))

/-- Witness for C28: the tripod gait (phase length 8, swing band `[2, 6)`) from the initial
state with a non-zero command on every tick, for leg 1, whose phase offset is 4. -/
theorem mid_swing_legs_wait_in_stance_witness :
    ((2 : Int) ≤ 4 ∧ (4 : Int) < 6 →
      (∀ n : Nat, ((n + 1 : Nat) : Int) ≤ 6 - 4 →
        (∃ leg, (afterPhaseLoop ⟨8, 2, 2, 6, 6⟩ true (fun _ => false)
              (runCore ⟨8, 2, 2, 6, 6⟩ (fun _ => ⟨true, fun _ => false⟩) n
                (initController [0, 4, 4, 0, 0, 4]))).legSteppers[1]? = some leg
            ∧ leg.state = StepState.FORCE_STANCE)
          ∧ (runCore ⟨8, 2, 2, 6, 6⟩ (fun _ => ⟨true, fun _ => false⟩) (n + 1)
              (initController [0, 4, 4, 0, 0, 4])).state = WalkState.STARTING
          ∧ (runCore ⟨8, 2, 2, 6, 6⟩ (fun _ => ⟨true, fun _ => false⟩) (n + 1)
              (initController [0, 4, 4, 0, 0, 4])).legsInCorrectPhase
              = flagCount (runCore ⟨8, 2, 2, 6, 6⟩ (fun _ => ⟨true, fun _ => false⟩) (n + 1)
                  (initController [0, 4, 4, 0, 0, 4])).legSteppers
          ∧ ∃ leg, (runCore ⟨8, 2, 2, 6, 6⟩ (fun _ => ⟨true, fun _ => false⟩) (n + 1)
                (initController [0, 4, 4, 0, 0, 4])).legSteppers[1]? = some leg
              ∧ leg.state = StepState.STANCE ∧ leg.inCorrectPhase = false
              ∧ leg.phase = 4 + ((n + 1 : Nat) : Int))
      ∧ (∀ n : Nat, (n : Int) = 6 - 4 →
          (∃ leg, (runCore ⟨8, 2, 2, 6, 6⟩ (fun _ => ⟨true, fun _ => false⟩) n
                (initController [0, 4, 4, 0, 0, 4])).legSteppers[1]? = some leg
              ∧ leg.phase = 6 ∧ leg.inCorrectPhase = false)
          ∧ (runCore ⟨8, 2, 2, 6, 6⟩ (fun _ => ⟨true, fun _ => false⟩) (n + 1)
              (initController [0, 4, 4, 0, 0, 4])).legsInCorrectPhase
              = flagCount (runCore ⟨8, 2, 2, 6, 6⟩ (fun _ => ⟨true, fun _ => false⟩) (n + 1)
                  (initController [0, 4, 4, 0, 0, 4])).legSteppers
          ∧ ∃ leg, (runCore ⟨8, 2, 2, 6, 6⟩ (fun _ => ⟨true, fun _ => false⟩) (n + 1)
                (initController [0, 4, 4, 0, 0, 4])).legSteppers[1]? = some leg
              ∧ leg.inCorrectPhase = true))
    ∧ (¬ ((2 : Int) ≤ 4 ∧ (4 : Int) < 6) →
        ∃ leg, (runCore ⟨8, 2, 2, 6, 6⟩ (fun _ => ⟨true, fun _ => false⟩) 1
            (initController [0, 4, 4, 0, 0, 4])).legSteppers[1]? = some leg
          ∧ leg.inCorrectPhase = true) :=
  mid_swing_legs_wait_in_stance ⟨8, 2, 2, 6, 6⟩ ⟨by decide, by decide, by decide⟩
    (initController [0, 4, 4, 0, 0, 4]) (fun _ => ⟨true, fun _ => false⟩) rfl rfl rfl rfl
    (by decide) rfl 1 ⟨0, 4, StepState.STANCE, false, false⟩ rfl

/-! ## C30: the number of iterations of a swing -/

/-- Rounding an integer gives the integer. -/
theorem roundToInt_intCast {K : Type} [LinearOrderedField K] [FloorRing K] (n : Int) :
    roundToInt (n : K) = n := by
  unfold roundToInt toInt
  by_cases h : (0 : K) ≤ (n : K)
  · have h1 : (0 : K) ≤ (n : K) + 1 / 2 := by linarith
    rw [if_pos h, if_pos h1, Int.floor_eq_iff]
    constructor <;> linarith
  · have h1 : (0 : K) ≤ 1 / 2 - (n : K) := by linarith
    rw [if_neg h, if_pos h1, neg_eq_iff_eq_neg, Int.floor_eq_iff]
    push_cast
    constructor <;> linarith

/-- The local `numIterations` is twice the rounded value. -/
theorem numIterations_double {K : Type} [LinearOrderedField K] [FloorRing K]
    (walker : WalkerMembers K) :
    numIterations walker
      = 2 * roundToInt ((((walker.timing.swingEnd - walker.timing.swingStart : Int) : K)
          / (walker.timing.phaseLength : K)) / (walker.stepFrequency * walker.timeDelta) / 2) := by
  unfold numIterations
  simp only []
  rw [show ∀ r : Int, ((r : K) * 2) = ((r * 2 : Int) : K) from fun r => by push_cast; ring,
    toInt_intCast]
  ring

/-- The step frequency and the phase length that `setGaitParams` assigns. -/
theorem setGaitParams_stepFrequency {K : Type} [LinearOrderedField K] [FloorRing K]
    (p : Parameters K) (timeDelta : K) (r : GaitResult K)
    (h : setGaitParams p timeDelta = some r) :
    r.timing.phaseLength ≠ 0
      ∧ r.stepFrequency = 1 / ((r.timing.phaseLength : K) * timeDelta) := by
  unfold setGaitParams at h
  simp only [] at h
  split_ifs at h with h1 h2 h3
  simp only [Option.some.injEq] at h
  subst h
  exact ⟨h3, rfl⟩

/-- C30: `numIterations` is even for every gait configuration. When the step frequency and the
timing are the ones `setGaitParams` assigns for a non-zero `timeDelta`, so that
`stepFrequency*timeDelta = 1/phaseLength`, and `swingEnd - swingStart = 2*m`, then
`numIterations = swingEnd - swingStart` and `halfSwingIteration = m`; for `m > 0` the call of
`updateSwingPos` in iteration `j` (phase `swingStart + j - 1`) adds `1/m` times the derivative of
the primary polygon at `t = j/m` when `j <= m` and of the secondary polygon at `t = (j - m)/m`
when `j > m`, so the switch comes after `m` of the `2*m` swing ticks and `t` is 1 in the last
one. -/
theorem swing_iterations_match_swing_band {K : Type} [LinearOrderedField K] [FloorRing K]
    (walker : WalkerMembers K) :
    (∃ r : Int, numIterations walker = 2 * r)
      ∧ ∀ (p : Parameters K) (r : GaitResult K),
          setGaitParams p walker.timeDelta = some r → walker.timing = r.timing →
          walker.stepFrequency = r.stepFrequency → walker.timeDelta ≠ 0 →
          ∀ m : Int, walker.timing.swingEnd - walker.timing.swingStart = 2 * m →
            numIterations walker = walker.timing.swingEnd - walker.timing.swingStart
              ∧ Int.tdiv (numIterations walker) 2 = m
              ∧ (0 < m → ∀ (overread : K) (leg : TipStepper K) (pos : Vector3d K) (j : Int),
                  leg.phase = walker.timing.swingStart + j - 1 →
                  (j ≤ m →
                    (updateSwingPos walker overread leg pos).2
                      = pos + (1 / (m : K)) • quarticBezierDot
                          (swingControlNodes walker overread
                            (updateSwingPos walker overread leg pos).1).swingPrimaryControlNodes
                          ((j : K) / (m : K)))
                  ∧ (m < j →
                    (updateSwingPos walker overread leg pos).2
                      = pos + (1 / (m : K)) • quarticBezierDot
                          (swingControlNodes walker overread
                            (updateSwingPos walker overread leg pos).1).swingSecondaryControlNodes
                          (((j - m : Int) : K) / (m : K)))
                  ∧ (j = 2 * m → ((j - m : Int) : K) / (m : K) = 1)) := by
  refine ⟨⟨_, numIterations_double walker⟩, ?_⟩
  intro p r hgait htiming hfreq hdt m hm
  obtain ⟨hL, hf⟩ := setGaitParams_stepFrequency p walker.timeDelta r hgait
  rw [← htiming] at hL hf
  rw [← hfreq] at hf
  have hLK : (walker.timing.phaseLength : K) ≠ 0 := Int.cast_ne_zero.mpr hL
  have hn : numIterations walker = 2 * m := by
    rw [numIterations_double, hm, hf]
    have e : (((2 * m : Int) : K) / (walker.timing.phaseLength : K))
        / (1 / ((walker.timing.phaseLength : K) * walker.timeDelta) * walker.timeDelta) / 2
        = ((m : Int) : K) := by
      push_cast
      field_simp
    rw [e, roundToInt_intCast]
  have hhalf : Int.tdiv (numIterations walker) 2 = m := by
    rw [hn]
    exact Int.mul_tdiv_cancel_left _ (by norm_num)
  refine ⟨by rw [hn, hm], hhalf, ?_⟩
  intro hmpos overread leg pos j hphase
  have hmK : (m : K) ≠ 0 := Int.cast_ne_zero.mpr (by omega)
  have hiter : leg.phase - walker.timing.swingStart + 1 = j := by rw [hphase]; ring
  have hstep : 2 * (1 / ((2 * m : Int) : K)) = 1 / (m : K) := by
    push_cast
    field_simp
  have ht : ∀ i : Int, (i : K) * (1 / ((2 * m : Int) : K)) * 2 = (i : K) / (m : K) := by
    intro i
    push_cast
    field_simp
    ring
  have hh : Int.tdiv (2 * m) 2 = m := Int.mul_tdiv_cancel_left _ (by norm_num)
  refine ⟨fun hj => ?_, fun hj => ?_, fun hj => ?_⟩
  · simp only [updateSwingPos, hiter, hn, hh, if_pos hj, hstep, ht]
  · simp only [updateSwingPos, hiter, hn, hh, if_neg (not_le.mpr hj), hstep, ht]
  · rw [hj]
    push_cast
    field_simp
    ring

/-- Witness for C30: the tripod gait of `tripod_setGaitParams` at `time_delta = 1/8`, whose
swing band `[2, 6)` has four ticks: `numIterations = 4`, `halfSwingIteration = 2`, and the
parameter is 1 in the fourth iteration. -/
theorem swing_iterations_match_swing_band_witness :
    (∃ r : Int, numIterations tripodMembers = 2 * r)
      ∧ numIterations tripodMembers = 6 - 2
      ∧ Int.tdiv (numIterations tripodMembers) 2 = 2
      ∧ (((4 - 2 : Int) : ℚ) / ((2 : Int) : ℚ) = 1) :=
  ⟨(swing_iterations_match_swing_band tripodMembers).1,
   ((swing_iterations_match_swing_band tripodMembers).2 tripodParameters _
      tripod_setGaitParams rfl rfl (by norm_num [tripodMembers]) 2 (by decide)).1,
   ((swing_iterations_match_swing_band tripodMembers).2 tripodParameters _
      tripod_setGaitParams rfl rfl (by norm_num [tripodMembers]) 2 (by decide)).2.1,
   (((swing_iterations_match_swing_band tripodMembers).2 tripodParameters _
      tripod_setGaitParams rfl rfl (by norm_num [tripodMembers]) 2 (by decide)).2.2
        (by decide) 0 { swingLeg with phase := 5 } swingLeg.currentTipPosition 4 (by decide)).2.2 rfl⟩

/-! ## C26: the tip update of updateWalk -/

/-- The revision keeps the offset between the default and the current tip position. -/
theorem reviseTipPositions_offset {K : Type} [LinearOrderedField K]
    (stanceTipPosition : Vector3d K) (legStepper : TipStepper K) :
    (reviseTipPositions stanceTipPosition legStepper).defaultTipPosition
        - (reviseTipPositions stanceTipPosition legStepper).currentTipPosition
      = legStepper.defaultTipPosition - legStepper.currentTipPosition := by
  unfold reviseTipPositions
  ext <;> simp

/-- C26: in the tip update of `updateWalk`, for a leg whose `leg.state` is WALKING the default
tip position becomes `stanceTipPosition`, the offset `default - current` is the same after the
revision as before it (so that the current tip position is unchanged when `stanceTipPosition`
equals the old default), the leg stepper after the loop body is `updatePosition` of the revised
one, and `applyLocalIK` is called with the current tip position after `updatePosition`, its `z`
lowered by `deltaZ` and its `x` and `y` untouched. For a leg in any other state the leg stepper
is unchanged and `applyLocalIK` is not called. -/
theorem tip_update_keeps_offset_and_subtracts_delta_z {K : Type} [LinearOrderedField K]
    [FloorRing K] (walker : WalkerMembers K) (overread : K) (leg : ModelLeg K) (deltaZ : K)
    (legStepper : TipStepper K) :
    (leg.state = LegState.WALKING →
      (reviseTipPositions leg.stanceTipPosition legStepper).defaultTipPosition
          = leg.stanceTipPosition
        ∧ (reviseTipPositions leg.stanceTipPosition legStepper).defaultTipPosition
            - (reviseTipPositions leg.stanceTipPosition legStepper).currentTipPosition
          = legStepper.defaultTipPosition - legStepper.currentTipPosition
        ∧ (leg.stanceTipPosition = legStepper.defaultTipPosition →
            (reviseTipPositions leg.stanceTipPosition legStepper).currentTipPosition
              = legStepper.currentTipPosition)
        ∧ (updateTip walker overread leg deltaZ legStepper).1
            = updatePosition walker overread
                (reviseTipPositions leg.stanceTipPosition legStepper)
        ∧ (updateTip walker overread leg deltaZ legStepper).1.defaultTipPosition
            = leg.stanceTipPosition
        ∧ (updateTip walker overread leg deltaZ legStepper).2
            = some ⟨(updateTip walker overread leg deltaZ legStepper).1.currentTipPosition.x,
                (updateTip walker overread leg deltaZ legStepper).1.currentTipPosition.y,
                (updateTip walker overread leg deltaZ legStepper).1.currentTipPosition.z
                  - deltaZ⟩)
      ∧ (leg.state ≠ LegState.WALKING →
          (updateTip walker overread leg deltaZ legStepper).1 = legStepper
            ∧ (updateTip walker overread leg deltaZ legStepper).2 = none) := by
  constructor
  · intro hw
    refine ⟨rfl, reviseTipPositions_offset _ _, ?_, ?_, ?_, ?_⟩
    · intro h
      unfold reviseTipPositions
      rw [h]
      ext <;> simp
    · simp [updateTip, hw]
    · simp only [updateTip, hw, if_true, updatePosition, updateSwingPos]
      split_ifs <;> rfl
    · simp [updateTip, hw]
  · intro hw
    simp [updateTip, hw]

/-- Witness for C26: the leg `stanceLeg` of the tripod example with `deltaZ = 1/10`, once with
the leg in state WALKING and once in state MANUAL. -/
theorem tip_update_keeps_offset_and_subtracts_delta_z_witness :
    (updateTip tripodMembers 0 ⟨LegState.WALKING, ⟨1, 2, -1⟩⟩ (1 / 10)
        stanceLeg).1.defaultTipPosition = ⟨1, 2, -1⟩
      ∧ (updateTip tripodMembers 0 ⟨LegState.WALKING, ⟨1, 2, -1⟩⟩ (1 / 10) stanceLeg).2
          = some ⟨(updateTip tripodMembers 0 ⟨LegState.WALKING, ⟨1, 2, -1⟩⟩ (1 / 10)
                stanceLeg).1.currentTipPosition.x,
              (updateTip tripodMembers 0 ⟨LegState.WALKING, ⟨1, 2, -1⟩⟩ (1 / 10)
                stanceLeg).1.currentTipPosition.y,
              (updateTip tripodMembers 0 ⟨LegState.WALKING, ⟨1, 2, -1⟩⟩ (1 / 10)
                stanceLeg).1.currentTipPosition.z - 1 / 10⟩
      ∧ (updateTip tripodMembers 0 ⟨LegState.MANUAL, ⟨1, 2, -1⟩⟩ (1 / 10) stanceLeg).1
          = stanceLeg
      ∧ (updateTip tripodMembers 0 ⟨LegState.MANUAL, ⟨1, 2, -1⟩⟩ (1 / 10) stanceLeg).2 = none :=
  ⟨((tip_update_keeps_offset_and_subtracts_delta_z tripodMembers 0
      ⟨LegState.WALKING, ⟨1, 2, -1⟩⟩ (1 / 10) stanceLeg).1 rfl).2.2.2.2.1,
   ((tip_update_keeps_offset_and_subtracts_delta_z tripodMembers 0
      ⟨LegState.WALKING, ⟨1, 2, -1⟩⟩ (1 / 10) stanceLeg).1 rfl).2.2.2.2.2,
   (tip_update_keeps_offset_and_subtracts_delta_z tripodMembers 0
      ⟨LegState.MANUAL, ⟨1, 2, -1⟩⟩ (1 / 10) stanceLeg).2 (by decide)⟩

/-! ## The loop of updateStiffness in closed form -/

theorem visitedLoad_succ {K : Type} [LinearOrderedField K] (params : StiffnessParameters K)
    (sc mbh : K) (legs : List (StiffnessLeg K)) (j i : Nat) :
    visitedLoad params sc mbh legs (j + 1) i
      = visitedLoad params sc mbh legs j i
        + (if i = j then swingingLoad params sc mbh legs j else 0) := by
  unfold visitedLoad
  by_cases hij : i = j
  · subst hij
    simp
  · have hlt : i < j + 1 ↔ i < j := by omega
    simp [hij, hlt]

theorem visitedLoad_ge {K : Type} [LinearOrderedField K] (params : StiffnessParameters K)
    (sc mbh : K) (legs : List (StiffnessLeg K)) (j i : Nat) (h : j ≤ i) :
    visitedLoad params sc mbh legs j i = 0 := by
  unfold visitedLoad
  rw [if_neg (by omega)]

theorem swingingLoad_of_swing {K : Type} [LinearOrderedField K] (params : StiffnessParameters K)
    (sc mbh : K) (legs : List (StiffnessLeg K)) (j : Nat) (leg : StiffnessLeg K)
    (hj : legs[j]? = some leg) (hs : leg.step_state = StepState.SWING) :
    swingingLoad params sc mbh legs j = loadStiffness params (stepReference sc mbh leg) := by
  unfold swingingLoad
  rw [hj]
  simp [hs]

theorem swingingLoad_of_not_swing {K : Type} [LinearOrderedField K]
    (params : StiffnessParameters K)
    (sc mbh : K) (legs : List (StiffnessLeg K)) (j : Nat) (leg : StiffnessLeg K)
    (hj : legs[j]? = some leg) (hs : leg.step_state ≠ StepState.SWING) :
    swingingLoad params sc mbh legs j = 0 := by
  unfold swingingLoad
  rw [hj]
  simp [hs]

/-- Visiting a leg that is not in SWING changes no stiffness. -/
theorem stiffnessAfter_skip {K : Type} [LinearOrderedField K] (params : StiffnessParameters K)
    (sc mbh : K) (legs : List (StiffnessLeg K)) (j : Nat) (legj : StiffnessLeg K)
    (hj : legs[j]? = some legj) (hs : legj.step_state ≠ StepState.SWING)
    (l : Nat) (leg : StiffnessLeg K) (hl : legs[l]? = some leg) :
    stiffnessAfter params sc mbh legs (j + 1) l leg = stiffnessAfter params sc mbh legs j l leg
    := by
  have h0 := swingingLoad_of_not_swing params sc mbh legs j legj hj hs
  have hv : ∀ i, visitedLoad params sc mbh legs (j + 1) i = visitedLoad params sc mbh legs j i := by
    intro i
    rw [visitedLoad_succ, h0]
    simp
  have hc : (leg.step_state = StepState.SWING ∧ l < j + 1)
      ↔ (leg.step_state = StepState.SWING ∧ l < j) := by
    constructor
    · rintro ⟨h1, h2⟩
      refine ⟨h1, ?_⟩
      rcases Nat.lt_succ_iff_lt_or_eq.mp h2 with h | h
      · exact h
      · subst h
        rw [hj] at hl
        simp only [Option.some.injEq] at hl
        subst hl
        exact absurd h1 hs
    · rintro ⟨h1, h2⟩
      exact ⟨h1, by omega⟩
  unfold stiffnessAfter
  simp only [hv, hc]

/-- The swinging leg that is visited gets its swing stiffness. -/
theorem stiffnessAfter_self {K : Type} [LinearOrderedField K] (params : StiffnessParameters K)
    (sc mbh : K) (legs : List (StiffnessLeg K)) (j : Nat) (legj : StiffnessLeg K)
    (hs : legj.step_state = StepState.SWING) :
    stiffnessAfter params sc mbh legs (j + 1) j legj
      = swingStiffness params (stepReference sc mbh legj) := by
  unfold stiffnessAfter
  rw [if_pos ⟨hs, by omega⟩, visitedLoad_ge _ _ _ _ _ _ (le_refl _)]
  simp

/-- The leg before a swinging leg that is visited gets its load added. -/
theorem stiffnessAfter_before {K : Type} [LinearOrderedField K] (params : StiffnessParameters K)
    (sc mbh : K) (legs : List (StiffnessLeg K)) (hn : 3 ≤ legs.length) (j : Nat) (hj1 : 1 ≤ j)
    (leg : StiffnessLeg K) :
    stiffnessAfter params sc mbh legs (j + 1) (j - 1) leg
      = stiffnessAfter params sc mbh legs j (j - 1) leg + swingingLoad params sc mbh legs j := by
  have e1 : j - 1 + 1 = j := by omega
  unfold stiffnessAfter
  simp only [visitedLoad_succ, e1]
  have hlt : j - 1 < j + 1 ↔ j - 1 < j := by omega
  simp only [hlt]
  have h1 : j - 1 - 1 ≠ j := by omega
  have h2 : j - 1 = 0 → legs.length - 1 ≠ j := by omega
  split_ifs <;> simp_all <;> ring

/-- The leg after a swinging leg that is visited gets its load added; after the last leg comes
leg 0. -/
theorem stiffnessAfter_after {K : Type} [LinearOrderedField K] (params : StiffnessParameters K)
    (sc mbh : K) (legs : List (StiffnessLeg K)) (hn : 3 ≤ legs.length) (j : Nat) (hj1 : 1 ≤ j)
    (hjn : j < legs.length) (l : Nat) (hl : l = if j + 1 < legs.length then j + 1 else 0)
    (leg : StiffnessLeg K) (h0 : l = 0 → leg.step_state ≠ StepState.SWING) :
    stiffnessAfter params sc mbh legs (j + 1) l leg
      = stiffnessAfter params sc mbh legs j l leg + swingingLoad params sc mbh legs j := by
  unfold stiffnessAfter
  simp only [visitedLoad_succ]
  split_ifs at hl with hlast
  · subst hl
    have e1 : j + 1 - 1 = j := by omega
    have e2 : ¬ (j + 1 < j + 1) := by omega
    have e3 : ¬ (j + 1 < j) := by omega
    have e4 : j + 1 + 1 ≠ j := by omega
    simp [e1, e2, e3, e4]
    ring
  · subst hl
    have e1 : legs.length - 1 = j := by omega
    have e2 : (0 + 1 : Nat) ≠ j := by omega
    have hns := h0 rfl
    simp [e1, e2, hns]
    ring

/-- Every other leg keeps its stiffness when a swinging leg is visited. -/
theorem stiffnessAfter_other {K : Type} [LinearOrderedField K] (params : StiffnessParameters K)
    (sc mbh : K) (legs : List (StiffnessLeg K)) (j : Nat)
    (hjn : j < legs.length) (l : Nat) (hln : l < legs.length) (hlj : l ≠ j) (hl1 : l ≠ j - 1)
    (hl2 : l ≠ if j + 1 < legs.length then j + 1 else 0) (hj1 : 1 ≤ j)
    (leg : StiffnessLeg K) :
    stiffnessAfter params sc mbh legs (j + 1) l leg = stiffnessAfter params sc mbh legs j l leg
    := by
  unfold stiffnessAfter
  simp only [visitedLoad_succ]
  have hlt : l < j + 1 ↔ l < j := by omega
  have e1 : l + 1 ≠ j := by omega
  have e2 : 1 ≤ l → l - 1 ≠ j := by
    intro h1 h2
    split_ifs at hl2 <;> omega
  have e3 : l = 0 → legs.length - 1 ≠ j := by
    intro h1 h2
    split_ifs at hl2 <;> omega
  simp only [hlt, e1, if_false, add_zero]
  split_ifs <;> simp_all

theorem adjacent_leg_1_id_of_pos (j n : Nat) (hj1 : 1 ≤ j) (hjn : j < n) :
    adjacent_leg_1_id (j : Int) (n : Int) = ((j - 1 : Nat) : Int) := by
  unfold adjacent_leg_1_id
  rw [Int.tmod_eq_of_lt (by omega) (by omega)]
  omega

theorem adjacent_leg_2_id_of_lt (j n : Nat) (hjn : j < n) :
    adjacent_leg_2_id (j : Int) (n : Int)
      = (((if j + 1 < n then j + 1 else 0) : Nat) : Int) := by
  unfold adjacent_leg_2_id
  split_ifs with h
  · rw [Int.tmod_eq_of_lt (by omega) (by omega)]
    push_cast
    rfl
  · have e : (j : Int) + 1 = (n : Int) := by omega
    rw [e, Int.tmod_self]
    rfl

theorem getLegByIDNumber_natCast {K : Type} [LinearOrderedField K]
    (legs : List (StiffnessLeg K)) (i : Nat) :
    getLegByIDNumber legs ((i : Nat) : Int) = legs[i]? := by
  unfold getLegByIDNumber
  simp

theorem getLegByIDNumber_neg {K : Type} [LinearOrderedField K]
    (legs : List (StiffnessLeg K)) (i : Int) (hi : i < 0) :
    getLegByIDNumber legs i = none := by
  unfold getLegByIDNumber
  rw [if_neg (by omega)]

/-- The loop of `updateStiffness(WalkController*)` in closed form, for at least three legs of
which leg 0 is not in SWING: after the legs below `j` have been visited, the leg with id `l` has
the virtual stiffness `stiffnessAfter .. j l` and its other members are unchanged. -/
theorem stiffnessLoop_closed {K : Type} [LinearOrderedField K] (params : StiffnessParameters K)
    (sc mbh : K) (legs : List (StiffnessLeg K)) (hn : 3 ≤ legs.length)
    (h0 : ∀ leg, legs[0]? = some leg → leg.step_state ≠ StepState.SWING) :
    ∀ j, j ≤ legs.length →
      stiffnessLoop params sc mbh j
          (legs.map (fun leg => { leg with virtual_stiffness := params.virtual_stiffness }))
        = some (legs.mapIdx (fun l leg =>
            { leg with virtual_stiffness := stiffnessAfter params sc mbh legs j l leg })) := by
  intro j
  induction j with
  | zero =>
    intro _
    simp only [stiffnessLoop, Option.some.injEq]
    apply List.ext_getElem?
    intro l
    rw [List.getElem?_map, List.getElem?_mapIdx]
    cases legs[l]? with
    | none => rfl
    | some leg =>
      simp only [Option.map_some']
      congr 1
      unfold stiffnessAfter
      simp [visitedLoad_ge]
  | succ j ih =>
    intro hj
    have hjn : j < legs.length := by omega
    obtain ⟨legj, hlegj⟩ : ∃ legj, legs[j]? = some legj :=
      ⟨legs[j], List.getElem?_eq_getElem hjn⟩
    simp only [stiffnessLoop]
    rw [ih (by omega)]
    simp only [stiffnessLoopBody, List.getElem?_mapIdx, hlegj, Option.map_some',
      List.length_mapIdx]
    by_cases hs : legj.step_state = StepState.SWING
    · have hj1 : 1 ≤ j := by
        rcases Nat.eq_zero_or_pos j with h | h
        · subst h
          exact absurd hs (h0 legj hlegj)
        · exact h
      obtain ⟨leg1, hleg1⟩ : ∃ leg1, legs[j - 1]? = some leg1 :=
        ⟨legs[j - 1], List.getElem?_eq_getElem (by omega)⟩
      have hl2 : (if j + 1 < legs.length then j + 1 else 0) < legs.length := by
        split_ifs <;> omega
      obtain ⟨leg2, hleg2⟩ : ∃ leg2, legs[if j + 1 < legs.length then j + 1 else 0]? = some leg2 :=
        ⟨legs[if j + 1 < legs.length then j + 1 else 0], List.getElem?_eq_getElem hl2⟩
      rw [if_pos hs, adjacent_leg_1_id_of_pos j legs.length hj1 hjn,
        adjacent_leg_2_id_of_lt j legs.length hjn, getLegByIDNumber_natCast,
        getLegByIDNumber_natCast]
      simp only [List.getElem?_mapIdx, hleg1, hleg2, Option.map_some', Int.toNat_ofNat,
        Option.some.injEq]
      have hload := swingingLoad_of_swing params sc mbh legs j legj hlegj hs
      apply List.ext_getElem?
      intro l
      simp only [setVirtualStiffness, List.getElem?_modify, List.getElem?_mapIdx]
      rcases hl : legs[l]? with _ | leg
      · rfl
      · have hln : l < legs.length := by
          by_contra hcon
          rw [List.getElem?_eq_none (by omega)] at hl
          exact Option.noConfusion hl
        simp only [Option.map_some', Option.map_eq_map]
        by_cases e2 : l = (if j + 1 < legs.length then j + 1 else 0)
        · have e1 : j - 1 ≠ l := by
            rw [e2]
            split_ifs <;> omega
          have e0 : j ≠ l := by
            rw [e2]
            split_ifs <;> omega
          have hleg : leg2 = leg := by
            rw [← e2, hl] at hleg2
            exact (Option.some.inj hleg2).symm
          subst hleg
          rw [if_pos e2.symm, if_neg e1, if_neg e0]
          have h3 := stiffnessAfter_after params sc mbh legs hn j hj1 hjn l e2 leg2
            (fun h => h0 leg2 (by rw [← h]; exact hl))
          rw [hload] at h3
          rw [h3, ← e2]
          rfl
        · by_cases e1 : l = j - 1
          · have e0 : j ≠ l := by omega
            have hleg : leg1 = leg := by
              rw [← e1, hl] at hleg1
              exact (Option.some.inj hleg1).symm
            subst hleg
            rw [if_neg (Ne.symm e2), if_pos e1.symm, if_neg e0]
            have h3 := stiffnessAfter_before params sc mbh legs hn j hj1 leg1
            rw [hload] at h3
            rw [e1, h3]
            rfl
          · by_cases e0 : l = j
            · have hleg : legj = leg := by
                rw [← e0, hl] at hlegj
                exact (Option.some.inj hlegj).symm
              subst hleg
              rw [if_neg (Ne.symm e2), if_neg (Ne.symm e1), if_pos e0.symm]
              rw [e0, stiffnessAfter_self params sc mbh legs j legj hs]
              rfl
            · rw [if_neg (Ne.symm e2), if_neg (Ne.symm e1), if_neg (Ne.symm e0)]
              rw [stiffnessAfter_other params sc mbh legs j hjn l hln e0 e1 e2 hj1 leg]
    · rw [if_neg hs]
      simp only [Option.some.injEq]
      apply List.ext_getElem?
      intro l
      simp only [List.getElem?_mapIdx]
      rcases hl : legs[l]? with _ | leg
      · rfl
      · simp only [Option.map_some']
        rw [stiffnessAfter_skip params sc mbh legs j legj hlegj hs l leg hl]

/-- The result of `updateStiffness(WalkController*)` in closed form, for at least three legs of
which leg 0 is not in SWING. -/
theorem updateStiffness_closed {K : Type} [LinearOrderedField K] (params : StiffnessParameters K)
    (sc mbh : K) (legs : List (StiffnessLeg K)) (hn : 3 ≤ legs.length)
    (h0 : ∀ leg, legs[0]? = some leg → leg.step_state ≠ StepState.SWING) :
    updateStiffness params sc mbh legs
      = some (legs.mapIdx (fun l leg =>
          { leg with
            virtual_stiffness := stiffnessAfter params sc mbh legs legs.length l leg })) :=
  stiffnessLoop_closed params sc mbh legs hn h0 legs.length (le_refl _)

/-- The stiffness of the leg with id `l` after `updateStiffness(WalkController*)`. -/
theorem updateStiffness_get {K : Type} [LinearOrderedField K] (params : StiffnessParameters K)
    (sc mbh : K) (legs : List (StiffnessLeg K)) (hn : 3 ≤ legs.length)
    (h0 : ∀ leg, legs[0]? = some leg → leg.step_state ≠ StepState.SWING) :
    ∃ legs1, updateStiffness params sc mbh legs = some legs1
      ∧ legs1.length = legs.length
      ∧ ∀ (l : Nat) (leg : StiffnessLeg K), legs[l]? = some leg →
          legs1[l]? = some { leg with
            virtual_stiffness := stiffnessAfter params sc mbh legs legs.length l leg } := by
  refine ⟨_, updateStiffness_closed params sc mbh legs hn h0, by simp, ?_⟩
  intro l leg hl
  simp [List.getElem?_mapIdx, hl]

/-- With two or more legs, `updateStiffness(WalkController*)` fails when leg 0 is in SWING: its
first neighbour is looked up under the id `-1`. -/
theorem updateStiffness_leg_zero_swinging {K : Type} [LinearOrderedField K]
    (params : StiffnessParameters K) (sc mbh : K) (legs : List (StiffnessLeg K))
    (hn : 2 ≤ legs.length) (leg0 : StiffnessLeg K) (h0 : legs[0]? = some leg0)
    (hs : leg0.step_state = StepState.SWING) :
    updateStiffness params sc mbh legs = none := by
  have hid : adjacent_leg_1_id ((0 : Nat) : Int) (legs.length : Int) = -1 := by
    obtain ⟨k, hk⟩ : ∃ k, legs.length = k + 2 := ⟨legs.length - 2, by omega⟩
    rw [hk]
    show -((1 % (k + 2) : Nat) : Int) = -1
    rw [Nat.mod_eq_of_lt (by omega)]
    rfl
  have h1 : ∀ k, stiffnessLoop params sc mbh (k + 1)
      (legs.map (fun leg => { leg with virtual_stiffness := params.virtual_stiffness })) = none := by
    intro k
    induction k with
    | zero =>
      simp only [stiffnessLoop, stiffnessLoopBody, List.getElem?_map, h0, Option.map_some',
        List.length_map, hs, if_true, hid, getLegByIDNumber_neg _ (-1) (by norm_num)]
    | succ k ih =>
      rw [stiffnessLoop, ih]
  unfold updateStiffness
  obtain ⟨k, hk⟩ : ∃ k, legs.length = k + 1 := ⟨legs.length - 1, by omega⟩
  rw [hk]
  exact h1 k

/-! ## C22: scenario S5 in general -/

theorem stepReference_eq {K : Type} [LinearOrderedField K] (sc mbh : K) (leg : StiffnessLeg K) :
    stepReference sc mbh leg
      = |(leg.current_tip_position.z - leg.default_tip_position.z) / (sc * mbh)| := by
  unfold stepReference
  simp

/-- With a single leg `i` in SWING, only leg `i` loads its neighbours. -/
theorem visitedLoad_single {K : Type} [LinearOrderedField K] (params : StiffnessParameters K)
    (sc mbh : K) (legs : List (StiffnessLeg K)) (i : Nat) (legi : StiffnessLeg K)
    (hi : legs[i]? = some legi) (hs : legi.step_state = StepState.SWING)
    (hother : ∀ (l : Nat) (leg : StiffnessLeg K), legs[l]? = some leg → l ≠ i →
      leg.step_state ≠ StepState.SWING) (k : Nat) :
    visitedLoad params sc mbh legs legs.length k
      = if k = i then loadStiffness params (stepReference sc mbh legi) else 0 := by
  unfold visitedLoad
  by_cases hk : k = i
  · subst hk
    have hlt : k < legs.length := by
      by_contra hcon
      rw [List.getElem?_eq_none (by omega)] at hi
      exact Option.noConfusion hi
    rw [if_pos hlt, if_pos rfl, swingingLoad_of_swing params sc mbh legs k legi hi hs]
  · rw [if_neg hk]
    split_ifs with hlt
    · exact swingingLoad_of_not_swing params sc mbh legs k legs[k]
        (List.getElem?_eq_getElem hlt) (hother k _ (List.getElem?_eq_getElem hlt) hk)
    · rfl

/-- C22: let exactly one leg `i` with `1 <= i <= leg_count - 2` be in SWING, with step reference
`r = |z_current - z_default| / (step_clearance*max_body_height)` (the divisor not zero). Then
`updateStiffness(walker)` returns, and afterwards leg `i` has the virtual stiffness
`k0*(r*(swing_stiffness_scaler - 1) + 1)`, the legs `i-1` and `i+1` have
`k0 + k0*r*(load_stiffness_scaler - 1)`, and every other leg has `k0`. -/
theorem single_swinging_leg_stiffness {K : Type} [LinearOrderedField K]
    (params : StiffnessParameters K) (sc mbh : K) (legs : List (StiffnessLeg K)) (i : Nat)
    (legi : StiffnessLeg K) (r : K) (_hclear : sc * mbh ≠ 0)
    (h1 : 1 ≤ i) (h2 : i + 2 ≤ legs.length)
    (hi : legs[i]? = some legi) (hs : legi.step_state = StepState.SWING)
    (hother : ∀ (l : Nat) (leg : StiffnessLeg K), legs[l]? = some leg → l ≠ i →
      leg.step_state ≠ StepState.SWING)
    (hr : r = |(legi.current_tip_position.z - legi.default_tip_position.z) / (sc * mbh)|) :
    ∃ legs1, updateStiffness params sc mbh legs = some legs1
      ∧ legs1.length = legs.length
      ∧ ∀ (l : Nat) (leg1 : StiffnessLeg K), legs1[l]? = some leg1 →
          leg1.virtual_stiffness
            = if l = i then
                params.virtual_stiffness * (r * (params.swing_stiffness_scaler - 1) + 1)
              else if l + 1 = i ∨ l = i + 1 then
                params.virtual_stiffness
                  + params.virtual_stiffness * r * (params.load_stiffness_scaler - 1)
              else params.virtual_stiffness := by
  obtain ⟨legs1, hres, hlen, hget⟩ := updateStiffness_get params sc mbh legs (by omega)
    (fun leg hl => hother 0 leg hl (by omega))
  refine ⟨legs1, hres, hlen, ?_⟩
  intro l leg1 hl1
  have hln : l < legs.length := by
    by_contra hcon
    rw [List.getElem?_eq_none (by omega)] at hl1
    exact Option.noConfusion hl1
  have hl := hget l legs[l] (List.getElem?_eq_getElem hln)
  rw [hl1] at hl
  rw [Option.some.inj hl]
  have hrr : stepReference sc mbh legi = r := by rw [stepReference_eq, hr]
  have hV := visitedLoad_single params sc mbh legs i legi hi hs hother
  show stiffnessAfter params sc mbh legs legs.length l legs[l] = _
  unfold stiffnessAfter
  simp only [hV, hrr]
  by_cases hli : l = i
  · subst hli
    have hleg : legs[l] = legi := by
      have := List.getElem?_eq_getElem hln
      rw [hi] at this
      exact (Option.some.inj this).symm
    rw [hleg, if_pos ⟨hs, hln⟩, if_neg (by omega), if_pos rfl, hrr]
    unfold swingStiffness
    ring
  · have hns := hother l legs[l] (List.getElem?_eq_getElem hln) hli
    rw [if_neg (fun h => hns h.1), if_neg hli]
    unfold loadStiffness
    split_ifs <;> first | omega | ring

/-- The legs of the scenario S5: six legs, those listed in SWING with their tips raised. -/
theorem s5Legs_get (swinging : List Nat) (l : Nat) (leg : StiffnessLeg ℚ)
    (hl : (s5Legs swinging)[l]? = some leg) :
    l < 6 ∧ leg = (if l ∈ swinging then ⟨0, StepState.SWING, ⟨0, 0, 1 / 2⟩, ⟨0, 0, 0⟩⟩
      else ⟨0, StepState.STANCE, ⟨0, 0, 0⟩, ⟨0, 0, 0⟩⟩) := by
  unfold s5Legs at hl
  rw [List.getElem?_map] at hl
  by_cases h : l < 6
  · rw [List.getElem?_range h] at hl
    simp only [Option.map_some', Option.some.injEq] at hl
    exact ⟨h, hl.symm⟩
  · rw [List.getElem?_eq_none (by simp; omega)] at hl
    simp at hl

/-- In the scenario S5 a leg that is not listed is not in SWING. -/
theorem s5Legs_stance (swinging : List Nat) (l : Nat) (leg : StiffnessLeg ℚ)
    (hl : (s5Legs swinging)[l]? = some leg) (hnot : l ∉ swinging) :
    leg.step_state ≠ StepState.SWING := by
  rw [(s5Legs_get swinging l leg hl).2, if_neg hnot]
  decide

/-- Witness for C22, scenario S5: six legs, leg 2 in SWING with step reference `1/2`,
`swing_stiffness_scaler = 0.1`, `load_stiffness_scaler = 2`, `k0 = 100`: leg 2 ends with
stiffness 55, the legs 1 and 3 with 150, the others with 100. -/
theorem single_swinging_leg_stiffness_witness :
    (∃ legs1, updateStiffness s5Parameters (1 / 2) 2 (s5Legs [2]) = some legs1
      ∧ legs1.length = (s5Legs [2]).length
      ∧ ∀ (l : Nat) (leg1 : StiffnessLeg ℚ), legs1[l]? = some leg1 →
          leg1.virtual_stiffness
            = if l = 2 then (100 : ℚ) * (1 / 2 * (1 / 10 - 1) + 1)
              else if l + 1 = 2 ∨ l = 2 + 1 then (100 : ℚ) + 100 * (1 / 2) * (2 - 1)
              else 100)
      ∧ (100 : ℚ) * (1 / 2 * (1 / 10 - 1) + 1) = 55
      ∧ (100 : ℚ) + 100 * (1 / 2) * (2 - 1) = 150 :=
  ⟨single_swinging_leg_stiffness s5Parameters (1 / 2) 2 (s5Legs [2]) 2
      ⟨0, StepState.SWING, ⟨0, 0, 1 / 2⟩, ⟨0, 0, 0⟩⟩ (1 / 2) (by norm_num) (by decide)
      (by decide) rfl rfl
      (fun l leg hl hne => s5Legs_stance [2] l leg hl (by simpa using hne))
      (by norm_num [abs_of_pos]),
    by norm_num, by norm_num⟩

/-! ## C29: the stiffness of the swinging legs -/

/-- C29 (amended): with at least three legs of which leg 0 is not in SWING (and a non-zero
divisor `step_clearance*max_body_height`), `updateStiffness(walker)` returns, and for every
combination of swinging legs a leg in SWING with step reference `r` ends with the virtual
stiffness `k0*(r*(swing_stiffness_scaler - 1) + 1)` when the leg with the next id is not in
SWING, and with `k0*(r*(swing_stiffness_scaler - 1) + 1) + k0*(r'*(load_stiffness_scaler - 1))`
when the leg with the next id is in SWING with step reference `r'`: the loop visits that leg
later and adds its load. -/
theorem swinging_leg_stiffness_with_next_leg {K : Type} [LinearOrderedField K]
    (params : StiffnessParameters K) (sc mbh : K) (legs : List (StiffnessLeg K))
    (_hclear : sc * mbh ≠ 0) (hn : 3 ≤ legs.length)
    (h0 : ∀ leg, legs[0]? = some leg → leg.step_state ≠ StepState.SWING) :
    ∃ legs1, updateStiffness params sc mbh legs = some legs1
      ∧ legs1.length = legs.length
      ∧ ∀ (l : Nat) (leg : StiffnessLeg K), legs[l]? = some leg →
          leg.step_state = StepState.SWING →
          ∀ r : K, r = |(leg.current_tip_position.z - leg.default_tip_position.z) / (sc * mbh)| →
          ∃ leg1, legs1[l]? = some leg1
            ∧ ((∀ next : StiffnessLeg K, legs[l + 1]? = some next →
                  next.step_state ≠ StepState.SWING) →
                leg1.virtual_stiffness
                  = params.virtual_stiffness * (r * (params.swing_stiffness_scaler - 1) + 1))
            ∧ (∀ next : StiffnessLeg K, legs[l + 1]? = some next →
                next.step_state = StepState.SWING →
                leg1.virtual_stiffness
                  = params.virtual_stiffness * (r * (params.swing_stiffness_scaler - 1) + 1)
                    + params.virtual_stiffness
                      * (|(next.current_tip_position.z - next.default_tip_position.z)
                            / (sc * mbh)| * (params.load_stiffness_scaler - 1))) := by
  obtain ⟨legs1, hres, hlen, hget⟩ := updateStiffness_get params sc mbh legs hn h0
  refine ⟨legs1, hres, hlen, ?_⟩
  intro l leg hl hs r hr
  have hln : l < legs.length := by
    by_contra hcon
    rw [List.getElem?_eq_none (by omega)] at hl
    exact Option.noConfusion hl
  have hrr : stepReference sc mbh leg = r := by rw [stepReference_eq, hr]
  have hval : stiffnessAfter params sc mbh legs legs.length l leg
      = swingStiffness params r + visitedLoad params sc mbh legs legs.length (l + 1) := by
    unfold stiffnessAfter
    rw [if_pos ⟨hs, hln⟩, hrr]
  refine ⟨_, hget l leg hl, ?_, ?_⟩
  · intro hnext
    show stiffnessAfter params sc mbh legs legs.length l leg = _
    rw [hval]
    have hz : visitedLoad params sc mbh legs legs.length (l + 1) = 0 := by
      unfold visitedLoad
      split_ifs with hlt
      · exact swingingLoad_of_not_swing params sc mbh legs (l + 1) legs[l + 1]
          (List.getElem?_eq_getElem hlt) (hnext _ (List.getElem?_eq_getElem hlt))
      · rfl
    rw [hz]
    unfold swingStiffness
    ring
  · intro next hnext hsn
    show stiffnessAfter params sc mbh legs legs.length l leg = _
    rw [hval]
    have hlt : l + 1 < legs.length := by
      by_contra hcon
      rw [List.getElem?_eq_none (by omega)] at hnext
      exact Option.noConfusion hnext
    have hz : visitedLoad params sc mbh legs legs.length (l + 1)
        = loadStiffness params (stepReference sc mbh next) := by
      unfold visitedLoad
      rw [if_pos hlt, swingingLoad_of_swing params sc mbh legs (l + 1) next hnext hsn]
    rw [hz, stepReference_eq]
    rfl

/-- Witness for C29 (amended): the six legs of scenario S5 with the legs 1 and 2 in SWING. -/
theorem swinging_leg_stiffness_with_next_leg_witness :
    ∃ legs1, updateStiffness s5Parameters (1 / 2) 2 (s5Legs [1, 2]) = some legs1
      ∧ legs1.length = (s5Legs [1, 2]).length
      ∧ ∀ (l : Nat) (leg : StiffnessLeg ℚ), (s5Legs [1, 2])[l]? = some leg →
          leg.step_state = StepState.SWING →
          ∀ r : ℚ, r = |(leg.current_tip_position.z - leg.default_tip_position.z)
              / (1 / 2 * 2)| →
          ∃ leg1, legs1[l]? = some leg1
            ∧ ((∀ next : StiffnessLeg ℚ, (s5Legs [1, 2])[l + 1]? = some next →
                  next.step_state ≠ StepState.SWING) →
                leg1.virtual_stiffness
                  = s5Parameters.virtual_stiffness
                      * (r * (s5Parameters.swing_stiffness_scaler - 1) + 1))
            ∧ (∀ next : StiffnessLeg ℚ, (s5Legs [1, 2])[l + 1]? = some next →
                next.step_state = StepState.SWING →
                leg1.virtual_stiffness
                  = s5Parameters.virtual_stiffness
                      * (r * (s5Parameters.swing_stiffness_scaler - 1) + 1)
                    + s5Parameters.virtual_stiffness
                      * (|(next.current_tip_position.z - next.default_tip_position.z)
                            / (1 / 2 * 2)| * (s5Parameters.load_stiffness_scaler - 1))) :=
  swinging_leg_stiffness_with_next_leg s5Parameters (1 / 2) 2 (s5Legs [1, 2]) (by norm_num)
    (by decide) (fun leg hl => s5Legs_stance [1, 2] 0 leg hl (by decide))

/-- C29 as stated fails: in scenario S5 (`k0 = 100`, `swing_stiffness_scaler = 0.1`,
`load_stiffness_scaler = 2`) with the adjacent legs 1 and 2 both in SWING at step reference
`1/2`, `updateStiffness(walker)` leaves leg 1, the one with the lower id, with the virtual
stiffness 105 and not with `100*(0.5*(0.1 - 1) + 1) = 55`; leg 2 has 55. -/
theorem lower_swinging_leg_gets_load :
    ∃ legs1 leg1 leg2, updateStiffness s5Parameters (1 / 2) 2 (s5Legs [1, 2]) = some legs1
      ∧ (s5Legs [1, 2])[1]? = some ⟨0, StepState.SWING, ⟨0, 0, 1 / 2⟩, ⟨0, 0, 0⟩⟩
      ∧ (s5Legs [1, 2])[2]? = some ⟨0, StepState.SWING, ⟨0, 0, 1 / 2⟩, ⟨0, 0, 0⟩⟩
      ∧ legs1[1]? = some leg1 ∧ leg1.virtual_stiffness = 105
      ∧ legs1[2]? = some leg2 ∧ leg2.virtual_stiffness = 55
      ∧ (100 : ℚ) * (|((1 / 2 : ℚ) - 0) / (1 / 2 * 2)| * (1 / 10 - 1) + 1) = 55 := by
  obtain ⟨legs1, hres, _, hget⟩ := updateStiffness_get s5Parameters (1 / 2) 2 (s5Legs [1, 2])
    (by decide) (fun leg hl => s5Legs_stance [1, 2] 0 leg hl (by decide))
  have hr : stepReference (1 / 2 : ℚ) 2 ⟨0, StepState.SWING, ⟨0, 0, 1 / 2⟩, ⟨0, 0, 0⟩⟩
      = 1 / 2 := by
    rw [stepReference_eq]
    norm_num [abs_of_pos]
  have hload2 := swingingLoad_of_swing s5Parameters (1 / 2) 2 (s5Legs [1, 2]) 2
    ⟨0, StepState.SWING, ⟨0, 0, 1 / 2⟩, ⟨0, 0, 0⟩⟩ rfl rfl
  have hlen : (s5Legs [1, 2]).length = 6 := rfl
  refine ⟨legs1, _, _, hres, rfl, rfl,
    hget 1 ⟨0, StepState.SWING, ⟨0, 0, 1 / 2⟩, ⟨0, 0, 0⟩⟩ rfl, ?_,
    hget 2 ⟨0, StepState.SWING, ⟨0, 0, 1 / 2⟩, ⟨0, 0, 0⟩⟩ rfl, ?_, ?_⟩
  · show stiffnessAfter s5Parameters (1 / 2) 2 (s5Legs [1, 2]) (s5Legs [1, 2]).length 1
      ⟨0, StepState.SWING, ⟨0, 0, 1 / 2⟩, ⟨0, 0, 0⟩⟩ = 105
    unfold stiffnessAfter visitedLoad
    rw [hlen, if_pos ⟨rfl, by norm_num⟩, if_pos (by norm_num), hload2, hr]
    norm_num [swingStiffness, loadStiffness, s5Parameters]
  · show stiffnessAfter s5Parameters (1 / 2) 2 (s5Legs [1, 2]) (s5Legs [1, 2]).length 2
      ⟨0, StepState.SWING, ⟨0, 0, 1 / 2⟩, ⟨0, 0, 0⟩⟩ = 55
    have hload3 := swingingLoad_of_not_swing s5Parameters (1 / 2) 2 (s5Legs [1, 2]) 3
      ⟨0, StepState.STANCE, ⟨0, 0, 0⟩, ⟨0, 0, 0⟩⟩ rfl (by decide)
    unfold stiffnessAfter visitedLoad
    rw [hlen, if_pos ⟨rfl, by norm_num⟩, if_pos (by norm_num), hload3, hr]
    norm_num [swingStiffness, s5Parameters]
  · norm_num [abs_of_pos]

/-! ## C23 and C24: the neighbours of leg 0 -/

/-- Stiffness additivity away from leg 0: with at least three legs of which leg 0 is not in
SWING, a leg `c` that is not in SWING and whose two cyclic neighbours `a` (before it) and `b`
(after it) are in SWING with step references `ra` and `rb` ends with the virtual stiffness
`k0 + k0*ra*(load - 1) + k0*rb*(load - 1)`. -/
theorem doubly_adjacent_leg_stiffness {K : Type} [LinearOrderedField K]
    (params : StiffnessParameters K) (sc mbh : K) (legs : List (StiffnessLeg K))
    (hn : 3 ≤ legs.length)
    (h0 : ∀ leg, legs[0]? = some leg → leg.step_state ≠ StepState.SWING)
    (a b c : Nat) (lega legb legc : StiffnessLeg K)
    (ha : legs[a]? = some lega) (hb : legs[b]? = some legb) (hc : legs[c]? = some legc)
    (hac : a = if c = 0 then legs.length - 1 else c - 1)
    (hbc : b = if c + 1 = legs.length then 0 else c + 1)
    (hsa : lega.step_state = StepState.SWING) (hsb : legb.step_state = StepState.SWING)
    (hsc : legc.step_state ≠ StepState.SWING) :
    ∃ legs1 leg1, updateStiffness params sc mbh legs = some legs1 ∧ legs1[c]? = some leg1
      ∧ leg1.virtual_stiffness
          = params.virtual_stiffness
            + params.virtual_stiffness * stepReference sc mbh lega
                * (params.load_stiffness_scaler - 1)
            + params.virtual_stiffness * stepReference sc mbh legb
                * (params.load_stiffness_scaler - 1) := by
  obtain ⟨legs1, hres, _, hget⟩ := updateStiffness_get params sc mbh legs hn h0
  refine ⟨legs1, _, hres, hget c legc hc, ?_⟩
  have hcn : c < legs.length := by
    by_contra hcon
    rw [List.getElem?_eq_none (by omega)] at hc
    exact Option.noConfusion hc
  have han : a < legs.length := by
    by_contra hcon
    rw [List.getElem?_eq_none (by omega)] at ha
    exact Option.noConfusion ha
  have hbn : b < legs.length := by
    by_contra hcon
    rw [List.getElem?_eq_none (by omega)] at hb
    exact Option.noConfusion hb
  have hb0 : b ≠ 0 := by
    intro h
    rw [h] at hb
    exact h0 legb hb hsb
  have hLa : visitedLoad params sc mbh legs legs.length a
      = loadStiffness params (stepReference sc mbh lega) := by
    unfold visitedLoad
    rw [if_pos han, swingingLoad_of_swing params sc mbh legs a lega ha hsa]
  have hLb : visitedLoad params sc mbh legs legs.length b
      = loadStiffness params (stepReference sc mbh legb) := by
    unfold visitedLoad
    rw [if_pos hbn, swingingLoad_of_swing params sc mbh legs b legb hb hsb]
  have hbc1 : b = c + 1 := by
    split_ifs at hbc
    · exact absurd hbc hb0
    · exact hbc
  show stiffnessAfter params sc mbh legs legs.length c legc = _
  unfold stiffnessAfter
  rw [if_neg (fun h => hsc h.1), ← hbc1, hLb]
  by_cases hc0 : c = 0
  · rw [if_pos hc0] at hac
    rw [if_neg (by omega), if_pos hc0, ← hac, hLa]
    unfold loadStiffness
    ring
  · rw [if_neg hc0] at hac
    rw [if_pos (by omega), if_neg hc0, ← hac, hLa]
    unfold loadStiffness
    ring

/-- C23, at the failing input: in scenario S5 with the legs 0 and 2 in SWING, the neighbours of
leg 1, `updateStiffness(walker)` does not return a stiffness for leg 1: the first neighbour of
leg 0 is looked up under the id `(0-1)%6 = -1`, which names no leg. With the legs 5 and 1 in
SWING, the neighbours of leg 0, it returns and leg 0 has `100 + 50 + 50 = 200`. -/
theorem stiffness_update_fails_next_to_leg_zero :
    (s5Legs [0, 2])[0]? = some ⟨0, StepState.SWING, ⟨0, 0, 1 / 2⟩, ⟨0, 0, 0⟩⟩
      ∧ (s5Legs [0, 2])[1]? = some ⟨0, StepState.STANCE, ⟨0, 0, 0⟩, ⟨0, 0, 0⟩⟩
      ∧ (s5Legs [0, 2])[2]? = some ⟨0, StepState.SWING, ⟨0, 0, 1 / 2⟩, ⟨0, 0, 0⟩⟩
      ∧ updateStiffness s5Parameters (1 / 2) 2 (s5Legs [0, 2]) = none
      ∧ ∃ legs1 leg1, updateStiffness s5Parameters (1 / 2) 2 (s5Legs [5, 1]) = some legs1
          ∧ legs1[0]? = some leg1 ∧ leg1.virtual_stiffness = 200 := by
  refine ⟨rfl, rfl, rfl, ?_, ?_⟩
  · exact updateStiffness_leg_zero_swinging s5Parameters (1 / 2) 2 (s5Legs [0, 2]) (by decide)
      ⟨0, StepState.SWING, ⟨0, 0, 1 / 2⟩, ⟨0, 0, 0⟩⟩ rfl rfl
  · obtain ⟨legs1, leg1, hres, hget, hval⟩ := doubly_adjacent_leg_stiffness s5Parameters
      (1 / 2) 2 (s5Legs [5, 1]) (by decide)
      (fun leg hl => s5Legs_stance [5, 1] 0 leg hl (by decide)) 5 1 0
      ⟨0, StepState.SWING, ⟨0, 0, 1 / 2⟩, ⟨0, 0, 0⟩⟩
      ⟨0, StepState.SWING, ⟨0, 0, 1 / 2⟩, ⟨0, 0, 0⟩⟩
      ⟨0, StepState.STANCE, ⟨0, 0, 0⟩, ⟨0, 0, 0⟩⟩ rfl rfl rfl rfl rfl rfl rfl (by decide)
    refine ⟨legs1, leg1, hres, hget, ?_⟩
    rw [hval, stepReference_eq]
    norm_num [abs_of_pos, s5Parameters]

/-- C24, at the failing input: with six legs the first neighbour id of leg 0 is
`(0-1)%6 = -1`, not 5, while its second neighbour id is 1 and the second neighbour id of leg 5
wraps to 0; the ids of the other legs are in range. The id `-1` names no leg, so that both
variants of `updateStiffness` fail on leg 0. -/
theorem previous_neighbour_of_leg_zero :
    (List.range 6).map (fun leg_id : Nat =>
        (adjacent_leg_1_id (leg_id : Int) 6, adjacent_leg_2_id (leg_id : Int) 6))
        = [(-1, 1), (0, 2), (1, 3), (2, 4), (3, 5), (4, 0)]
      ∧ getLegByIDNumber (s5Legs [0]) (adjacent_leg_1_id 0 6) = none
      ∧ updateStiffnessLeg s5Parameters (s5Legs [0]) 0 (1 / 2) = none
      ∧ updateStiffness s5Parameters (1 / 2) 2 (s5Legs [0]) = none := by
  refine ⟨by decide, rfl, rfl, ?_⟩
  exact updateStiffness_leg_zero_swinging s5Parameters (1 / 2) 2 (s5Legs [0]) (by decide)
    ⟨0, StepState.SWING, ⟨0, 0, 1 / 2⟩, ⟨0, 0, 0⟩⟩ rfl rfl

/-! ## C25: the check for overlapping footprints -/

/-- After the check for overlapping radii, each of the four distances it looks at is at least two
footprint radii. -/
theorem overlapCheck_gaps (ids : Nat → Nat → Vector3d ℝ) (R : ℝ) (s : Nat)
    (hs : s = 0 ∨ s = 1) :
    2 * overlapCheck ids R ≤ horizontalDistance (ids 1 s) (ids 0 s)
      ∧ 2 * overlapCheck ids R ≤ horizontalDistance (ids 1 s) (ids 2 s) := by
  have key : ∀ d : ℝ,
      min (min (min (min (10 ^ 10)
        (horizontalDistance (ids 1 0) (ids 0 0) - 2 * R))
        (horizontalDistance (ids 1 0) (ids 2 0) - 2 * R))
        (horizontalDistance (ids 1 1) (ids 0 1) - 2 * R))
        (horizontalDistance (ids 1 1) (ids 2 1) - 2 * R) ≤ d - 2 * R →
      2 * overlapCheck ids R ≤ d := by
    intro d hd
    unfold overlapCheck
    simp only []
    rw [show (0.5 : ℝ) = 1 / 2 by norm_num]
    generalize min (min (min (min (10 ^ 10)
        (horizontalDistance (ids 1 0) (ids 0 0) - 2 * R))
        (horizontalDistance (ids 1 0) (ids 2 0) - 2 * R))
        (horizontalDistance (ids 1 1) (ids 0 1) - 2 * R))
        (horizontalDistance (ids 1 1) (ids 2 1) - 2 * R) = m at hd ⊢
    split_ifs with hneg
    · linarith
    · linarith
  rcases hs with rfl | rfl
  · constructor
    · apply key
      exact le_trans (min_le_left _ _) (le_trans (min_le_left _ _)
        (le_trans (min_le_left _ _) (min_le_right _ _)))
    · apply key
      exact le_trans (min_le_left _ _) (le_trans (min_le_left _ _) (min_le_right _ _))
  · constructor
    · apply key
      exact le_trans (min_le_left _ _) (min_le_right _ _)
    · apply key
      exact min_le_right _ _

/-- The footprint radius that `init` leaves is the result of the check for overlapping radii on
the identity tip positions it leaves. -/
theorem initFootprint_radius (model : RobotModel) (params : InitParameters) (r : InitResult)
    (h : initFootprint model params = some r) :
    ∃ R, r.minFootprintRadius = overlapCheck r.identityTipPositions R := by
  unfold initFootprint at h
  simp only [] at h
  repeat' split at h
  all_goals first
    | exact Option.noConfusion h
    | (simp only [Option.some.injEq] at h
       subst h
       exact ⟨_, rfl⟩)

theorem atan2_zero_pos (x : ℝ) (hx : 0 < x) : atan2 0 x = 0 := by
  unfold atan2
  have : (⟨x, 0⟩ : ℂ) = ((x : ℝ) : ℂ) := rfl
  rw [this, Complex.arg_ofReal_of_nonneg hx.le]

/-- The footprint of each row of the narrow robot: radius `11/20`, horizontal range `8/5`. -/
theorem narrow_rowFootprint (l : Nat) :
    rowFootprint narrowModel narrowParameters (3 / 5) 2 l = some (11 / 20, 8 / 5) := by
  have hdrop : ¬ (Real.arcsin ((3 / 5 : ℝ) * 2 / 2) > -(-(Real.pi / 2))) := by
    rw [neg_neg, gt_iff_lt, not_lt]
    exact Real.arcsin_le_pi_div_two _
  have hrange : Real.sqrt ((2 : ℝ) ^ 2 - ((3 / 5 : ℝ) * 2) ^ 2) = 8 / 5 := by
    rw [show (2 : ℝ) ^ 2 - ((3 / 5 : ℝ) * 2) ^ 2 = (8 / 5) ^ 2 by norm_num]
    exact Real.sqrt_sq (by norm_num)
  have htan : Real.tan (0.5 * Real.pi - Real.pi / 4) = 1 := by
    rw [show (0.5 : ℝ) * Real.pi - Real.pi / 4 = Real.pi / 4 by norm_num; ring]
    exact Real.tan_pi_div_four
  have hmin : Real.sqrt ((13 / 10 : ℝ) ^ 2 - (max 0 ((3 / 5 : ℝ) - 0 * (1 / 10)) * 2) ^ 2)
      = 1 / 2 := by
    rw [show (13 / 10 : ℝ) ^ 2 - (max 0 ((3 / 5 : ℝ) - 0 * (1 / 10)) * 2) ^ 2 = (1 / 2) ^ 2 by
      rw [max_eq_right (by norm_num)]
      norm_num]
    exact Real.sqrt_sq (by norm_num)
  have hquad : (43 / 10 : ℝ) ≤ Real.sqrt ((2 * (8 / 5 * 1)) ^ 2 - 4 * 1 ^ 2 * -(8 / 5 * 1) ^ 2) := by
    apply Real.le_sqrt_of_sq_le
    norm_num
  have hsolve : (11 / 20 : ℝ) ≤ solveQuadratic (1 ^ 2) (2 * (8 / 5 * 1)) (-(8 / 5 * 1) ^ 2) := by
    unfold solveQuadratic
    rw [le_div_iff₀ (by norm_num)]
    linarith
  have hsolve2 : solveQuadratic (1 ^ 2) (2 * (8 / 5 * 1)) (-(8 / 5 * 1) ^ 2) ≤ 10 ^ 10 := by
    unfold solveQuadratic
    rw [div_le_iff₀ (by norm_num)]
    have : Real.sqrt ((2 * (8 / 5 * 1)) ^ 2 - 4 * 1 ^ 2 * -(8 / 5 * 1) ^ 2) ≤ 5 := by
      apply Real.sqrt_le_iff.mpr
      constructor <;> norm_num
    linarith
  have hclear : max 0 ((3 / 5 : ℝ) - 0 * (1 / 10)) * 2 < 13 / 10 := by
    rw [max_eq_right (by norm_num)]
    norm_num
  simp only [rowFootprint, narrowModel, narrowParameters, hdrop, if_false, hrange, htan]
  rw [min_eq_right hsolve2]
  have hpos : solveQuadratic (1 ^ 2) (2 * (8 / 5 * 1)) (-(8 / 5 * 1) ^ 2) > 0 := by
    linarith
  rw [if_pos hpos, if_pos hclear, hmin]
  have e : ((8 / 5 : ℝ) * 1 - 1 / 2) / 2 = 11 / 20 := by norm_num
  rw [e, min_eq_right hsolve, if_pos (by norm_num)]
  norm_num

/-- The identity tip positions of the narrow robot for a foot spread of `21/20` at body height
`(3/5)*2`: the feet are `1/10` to either side of the centre line. -/
theorem narrow_identityTipPosition (l s : Nat) :
    identityTipPosition narrowModel (0 + 8 / 5 - 11 / 20) (3 / 5) 2 l s
      = ⟨if s = 0 then -(1 / 10) else 1 / 10, 2 - 2 * (l : ℝ) + 21 / 20, -(6 / 5)⟩ := by
  unfold identityTipPosition narrowModel
  ext
  · simp only [vector3d_add_x, vector3d_smul_x, Real.cos_pi_div_two]
    split_ifs <;> norm_num
  · simp only [vector3d_add_y, vector3d_smul_y, Real.sin_pi_div_two]
    norm_num
  · simp only [vector3d_add_z, vector3d_smul_z]
    norm_num

/-- The footprint part of `init` accepts the narrow robot and computes `narrowResult`. -/
theorem narrow_initFootprint :
    initFootprint narrowModel narrowParameters = some narrowResult := by
  unfold narrowResult
  have hknee : max (0 : ℝ) 0 = 0 := max_self 0
  have hatan : atan2 ((1 : ℝ) * Real.sin 0) (1 + 1 * Real.cos 0) = 0 := by
    rw [Real.sin_zero, Real.cos_zero, mul_zero]
    exact atan2_zero_pos _ (by norm_num)
  have hdrop : min (-(-(Real.pi / 2))) (Real.pi / 2 - 0) = Real.pi / 2 := by
    rw [neg_neg, sub_zero, min_self]
  have hclamp : clamped (Real.pi / 2 - Real.pi / 2) 0 2 = 0 := by
    unfold clamped
    rw [sub_self, min_eq_left (by norm_num), max_self]
  have hheight : (1 : ℝ) * Real.sin (Real.pi / 2) + 1 * Real.sin (Real.pi / 2 + 0) = 2 := by
    rw [add_zero, Real.sin_pi_div_two]
    norm_num
  have hR : min (min (min ((10 : ℝ) ^ 10) (11 / 20 * 0.8)) (11 / 20 * 0.8)) (11 / 20 * 0.8)
      = 11 / 25 := by
    have a : (11 / 20 : ℝ) * 0.8 = 11 / 25 := by norm_num
    rw [a, min_eq_right (by norm_num : (11 / 25 : ℝ) ≤ 10 ^ 10), min_self, min_self]
  have hids : (fun l s : Nat => identityTipPosition narrowModel
      ((narrowModel.legs l 0).hipLength + (8 / 5 : ℝ) - 11 / 20) (3 / 5) 2 l s)
      = fun l s => ⟨if s = 0 then -(1 / 10) else 1 / 10, 2 - 2 * (l : ℝ) + 21 / 20, -(6 / 5)⟩ := by
    funext l s
    exact narrow_identityTipPosition l s
  unfold initFootprint
  simp only [show (narrowModel.legs 0 0).femurLength = 1 from rfl,
    show (narrowModel.legs 0 0).tibiaLength = 1 from rfl,
    show (narrowModel.legs 0 0).minLegLength = 13 / 10 from rfl,
    show narrowModel.minMaxKneeBend = (0, 2) from rfl,
    show narrowModel.minMaxHipLift = (-(Real.pi / 2), Real.pi / 2) from rfl,
    show narrowParameters.stepClearance = 1 / 10 from rfl,
    show narrowParameters.bodyClearance = 3 / 5 from rfl,
    show narrowParameters.stepCurvatureAllowance = 0 from rfl,
    hknee, hatan, hdrop, hclamp, hheight]
  have c1 : (1 / 10 : ℝ) ≥ 0 ∧ (1 / 10 : ℝ) < 1 := by norm_num
  have c2 : (1 / 10 : ℝ) * 2 ≤ 2 * 1 := by norm_num
  have c3 : ¬ ((3 / 5 : ℝ) = -1) := by norm_num
  have c4 : (3 / 5 : ℝ) ≥ 0 ∧ (3 / 5 : ℝ) < 1 := by norm_num
  simp only [if_neg c3]
  rw [if_pos c1, if_pos c2, if_pos c4, narrow_rowFootprint 0, narrow_rowFootprint 1,
    narrow_rowFootprint 2]
  have hstance := narrow_identityTipPosition 1 0
  simp only [ite_self, hids, hR]
  norm_num
  rw [show (narrowModel.legs 1 0).hipLength = 0 from rfl, hstance]
  norm_num

theorem horizontalDistance_comm (a b : Vector3d ℝ) :
    horizontalDistance a b = horizontalDistance b a := by
  unfold horizontalDistance Vector3d.norm
  simp only [vector3d_sub_x, vector3d_sub_y]
  congr 1
  ring

/-- C25 (amended): for every configuration that `init` accepts, the identity tip positions of
adjacent rows on the same side (rows 0 and 1, rows 1 and 2, for either side) have a horizontal
distance of at least `2*minFootprintRadius`. These are the four pairs that the check for
overlapping radii looks at. -/
theorem adjacent_rows_footprints_disjoint (model : RobotModel) (params : InitParameters)
    (r : InitResult) (h : initFootprint model params = some r) (s : Nat) (hs : s = 0 ∨ s = 1) :
    2 * r.minFootprintRadius
        ≤ horizontalDistance (r.identityTipPositions 0 s) (r.identityTipPositions 1 s)
      ∧ 2 * r.minFootprintRadius
        ≤ horizontalDistance (r.identityTipPositions 1 s) (r.identityTipPositions 0 s)
      ∧ 2 * r.minFootprintRadius
        ≤ horizontalDistance (r.identityTipPositions 1 s) (r.identityTipPositions 2 s)
      ∧ 2 * r.minFootprintRadius
        ≤ horizontalDistance (r.identityTipPositions 2 s) (r.identityTipPositions 1 s) := by
  obtain ⟨R, hR⟩ := initFootprint_radius model params r h
  have hg := overlapCheck_gaps r.identityTipPositions R s hs
  rw [← hR] at hg
  refine ⟨?_, hg.1, hg.2, ?_⟩
  · rw [horizontalDistance_comm]
    exact hg.1
  · rw [horizontalDistance_comm]
    exact hg.2

theorem horizontalDistance_same_x (x y1 y2 z1 z2 : ℝ) (h : (y1 - y2) ^ 2 = 4) :
    horizontalDistance ⟨x, y1, z1⟩ ⟨x, y2, z2⟩ = 2 := by
  unfold horizontalDistance Vector3d.norm
  simp only [vector3d_sub_x, vector3d_sub_y]
  rw [show (x - x) ^ 2 + (y1 - y2) ^ 2 + (0 : ℝ) ^ 2 = 2 ^ 2 by rw [h]; norm_num]
  exact Real.sqrt_sq (by norm_num)

theorem horizontalDistance_same_y (x1 x2 y z1 z2 : ℝ) :
    horizontalDistance ⟨x1, y, z1⟩ ⟨x2, y, z2⟩ = |x1 - x2| := by
  unfold horizontalDistance Vector3d.norm
  simp only [vector3d_sub_x, vector3d_sub_y]
  rw [show (x1 - x2) ^ 2 + (y - y) ^ 2 + (0 : ℝ) ^ 2 = (x1 - x2) ^ 2 by ring]
  exact Real.sqrt_sq_eq_abs _

/-- The identity tip position of leg `[l][s]` of the narrow robot. -/
theorem narrowResult_tip (l s : Nat) :
    narrowResult.identityTipPositions l s
      = ⟨if s = 0 then -(1 / 10) else 1 / 10, 2 - 2 * (l : ℝ) + 21 / 20, -(6 / 5)⟩ := rfl

/-- The check for overlapping radii leaves the radius `11/25` of the narrow robot as it is: its
rows are two units apart. -/
theorem narrowResult_radius : narrowResult.minFootprintRadius = 11 / 25 := by
  show overlapCheck narrowResult.identityTipPositions (11 / 25) = 11 / 25
  unfold overlapCheck
  simp only [narrowResult_tip]
  rw [horizontalDistance_same_x _ (2 - 2 * ((1 : Nat) : ℝ) + 21 / 20)
      (2 - 2 * ((0 : Nat) : ℝ) + 21 / 20) _ _ (by norm_num),
    horizontalDistance_same_x _ (2 - 2 * ((1 : Nat) : ℝ) + 21 / 20)
      (2 - 2 * ((2 : Nat) : ℝ) + 21 / 20) _ _ (by norm_num),
    horizontalDistance_same_x _ (2 - 2 * ((1 : Nat) : ℝ) + 21 / 20)
      (2 - 2 * ((0 : Nat) : ℝ) + 21 / 20) _ _ (by norm_num),
    horizontalDistance_same_x _ (2 - 2 * ((1 : Nat) : ℝ) + 21 / 20)
      (2 - 2 * ((2 : Nat) : ℝ) + 21 / 20) _ _ (by norm_num)]
  norm_num

/-- Witness for C25 (amended): the narrow robot, side 0. -/
theorem adjacent_rows_footprints_disjoint_witness :
    2 * narrowResult.minFootprintRadius
        ≤ horizontalDistance (narrowResult.identityTipPositions 0 0)
            (narrowResult.identityTipPositions 1 0)
      ∧ 2 * narrowResult.minFootprintRadius
        ≤ horizontalDistance (narrowResult.identityTipPositions 1 0)
            (narrowResult.identityTipPositions 0 0)
      ∧ 2 * narrowResult.minFootprintRadius
        ≤ horizontalDistance (narrowResult.identityTipPositions 1 0)
            (narrowResult.identityTipPositions 2 0)
      ∧ 2 * narrowResult.minFootprintRadius
        ≤ horizontalDistance (narrowResult.identityTipPositions 2 0)
            (narrowResult.identityTipPositions 1 0) :=
  adjacent_rows_footprints_disjoint narrowModel narrowParameters narrowResult
    narrow_initFootprint 0 (Or.inl rfl)

/-- C25 as stated fails: `init` accepts the narrow robot (`setGaitParams` accepts the tripod
gait, and no `ASSERT` of the footprint part fails), the footprint radius is `11/25`, and the two
feet of row 0, on opposite sides, are `1/5` apart, less than `2*(11/25)`. -/
theorem opposite_feet_closer_than_two_radii :
    initFootprint narrowModel narrowParameters = some narrowResult
      ∧ setGaitParams tripodParameters (1 / 8) = some ⟨⟨8, 2, 2, 6, 6⟩, 1, [0, 4, 4, 0, 0, 4]⟩
      ∧ narrowResult.minFootprintRadius = 11 / 25
      ∧ horizontalDistance (narrowResult.identityTipPositions 0 0)
          (narrowResult.identityTipPositions 0 1) = 1 / 5
      ∧ horizontalDistance (narrowResult.identityTipPositions 0 0)
          (narrowResult.identityTipPositions 0 1) < 2 * narrowResult.minFootprintRadius := by
  have hdist : horizontalDistance (narrowResult.identityTipPositions 0 0)
      (narrowResult.identityTipPositions 0 1) = 1 / 5 := by
    rw [narrowResult_tip, narrowResult_tip, if_pos rfl, if_neg (by decide),
      horizontalDistance_same_y]
    norm_num [abs_of_neg]
  refine ⟨narrow_initFootprint, tripod_setGaitParams, narrowResult_radius, hdist, ?_⟩
  rw [hdist, narrowResult_radius]
  norm_num

/-! ## C21: positivity of the energy loss of a Runge-Kutta step -/

/-- The coefficient of `stiffness*x0^2` in the energy loss of a step is positive on the box. The proof writes the polynomial in the
Bernstein basis of the box, where all its coefficients are non-negative. -/
theorem rk_loss_first_pos (p q : ℝ) (hp : 0 < p) (hp1 : p ≤ 1) (hq : 0 < q) (hq1 : q ≤ 1) :
    0 < 1 - rkAlpha p q ^ 2 - q * rkBeta p q ^ 2 := by
  obtain ⟨s, hs⟩ : ∃ s, s = 1 - p := ⟨_, rfl⟩
  obtain ⟨t, ht⟩ : ∃ t, t = 1 - q := ⟨_, rfl⟩
  have hs0 : 0 ≤ s := by rw [hs]; linarith
  have ht0 : 0 ≤ t := by rw [ht]; linarith
  have hid : 1 - rkAlpha p q ^ 2 - q * rkBeta p q ^ 2
      = (151 / 576) * (p ^ 6 * q ^ 4)
        + ((1 / 72) * (s ^ 6 * q ^ 3 * t) + (7 / 576) * (s ^ 6 * q ^ 4)
            + (2 / 3) * (p * s ^ 5 * q * t ^ 3) + (11 / 6) * (p * s ^ 5 * q ^ 2 * t ^ 2)
            + (127 / 72) * (p * s ^ 5 * q ^ 3 * t) + (169 / 288) * (p * s ^ 5 * q ^ 4)
            + (17 / 6) * (p ^ 2 * s ^ 4 * q * t ^ 3)
            + (557 / 72) * (p ^ 2 * s ^ 4 * q ^ 2 * t ^ 2)
            + (2087 / 288) * (p ^ 2 * s ^ 4 * q ^ 3 * t) + (445 / 192) * (p ^ 2 * s ^ 4 * q ^ 4)
            + (59 / 12) * (p ^ 3 * s ^ 3 * q * t ^ 3)
            + (40 / 3) * (p ^ 3 * s ^ 3 * q ^ 2 * t ^ 2)
            + (887 / 72) * (p ^ 3 * s ^ 3 * q ^ 3 * t) + (557 / 144) * (p ^ 3 * s ^ 3 * q ^ 4)
            + (313 / 72) * (p ^ 4 * s ^ 2 * q * t ^ 3)
            + (2249 / 192) * (p ^ 4 * s ^ 2 * q ^ 2 * t ^ 2)
            + (3085 / 288) * (p ^ 4 * s ^ 2 * q ^ 3 * t) + (239 / 72) * (p ^ 4 * s ^ 2 * q ^ 4)
            + (47 / 24) * (p ^ 5 * s * q * t ^ 3) + (1511 / 288) * (p ^ 5 * s * q ^ 2 * t ^ 2)
            + (685 / 144) * (p ^ 5 * s * q ^ 3 * t) + (35 / 24) * (p ^ 5 * s * q ^ 4)
            + (23 / 64) * (p ^ 6 * q * t ^ 3) + (23 / 24) * (p ^ 6 * q ^ 2 * t ^ 2)
            + (497 / 576) * (p ^ 6 * q ^ 3 * t)) := by
    rw [hs, ht]
    unfold rkAlpha rkBeta
    ring
  rw [hid]
  have htop : 0 < (151 / 576) * (p ^ 6 * q ^ 4) := by positivity
  have hrest : 0 ≤ (1 / 72) * (s ^ 6 * q ^ 3 * t) + (7 / 576) * (s ^ 6 * q ^ 4)
        + (2 / 3) * (p * s ^ 5 * q * t ^ 3) + (11 / 6) * (p * s ^ 5 * q ^ 2 * t ^ 2)
        + (127 / 72) * (p * s ^ 5 * q ^ 3 * t) + (169 / 288) * (p * s ^ 5 * q ^ 4)
        + (17 / 6) * (p ^ 2 * s ^ 4 * q * t ^ 3) + (557 / 72) * (p ^ 2 * s ^ 4 * q ^ 2 * t ^ 2)
        + (2087 / 288) * (p ^ 2 * s ^ 4 * q ^ 3 * t) + (445 / 192) * (p ^ 2 * s ^ 4 * q ^ 4)
        + (59 / 12) * (p ^ 3 * s ^ 3 * q * t ^ 3) + (40 / 3) * (p ^ 3 * s ^ 3 * q ^ 2 * t ^ 2)
        + (887 / 72) * (p ^ 3 * s ^ 3 * q ^ 3 * t) + (557 / 144) * (p ^ 3 * s ^ 3 * q ^ 4)
        + (313 / 72) * (p ^ 4 * s ^ 2 * q * t ^ 3)
        + (2249 / 192) * (p ^ 4 * s ^ 2 * q ^ 2 * t ^ 2)
        + (3085 / 288) * (p ^ 4 * s ^ 2 * q ^ 3 * t) + (239 / 72) * (p ^ 4 * s ^ 2 * q ^ 4)
        + (47 / 24) * (p ^ 5 * s * q * t ^ 3) + (1511 / 288) * (p ^ 5 * s * q ^ 2 * t ^ 2)
        + (685 / 144) * (p ^ 5 * s * q ^ 3 * t) + (35 / 24) * (p ^ 5 * s * q ^ 4)
        + (23 / 64) * (p ^ 6 * q * t ^ 3) + (23 / 24) * (p ^ 6 * q ^ 2 * t ^ 2)
        + (497 / 576) * (p ^ 6 * q ^ 3 * t) := by
    positivity
  exact add_pos_of_pos_of_nonneg htop hrest

set_option maxHeartbeats 1600000 in
/-- The coefficient of `mass*x1^2` in the energy loss of a step is positive on the box. The proof writes the polynomial in the
Bernstein basis of the box, where all its coefficients are non-negative. -/
theorem rk_loss_second_pos (p q : ℝ) (hp : 0 < p) (hp1 : p ≤ 1) (hq : 0 < q) (hq1 : q ≤ 1) :
    0 < 1 - rkAlpha p q ^ 2 + 2 * rkAlpha p q * rkBeta p q * p
        - (p ^ 2 + q) * rkBeta p q ^ 2 := by
  obtain ⟨s, hs⟩ : ∃ s, s = 1 - p := ⟨_, rfl⟩
  obtain ⟨t, ht⟩ : ∃ t, t = 1 - q := ⟨_, rfl⟩
  have hs0 : 0 ≤ s := by rw [hs]; linarith
  have ht0 : 0 ≤ t := by rw [ht]; linarith
  have hid : 1 - rkAlpha p q ^ 2 + 2 * rkAlpha p q * rkBeta p q * p
        - (p ^ 2 + q) * rkBeta p q ^ 2
      = (199 / 288) * (p ^ 8 * q ^ 4)
        + ((1 / 72) * (s ^ 8 * q ^ 3 * t) + (7 / 576) * (s ^ 8 * q ^ 4) + 2 * (p * s ^ 7 * t ^ 4)
            + (22 / 3) * (p * s ^ 7 * q * t ^ 3) + (121 / 12) * (p * s ^ 7 * q ^ 2 * t ^ 2)
            + (113 / 18) * (p * s ^ 7 * q ^ 3 * t) + (109 / 72) * (p * s ^ 7 * q ^ 4)
            + 12 * (p ^ 2 * s ^ 6 * t ^ 4) + (265 / 6) * (p ^ 2 * s ^ 6 * q * t ^ 3)
            + (1097 / 18) * (p ^ 2 * s ^ 6 * q ^ 2 * t ^ 2)
            + (1209 / 32) * (p ^ 2 * s ^ 6 * q ^ 3 * t) + (2579 / 288) * (p ^ 2 * s ^ 6 * q ^ 4)
            + (94 / 3) * (p ^ 3 * s ^ 5 * t ^ 4) + (695 / 6) * (p ^ 3 * s ^ 5 * q * t ^ 3)
            + (5777 / 36) * (p ^ 3 * s ^ 5 * q ^ 2 * t ^ 2)
            + (14339 / 144) * (p ^ 3 * s ^ 5 * q ^ 3 * t)
            + (3385 / 144) * (p ^ 3 * s ^ 5 * q ^ 4) + 46 * (p ^ 4 * s ^ 4 * t ^ 4)
            + (1367 / 8) * (p ^ 4 * s ^ 4 * q * t ^ 3)
            + (45643 / 192) * (p ^ 4 * s ^ 4 * q ^ 2 * t ^ 2)
            + (10645 / 72) * (p ^ 4 * s ^ 4 * q ^ 3 * t)
            + (20089 / 576) * (p ^ 4 * s ^ 4 * q ^ 4) + (491 / 12) * (p ^ 5 * s ^ 3 * t ^ 4)
            + (1375 / 9) * (p ^ 5 * s ^ 3 * q * t ^ 3)
            + (10247 / 48) * (p ^ 5 * s ^ 3 * q ^ 2 * t ^ 2)
            + (4793 / 36) * (p ^ 5 * s ^ 3 * q ^ 3 * t) + (4525 / 144) * (p ^ 5 * s ^ 3 * q ^ 4)
            + (1585 / 72) * (p ^ 6 * s ^ 2 * t ^ 4) + (47605 / 576) * (p ^ 6 * s ^ 2 * q * t ^ 3)
            + (66821 / 576) * (p ^ 6 * s ^ 2 * q ^ 2 * t ^ 2)
            + (41801 / 576) * (p ^ 6 * s ^ 2 * q ^ 3 * t)
            + (9877 / 576) * (p ^ 6 * s ^ 2 * q ^ 4) + (53 / 8) * (p ^ 7 * s * t ^ 4)
            + (7205 / 288) * (p ^ 7 * s * q * t ^ 3) + (1129 / 32) * (p ^ 7 * s * q ^ 2 * t ^ 2)
            + (6377 / 288) * (p ^ 7 * s * q ^ 3 * t) + (503 / 96) * (p ^ 7 * s * q ^ 4)
            + (55 / 64) * (p ^ 8 * t ^ 4) + (209 / 64) * (p ^ 8 * q * t ^ 3)
            + (1333 / 288) * (p ^ 8 * q ^ 2 * t ^ 2) + (1679 / 576) * (p ^ 8 * q ^ 3 * t)) := by
    rw [hs, ht]
    unfold rkAlpha rkBeta
    ring
  rw [hid]
  have htop : 0 < (199 / 288) * (p ^ 8 * q ^ 4) := by positivity
  have hrest : 0 ≤ (1 / 72) * (s ^ 8 * q ^ 3 * t) + (7 / 576) * (s ^ 8 * q ^ 4) + 2 * (p * s ^ 7 * t ^ 4)
        + (22 / 3) * (p * s ^ 7 * q * t ^ 3) + (121 / 12) * (p * s ^ 7 * q ^ 2 * t ^ 2)
        + (113 / 18) * (p * s ^ 7 * q ^ 3 * t) + (109 / 72) * (p * s ^ 7 * q ^ 4)
        + 12 * (p ^ 2 * s ^ 6 * t ^ 4) + (265 / 6) * (p ^ 2 * s ^ 6 * q * t ^ 3)
        + (1097 / 18) * (p ^ 2 * s ^ 6 * q ^ 2 * t ^ 2)
        + (1209 / 32) * (p ^ 2 * s ^ 6 * q ^ 3 * t) + (2579 / 288) * (p ^ 2 * s ^ 6 * q ^ 4)
        + (94 / 3) * (p ^ 3 * s ^ 5 * t ^ 4) + (695 / 6) * (p ^ 3 * s ^ 5 * q * t ^ 3)
        + (5777 / 36) * (p ^ 3 * s ^ 5 * q ^ 2 * t ^ 2)
        + (14339 / 144) * (p ^ 3 * s ^ 5 * q ^ 3 * t) + (3385 / 144) * (p ^ 3 * s ^ 5 * q ^ 4)
        + 46 * (p ^ 4 * s ^ 4 * t ^ 4) + (1367 / 8) * (p ^ 4 * s ^ 4 * q * t ^ 3)
        + (45643 / 192) * (p ^ 4 * s ^ 4 * q ^ 2 * t ^ 2)
        + (10645 / 72) * (p ^ 4 * s ^ 4 * q ^ 3 * t) + (20089 / 576) * (p ^ 4 * s ^ 4 * q ^ 4)
        + (491 / 12) * (p ^ 5 * s ^ 3 * t ^ 4) + (1375 / 9) * (p ^ 5 * s ^ 3 * q * t ^ 3)
        + (10247 / 48) * (p ^ 5 * s ^ 3 * q ^ 2 * t ^ 2)
        + (4793 / 36) * (p ^ 5 * s ^ 3 * q ^ 3 * t) + (4525 / 144) * (p ^ 5 * s ^ 3 * q ^ 4)
        + (1585 / 72) * (p ^ 6 * s ^ 2 * t ^ 4) + (47605 / 576) * (p ^ 6 * s ^ 2 * q * t ^ 3)
        + (66821 / 576) * (p ^ 6 * s ^ 2 * q ^ 2 * t ^ 2)
        + (41801 / 576) * (p ^ 6 * s ^ 2 * q ^ 3 * t) + (9877 / 576) * (p ^ 6 * s ^ 2 * q ^ 4)
        + (53 / 8) * (p ^ 7 * s * t ^ 4) + (7205 / 288) * (p ^ 7 * s * q * t ^ 3)
        + (1129 / 32) * (p ^ 7 * s * q ^ 2 * t ^ 2) + (6377 / 288) * (p ^ 7 * s * q ^ 3 * t)
        + (503 / 96) * (p ^ 7 * s * q ^ 4) + (55 / 64) * (p ^ 8 * t ^ 4)
        + (209 / 64) * (p ^ 8 * q * t ^ 3) + (1333 / 288) * (p ^ 8 * q ^ 2 * t ^ 2)
        + (1679 / 576) * (p ^ 8 * q ^ 3 * t) := by
    positivity
  exact add_pos_of_pos_of_nonneg htop hrest

set_option maxHeartbeats 1600000 in
/-- The determinant of the energy loss of a step is positive on the box. The proof writes the polynomial in the
Bernstein basis of the box, where all its coefficients are non-negative. -/
theorem rk_loss_det_pos (p q : ℝ) (hp : 0 < p) (hp1 : p ≤ 1) (hq : 0 < q) (hq1 : q ≤ 1) :
    0 < (1 - rkAlpha p q ^ 2 - q * rkBeta p q ^ 2)
        * (1 - rkAlpha p q ^ 2 + 2 * rkAlpha p q * rkBeta p q * p
            - (p ^ 2 + q) * rkBeta p q ^ 2)
        - q * p ^ 2 * rkBeta p q ^ 4 := by
  obtain ⟨s, hs⟩ : ∃ s, s = 1 - p := ⟨_, rfl⟩
  obtain ⟨t, ht⟩ : ∃ t, t = 1 - q := ⟨_, rfl⟩
  have hs0 : 0 ≤ s := by rw [hs]; linarith
  have ht0 : 0 ≤ t := by rw [ht]; linarith
  have hid : (1 - rkAlpha p q ^ 2 - q * rkBeta p q ^ 2)
        * (1 - rkAlpha p q ^ 2 + 2 * rkAlpha p q * rkBeta p q * p
            - (p ^ 2 + q) * rkBeta p q ^ 2)
        - q * p ^ 2 * rkBeta p q ^ 4
      = (31537 / 331776) * (p ^ 7 * q ^ 8)
        + ((1 / 5184) * (s ^ 7 * q ^ 6 * t ^ 2) + (7 / 20736) * (s ^ 7 * q ^ 7 * t)
            + (49 / 331776) * (s ^ 7 * q ^ 8) + (1 / 36) * (p * s ^ 6 * q ^ 3 * t ^ 5)
            + (13 / 96) * (p * s ^ 6 * q ^ 4 * t ^ 4) + (227 / 864) * (p * s ^ 6 * q ^ 5 * t ^ 3)
            + (5291 / 20736) * (p * s ^ 6 * q ^ 6 * t ^ 2)
            + (5165 / 41472) * (p * s ^ 6 * q ^ 7 * t) + (301 / 12288) * (p * s ^ 6 * q ^ 8)
            + (1 / 3) * (p ^ 2 * s ^ 5 * q * t ^ 7) + (20 / 9) * (p ^ 2 * s ^ 5 * q ^ 2 * t ^ 6)
            + (13 / 2) * (p ^ 2 * s ^ 5 * q ^ 3 * t ^ 5)
            + (3115 / 288) * (p ^ 2 * s ^ 5 * q ^ 4 * t ^ 4)
            + (9533 / 864) * (p ^ 2 * s ^ 5 * q ^ 5 * t ^ 3)
            + (285233 / 41472) * (p ^ 2 * s ^ 5 * q ^ 6 * t ^ 2)
            + (50129 / 20736) * (p ^ 2 * s ^ 5 * q ^ 7 * t)
            + (122269 / 331776) * (p ^ 2 * s ^ 5 * q ^ 8) + (4 / 3) * (p ^ 3 * s ^ 4 * q * t ^ 7)
            + (317 / 36) * (p ^ 3 * s ^ 4 * q ^ 2 * t ^ 6)
            + (10907 / 432) * (p ^ 3 * s ^ 4 * q ^ 3 * t ^ 5)
            + (17621 / 432) * (p ^ 3 * s ^ 4 * q ^ 4 * t ^ 4)
            + (277181 / 6912) * (p ^ 3 * s ^ 4 * q ^ 5 * t ^ 3)
            + (994253 / 41472) * (p ^ 3 * s ^ 4 * q ^ 6 * t ^ 2)
            + (111433 / 13824) * (p ^ 3 * s ^ 4 * q ^ 7 * t)
            + (389635 / 331776) * (p ^ 3 * s ^ 4 * q ^ 8)
            + (20 / 9) * (p ^ 4 * s ^ 3 * q * t ^ 7)
            + (131 / 9) * (p ^ 4 * s ^ 3 * q ^ 2 * t ^ 6)
            + (17803 / 432) * (p ^ 4 * s ^ 3 * q ^ 3 * t ^ 5)
            + (56569 / 864) * (p ^ 4 * s ^ 3 * q ^ 4 * t ^ 4)
            + (109009 / 1728) * (p ^ 4 * s ^ 3 * q ^ 5 * t ^ 3)
            + (764453 / 20736) * (p ^ 4 * s ^ 3 * q ^ 6 * t ^ 2)
            + (250825 / 20736) * (p ^ 4 * s ^ 3 * q ^ 7 * t)
            + (570019 / 331776) * (p ^ 4 * s ^ 3 * q ^ 8)
            + (23 / 12) * (p ^ 5 * s ^ 2 * q * t ^ 7)
            + (399 / 32) * (p ^ 5 * s ^ 2 * q ^ 2 * t ^ 6)
            + (15101 / 432) * (p ^ 5 * s ^ 2 * q ^ 3 * t ^ 5)
            + (47375 / 864) * (p ^ 5 * s ^ 2 * q ^ 4 * t ^ 4)
            + (19979 / 384) * (p ^ 5 * s ^ 2 * q ^ 5 * t ^ 3)
            + (154909 / 5184) * (p ^ 5 * s ^ 2 * q ^ 6 * t ^ 2)
            + (399019 / 41472) * (p ^ 5 * s ^ 2 * q ^ 7 * t)
            + (444493 / 331776) * (p ^ 5 * s ^ 2 * q ^ 8) + (41 / 48) * (p ^ 6 * s * q * t ^ 7)
            + (177 / 32) * (p ^ 6 * s * q ^ 2 * t ^ 6) + (739 / 48) * (p ^ 6 * s * q ^ 3 * t ^ 5)
            + (20663 / 864) * (p ^ 6 * s * q ^ 4 * t ^ 4)
            + (12913 / 576) * (p ^ 6 * s * q ^ 5 * t ^ 3)
            + (175471 / 13824) * (p ^ 6 * s * q ^ 6 * t ^ 2)
            + (83399 / 20736) * (p ^ 6 * s * q ^ 7 * t) + (60869 / 110592) * (p ^ 6 * s * q ^ 8)
            + (5 / 32) * (p ^ 7 * q * t ^ 7) + (97 / 96) * (p ^ 7 * q ^ 2 * t ^ 6)
            + (269 / 96) * (p ^ 7 * q ^ 3 * t ^ 5) + (623 / 144) * (p ^ 7 * q ^ 4 * t ^ 4)
            + (27797 / 6912) * (p ^ 7 * q ^ 5 * t ^ 3) + (10381 / 4608) * (p ^ 7 * q ^ 6 * t ^ 2)
            + (9743 / 13824) * (p ^ 7 * q ^ 7 * t)) := by
    rw [hs, ht]
    unfold rkAlpha rkBeta
    ring
  rw [hid]
  have htop : 0 < (31537 / 331776) * (p ^ 7 * q ^ 8) := by positivity
  have hrest : 0 ≤ (1 / 5184) * (s ^ 7 * q ^ 6 * t ^ 2) + (7 / 20736) * (s ^ 7 * q ^ 7 * t)
        + (49 / 331776) * (s ^ 7 * q ^ 8) + (1 / 36) * (p * s ^ 6 * q ^ 3 * t ^ 5)
        + (13 / 96) * (p * s ^ 6 * q ^ 4 * t ^ 4) + (227 / 864) * (p * s ^ 6 * q ^ 5 * t ^ 3)
        + (5291 / 20736) * (p * s ^ 6 * q ^ 6 * t ^ 2) + (5165 / 41472) * (p * s ^ 6 * q ^ 7 * t)
        + (301 / 12288) * (p * s ^ 6 * q ^ 8) + (1 / 3) * (p ^ 2 * s ^ 5 * q * t ^ 7)
        + (20 / 9) * (p ^ 2 * s ^ 5 * q ^ 2 * t ^ 6) + (13 / 2) * (p ^ 2 * s ^ 5 * q ^ 3 * t ^ 5)
        + (3115 / 288) * (p ^ 2 * s ^ 5 * q ^ 4 * t ^ 4)
        + (9533 / 864) * (p ^ 2 * s ^ 5 * q ^ 5 * t ^ 3)
        + (285233 / 41472) * (p ^ 2 * s ^ 5 * q ^ 6 * t ^ 2)
        + (50129 / 20736) * (p ^ 2 * s ^ 5 * q ^ 7 * t)
        + (122269 / 331776) * (p ^ 2 * s ^ 5 * q ^ 8) + (4 / 3) * (p ^ 3 * s ^ 4 * q * t ^ 7)
        + (317 / 36) * (p ^ 3 * s ^ 4 * q ^ 2 * t ^ 6)
        + (10907 / 432) * (p ^ 3 * s ^ 4 * q ^ 3 * t ^ 5)
        + (17621 / 432) * (p ^ 3 * s ^ 4 * q ^ 4 * t ^ 4)
        + (277181 / 6912) * (p ^ 3 * s ^ 4 * q ^ 5 * t ^ 3)
        + (994253 / 41472) * (p ^ 3 * s ^ 4 * q ^ 6 * t ^ 2)
        + (111433 / 13824) * (p ^ 3 * s ^ 4 * q ^ 7 * t)
        + (389635 / 331776) * (p ^ 3 * s ^ 4 * q ^ 8) + (20 / 9) * (p ^ 4 * s ^ 3 * q * t ^ 7)
        + (131 / 9) * (p ^ 4 * s ^ 3 * q ^ 2 * t ^ 6)
        + (17803 / 432) * (p ^ 4 * s ^ 3 * q ^ 3 * t ^ 5)
        + (56569 / 864) * (p ^ 4 * s ^ 3 * q ^ 4 * t ^ 4)
        + (109009 / 1728) * (p ^ 4 * s ^ 3 * q ^ 5 * t ^ 3)
        + (764453 / 20736) * (p ^ 4 * s ^ 3 * q ^ 6 * t ^ 2)
        + (250825 / 20736) * (p ^ 4 * s ^ 3 * q ^ 7 * t)
        + (570019 / 331776) * (p ^ 4 * s ^ 3 * q ^ 8) + (23 / 12) * (p ^ 5 * s ^ 2 * q * t ^ 7)
        + (399 / 32) * (p ^ 5 * s ^ 2 * q ^ 2 * t ^ 6)
        + (15101 / 432) * (p ^ 5 * s ^ 2 * q ^ 3 * t ^ 5)
        + (47375 / 864) * (p ^ 5 * s ^ 2 * q ^ 4 * t ^ 4)
        + (19979 / 384) * (p ^ 5 * s ^ 2 * q ^ 5 * t ^ 3)
        + (154909 / 5184) * (p ^ 5 * s ^ 2 * q ^ 6 * t ^ 2)
        + (399019 / 41472) * (p ^ 5 * s ^ 2 * q ^ 7 * t)
        + (444493 / 331776) * (p ^ 5 * s ^ 2 * q ^ 8) + (41 / 48) * (p ^ 6 * s * q * t ^ 7)
        + (177 / 32) * (p ^ 6 * s * q ^ 2 * t ^ 6) + (739 / 48) * (p ^ 6 * s * q ^ 3 * t ^ 5)
        + (20663 / 864) * (p ^ 6 * s * q ^ 4 * t ^ 4)
        + (12913 / 576) * (p ^ 6 * s * q ^ 5 * t ^ 3)
        + (175471 / 13824) * (p ^ 6 * s * q ^ 6 * t ^ 2)
        + (83399 / 20736) * (p ^ 6 * s * q ^ 7 * t) + (60869 / 110592) * (p ^ 6 * s * q ^ 8)
        + (5 / 32) * (p ^ 7 * q * t ^ 7) + (97 / 96) * (p ^ 7 * q ^ 2 * t ^ 6)
        + (269 / 96) * (p ^ 7 * q ^ 3 * t ^ 5) + (623 / 144) * (p ^ 7 * q ^ 4 * t ^ 4)
        + (27797 / 6912) * (p ^ 7 * q ^ 5 * t ^ 3) + (10381 / 4608) * (p ^ 7 * q ^ 6 * t ^ 2)
        + (9743 / 13824) * (p ^ 7 * q ^ 7 * t) := by
    positivity
  exact add_pos_of_pos_of_nonneg htop hrest

/-- A Runge-Kutta step of the unforced impedance system is linear in the state, with the
coefficients `rkAlpha` and `rkBeta` of `p = h*damping/mass` and `q = h^2*stiffness/mass`. -/
theorem rungeKutta4_unforced (mass stiffness damping force_gain h : ℝ) (x : ℝ × ℝ) :
    rungeKutta4 (impedanceSystem 0 mass stiffness damping force_gain) h x
      = (rkAlpha (h * damping / mass) (h ^ 2 * stiffness / mass) * x.1
          + rkBeta (h * damping / mass) (h ^ 2 * stiffness / mass) * h * x.2,
        (rkAlpha (h * damping / mass) (h ^ 2 * stiffness / mass)
            - rkBeta (h * damping / mass) (h ^ 2 * stiffness / mass) * (h * damping / mass)) * x.2
          - rkBeta (h * damping / mass) (h ^ 2 * stiffness / mass) * h * (stiffness / mass) * x.1)
    := by
  unfold rungeKutta4 impedanceSystem rkAlpha rkBeta
  ext
  · simp only []
    ring
  · simp only []
    ring

/-- A quadratic form with non-negative diagonal and non-negative determinant is non-negative. -/
theorem quadratic_form_nonneg (A B C x y : ℝ) (hA : 0 ≤ A) (hC : 0 ≤ C) (h : B ^ 2 ≤ A * C) :
    0 ≤ A * x ^ 2 - 2 * B * x * y + C * y ^ 2 := by
  rcases hA.eq_or_lt with hA0 | hApos
  · have hB : B = 0 := by
      rw [← hA0, zero_mul] at h
      exact pow_eq_zero_iff (two_ne_zero) |>.mp (le_antisymm h (sq_nonneg B))
    rw [← hA0, hB]
    have := mul_nonneg hC (sq_nonneg y)
    linarith
  · have key : A * (A * x ^ 2 - 2 * B * x * y + C * y ^ 2)
        = (A * x - B * y) ^ 2 + (A * C - B ^ 2) * y ^ 2 := by ring
    have hpos : 0 ≤ A * (A * x ^ 2 - 2 * B * x * y + C * y ^ 2) := by
      rw [key]
      have h1 := sq_nonneg (A * x - B * y)
      have h2 := mul_nonneg (sub_nonneg.mpr h) (sq_nonneg y)
      linarith
    exact nonneg_of_mul_nonneg_right hpos hApos

/-- On the box `0 < p <= 1`, `0 < q <= 1` the energy loss of a step is bounded below: there is a
`delta` in `(0, 1]` such that the loss remains a non-negative form when `delta` is taken from its
diagonal. -/
theorem rk_loss_margin (p q : ℝ) (hp : 0 < p) (hp1 : p ≤ 1) (hq : 0 < q) (hq1 : q ≤ 1) :
    ∃ delta : ℝ, 0 < delta ∧ delta ≤ 1
      ∧ delta ≤ 1 - rkAlpha p q ^ 2 - q * rkBeta p q ^ 2
      ∧ delta ≤ 1 - rkAlpha p q ^ 2 + 2 * rkAlpha p q * rkBeta p q * p
          - (p ^ 2 + q) * rkBeta p q ^ 2
      ∧ q * p ^ 2 * rkBeta p q ^ 4
          ≤ (1 - rkAlpha p q ^ 2 - q * rkBeta p q ^ 2 - delta)
            * (1 - rkAlpha p q ^ 2 + 2 * rkAlpha p q * rkBeta p q * p
                - (p ^ 2 + q) * rkBeta p q ^ 2 - delta) := by
  have h1 := rk_loss_first_pos p q hp hp1 hq hq1
  have h2 := rk_loss_second_pos p q hp hp1 hq hq1
  have h3 := rk_loss_det_pos p q hp hp1 hq hq1
  have hP1 : 1 - rkAlpha p q ^ 2 - q * rkBeta p q ^ 2 ≤ 1 := by
    have := sq_nonneg (rkAlpha p q)
    have := mul_nonneg hq.le (sq_nonneg (rkBeta p q))
    linarith
  have hB : 0 ≤ q * p ^ 2 * rkBeta p q ^ 4 := by positivity
  generalize 1 - rkAlpha p q ^ 2 - q * rkBeta p q ^ 2 = P at h1 h3 hP1 ⊢
  generalize 1 - rkAlpha p q ^ 2 + 2 * rkAlpha p q * rkBeta p q * p
    - (p ^ 2 + q) * rkBeta p q ^ 2 = Q at h2 h3 ⊢
  generalize q * p ^ 2 * rkBeta p q ^ 4 = B at h3 hB ⊢
  have hPQ : 0 < P + Q := by linarith
  have hd1 : (P * Q - B) / (P + Q) ≤ P := by
    rw [div_le_iff₀ hPQ]
    nlinarith
  have hd2 : (P * Q - B) / (P + Q) ≤ Q := by
    rw [div_le_iff₀ hPQ]
    nlinarith
  refine ⟨(P * Q - B) / (P + Q), div_pos h3 hPQ, le_trans hd1 hP1, hd1, hd2, ?_⟩
  have hkey : (P - (P * Q - B) / (P + Q)) * (Q - (P * Q - B) / (P + Q))
      = B + ((P * Q - B) / (P + Q)) ^ 2 := by
    field_simp
    ring
  rw [hkey]
  have := sq_nonneg ((P * Q - B) / (P + Q))
  linarith

/-- One Runge-Kutta step of the unforced impedance system contracts the energy by a factor
`rho < 1`, provided the step is small: `h*damping <= mass` and `h^2*stiffness <= mass`. -/
theorem rungeKutta4_energy (mass stiffness damping force_gain h : ℝ)
    (hm : 0 < mass) (hk : 0 < stiffness) (hc : 0 < damping) (hh : 0 < h)
    (hp1 : h * damping ≤ mass) (hq1 : h ^ 2 * stiffness ≤ mass) :
    ∃ rho : ℝ, 0 ≤ rho ∧ rho < 1 ∧ ∀ x : ℝ × ℝ,
      impedanceEnergy stiffness mass
          (rungeKutta4 (impedanceSystem 0 mass stiffness damping force_gain) h x)
        ≤ rho * impedanceEnergy stiffness mass x := by
  have hp : 0 < h * damping / mass := div_pos (mul_pos hh hc) hm
  have hq : 0 < h ^ 2 * stiffness / mass := div_pos (mul_pos (pow_pos hh 2) hk) hm
  have hp1' : h * damping / mass ≤ 1 := (div_le_one hm).mpr hp1
  have hq1' : h ^ 2 * stiffness / mass ≤ 1 := (div_le_one hm).mpr hq1
  obtain ⟨delta, hd0, hd1, hdP, hdQ, hdet⟩ :=
    rk_loss_margin (h * damping / mass) (h ^ 2 * stiffness / mass) hp hp1' hq hq1'
  refine ⟨1 - delta, by linarith, by linarith, ?_⟩
  intro x
  rw [rungeKutta4_unforced]
  have hmne : mass ≠ 0 := hm.ne'
  generalize rkAlpha (h * damping / mass) (h ^ 2 * stiffness / mass) = al at hdP hdQ hdet ⊢
  generalize rkBeta (h * damping / mass) (h ^ 2 * stiffness / mass) = be at hdP hdQ hdet ⊢
  have hform := quadratic_form_nonneg
    (stiffness * (1 - al ^ 2 - h ^ 2 * stiffness / mass * be ^ 2 - delta))
    (stiffness * be ^ 2 * (h * damping / mass) * h)
    (mass * (1 - al ^ 2 + 2 * al * be * (h * damping / mass)
      - ((h * damping / mass) ^ 2 + h ^ 2 * stiffness / mass) * be ^ 2 - delta))
    x.1 x.2
    (mul_nonneg hk.le (by linarith)) (mul_nonneg hm.le (by linarith))
    (by
      have h1 : (stiffness * be ^ 2 * (h * damping / mass) * h) ^ 2
          = stiffness * mass
            * (h ^ 2 * stiffness / mass * (h * damping / mass) ^ 2 * be ^ 4) := by
        field_simp
        ring
      have h2 : stiffness * (1 - al ^ 2 - h ^ 2 * stiffness / mass * be ^ 2 - delta)
          * (mass * (1 - al ^ 2 + 2 * al * be * (h * damping / mass)
            - ((h * damping / mass) ^ 2 + h ^ 2 * stiffness / mass) * be ^ 2 - delta))
          = stiffness * mass
            * ((1 - al ^ 2 - h ^ 2 * stiffness / mass * be ^ 2 - delta)
              * (1 - al ^ 2 + 2 * al * be * (h * damping / mass)
                - ((h * damping / mass) ^ 2 + h ^ 2 * stiffness / mass) * be ^ 2 - delta)) := by
        ring
      rw [h1, h2]
      exact mul_le_mul_of_nonneg_left hdet (mul_nonneg hk.le hm.le))
  have hid : (1 - delta) * impedanceEnergy stiffness mass x
      - impedanceEnergy stiffness mass
          (al * x.1 + be * h * x.2,
            (al - be * (h * damping / mass)) * x.2 - be * h * (stiffness / mass) * x.1)
      = (stiffness * (1 - al ^ 2 - h ^ 2 * stiffness / mass * be ^ 2 - delta) * x.1 ^ 2
          - 2 * (stiffness * be ^ 2 * (h * damping / mass) * h) * x.1 * x.2
          + mass * (1 - al ^ 2 + 2 * al * be * (h * damping / mass)
              - ((h * damping / mass) ^ 2 + h ^ 2 * stiffness / mass) * be ^ 2 - delta)
            * x.2 ^ 2) / 2 := by
    unfold impedanceEnergy
    simp only []
    field_simp
    ring
  linarith

theorem impedanceEnergy_nonneg (stiffness mass : ℝ) (hk : 0 ≤ stiffness) (hm : 0 ≤ mass)
    (x : ℝ × ℝ) : 0 ≤ impedanceEnergy stiffness mass x := by
  unfold impedanceEnergy
  have h1 := mul_nonneg hk (sq_nonneg x.1)
  have h2 := mul_nonneg hm (sq_nonneg x.2)
  linarith

theorem integrateConst_add (f : ℝ × ℝ → ℝ × ℝ) (h : ℝ) (a b : Nat) (x : ℝ × ℝ) :
    integrateConst f h (a + b) x = integrateConst f h a (integrateConst f h b x) := by
  induction a with
  | zero => simp [integrateConst]
  | succ a ih =>
    rw [Nat.succ_add, integrateConst, integrateConst, ih]

/-- Steps that each contract the energy by `rho` contract it by `rho^n` together. -/
theorem integrateConst_energy (f : ℝ × ℝ → ℝ × ℝ) (h stiffness mass rho : ℝ) (hrho : 0 ≤ rho)
    (hstep : ∀ x, impedanceEnergy stiffness mass (rungeKutta4 f h x)
      ≤ rho * impedanceEnergy stiffness mass x) (n : Nat) (x : ℝ × ℝ) :
    impedanceEnergy stiffness mass (integrateConst f h n x)
      ≤ rho ^ n * impedanceEnergy stiffness mass x := by
  induction n with
  | zero => simp [integrateConst]
  | succ n ih =>
    rw [integrateConst, pow_succ]
    calc impedanceEnergy stiffness mass (rungeKutta4 f h (integrateConst f h n x))
        ≤ rho * impedanceEnergy stiffness mass (integrateConst f h n x) := hstep _
      _ ≤ rho * (rho ^ n * impedanceEnergy stiffness mass x) :=
          mul_le_mul_of_nonneg_left ih hrho
      _ = rho ^ n * rho * impedanceEnergy stiffness mass x := by ring

/-- The leg after `n` ticks with a constant force input: its parameters are unchanged and its
state is the state after `30*n` Runge-Kutta steps. -/
theorem updateImpedanceTicks_state (c : ImpedanceController) (leg : ImpedanceLeg) (u : Bool)
    (n : Nat) :
    forceInput (updateImpedanceTicks c u n leg) u = forceInput leg u
      ∧ (updateImpedanceTicks c u n leg).virtual_mass = leg.virtual_mass
      ∧ (updateImpedanceTicks c u n leg).virtual_stiffness = leg.virtual_stiffness
      ∧ (updateImpedanceTicks c u n leg).virtual_damping_ratio = leg.virtual_damping_ratio
      ∧ (updateImpedanceTicks c u n leg).impedance_state
          = integrateConst
              (impedanceSystem (forceInput leg u) leg.virtual_mass leg.virtual_stiffness
                (leg.virtual_damping_ratio * 2
                  * Real.sqrt (leg.virtual_mass * leg.virtual_stiffness)) c.force_gain_)
              (c.delta_t_ / 30) (30 * n) leg.impedance_state := by
  induction n with
  | zero => exact ⟨rfl, rfl, rfl, rfl, rfl⟩
  | succ n ih =>
    obtain ⟨h1, h2, h3, h4, h5⟩ := ih
    have hin := updateImpedance_inputs c (updateImpedanceTicks c u n leg) u
    refine ⟨?_, ?_, ?_, ?_, ?_⟩
    · show forceInput (updateImpedance c (updateImpedanceTicks c u n leg) u) u = _
      rw [hin.1, h1]
    · show (updateImpedance c (updateImpedanceTicks c u n leg) u).virtual_mass = _
      rw [hin.2.1, h2]
    · show (updateImpedance c (updateImpedanceTicks c u n leg) u).virtual_stiffness = _
      rw [hin.2.2.1, h3]
    · show (updateImpedance c (updateImpedanceTicks c u n leg) u).virtual_damping_ratio = _
      rw [hin.2.2.2, h4]
    · show (updateImpedance c (updateImpedanceTicks c u n leg) u).impedance_state = _
      have e : 30 * (n + 1) = 30 + 30 * n := by ring
      rw [e, integrateConst_add, ← h5]
      simp only [updateImpedance, h1, h2, h3, h4]

/-! ## C21: passivity of the integrated impedance model -/

/-- C21 (amended): with `force_input = 0`, mass > 0, stiffness > 0, damping ratio > 0, integrator
step time > 0 and a Runge-Kutta step `h = integrator_step_time/30` that is small for the leg,
`h*c <= mass` and `h^2*stiffness <= mass` with `c = 2*zeta*sqrt(mass*stiffness)`, and for every
initial state: no `updateImpedance` tick increases the energy
`E = stiffness*x0^2/2 + mass*x1^2/2`, and under repeated ticks `E` converges to zero. -/
theorem impedance_energy_decays (c : ImpedanceController) (leg : ImpedanceLeg)
    (use_joint_effort : Bool) (hforce : forceInput leg use_joint_effort = 0)
    (hm : 0 < leg.virtual_mass) (hk : 0 < leg.virtual_stiffness)
    (hz : 0 < leg.virtual_damping_ratio) (hdt : 0 < c.delta_t_)
    (hstep1 : c.delta_t_ / 30
        * (leg.virtual_damping_ratio * 2 * Real.sqrt (leg.virtual_mass * leg.virtual_stiffness))
      ≤ leg.virtual_mass)
    (hstep2 : (c.delta_t_ / 30) ^ 2 * leg.virtual_stiffness ≤ leg.virtual_mass) :
    legEnergy (updateImpedance c leg use_joint_effort) ≤ legEnergy leg
      ∧ (∀ n : Nat, legEnergy (updateImpedanceTicks c use_joint_effort (n + 1) leg)
          ≤ legEnergy (updateImpedanceTicks c use_joint_effort n leg))
      ∧ Filter.Tendsto (fun n : Nat => legEnergy (updateImpedanceTicks c use_joint_effort n leg))
          Filter.atTop (nhds 0) := by
  have hc : 0 < leg.virtual_damping_ratio * 2
      * Real.sqrt (leg.virtual_mass * leg.virtual_stiffness) :=
    mul_pos (mul_pos hz two_pos) (Real.sqrt_pos.mpr (mul_pos hm hk))
  obtain ⟨rho, hrho0, hrho1, hstep⟩ := rungeKutta4_energy leg.virtual_mass
    leg.virtual_stiffness
    (leg.virtual_damping_ratio * 2 * Real.sqrt (leg.virtual_mass * leg.virtual_stiffness))
    c.force_gain_ (c.delta_t_ / 30) hm hk hc (by positivity) hstep1 hstep2
  have henergy : ∀ n : Nat, legEnergy (updateImpedanceTicks c use_joint_effort n leg)
      = impedanceEnergy leg.virtual_stiffness leg.virtual_mass
          (integrateConst
            (impedanceSystem 0 leg.virtual_mass leg.virtual_stiffness
              (leg.virtual_damping_ratio * 2
                * Real.sqrt (leg.virtual_mass * leg.virtual_stiffness)) c.force_gain_)
            (c.delta_t_ / 30) (30 * n) leg.impedance_state) := by
    intro n
    obtain ⟨_, h2, h3, _, h5⟩ := updateImpedanceTicks_state c leg use_joint_effort n
    unfold legEnergy
    rw [h2, h3, h5, hforce]
  have hmono : ∀ n : Nat, legEnergy (updateImpedanceTicks c use_joint_effort (n + 1) leg)
      ≤ legEnergy (updateImpedanceTicks c use_joint_effort n leg) := by
    intro n
    rw [henergy (n + 1), henergy n]
    have e : 30 * (n + 1) = 30 + 30 * n := by ring
    rw [e, integrateConst_add]
    have h30 := integrateConst_energy _ (c.delta_t_ / 30) leg.virtual_stiffness leg.virtual_mass
      rho hrho0 hstep 30
      (integrateConst
        (impedanceSystem 0 leg.virtual_mass leg.virtual_stiffness
          (leg.virtual_damping_ratio * 2
            * Real.sqrt (leg.virtual_mass * leg.virtual_stiffness)) c.force_gain_)
        (c.delta_t_ / 30) (30 * n) leg.impedance_state)
    have hle : rho ^ 30 ≤ 1 := pow_le_one₀ hrho0 hrho1.le
    have hnn := impedanceEnergy_nonneg leg.virtual_stiffness leg.virtual_mass hk.le hm.le
      (integrateConst
        (impedanceSystem 0 leg.virtual_mass leg.virtual_stiffness
          (leg.virtual_damping_ratio * 2
            * Real.sqrt (leg.virtual_mass * leg.virtual_stiffness)) c.force_gain_)
        (c.delta_t_ / 30) (30 * n) leg.impedance_state)
    nlinarith
  refine ⟨hmono 0, hmono, ?_⟩
  have hbound : ∀ n : Nat, legEnergy (updateImpedanceTicks c use_joint_effort n leg)
      ≤ (rho ^ 30) ^ n * legEnergy leg := by
    intro n
    rw [henergy n, ← pow_mul]
    exact integrateConst_energy _ (c.delta_t_ / 30) leg.virtual_stiffness leg.virtual_mass
      rho hrho0 hstep (30 * n) leg.impedance_state
  have hlim : Filter.Tendsto (fun n : Nat => (rho ^ 30) ^ n * legEnergy leg) Filter.atTop
      (nhds 0) := by
    have h1 : Filter.Tendsto (fun n : Nat => (rho ^ 30) ^ n) Filter.atTop (nhds 0) :=
      tendsto_pow_atTop_nhds_zero_of_lt_one (pow_nonneg hrho0 30)
        (pow_lt_one₀ hrho0 hrho1 (by norm_num))
    simpa using h1.mul_const (legEnergy leg)
  refine squeeze_zero (fun n => ?_) hbound hlim
  rw [henergy n]
  exact impedanceEnergy_nonneg _ _ hk.le hm.le _

/-- Witness for C21 (amended): the leg of scenario S4 (`m = 1`, `k = 100`, `zeta = 0.7`) with
the force removed, displaced to `(-0.1, 0)`, at an integrator step time of `0.02`. -/
theorem impedance_energy_decays_witness :
    legEnergy (updateImpedance ⟨1 / 50, 1⟩ { steadyLeg with tip_force := 0 } false)
        ≤ legEnergy { steadyLeg with tip_force := 0 }
      ∧ (∀ n : Nat,
          legEnergy (updateImpedanceTicks ⟨1 / 50, 1⟩ false (n + 1)
              { steadyLeg with tip_force := 0 })
            ≤ legEnergy (updateImpedanceTicks ⟨1 / 50, 1⟩ false n
              { steadyLeg with tip_force := 0 }))
      ∧ Filter.Tendsto (fun n : Nat =>
          legEnergy (updateImpedanceTicks ⟨1 / 50, 1⟩ false n { steadyLeg with tip_force := 0 }))
          Filter.atTop (nhds 0) :=
  impedance_energy_decays ⟨1 / 50, 1⟩ { steadyLeg with tip_force := 0 } false rfl
    (by norm_num [steadyLeg]) (by norm_num [steadyLeg]) (by norm_num [steadyLeg])
    (by norm_num)
    (by
      have hs : Real.sqrt ((1 : ℝ) * 100) = 10 := by
        rw [show (1 : ℝ) * 100 = 10 ^ 2 by norm_num]
        exact Real.sqrt_sq (by norm_num)
      simp only [steadyLeg, hs]
      norm_num)
    (by norm_num [steadyLeg])

/-- A Runge-Kutta step of size `1/30` of the stiff leg multiplies a state on the line
`x1 = -120*x0` by 5. -/
theorem stiff_step (force_gain a : ℝ) :
    rungeKutta4 (impedanceSystem 0 1 14400 240 force_gain) (1 / 30) (a, -120 * a)
      = (5 * a, -120 * (5 * a)) := by
  unfold rungeKutta4 impedanceSystem
  ext
  · simp only []
    ring
  · simp only []
    ring

theorem stiff_steps (force_gain : ℝ) (n : Nat) :
    integrateConst (impedanceSystem 0 1 14400 240 force_gain) (1 / 30) n (1 / 120, -1)
      = (5 ^ n * (1 / 120), -120 * (5 ^ n * (1 / 120))) := by
  induction n with
  | zero =>
    simp only [integrateConst, pow_zero, one_mul]
    norm_num
  | succ n ih =>
    rw [integrateConst, ih, stiff_step]
    ext
    · simp only []
      ring
    · simp only []
      ring

/-- C21 as stated fails: a critically damped leg with `m = 1`, `k = 14400`, `zeta = 1`, no force
input and an integrator step time of 1 (Runge-Kutta steps of `1/30`), started in the state
`(1/120, -1)` of energy 1: after `n` ticks the energy is `25^(30*n)`, so the first tick raises
it from 1 to `25^30` and it does not converge to zero. -/
theorem stiff_leg_energy_grows :
    forceInput stiffLeg false = 0
      ∧ legEnergy stiffLeg = 1
      ∧ legEnergy (updateImpedance ⟨1, 1⟩ stiffLeg false) = 25 ^ 30
      ∧ (∀ n : Nat, legEnergy (updateImpedanceTicks ⟨1, 1⟩ false n stiffLeg) = 25 ^ (30 * n))
      ∧ ¬ Filter.Tendsto (fun n : Nat => legEnergy (updateImpedanceTicks ⟨1, 1⟩ false n stiffLeg))
          Filter.atTop (nhds 0) := by
  have hs : Real.sqrt ((1 : ℝ) * 14400) = 120 := by
    rw [show (1 : ℝ) * 14400 = 120 ^ 2 by norm_num]
    exact Real.sqrt_sq (by norm_num)
  have hall : ∀ n : Nat,
      legEnergy (updateImpedanceTicks ⟨1, 1⟩ false n stiffLeg) = 25 ^ (30 * n) := by
    intro n
    obtain ⟨_, h2, h3, _, h5⟩ := updateImpedanceTicks_state ⟨1, 1⟩ stiffLeg false n
    unfold legEnergy
    rw [h2, h3, h5]
    have hf : forceInput stiffLeg false = 0 := rfl
    simp only [hf, show stiffLeg.virtual_mass = 1 from rfl,
      show stiffLeg.virtual_stiffness = 14400 from rfl,
      show stiffLeg.virtual_damping_ratio = 1 from rfl,
      show stiffLeg.impedance_state = (1 / 120, -1) from rfl, hs]
    rw [show (1 : ℝ) * 2 * 120 = 240 by norm_num, show (1 : ℝ) / 30 = 1 / 30 from rfl,
      stiff_steps]
    unfold impedanceEnergy
    simp only []
    rw [show (25 : ℝ) ^ (30 * n) = (5 ^ (30 * n)) ^ 2 by
      rw [show (25 : ℝ) = 5 ^ 2 by norm_num, ← pow_mul, ← pow_mul, mul_comm]]
    ring
  refine ⟨rfl, ?_, ?_, hall, ?_⟩
  · have := hall 0
    simpa [updateImpedanceTicks] using this
  · have := hall 1
    simpa [updateImpedanceTicks] using this
  · intro hlim
    have hev := (hlim.eventually (gt_mem_nhds (show (0 : ℝ) < 1 by norm_num)))
    obtain ⟨n, hn⟩ := hev.exists
    rw [hall n] at hn
    have : (1 : ℝ) ≤ 25 ^ (30 * n) := one_le_pow₀ (by norm_num)
    linarith

/-! ## C35: the counters agree with the flags -/

theorem doneCount_eq_zero_iff (legs : List LegStepper) :
    doneCount legs = 0 ↔ ∀ leg ∈ legs, leg.completedFirstStep = false := by
  unfold doneCount
  rw [Int.natCast_eq_zero, List.countP_eq_zero]
  simp

theorem flagCount_bounds (legs : List LegStepper) :
    0 ≤ flagCount legs ∧ flagCount legs ≤ legs.length := by
  unfold flagCount
  exact ⟨Int.natCast_nonneg _, Int.ofNat_le.mpr (List.countP_le_length _)⟩

/-- The STOPPING branch of the per-leg loop does not touch `legsCompletedFirstStep`. -/
theorem stopping_leg_completed (g : GaitTiming) (fl b : Bool) (c : Counters) (leg : LegStepper) :
    (legPhaseUpdate g WalkState.STOPPING fl b c leg).1.legsCompletedFirstStep
      = c.legsCompletedFirstStep := by
  simp only [legPhaseUpdate, stoppingForceStop, stoppingAdvance]
  split_ifs <;> rfl

theorem stopping_loop_completed (g : GaitTiming) (sz : Nat → Bool) (legs : List LegStepper)
    (i : Nat) (c : Counters) :
    (robotStateMachine g WalkState.STOPPING sz i c legs).1.legsCompletedFirstStep
      = c.legsCompletedFirstStep :=
  (robotStateMachine_all g WalkState.STOPPING sz 0
    (fun c1 => c1.legsCompletedFirstStep = c.legsCompletedFirstStep) (fun _ => True)
    (fun _ => True)
    (fun _ _ c1 leg hc _ => ⟨(stopping_leg_completed g _ _ c1 leg).trans hc, trivial⟩)
    legs i (Nat.zero_le _) c rfl (fun _ _ => trivial)).1

/-- The transition step and the counters: what the walk state after it says about them. -/
theorem walkTransition_counters (b : Bool) (w : WalkController) (h : CountersMatch w) :
    (walkTransition b w).legSteppers.length = 6
      ∧ flagCount (walkTransition b w).legSteppers = flagCount w.legSteppers
      ∧ doneCount (walkTransition b w).legSteppers = doneCount w.legSteppers
      ∧ ((walkTransition b w).state = WalkState.STARTING →
          (walkTransition b w).legsInCorrectPhase = flagCount w.legSteppers
            ∧ (walkTransition b w).legsCompletedFirstStep = doneCount w.legSteppers)
      ∧ ((walkTransition b w).state = WalkState.STOPPING →
          (walkTransition b w).legsInCorrectPhase = flagCount w.legSteppers
            ∧ (walkTransition b w).legsCompletedFirstStep = 0)
      ∧ (((walkTransition b w).state = WalkState.MOVING
            ∨ (walkTransition b w).state = WalkState.STOPPED) →
          (walkTransition b w).legsInCorrectPhase = 0
            ∧ (walkTransition b w).legsCompletedFirstStep = 0) := by
  obtain ⟨hlen, hcount, hstart, hother, hclear, hdone⟩ := h
  have hmap : ∀ legs : List LegStepper,
      flagCount (legs.map (fun leg => { leg with phase := leg.phaseOffset })) = flagCount legs
        ∧ doneCount (legs.map (fun leg => { leg with phase := leg.phaseOffset }))
          = doneCount legs := by
    intro legs
    unfold flagCount doneCount
    rw [List.countP_map, List.countP_map]
    exact ⟨rfl, rfl⟩
  unfold walkTransition
  split_ifs with h1 h2 h3 h4
  · refine ⟨by simpa using hlen, (hmap _).1, (hmap _).2, ?_, ?_, ?_⟩
    · intro _
      refine ⟨hcount, ?_⟩
      show w.legsCompletedFirstStep = _
      rw [hother (by rw [h1.1]; decide), eq_comm, doneCount_eq_zero_iff]
      exact hdone h1.1
    · intro hs
      exact absurd hs (by decide)
    · intro hs
      rcases hs with hs | hs <;> exact absurd hs (by decide)
  · refine ⟨hlen, rfl, rfl, ?_, ?_, ?_⟩
    · intro hs
      exact absurd hs (by decide)
    · intro hs
      exact absurd hs (by decide)
    · intro _
      exact ⟨rfl, rfl⟩
  · refine ⟨hlen, rfl, rfl, ?_, ?_, ?_⟩
    · intro hs
      exact absurd hs (by decide)
    · intro _
      exact ⟨hcount, hother (by rw [h3.1]; decide)⟩
    · intro hs
      rcases hs with hs | hs <;> exact absurd hs (by decide)
  · refine ⟨hlen, rfl, rfl, ?_, ?_, ?_⟩
    · intro hs
      exact absurd hs (by decide)
    · intro hs
      exact absurd hs (by decide)
    · intro _
      exact ⟨rfl, hother (by rw [h4.1]; decide)⟩
  · refine ⟨hlen, rfl, rfl, ?_, ?_, ?_⟩
    · intro hs
      exact ⟨hcount, hstart hs⟩
    · intro hs
      exact ⟨hcount, hother (by rw [hs]; decide)⟩
    · intro hs
      refine ⟨?_, hother (by rcases hs with hs | hs <;> rw [hs] <;> decide)⟩
      rw [hcount, flagCount_eq_zero_iff]
      exact hclear hs

/-- The invariant of the counters is kept by every tick, whatever the gait timing and the inputs
of the tick. -/
theorem updateWalkCore_countersMatch (g : GaitTiming) (b : Bool) (sz : Nat → Bool)
    (w : WalkController) (h : CountersMatch w) : CountersMatch (updateWalkCore g b sz w) := by
  obtain ⟨t1, t2, t3, t4, t5, t6⟩ := walkTransition_counters b w h
  obtain ⟨hlen, hcount, hstart, hother, hclear, hdone⟩ := h
  have hlegs : (updateWalkCore g b sz w).legSteppers
      = (robotStateMachine g (walkTransition b w).state sz 0
          ⟨(walkTransition b w).legsInCorrectPhase,
            (walkTransition b w).legsCompletedFirstStep⟩
          (walkTransition b w).legSteppers).2.map (legStateMachine g) := rfl
  have hc1 : (updateWalkCore g b sz w).legsInCorrectPhase
      = (robotStateMachine g (walkTransition b w).state sz 0
          ⟨(walkTransition b w).legsInCorrectPhase,
            (walkTransition b w).legsCompletedFirstStep⟩
          (walkTransition b w).legSteppers).1.legsInCorrectPhase := rfl
  have hc2 : (updateWalkCore g b sz w).legsCompletedFirstStep
      = (robotStateMachine g (walkTransition b w).state sz 0
          ⟨(walkTransition b w).legsInCorrectPhase,
            (walkTransition b w).legsCompletedFirstStep⟩
          (walkTransition b w).legSteppers).1.legsCompletedFirstStep := rfl
  have hst : (updateWalkCore g b sz w).state = (walkTransition b w).state := rfl
  have hmapclear : ∀ (f : LegStepper → LegStepper) (legs : List LegStepper),
      (∀ leg, (f leg).inCorrectPhase = false) →
      ∀ leg ∈ (legs.map f).map (legStateMachine g), leg.inCorrectPhase = false := by
    intro f legs hf leg hleg
    simp only [List.mem_map] at hleg
    obtain ⟨l1, ⟨l0, _, rfl⟩, rfl⟩ := hleg
    rw [legStateMachine_inCorrectPhase]
    exact hf l0
  unfold CountersMatch
  rw [hst, hc1, hc2, hlegs, flagCount_map_legStateMachine, doneCount_map_legStateMachine,
    List.length_map, robotStateMachine_length]
  cases hs : (walkTransition b w).state
  · -- STARTING
    have hcnt1 := robotStateMachine_count g WalkState.STARTING sz
      (fun c => c.legsInCorrectPhase) (fun leg => leg.inCorrectPhase)
      (fun fl b c leg => (starting_leg_counters g fl b c leg).1)
      (walkTransition b w).legSteppers 0
      ⟨(walkTransition b w).legsInCorrectPhase, (walkTransition b w).legsCompletedFirstStep⟩
    have hcnt2 := robotStateMachine_count g WalkState.STARTING sz
      (fun c => c.legsCompletedFirstStep) (fun leg => leg.completedFirstStep)
      (fun fl b c leg => (starting_leg_counters g fl b c leg).2)
      (walkTransition b w).legSteppers 0
      ⟨(walkTransition b w).legsInCorrectPhase, (walkTransition b w).legsCompletedFirstStep⟩
    obtain ⟨e1, e2⟩ := t4 hs
    refine ⟨t1, ?_, ?_, fun hne => absurd rfl hne, ?_, ?_⟩
    · unfold flagCount at t2 e1 ⊢
      simp only at hcnt1
      omega
    · intro _
      unfold doneCount at t3 e2 ⊢
      simp only at hcnt2
      omega
    · intro hms
      rcases hms with hms | hms <;> exact absurd hms (by decide)
    · intro hms
      exact absurd hms (by decide)
  · -- MOVING
    obtain ⟨e1, e2⟩ := t6 (Or.inl hs)
    rw [robotStateMachine_moving]
    have hcl := hmapclear (fun leg =>
      { leg with phase := Int.tmod (leg.phase + 1) g.phaseLength, inCorrectPhase := false })
      (walkTransition b w).legSteppers (fun _ => rfl)
    refine ⟨t1, ?_, fun hms => absurd hms (by decide), fun _ => e2, fun _ => hcl, ?_⟩
    · show (walkTransition b w).legsInCorrectPhase = _
      rw [e1, eq_comm, ← flagCount_map_legStateMachine g, flagCount_eq_zero_iff]
      exact hcl
    · intro hms
      exact absurd hms (by decide)
  · -- STOPPING
    have hcnt1 := robotStateMachine_count g WalkState.STOPPING sz
      (fun c => c.legsInCorrectPhase) (fun leg => leg.inCorrectPhase)
      (fun fl b c leg => stopping_leg_counters g fl b c leg)
      (walkTransition b w).legSteppers 0
      ⟨(walkTransition b w).legsInCorrectPhase, (walkTransition b w).legsCompletedFirstStep⟩
    obtain ⟨e1, e2⟩ := t5 hs
    refine ⟨t1, ?_, fun hms => absurd hms (by decide), ?_, ?_, ?_⟩
    · unfold flagCount at t2 e1 ⊢
      simp only at hcnt1
      omega
    · intro _
      rw [stopping_loop_completed]
      exact e2
    · intro hms
      rcases hms with hms | hms <;> exact absurd hms (by decide)
    · intro hms
      exact absurd hms (by decide)
  · -- STOPPED
    obtain ⟨e1, e2⟩ := t6 (Or.inr hs)
    rw [robotStateMachine_stopped]
    have hcl := hmapclear (fun leg =>
      { leg with inCorrectPhase := false, completedFirstStep := false, phase := 0,
                 state := StepState.STANCE })
      (walkTransition b w).legSteppers (fun _ => rfl)
    refine ⟨t1, ?_, fun hms => absurd hms (by decide), fun _ => e2, fun _ => hcl, ?_⟩
    · show (walkTransition b w).legsInCorrectPhase = _
      rw [e1, eq_comm, ← flagCount_map_legStateMachine g, flagCount_eq_zero_iff]
      exact hcl
    · intro _ leg hleg
      simp only [List.mem_map] at hleg
      obtain ⟨l1, ⟨l0, _, rfl⟩, rfl⟩ := hleg
      rw [legStateMachine_completedFirstStep]

theorem initController_countersMatch (offs : List Int) (hlen : offs.length = 6) :
    CountersMatch (initController offs) := by
  have hflag : ∀ leg ∈ (initController offs).legSteppers,
      leg.inCorrectPhase = false ∧ leg.completedFirstStep = false := by
    intro leg hleg
    simp only [initController, List.mem_map] at hleg
    obtain ⟨off, _, rfl⟩ := hleg
    exact ⟨rfl, rfl⟩
  refine ⟨by simp [initController, hlen], ?_, ?_, fun _ => rfl, fun _ leg hleg => (hflag leg hleg).1,
    fun _ leg hleg => (hflag leg hleg).2⟩
  · show (0 : Int) = _
    rw [eq_comm, flagCount_eq_zero_iff]
    exact fun leg hleg => (hflag leg hleg).1
  · intro hs
    exact WalkState.noConfusion (hs : WalkState.STOPPED = WalkState.STARTING)

theorem reachable_countersMatch (g : GaitTiming) (offs : List Int) (hlen : offs.length = 6)
    (w : WalkController) (hw : Reachable g (initController offs) w) : CountersMatch w := by
  induction hw with
  | start => exact initController_countersMatch offs hlen
  | tick b sz w _ ih => exact updateWalkCore_countersMatch g b sz w ih

/-- C35: in every state reachable from the initial state (counters zero, flags clear, six legs)
by ticks of `updateWalk` with any inputs and any gait timing, `legsInCorrectPhase` equals the
number of legs whose `inCorrectPhase` flag is set and lies between 0 and 6; while the walk state
is STARTING `legsCompletedFirstStep` equals the number of legs whose `completedFirstStep` flag is
set; and both counters are zero when the walk state is MOVING or STOPPED. -/
theorem counters_agree_with_flags (g : GaitTiming) (offs : List Int) (hlen : offs.length = 6)
    (w : WalkController) (hw : Reachable g (initController offs) w) :
    w.legsInCorrectPhase = flagCount w.legSteppers
      ∧ (0 ≤ w.legsInCorrectPhase ∧ w.legsInCorrectPhase ≤ 6)
      ∧ (w.state = WalkState.STARTING → w.legsCompletedFirstStep = doneCount w.legSteppers)
      ∧ ((w.state = WalkState.MOVING ∨ w.state = WalkState.STOPPED) →
          w.legsInCorrectPhase = 0 ∧ w.legsCompletedFirstStep = 0) := by
  obtain ⟨h1, h2, h3, h4, h5, _⟩ := reachable_countersMatch g offs hlen w hw
  have hb := flagCount_bounds w.legSteppers
  rw [h1] at hb
  refine ⟨h2, ⟨by rw [h2]; exact hb.1, by rw [h2]; exact_mod_cast hb.2⟩, h3, ?_⟩
  intro hms
  refine ⟨?_, h4 (by rcases hms with hms | hms <;> rw [hms] <;> decide)⟩
  rw [h2, flagCount_eq_zero_iff]
  exact h5 hms

/-- Witness for C35: the tripod gait after twelve ticks under a non-zero command. -/
theorem counters_agree_with_flags_witness :
    (runCore ⟨8, 2, 2, 6, 6⟩ (fun _ => ⟨true, fun _ => false⟩) 12
        (initController [0, 4, 4, 0, 0, 4])).legsInCorrectPhase
      = flagCount (runCore ⟨8, 2, 2, 6, 6⟩ (fun _ => ⟨true, fun _ => false⟩) 12
        (initController [0, 4, 4, 0, 0, 4])).legSteppers :=
  (counters_agree_with_flags ⟨8, 2, 2, 6, 6⟩ [0, 4, 4, 0, 0, 4] rfl _
    (reachable_runCore _ _ _ 12)).1

/-! ## C37: the stride at the target velocity -/

/-- A centre velocity that is at its target stays there. -/
theorem nextCentreVelocity_at_target (W : Walker) (cmd : ℝ × ℝ) (curv : ℝ)
    (h : W.localCentreVelocity = centralVelocity W cmd curv) :
    nextCentreVelocity W cmd curv = centralVelocity W cmd curv := by
  have h1 := congrArg Prod.fst h
  have h2 := congrArg Prod.snd h
  simp only [centralVelocity] at h1 h2
  unfold nextCentreVelocity
  simp only [← h1, ← h2, sub_self, vnorm_zero, gt_iff_lt, lt_self_iff_false, if_false]
  exact h

/-- Without curvature an angular velocity of zero stays zero. -/
theorem nextAngularVelocity_straight (W : Walker) (cmd : ℝ × ℝ) (h : W.angularVelocity = 0) :
    nextAngularVelocity W cmd 0 = 0 := by
  unfold nextAngularVelocity
  simp [h]

theorem vnorm_centralVelocity (W : Walker) (cmd : ℝ × ℝ) (curv : ℝ) :
    vnorm (centralVelocity W cmd curv) = normalSpeed W cmd * |(1 - |curv|)| := by
  unfold centralVelocity normalSpeed
  rw [mul_comm (localVelocity W cmd).1, mul_comm (localVelocity W cmd).2, vnorm_scale, mul_comm]

/-- C37: on a tick outside STOPPING with curvature 0 that passes the ASSERT (exact real
arithmetic, the divisors `stepFrequency`, `onGroundRatio` and `stanceRadius` non-zero), when the angular velocity
used by the tick is 0 and the centre velocity used by the tick is its target, `updateWalk` returns
and every leg has the stride vector `2*minFootprintRadius` times the commanded normalised
velocity, in which neither `stepFrequency` nor `onGroundRatio` occurs; for a footprint radius
`>= 0` and a commanded normalised speed `<= 1` the stride length is at most
`2*minFootprintRadius`. -/
theorem stride_matches_footprint (cmd : ℝ × ℝ) (tip : Nat → ℝ × ℝ) (W : Walker)
    (hstate : W.core.state ≠ WalkState.STOPPING)
    (hfrequency : W.stepFrequency ≠ 0) (hground : onGroundRatio W.timing ≠ 0)
    (_hradius : W.stanceRadius ≠ 0) (hassert : normalSpeed W cmd < 1.01)
    (homega : nextAngularVelocity W cmd 0 = 0)
    (hreached : nextCentreVelocity W cmd 0 = centralVelocity W cmd 0) :
    ∃ W1 : Walker, updateWalk cmd 0 tip W = some W1
      ∧ W1.angularVelocity = 0
      ∧ W1.localCentreVelocity = localVelocity W cmd
      ∧ (∀ i, W1.strideVector i
          = (2 * W.minFootprintRadius * cmd.1, 2 * W.minFootprintRadius * cmd.2))
      ∧ (0 ≤ W.minFootprintRadius → vnorm cmd ≤ 1 →
          ∀ i, vnorm (W1.strideVector i) ≤ 2 * W.minFootprintRadius) := by
  have hcv : centralVelocity W cmd 0 = localVelocity W cmd := by
    unfold centralVelocity
    simp
  have hlv : localVelocity W cmd
      = (cmd.1 * 2 * W.minFootprintRadius * W.stepFrequency / onGroundRatio W.timing,
         cmd.2 * 2 * W.minFootprintRadius * W.stepFrequency / onGroundRatio W.timing) := by
    unfold localVelocity
    rw [if_pos hstate]
  have hstride : ∀ i, strideOf W (nextCentreVelocity W cmd 0) (nextAngularVelocity W cmd 0)
      (tip i) = (2 * W.minFootprintRadius * cmd.1, 2 * W.minFootprintRadius * cmd.2) := by
    intro i
    rw [hreached, homega, hcv, hlv]
    unfold strideOf
    ext
    · simp only []
      field_simp
      ring
    · simp only []
      field_simp
      ring
  unfold updateWalk
  rw [if_pos hassert]
  refine ⟨_, rfl, homega, hreached.trans hcv, hstride, ?_⟩
  intro hr hc i
  show vnorm (strideOf W _ _ _) ≤ _
  rw [hstride i, vnorm_scale, abs_of_nonneg (by linarith)]
  calc 2 * W.minFootprintRadius * vnorm cmd ≤ 2 * W.minFootprintRadius * 1 :=
        mul_le_mul_of_nonneg_left hc (by linarith)
    _ = 2 * W.minFootprintRadius := mul_one _

theorem cruisingWalker_state : cruisingWalker.core.state = WalkState.MOVING := by
  unfold cruisingWalker movingWalker
  decide

theorem cruisingWalker_localVelocity : localVelocity cruisingWalker (1, 0) = (2 / 5, 0) := by
  unfold localVelocity
  rw [if_pos (by rw [cruisingWalker_state]; decide)]
  norm_num [cruisingWalker, movingWalker, onGroundRatio]

/-- Witness for C37: the tripod walker cruising at the target of the command `(1, 0)`; every
stride vector is `(1/5, 0)`, the footprint diameter `2*(1/10)` along x. -/
theorem stride_matches_footprint_witness :
    ∃ W1 : Walker, updateWalk (1, 0) 0 rowTips cruisingWalker = some W1
      ∧ W1.angularVelocity = 0
      ∧ W1.localCentreVelocity = localVelocity cruisingWalker (1, 0)
      ∧ (∀ i, W1.strideVector i
          = (2 * cruisingWalker.minFootprintRadius * ((1 : ℝ), (0 : ℝ)).1,
             2 * cruisingWalker.minFootprintRadius * ((1 : ℝ), (0 : ℝ)).2))
      ∧ (0 ≤ cruisingWalker.minFootprintRadius → vnorm ((1 : ℝ), (0 : ℝ)) ≤ 1 →
          ∀ i, vnorm (W1.strideVector i) ≤ 2 * cruisingWalker.minFootprintRadius) :=
  stride_matches_footprint (1, 0) rowTips cruisingWalker
    (by rw [cruisingWalker_state]; decide)
    (by norm_num [cruisingWalker, movingWalker])
    (by norm_num [cruisingWalker, movingWalker, onGroundRatio])
    (by norm_num [cruisingWalker, movingWalker])
    (by
      have hns : normalSpeed cruisingWalker (1, 0) = 2 / 5 := by
        unfold normalSpeed
        rw [cruisingWalker_localVelocity, vnorm_along_x]
        norm_num
      rw [hns]
      norm_num)
    (nextAngularVelocity_straight cruisingWalker (1, 0) rfl)
    (nextCentreVelocity_at_target cruisingWalker (1, 0) 0 (by
      unfold centralVelocity
      rw [cruisingWalker_localVelocity]
      ext <;> simp [cruisingWalker]))

/-! ## C32: a speed above 1 -/

/-- C32 (amended): on a tick whose computed speed lies above 1 and below the asserted bound 1.01
(`time_delta > 0`, rate limits `>= 0`, exact real arithmetic with the divisors `stanceRadius` and,
outside STOPPING, `onGroundRatio` non-zero) `updateWalk` returns and uses the speed as computed:
the angular velocity moves a fraction of the gap toward `curvature*speed/stanceRadius` and the
centre velocity toward `localVelocity*(1 - |curvature|)`, whose norm is `speed*|1 - |curvature||`.
When the gaps are within the reach of the rate limiters the new velocities are these targets: the
angular velocity differs from `curvature*1/stanceRadius` for a curvature other than 0, and the
norm of the centre velocity exceeds `1*|1 - |curvature||` for `|curvature|` other than 1. -/
theorem speed_above_one_is_used_as_computed (cmd : ℝ × ℝ) (curv : ℝ) (tip : Nat → ℝ × ℝ)
    (W : Walker) (hdt : 0 < W.timeDelta) (hacc : 0 ≤ W.maxAcceleration)
    (hcs : 0 ≤ W.maxCurvatureSpeed) (hradius : W.stanceRadius ≠ 0)
    (_hground : W.core.state ≠ WalkState.STOPPING → onGroundRatio W.timing ≠ 0)
    (hover : 1 < normalSpeed W cmd) (hassert : normalSpeed W cmd < 1.01) :
    ∃ W1 : Walker, updateWalk cmd curv tip W = some W1
      ∧ (∃ s : ℝ, 0 ≤ s ∧ s ≤ 1
          ∧ W1.angularVelocity - W.angularVelocity
            = s * (curv * normalSpeed W cmd / W.stanceRadius - W.angularVelocity))
      ∧ (∃ s : ℝ, 0 ≤ s ∧ s ≤ 1
          ∧ W1.localCentreVelocity - W.localCentreVelocity
            = s • (centralVelocity W cmd curv - W.localCentreVelocity))
      ∧ vnorm (centralVelocity W cmd curv) = normalSpeed W cmd * |(1 - |curv|)|
      ∧ (|curv * normalSpeed W cmd / W.stanceRadius - W.angularVelocity|
            ≤ W.maxCurvatureSpeed * W.timeDelta →
          W1.angularVelocity = curv * normalSpeed W cmd / W.stanceRadius
            ∧ (curv ≠ 0 → W1.angularVelocity ≠ curv * 1 / W.stanceRadius))
      ∧ (vnorm (centralVelocity W cmd curv - W.localCentreVelocity)
            ≤ W.maxAcceleration * W.timeDelta →
          W1.localCentreVelocity = centralVelocity W cmd curv
            ∧ (|curv| ≠ 1 → 1 * |(1 - |curv|)| < vnorm W1.localCentreVelocity)) := by
  obtain ⟨hv1, _, hv3⟩ := vector_rate_step W.localCentreVelocity (centralVelocity W cmd curv)
    (W.maxAcceleration * W.timeDelta) (mul_nonneg hacc (le_of_lt hdt))
  obtain ⟨hw1, _, hw3⟩ := scalar_rate_step W.angularVelocity
    (curv * normalSpeed W cmd / W.stanceRadius)
    (W.maxCurvatureSpeed * W.timeDelta) (mul_nonneg hcs (le_of_lt hdt))
  unfold updateWalk
  rw [if_pos hassert]
  refine ⟨_, rfl, hw1, hv1, vnorm_centralVelocity W cmd curv, ?_, ?_⟩
  · intro hgap
    have heq : nextAngularVelocity W cmd curv = curv * normalSpeed W cmd / W.stanceRadius :=
      hw3.mpr hgap
    refine ⟨heq, ?_⟩
    intro hc
    show nextAngularVelocity W cmd curv ≠ _
    rw [heq]
    intro h
    have h1 : curv * normalSpeed W cmd = curv * 1 := by
      field_simp at h
      linarith
    have h2 := mul_left_cancel₀ hc h1
    linarith
  · intro hgap
    have heq : nextCentreVelocity W cmd curv = centralVelocity W cmd curv := hv3.mpr hgap
    refine ⟨heq, ?_⟩
    intro hc
    show _ < vnorm (nextCentreVelocity W cmd curv)
    rw [heq, vnorm_centralVelocity]
    have hpos : 0 < |(1 - |curv|)| := abs_pos.mpr (fun h0 => hc (by linarith))
    exact mul_lt_mul_of_pos_right hover hpos

theorem overspeedWalker_state : overspeedWalker.core.state = WalkState.MOVING := by
  unfold overspeedWalker movingWalker
  decide

theorem overspeedWalker_localVelocity :
    localVelocity overspeedWalker (1, 0) = (201 / 200, 0) := by
  unfold localVelocity
  rw [if_pos (by rw [overspeedWalker_state]; decide)]
  norm_num [overspeedWalker, movingWalker, onGroundRatio]

theorem overspeedWalker_normalSpeed : normalSpeed overspeedWalker (1, 0) = 201 / 200 := by
  unfold normalSpeed
  rw [overspeedWalker_localVelocity, vnorm_along_x]
  norm_num

theorem overspeedWalker_centralVelocity :
    centralVelocity overspeedWalker (1, 0) (1 / 2) = (201 / 400, 0) := by
  unfold centralVelocity
  rw [overspeedWalker_localVelocity]
  have h : |(1 / 2 : ℝ)| = 1 / 2 := abs_of_pos (by norm_num)
  rw [h]
  norm_num

theorem overspeedWalker_angular_gap :
    |1 / 2 * normalSpeed overspeedWalker (1, 0) / overspeedWalker.stanceRadius
        - overspeedWalker.angularVelocity|
      ≤ overspeedWalker.maxCurvatureSpeed * overspeedWalker.timeDelta := by
  rw [overspeedWalker_normalSpeed]
  have h : (1 / 2 * (201 / 200) / overspeedWalker.stanceRadius - overspeedWalker.angularVelocity
      : ℝ) = 1 / 200 := by
    norm_num [overspeedWalker, movingWalker]
  rw [h, abs_of_pos (by norm_num)]
  norm_num [overspeedWalker, movingWalker]

theorem overspeedWalker_linear_gap :
    vnorm (centralVelocity overspeedWalker (1, 0) (1 / 2) - overspeedWalker.localCentreVelocity)
      ≤ overspeedWalker.maxAcceleration * overspeedWalker.timeDelta := by
  rw [overspeedWalker_centralVelocity]
  have h : (((201 / 400 : ℝ), (0 : ℝ)) - overspeedWalker.localCentreVelocity)
      = ((1 / 400 : ℝ), (0 : ℝ)) := by
    ext <;> norm_num [overspeedWalker, movingWalker]
  rw [h, vnorm_along_x, abs_of_pos (by norm_num)]
  norm_num [overspeedWalker, movingWalker]

/-- Witness for C32 (amended): the tripod walker whose command `(1, 0)` gives the speed 1.005,
with curvature `1/2`. -/
theorem speed_above_one_is_used_as_computed_witness :
    ∃ W1 : Walker, updateWalk (1, 0) (1 / 2) (fun _ => (0, 0)) overspeedWalker = some W1
      ∧ (∃ s : ℝ, 0 ≤ s ∧ s ≤ 1
          ∧ W1.angularVelocity - overspeedWalker.angularVelocity
            = s * (1 / 2 * normalSpeed overspeedWalker (1, 0) / overspeedWalker.stanceRadius
                - overspeedWalker.angularVelocity))
      ∧ (∃ s : ℝ, 0 ≤ s ∧ s ≤ 1
          ∧ W1.localCentreVelocity - overspeedWalker.localCentreVelocity
            = s • (centralVelocity overspeedWalker (1, 0) (1 / 2)
                - overspeedWalker.localCentreVelocity))
      ∧ vnorm (centralVelocity overspeedWalker (1, 0) (1 / 2))
          = normalSpeed overspeedWalker (1, 0) * |(1 - |(1 / 2 : ℝ)|)|
      ∧ (|1 / 2 * normalSpeed overspeedWalker (1, 0) / overspeedWalker.stanceRadius
              - overspeedWalker.angularVelocity|
            ≤ overspeedWalker.maxCurvatureSpeed * overspeedWalker.timeDelta →
          W1.angularVelocity
              = 1 / 2 * normalSpeed overspeedWalker (1, 0) / overspeedWalker.stanceRadius
            ∧ ((1 / 2 : ℝ) ≠ 0 →
                W1.angularVelocity ≠ 1 / 2 * 1 / overspeedWalker.stanceRadius))
      ∧ (vnorm (centralVelocity overspeedWalker (1, 0) (1 / 2)
              - overspeedWalker.localCentreVelocity)
            ≤ overspeedWalker.maxAcceleration * overspeedWalker.timeDelta →
          W1.localCentreVelocity = centralVelocity overspeedWalker (1, 0) (1 / 2)
            ∧ (|(1 / 2 : ℝ)| ≠ 1 →
                1 * |(1 - |(1 / 2 : ℝ)|)| < vnorm W1.localCentreVelocity)) :=
  speed_above_one_is_used_as_computed (1, 0) (1 / 2) (fun _ => (0, 0)) overspeedWalker
    (by norm_num [overspeedWalker, movingWalker])
    (by norm_num [overspeedWalker, movingWalker])
    (by norm_num [overspeedWalker, movingWalker])
    (by norm_num [overspeedWalker, movingWalker])
    (fun _ => by norm_num [overspeedWalker, movingWalker, onGroundRatio])
    (by rw [overspeedWalker_normalSpeed]; norm_num)
    (by rw [overspeedWalker_normalSpeed]; norm_num)

/-- C32 as stated fails: the tripod walker with a footprint radius of `201/800`, moving at the
velocities that belong to speed 1 (centre velocity `(1/2, 0)`, angular velocity 1), is commanded
`(1, 0)` with curvature `1/2`. The computed speed is `1.005`, between 1 and 1.01; the tick runs
and leaves the angular velocity at `1.005` and the centre velocity at `(0.5025, 0)`, the targets
of the speed `1.005`, where a speed clamped to 1 has the targets `1` and `(0.5, 0)`, the values
that the walker already had. -/
theorem overspeed_tick_is_not_clamped :
    1 < normalSpeed overspeedWalker (1, 0) ∧ normalSpeed overspeedWalker (1, 0) < 1.01
      ∧ overspeedWalker.angularVelocity = 1 / 2 * 1 / overspeedWalker.stanceRadius
      ∧ overspeedWalker.localCentreVelocity = (1 * (1 - |(1 / 2 : ℝ)|), 0)
      ∧ ∃ W1 : Walker, updateWalk (1, 0) (1 / 2) (fun _ => (0, 0)) overspeedWalker = some W1
        ∧ W1.angularVelocity = 201 / 200
        ∧ W1.localCentreVelocity = (201 / 400, 0)
        ∧ W1.angularVelocity ≠ overspeedWalker.angularVelocity
        ∧ W1.localCentreVelocity ≠ overspeedWalker.localCentreVelocity := by
  have hassert : normalSpeed overspeedWalker (1, 0) < 1.01 := by
    rw [overspeedWalker_normalSpeed]
    norm_num
  have hw : nextAngularVelocity overspeedWalker (1, 0) (1 / 2) = 201 / 200 := by
    have h := (scalar_rate_step overspeedWalker.angularVelocity
      (1 / 2 * normalSpeed overspeedWalker (1, 0) / overspeedWalker.stanceRadius)
      (overspeedWalker.maxCurvatureSpeed * overspeedWalker.timeDelta)
      (by norm_num [overspeedWalker, movingWalker])).2.2.mpr overspeedWalker_angular_gap
    have ht : (1 / 2 * normalSpeed overspeedWalker (1, 0) / overspeedWalker.stanceRadius : ℝ)
        = 201 / 200 := by
      rw [overspeedWalker_normalSpeed]
      norm_num [overspeedWalker, movingWalker]
    exact h.trans ht
  have hv : nextCentreVelocity overspeedWalker (1, 0) (1 / 2) = (201 / 400, 0) := by
    have h := (vector_rate_step overspeedWalker.localCentreVelocity
      (centralVelocity overspeedWalker (1, 0) (1 / 2))
      (overspeedWalker.maxAcceleration * overspeedWalker.timeDelta)
      (by norm_num [overspeedWalker, movingWalker])).2.2.mpr overspeedWalker_linear_gap
    exact h.trans overspeedWalker_centralVelocity
  refine ⟨by rw [overspeedWalker_normalSpeed]; norm_num, hassert, ?_, ?_, ?_⟩
  · norm_num [overspeedWalker, movingWalker]
  · have h : |(1 / 2 : ℝ)| = 1 / 2 := abs_of_pos (by norm_num)
    rw [h]
    ext <;> norm_num [overspeedWalker]
  · unfold updateWalk
    rw [if_pos hassert]
    refine ⟨_, rfl, hw, hv, ?_, ?_⟩
    · show nextAngularVelocity overspeedWalker (1, 0) (1 / 2) ≠ _
      rw [hw]
      norm_num [overspeedWalker]
    · show nextCentreVelocity overspeedWalker (1, 0) (1 / 2) ≠ _
      rw [hv]
      intro h
      have h1 := congrArg Prod.fst h
      norm_num [overspeedWalker] at h1

/-! ## C36: the two stiffness updates for a single swinging leg -/

theorem next_leg_id (i n : Nat) (hin : i < n) :
    (i + 1) % n = if i + 1 < n then i + 1 else 0 := by
  split_ifs with h
  · exact Nat.mod_eq_of_lt h
  · have e : i + 1 = n := by omega
    rw [e, Nat.mod_self]

/-- The per-leg `updateStiffness(Leg*, double)` in closed form for a leg `i >= 1` of at least
three legs: it returns, leg `i` has the swing stiffness, the legs `i - 1` and `(i + 1) % count`
have the load stiffness, and every other leg is unchanged. -/
theorem updateStiffnessLeg_get {K : Type} [LinearOrderedField K] (params : StiffnessParameters K)
    (legs : List (StiffnessLeg K)) (hn : 3 ≤ legs.length) (i : Nat) (h1 : 1 ≤ i)
    (hin : i < legs.length) (r : K) :
    ∃ legs2, updateStiffnessLeg params legs i r = some legs2
      ∧ legs2.length = legs.length
      ∧ ∀ (l : Nat) (leg : StiffnessLeg K), legs[l]? = some leg →
          legs2[l]? = some { leg with
            virtual_stiffness :=
              if l = i then
                params.virtual_stiffness * (r * (params.swing_stiffness_scaler - 1) + 1)
              else if l + 1 = i ∨ l = (i + 1) % legs.length then
                params.virtual_stiffness * (r * (params.load_stiffness_scaler - 1) + 1)
              else leg.virtual_stiffness } := by
  obtain ⟨legi, hlegi⟩ : ∃ legi, legs[i]? = some legi := ⟨legs[i], List.getElem?_eq_getElem hin⟩
  obtain ⟨leg1, hleg1⟩ : ∃ leg1, legs[i - 1]? = some leg1 :=
    ⟨legs[i - 1], List.getElem?_eq_getElem (by omega)⟩
  have hl2 : (if i + 1 < legs.length then i + 1 else 0) < legs.length := by
    split_ifs <;> omega
  obtain ⟨leg2, hleg2⟩ : ∃ leg2, legs[if i + 1 < legs.length then i + 1 else 0]? = some leg2 :=
    ⟨legs[if i + 1 < legs.length then i + 1 else 0], List.getElem?_eq_getElem hl2⟩
  unfold updateStiffnessLeg
  simp only [adjacent_leg_1_id_of_pos i legs.length h1 hin,
    adjacent_leg_2_id_of_lt i legs.length hin, getLegByIDNumber_natCast, hlegi, hleg1, hleg2,
    Int.toNat_ofNat]
  refine ⟨_, rfl, by simp [setVirtualStiffness], ?_⟩
  intro l leg hl
  simp only [setVirtualStiffness, List.getElem?_modify, hl, Option.map_some', Option.map_eq_map,
    next_leg_id i legs.length hin]
  by_cases e0 : l = i
  · subst e0
    have e1 : l - 1 ≠ l := by omega
    have e2 : (if l + 1 < legs.length then l + 1 else 0) ≠ l := by split_ifs <;> omega
    rw [if_neg e2, if_neg e1, if_pos rfl, if_pos rfl]
  · by_cases e1 : l + 1 = i
    · have e1' : i - 1 = l := by omega
      have e2 : (if i + 1 < legs.length then i + 1 else 0) ≠ l := by split_ifs <;> omega
      rw [if_neg e2, if_pos e1', if_neg (Ne.symm e0), if_neg e0, if_pos (Or.inl e1)]
    · by_cases e2 : l = (if i + 1 < legs.length then i + 1 else 0)
      · have e1' : i - 1 ≠ l := by
          rw [e2]
          split_ifs <;> omega
        rw [if_pos e2.symm, if_neg e1', if_neg (Ne.symm e0), if_neg e0, if_pos (Or.inr e2)]
      · have e1' : i - 1 ≠ l := by omega
        rw [if_neg (Ne.symm e2), if_neg e1', if_neg (Ne.symm e0), if_neg e0,
          if_neg (by rintro (h | h) <;> [exact e1 h; exact e2 h])]

/-- The walker variant `updateStiffness(WalkController*)` in closed form when leg `i >= 1` is the
only leg in SWING. -/
theorem updateStiffness_single {K : Type} [LinearOrderedField K]
    (params : StiffnessParameters K) (sc mbh : K) (legs : List (StiffnessLeg K)) (i : Nat)
    (legi : StiffnessLeg K) (hn : 3 ≤ legs.length) (h1 : 1 ≤ i)
    (hi : legs[i]? = some legi) (hs : legi.step_state = StepState.SWING)
    (hother : ∀ (l : Nat) (leg : StiffnessLeg K), legs[l]? = some leg → l ≠ i →
      leg.step_state ≠ StepState.SWING) :
    ∃ legs1, updateStiffness params sc mbh legs = some legs1
      ∧ legs1.length = legs.length
      ∧ ∀ (l : Nat) (leg : StiffnessLeg K), legs[l]? = some leg →
          legs1[l]? = some { leg with
            virtual_stiffness :=
              if l = i then
                params.virtual_stiffness
                  * (stepReference sc mbh legi * (params.swing_stiffness_scaler - 1) + 1)
              else if l + 1 = i ∨ l = (i + 1) % legs.length then
                params.virtual_stiffness
                  * (stepReference sc mbh legi * (params.load_stiffness_scaler - 1) + 1)
              else params.virtual_stiffness } := by
  have hin : i < legs.length := by
    by_contra hcon
    rw [List.getElem?_eq_none (by omega)] at hi
    exact Option.noConfusion hi
  obtain ⟨legs1, hres, hlen, hget⟩ := updateStiffness_get params sc mbh legs hn
    (fun leg hl => hother 0 leg hl (by omega))
  refine ⟨legs1, hres, hlen, ?_⟩
  intro l leg hl
  have hln : l < legs.length := by
    by_contra hcon
    rw [List.getElem?_eq_none (by omega)] at hl
    exact Option.noConfusion hl
  rw [hget l leg hl]
  congr 2
  have hV := visitedLoad_single params sc mbh legs i legi hi hs hother
  unfold stiffnessAfter
  simp only [hV, next_leg_id i legs.length hin]
  by_cases hli : l = i
  · subst hli
    have hleg : leg = legi := by
      rw [hi] at hl
      exact (Option.some.inj hl).symm
    rw [hleg, if_pos ⟨hs, hln⟩, if_neg (by omega), if_pos rfl]
    unfold swingStiffness
    ring
  · have hns := hother l leg hl hli
    rw [if_neg (fun h => hns h.1), if_neg hli]
    unfold loadStiffness
    split_ifs <;> first | omega | ring

/-- C36: let leg `i` be the only leg in SWING, with both neighbour ids valid (`1 <= i`, at least
three legs) and step reference `r = |z_current - z_default| / (step_clearance*max_body_height)`
(the divisor not zero). Then `updateStiffness(walker)` and the per-leg `updateStiffness(leg i, r)`
called after resetting every leg to `k0` both return, with the same result: leg `i` has the
virtual stiffness `k0*(r*(swing_scaler - 1) + 1)`, the legs `i - 1` and `(i + 1) % count` have
`k0*(r*(load_scaler - 1) + 1)`, and every other leg has `k0`. -/
theorem stiffness_updates_agree_for_single_swing {K : Type} [LinearOrderedField K]
    (params : StiffnessParameters K) (sc mbh : K) (legs : List (StiffnessLeg K)) (i : Nat)
    (legi : StiffnessLeg K) (r : K) (_hclear : sc * mbh ≠ 0)
    (hn : 3 ≤ legs.length) (h1 : 1 ≤ i)
    (hi : legs[i]? = some legi) (hs : legi.step_state = StepState.SWING)
    (hother : ∀ (l : Nat) (leg : StiffnessLeg K), legs[l]? = some leg → l ≠ i →
      leg.step_state ≠ StepState.SWING)
    (hr : r = |(legi.current_tip_position.z - legi.default_tip_position.z) / (sc * mbh)|) :
    ∃ legs1, updateStiffness params sc mbh legs = some legs1
      ∧ updateStiffnessLeg params
          (legs.map (fun leg => { leg with virtual_stiffness := params.virtual_stiffness })) i r
        = some legs1
      ∧ legs1.length = legs.length
      ∧ ∀ (l : Nat) (leg1 : StiffnessLeg K), legs1[l]? = some leg1 →
          leg1.virtual_stiffness
            = if l = i then
                params.virtual_stiffness * (r * (params.swing_stiffness_scaler - 1) + 1)
              else if l + 1 = i ∨ l = (i + 1) % legs.length then
                params.virtual_stiffness * (r * (params.load_stiffness_scaler - 1) + 1)
              else params.virtual_stiffness := by
  have hin : i < legs.length := by
    by_contra hcon
    rw [List.getElem?_eq_none (by omega)] at hi
    exact Option.noConfusion hi
  have hrr : stepReference sc mbh legi = r := by rw [stepReference_eq, hr]
  obtain ⟨legs1, hres1, hlen1, hget1⟩ :=
    updateStiffness_single params sc mbh legs i legi hn h1 hi hs hother
  obtain ⟨legs2, hres2, hlen2, hget2⟩ := updateStiffnessLeg_get params
    (legs.map (fun leg => { leg with virtual_stiffness := params.virtual_stiffness }))
    (by simpa using hn) i h1 (by simpa using hin) r
  rw [List.length_map] at hlen2
  have heq : legs1 = legs2 := by
    apply List.ext_getElem?
    intro l
    by_cases hln : l < legs.length
    · have hl : legs[l]? = some legs[l] := List.getElem?_eq_getElem hln
      rw [hget1 l legs[l] hl, hget2 l { legs[l] with virtual_stiffness := params.virtual_stiffness }
        (by rw [List.getElem?_map, hl]; rfl), hrr, List.length_map]
    · rw [List.getElem?_eq_none (by omega), List.getElem?_eq_none (by omega)]
  refine ⟨legs1, hres1, by rw [heq]; exact hres2, hlen1, ?_⟩
  intro l leg1 hl1
  have hln : l < legs.length := by
    by_contra hcon
    rw [List.getElem?_eq_none (by omega)] at hl1
    exact Option.noConfusion hl1
  have hl := hget1 l legs[l] (List.getElem?_eq_getElem hln)
  rw [hl1, hrr] at hl
  rw [Option.some.inj hl]

/-- Witness for C36, scenario S5 with the last leg swinging: six legs, leg 5 in SWING with step
reference `1/2`; both updates leave leg 5 with 55, its neighbours 4 and 0 with 150 and the legs
1, 2, 3 with 100. -/
theorem stiffness_updates_agree_for_single_swing_witness :
    ∃ legs1, updateStiffness s5Parameters (1 / 2) 2 (s5Legs [5]) = some legs1
      ∧ updateStiffnessLeg s5Parameters
          ((s5Legs [5]).map (fun leg =>
            { leg with virtual_stiffness := s5Parameters.virtual_stiffness })) 5 (1 / 2)
        = some legs1
      ∧ legs1.length = (s5Legs [5]).length
      ∧ ∀ (l : Nat) (leg1 : StiffnessLeg ℚ), legs1[l]? = some leg1 →
          leg1.virtual_stiffness
            = if l = 5 then
                s5Parameters.virtual_stiffness
                  * (1 / 2 * (s5Parameters.swing_stiffness_scaler - 1) + 1)
              else if l + 1 = 5 ∨ l = (5 + 1) % (s5Legs [5]).length then
                s5Parameters.virtual_stiffness
                  * (1 / 2 * (s5Parameters.load_stiffness_scaler - 1) + 1)
              else s5Parameters.virtual_stiffness :=
  stiffness_updates_agree_for_single_swing s5Parameters (1 / 2) 2 (s5Legs [5]) 5
    ⟨0, StepState.SWING, ⟨0, 0, 1 / 2⟩, ⟨0, 0, 0⟩⟩ (1 / 2) (by norm_num) (by decide)
    (by decide) rfl rfl
    (fun l leg hl hne => s5Legs_stance [5] l leg hl (by simpa using hne))
    (by norm_num [abs_of_pos])

/-! ## C34: the vertical nodes of the primary swing polygon -/

/-- C34, the code at any call of `updateSwingPos`: the index 4 that lines 59 and 60 apply to
primary node 0 names no component of the vector; the `z` of the primary nodes 2 and 3 is whatever
that read returns (`overread`), not the `z` of primary node 4, which is
`origin.z + stepClearance*maximumBodyHeight`; and the vertical derivative at the end of the
primary curve is `4*(P4.z - overread)`, which is zero only when the read happens to return
`P4.z`. -/
theorem primary_nodes_read_past_node_zero {K : Type} [LinearOrderedField K] [FloorRing K]
    (walker : WalkerMembers K) (overread : K) (leg : TipStepper K) :
    Vector3d.componentAt (swingControlNodes walker overread leg).swingPrimaryControlNodes.node0 4
        = none
      ∧ Vector3d.componentAt
          (swingControlNodes walker overread leg).swingPrimaryControlNodes.node4 2
        = some (leg.originTipPosition.z + walker.stepClearance * walker.maximumBodyHeight)
      ∧ (swingControlNodes walker overread leg).swingPrimaryControlNodes.node2.z = overread
      ∧ (swingControlNodes walker overread leg).swingPrimaryControlNodes.node3.z = overread
      ∧ (quarticBezierDot (swingControlNodes walker overread leg).swingPrimaryControlNodes 1).z
        = 4 * (leg.originTipPosition.z + walker.stepClearance * walker.maximumBodyHeight
            - overread)
      ∧ ((quarticBezierDot (swingControlNodes walker overread leg).swingPrimaryControlNodes 1).z
          = 0
        ↔ overread
          = leg.originTipPosition.z + walker.stepClearance * walker.maximumBodyHeight) := by
  have hd : (quarticBezierDot (swingControlNodes walker overread leg).swingPrimaryControlNodes
      1).z
      = 4 * (leg.originTipPosition.z + walker.stepClearance * walker.maximumBodyHeight
          - overread) := by
    simp only [quarticBezierDot, swingControlNodes, vector3d_add_z, vector3d_sub_z,
      vector3d_smul_z]
    ring
  refine ⟨rfl, rfl, rfl, rfl, hd, ?_⟩
  rw [hd]
  constructor
  · intro h
    linarith
  · intro h
    rw [h]
    ring

/-! ## C33: the footprint radius after init -/

/-- A row that passes the row loop of `init` has a positive radius. -/
theorem rowFootprint_pos (model : RobotModel) (params : InitParameters)
    (bodyClearance maximumBodyHeight : ℝ) (l : Nat) (row : ℝ × ℝ)
    (h : rowFootprint model params bodyClearance maximumBodyHeight l = some row) :
    0 < row.1 := by
  unfold rowFootprint at h
  simp only [] at h
  repeat' split at h
  all_goals first
    | exact Option.noConfusion h
    | (simp only [Option.some.injEq] at h
       subst h
       assumption)

/-- The members that `init` leaves: the three rows pass the row loop, and the footprint radius is
the result of the check for overlapping radii on the minimum that the row loop tracks. -/
theorem initFootprint_rows (model : RobotModel) (params : InitParameters) (r : InitResult)
    (h : initFootprint model params = some r) :
    ∃ row0 row1 row2 : ℝ × ℝ,
      rowFootprint model params r.bodyClearance r.maximumBodyHeight 0 = some row0
        ∧ rowFootprint model params r.bodyClearance r.maximumBodyHeight 1 = some row1
        ∧ rowFootprint model params r.bodyClearance r.maximumBodyHeight 2 = some row2
        ∧ r.minFootprintRadius = overlapCheck r.identityTipPositions
            (min (min (min (10 ^ 10) (row0.1 * 0.8)) (row1.1 * 0.8)) (row2.1 * 0.8)) := by
  unfold initFootprint at h
  simp only [] at h
  repeat' split at h
  all_goals first
    | exact Option.noConfusion h
    | (simp only [Option.some.injEq] at h
       subst h
       exact ⟨_, _, _, by assumption, by assumption, by assumption, rfl⟩)

theorem horizontalDistance_nonneg (a b : Vector3d ℝ) : 0 ≤ horizontalDistance a b :=
  Real.sqrt_nonneg _

theorem adjacentRowDistance_nonneg (ids : Nat → Nat → Vector3d ℝ) :
    0 ≤ adjacentRowDistance ids :=
  le_min (le_min (le_min (horizontalDistance_nonneg _ _) (horizontalDistance_nonneg _ _))
    (horizontalDistance_nonneg _ _)) (horizontalDistance_nonneg _ _)

/-- The check for overlapping radii in closed form: the smaller of the radius it is given and
half the smallest distance of adjacent rows. -/
theorem overlapCheck_eq (ids : Nat → Nat → Vector3d ℝ) (R : ℝ) :
    overlapCheck ids R = min R (adjacentRowDistance ids / 2) := by
  have hgap : min (min (min (min ((10 : ℝ) ^ 10)
        (horizontalDistance (ids 1 0) (ids 0 0) - 2 * R))
        (horizontalDistance (ids 1 0) (ids 2 0) - 2 * R))
        (horizontalDistance (ids 1 1) (ids 0 1) - 2 * R))
        (horizontalDistance (ids 1 1) (ids 2 1) - 2 * R)
      = min (10 ^ 10) (adjacentRowDistance ids - 2 * R) := by
    unfold adjacentRowDistance
    rw [← min_sub_sub_right, ← min_sub_sub_right, ← min_sub_sub_right, min_assoc, min_assoc,
      min_assoc, min_assoc, min_assoc]
  unfold overlapCheck
  simp only []
  rw [hgap, show (0.5 : ℝ) = 1 / 2 by norm_num]
  have h10 : (0 : ℝ) < 10 ^ 10 := by positivity
  split_ifs with hneg
  · have hlt : adjacentRowDistance ids - 2 * R < 0 := by
      rcases min_lt_iff.mp hneg with h | h
      · linarith
      · exact h
    rw [min_eq_right (by linarith), min_eq_right (by linarith)]
    ring
  · have hge : 0 ≤ adjacentRowDistance ids - 2 * R := by
      by_contra hcon
      exact hneg (lt_of_le_of_lt (min_le_right _ _) (not_le.mp hcon))
    rw [min_eq_left (by linarith)]

/-- C33 (amended): for every configuration that `init` accepts, the three rows have positive
inscribed radii `rad_0, rad_1, rad_2`, and with `R = 0.8*min(rad_0, rad_1, rad_2)` and `D` the
smallest horizontal distance between the identity tip positions of adjacent rows on the same side,
`minFootprintRadius = min(min(10^10, R), D/2)`, which is `min(R, D/2)` when `R <= 10^10`; hence
`minFootprintRadius >= 0`, and same-side identity tip positions of adjacent rows are at least
`2*minFootprintRadius` apart. -/
theorem footprint_radius_after_init (model : RobotModel) (params : InitParameters)
    (r : InitResult) (h : initFootprint model params = some r) :
    ∃ row0 row1 row2 : ℝ × ℝ,
      rowFootprint model params r.bodyClearance r.maximumBodyHeight 0 = some row0
        ∧ rowFootprint model params r.bodyClearance r.maximumBodyHeight 1 = some row1
        ∧ rowFootprint model params r.bodyClearance r.maximumBodyHeight 2 = some row2
        ∧ (0 < row0.1 ∧ 0 < row1.1 ∧ 0 < row2.1)
        ∧ r.minFootprintRadius
          = min (min (10 ^ 10) (0.8 * min (min row0.1 row1.1) row2.1))
              (adjacentRowDistance r.identityTipPositions / 2)
        ∧ (0.8 * min (min row0.1 row1.1) row2.1 ≤ 10 ^ 10 →
            r.minFootprintRadius
              = min (0.8 * min (min row0.1 row1.1) row2.1)
                  (adjacentRowDistance r.identityTipPositions / 2))
        ∧ 0 ≤ r.minFootprintRadius
        ∧ ∀ s, s = 0 ∨ s = 1 →
            2 * r.minFootprintRadius
                ≤ horizontalDistance (r.identityTipPositions 0 s) (r.identityTipPositions 1 s)
              ∧ 2 * r.minFootprintRadius
                ≤ horizontalDistance (r.identityTipPositions 1 s)
                    (r.identityTipPositions 2 s) := by
  obtain ⟨row0, row1, row2, h0, h1, h2, hR⟩ := initFootprint_rows model params r h
  have p0 := rowFootprint_pos model params _ _ 0 row0 h0
  have p1 := rowFootprint_pos model params _ _ 1 row1 h1
  have p2 := rowFootprint_pos model params _ _ 2 row2 h2
  have hmin : min (min (min ((10 : ℝ) ^ 10) (row0.1 * 0.8)) (row1.1 * 0.8)) (row2.1 * 0.8)
      = min (10 ^ 10) (0.8 * min (min row0.1 row1.1) row2.1) := by
    have h8 : (0 : ℝ) ≤ 0.8 := by norm_num
    rw [mul_comm (0.8 : ℝ) (min (min row0.1 row1.1) row2.1), min_mul_of_nonneg _ _ h8,
      min_mul_of_nonneg _ _ h8, ← min_assoc, ← min_assoc]
  rw [hmin, overlapCheck_eq] at hR
  have hpos : 0 < min (min row0.1 row1.1) row2.1 := lt_min (lt_min p0 p1) p2
  have hD := adjacentRowDistance_nonneg r.identityTipPositions
  have hnonneg : 0 ≤ r.minFootprintRadius := by
    rw [hR]
    refine le_min (le_min (by positivity) ?_) (by linarith)
    have h8 : (0 : ℝ) < 0.8 := by norm_num
    exact le_of_lt (mul_pos h8 hpos)
  refine ⟨row0, row1, row2, h0, h1, h2, ⟨p0, p1, p2⟩, hR, ?_, hnonneg, ?_⟩
  · intro hle
    rw [hR, min_eq_right hle]
  · intro s hs
    have hhalf : 2 * r.minFootprintRadius ≤ adjacentRowDistance r.identityTipPositions := by
      have := min_le_right (min ((10 : ℝ) ^ 10) (0.8 * min (min row0.1 row1.1) row2.1))
        (adjacentRowDistance r.identityTipPositions / 2)
      rw [← hR] at this
      linarith
    have d1 : adjacentRowDistance r.identityTipPositions
        ≤ horizontalDistance (r.identityTipPositions 1 0) (r.identityTipPositions 0 0) :=
      le_trans (min_le_left _ _) (le_trans (min_le_left _ _) (min_le_left _ _))
    have d2 : adjacentRowDistance r.identityTipPositions
        ≤ horizontalDistance (r.identityTipPositions 1 0) (r.identityTipPositions 2 0) :=
      le_trans (min_le_left _ _) (le_trans (min_le_left _ _) (min_le_right _ _))
    have d3 : adjacentRowDistance r.identityTipPositions
        ≤ horizontalDistance (r.identityTipPositions 1 1) (r.identityTipPositions 0 1) :=
      le_trans (min_le_left _ _) (min_le_right _ _)
    have d4 : adjacentRowDistance r.identityTipPositions
        ≤ horizontalDistance (r.identityTipPositions 1 1) (r.identityTipPositions 2 1) :=
      min_le_right _ _
    rcases hs with rfl | rfl
    · rw [horizontalDistance_comm]
      exact ⟨le_trans hhalf d1, le_trans hhalf d2⟩
    · rw [horizontalDistance_comm]
      exact ⟨le_trans hhalf d3, le_trans hhalf d4⟩

/-- Witness for C33 (amended): the narrow robot. -/
theorem footprint_radius_after_init_witness :
    ∃ row0 row1 row2 : ℝ × ℝ,
      rowFootprint narrowModel narrowParameters narrowResult.bodyClearance
          narrowResult.maximumBodyHeight 0 = some row0
        ∧ rowFootprint narrowModel narrowParameters narrowResult.bodyClearance
          narrowResult.maximumBodyHeight 1 = some row1
        ∧ rowFootprint narrowModel narrowParameters narrowResult.bodyClearance
          narrowResult.maximumBodyHeight 2 = some row2
        ∧ (0 < row0.1 ∧ 0 < row1.1 ∧ 0 < row2.1)
        ∧ narrowResult.minFootprintRadius
          = min (min (10 ^ 10) (0.8 * min (min row0.1 row1.1) row2.1))
              (adjacentRowDistance narrowResult.identityTipPositions / 2)
        ∧ (0.8 * min (min row0.1 row1.1) row2.1 ≤ 10 ^ 10 →
            narrowResult.minFootprintRadius
              = min (0.8 * min (min row0.1 row1.1) row2.1)
                  (adjacentRowDistance narrowResult.identityTipPositions / 2))
        ∧ 0 ≤ narrowResult.minFootprintRadius
        ∧ ∀ s, s = 0 ∨ s = 1 →
            2 * narrowResult.minFootprintRadius
                ≤ horizontalDistance (narrowResult.identityTipPositions 0 s)
                    (narrowResult.identityTipPositions 1 s)
              ∧ 2 * narrowResult.minFootprintRadius
                ≤ horizontalDistance (narrowResult.identityTipPositions 1 s)
                    (narrowResult.identityTipPositions 2 s) :=
  footprint_radius_after_init narrowModel narrowParameters narrowResult narrow_initFootprint

/-- The footprint of each row of the very large robot: radius `8*10^10`, horizontal range
`28*10^10`. -/
theorem giant_rowFootprint (l : Nat) :
    rowFootprint giantModel narrowParameters (3 / 5) (10 ^ 11) l
      = some (8 * 10 ^ 10, 28 * 10 ^ 10) := by
  have hdrop : Real.arcsin ((3 / 5 : ℝ) * 10 ^ 11 / (3 * 10 ^ 11)) > -0 := by
    rw [neg_zero, gt_iff_lt, Real.arcsin_pos]
    positivity
  have hsin : Real.sin (-(0 : ℝ)) = 0 := by rw [neg_zero, Real.sin_zero]
  have hcos : Real.cos (-(0 : ℝ)) = 1 := by rw [neg_zero, Real.cos_zero]
  have hextra : (3 / 5 : ℝ) * 10 ^ 11 - 2 * 10 ^ 11 * 0 ≤ 10 ^ 11 := by norm_num
  have hrad : Real.sqrt (((10 : ℝ) ^ 11) ^ 2 - ((3 / 5 : ℝ) * 10 ^ 11 - 2 * 10 ^ 11 * 0) ^ 2)
      = 8 * 10 ^ 10 := by
    rw [show ((10 : ℝ) ^ 11) ^ 2 - ((3 / 5 : ℝ) * 10 ^ 11 - 2 * 10 ^ 11 * 0) ^ 2
      = (8 * 10 ^ 10) ^ 2 by norm_num]
    exact Real.sqrt_sq (by norm_num)
  have htan : Real.tan (0.5 * Real.pi - Real.pi / 4) = 1 := by
    rw [show (0.5 : ℝ) * Real.pi - Real.pi / 4 = Real.pi / 4 by norm_num; ring]
    exact Real.tan_pi_div_four
  have hsolve : (8 * 10 ^ 10 : ℝ)
      ≤ solveQuadratic (1 ^ 2) (2 * ((2 * 10 ^ 11 * 1 + 8 * 10 ^ 10) * 1))
          (-((2 * 10 ^ 11 * 1 + 8 * 10 ^ 10) * 1) ^ 2) := by
    have hquad : (72 * 10 ^ 10 : ℝ)
        ≤ Real.sqrt ((2 * ((2 * 10 ^ 11 * 1 + 8 * 10 ^ 10) * 1)) ^ 2
            - 4 * 1 ^ 2 * -((2 * 10 ^ 11 * 1 + 8 * 10 ^ 10) * 1) ^ 2) := by
      apply Real.le_sqrt_of_sq_le
      norm_num
    unfold solveQuadratic
    rw [le_div_iff₀ (by norm_num)]
    linarith
  have hclear : ¬ (max 0 ((3 / 5 : ℝ) - 0 * (1 / 10)) * 10 ^ 11 < 5 * 10 ^ 10) := by
    rw [max_eq_right (by norm_num)]
    norm_num
  simp only [rowFootprint, giantModel, narrowParameters, hdrop, if_true, hsin, hcos, hextra,
    hrad, htan]
  rw [min_eq_left hsolve, if_neg hclear, if_pos (by norm_num), if_pos (by norm_num)]
  norm_num

/-- The identity tip positions of the very large robot for a foot spread of `2*10^11` at body
height `(3/5)*10^11`: the feet are `10^10` to either side of the centre line. -/
theorem giant_identityTipPosition (l s : Nat) :
    identityTipPosition giantModel (0 + 28 * 10 ^ 10 - 8 * 10 ^ 10) (3 / 5) (10 ^ 11) l s
      = ⟨if s = 0 then -(10 ^ 10) else 10 ^ 10, 10 ^ 12 - 10 ^ 12 * (l : ℝ) + 2 * 10 ^ 11,
          -(6 * 10 ^ 10)⟩ := by
  unfold identityTipPosition giantModel
  ext
  · simp only [vector3d_add_x, vector3d_smul_x, Real.cos_pi_div_two]
    split_ifs <;> norm_num
  · simp only [vector3d_add_y, vector3d_smul_y, Real.sin_pi_div_two]
    norm_num
  · simp only [vector3d_add_z, vector3d_smul_z]
    norm_num

/-- The footprint part of `init` accepts the very large robot and computes `giantResult`. -/
theorem giant_initFootprint :
    initFootprint giantModel narrowParameters = some giantResult := by
  unfold giantResult
  have hknee : max (0 : ℝ) 0 = 0 := max_self 0
  have hatan : atan2 ((10 ^ 11 : ℝ) * Real.sin 0) (2 * 10 ^ 11 + 10 ^ 11 * Real.cos 0) = 0 := by
    rw [Real.sin_zero, Real.cos_zero, mul_zero]
    exact atan2_zero_pos _ (by norm_num)
  have hdrop : min (-(0 : ℝ)) (Real.pi / 2 - 0) = 0 := by
    rw [neg_zero, sub_zero, min_eq_left (by positivity)]
  have hclamp : clamped (Real.pi / 2 - 0) 0 2 = Real.pi / 2 := by
    unfold clamped
    rw [sub_zero, min_eq_left (by linarith [Real.pi_le_four]), max_eq_right (by positivity)]
  have hheight : (2 * 10 ^ 11 : ℝ) * Real.sin 0 + 10 ^ 11 * Real.sin (0 + Real.pi / 2)
      = 10 ^ 11 := by
    rw [zero_add, Real.sin_pi_div_two, Real.sin_zero]
    norm_num
  have hR : min (min (min ((10 : ℝ) ^ 10) (8 * 10 ^ 10 * 0.8)) (8 * 10 ^ 10 * 0.8))
      (8 * 10 ^ 10 * 0.8) = 10 ^ 10 := by
    have a : (10 : ℝ) ^ 10 ≤ 8 * 10 ^ 10 * 0.8 := by norm_num
    rw [min_eq_left a, min_eq_left a, min_eq_left a]
  have hids : (fun l s : Nat => identityTipPosition giantModel
      ((giantModel.legs l 0).hipLength + (28 * 10 ^ 10 : ℝ) - 8 * 10 ^ 10) (3 / 5) (10 ^ 11) l s)
      = fun l s => ⟨if s = 0 then -(10 ^ 10) else 10 ^ 10,
          10 ^ 12 - 10 ^ 12 * (l : ℝ) + 2 * 10 ^ 11, -(6 * 10 ^ 10)⟩ := by
    funext l s
    exact giant_identityTipPosition l s
  unfold initFootprint
  simp only [show (giantModel.legs 0 0).femurLength = 2 * 10 ^ 11 from rfl,
    show (giantModel.legs 0 0).tibiaLength = 10 ^ 11 from rfl,
    show (giantModel.legs 0 0).minLegLength = 5 * 10 ^ 10 from rfl,
    show giantModel.minMaxKneeBend = (0, 2) from rfl,
    show giantModel.minMaxHipLift = (0, Real.pi / 2) from rfl,
    show narrowParameters.stepClearance = 1 / 10 from rfl,
    show narrowParameters.bodyClearance = 3 / 5 from rfl,
    show narrowParameters.stepCurvatureAllowance = 0 from rfl,
    hknee, hatan, hdrop, hclamp, hheight]
  have c1 : (1 / 10 : ℝ) ≥ 0 ∧ (1 / 10 : ℝ) < 1 := by norm_num
  have c2 : (1 / 10 : ℝ) * 10 ^ 11 ≤ 2 * (2 * 10 ^ 11) := by norm_num
  have c3 : ¬ ((3 / 5 : ℝ) = -1) := by norm_num
  have c4 : (3 / 5 : ℝ) ≥ 0 ∧ (3 / 5 : ℝ) < 1 := by norm_num
  simp only [if_neg c3]
  rw [if_pos c1, if_pos c2, if_pos c4, giant_rowFootprint 0, giant_rowFootprint 1,
    giant_rowFootprint 2]
  have hstance := giant_identityTipPosition 1 0
  simp only [ite_self, hids, hR, show (giantModel.legs 1 0).hipLength = 0 from rfl, hstance,
    if_true]

theorem horizontalDistance_along_y (x y1 y2 z1 z2 d : ℝ) (hd : 0 ≤ d) (h : (y1 - y2) ^ 2 = d ^ 2) :
    horizontalDistance ⟨x, y1, z1⟩ ⟨x, y2, z2⟩ = d := by
  unfold horizontalDistance Vector3d.norm
  simp only [vector3d_sub_x, vector3d_sub_y]
  rw [show (x - x) ^ 2 + (y1 - y2) ^ 2 + (0 : ℝ) ^ 2 = d ^ 2 by rw [h]; ring]
  exact Real.sqrt_sq hd

/-- The identity tip position of leg `[l][s]` of the very large robot. -/
theorem giantResult_tip (l s : Nat) :
    giantResult.identityTipPositions l s
      = ⟨if s = 0 then -(10 ^ 10) else 10 ^ 10, 10 ^ 12 - 10 ^ 12 * (l : ℝ) + 2 * 10 ^ 11,
          -(6 * 10 ^ 10)⟩ := rfl

/-- Adjacent rows of the very large robot are `10^12` apart. -/
theorem giantResult_distance : adjacentRowDistance giantResult.identityTipPositions = 10 ^ 12 := by
  unfold adjacentRowDistance
  simp only [giantResult_tip]
  rw [horizontalDistance_along_y _ _ _ _ _ (10 ^ 12) (by positivity) (by norm_num),
    horizontalDistance_along_y _ _ _ _ _ (10 ^ 12) (by positivity) (by norm_num),
    horizontalDistance_along_y _ _ _ _ _ (10 ^ 12) (by positivity) (by norm_num),
    horizontalDistance_along_y _ _ _ _ _ (10 ^ 12) (by positivity) (by norm_num)]
  simp

/-- The radius that `init` leaves for the very large robot is the initial value `10^10` of the
minimum. -/
theorem giantResult_radius : giantResult.minFootprintRadius = 10 ^ 10 := by
  show overlapCheck giantResult.identityTipPositions (10 ^ 10) = 10 ^ 10
  rw [overlapCheck_eq, giantResult_distance]
  norm_num

/-- C33 as stated fails: `init` accepts the very large robot (`setGaitParams` accepts the tripod
gait, and no `ASSERT` of the footprint part fails), every row has the inscribed radius `8*10^10`, so `R = 0.8*(8*10^10) = 6.4*10^10`, and
adjacent rows are `D = 10^12` apart; `minFootprintRadius` is `10^10`, the value that the minimum
over the rows starts from, and not `min(R, D/2) = 6.4*10^10`. -/
theorem very_large_footprint_is_capped :
    initFootprint giantModel narrowParameters = some giantResult
      ∧ setGaitParams tripodParameters (1 / 8) = some ⟨⟨8, 2, 2, 6, 6⟩, 1, [0, 4, 4, 0, 0, 4]⟩
      ∧ (∀ l, rowFootprint giantModel narrowParameters giantResult.bodyClearance
          giantResult.maximumBodyHeight l = some (8 * 10 ^ 10, 28 * 10 ^ 10))
      ∧ adjacentRowDistance giantResult.identityTipPositions = 10 ^ 12
      ∧ giantResult.minFootprintRadius = 10 ^ 10
      ∧ min (0.8 * min (min (8 * 10 ^ 10 : ℝ) (8 * 10 ^ 10)) (8 * 10 ^ 10))
          (adjacentRowDistance giantResult.identityTipPositions / 2) = 64 * 10 ^ 9
      ∧ giantResult.minFootprintRadius
          ≠ min (0.8 * min (min (8 * 10 ^ 10 : ℝ) (8 * 10 ^ 10)) (8 * 10 ^ 10))
              (adjacentRowDistance giantResult.identityTipPositions / 2) := by
  have hmin : min (0.8 * min (min (8 * 10 ^ 10 : ℝ) (8 * 10 ^ 10)) (8 * 10 ^ 10))
      (adjacentRowDistance giantResult.identityTipPositions / 2) = 64 * 10 ^ 9 := by
    rw [giantResult_distance, min_self, min_self, min_eq_left (by norm_num)]
    norm_num
  refine ⟨giant_initFootprint, tripod_setGaitParams, giant_rowFootprint, giantResult_distance,
    giantResult_radius, hmin, ?_⟩
  rw [hmin, giantResult_radius]
  norm_num

/-! ## C31: one leg over one tick -/

/-- The leg state machine leaves a leg in SWING only from a state that is not forced and a phase
in the swing band. -/
theorem legStateMachine_swing (g : GaitTiming) (x : LegStepper)
    (h : (legStateMachine g x).state = StepState.SWING) :
    x.state ≠ StepState.FORCE_STANCE ∧ x.state ≠ StepState.FORCE_STOP
      ∧ g.swingStart ≤ x.phase ∧ x.phase < g.swingEnd := by
  unfold legStateMachine at h
  split_ifs at h with h1 h2 h3 h4 h5 h6
  all_goals first
    | exact ⟨h1, h2, h4.1, h4.2⟩
    | omega

/-- The leg state machine never leaves a leg in FORCE_STANCE. -/
theorem legStateMachine_not_forceStance (g : GaitTiming) (x : LegStepper) :
    (legStateMachine g x).state ≠ StepState.FORCE_STANCE := by
  unfold legStateMachine
  split_ifs with h1 h2 h3 h4 h5 h6
  all_goals first
    | exact h1
    | simp

/-- The leg state machine on a phase in the swing band. -/
theorem legStateMachine_band (g : GaitTiming) (x : LegStepper)
    (hband : g.swingStart ≤ x.phase ∧ x.phase < g.swingEnd) :
    (legStateMachine g x).state
      = if x.state = StepState.FORCE_STANCE then StepState.STANCE
        else if x.state = StepState.FORCE_STOP then StepState.FORCE_STOP
        else StepState.SWING := by
  unfold legStateMachine
  split_ifs <;> first | rfl | omega

/-- The step state that an iteration of the STARTING loop leaves: FORCE_STANCE for a leg that is
not in correct phase, whose offset lies in the swing band and whose phase is not `swingEnd`; the
state it had otherwise. -/
theorem starting_leg_state (g : GaitTiming) (fl b : Bool) (c : Counters) (leg : LegStepper) :
    (legPhaseUpdate g WalkState.STARTING fl b c leg).2.state
      = if leg.inCorrectPhase = false
            ∧ (g.swingStart ≤ leg.phaseOffset ∧ leg.phaseOffset < g.swingEnd)
            ∧ leg.phase ≠ g.swingEnd then StepState.FORCE_STANCE
        else leg.state := by
  simp only [legPhaseUpdate, startingCompletion, startingAdmission]
  split_ifs <;> simp_all

theorem starting_leg_offset (g : GaitTiming) (fl b : Bool) (c : Counters) (leg : LegStepper) :
    (legPhaseUpdate g WalkState.STARTING fl b c leg).2.phaseOffset = leg.phaseOffset := by
  simp only [legPhaseUpdate, startingCompletion, startingAdmission]
  split_ifs <;> rfl

/-- What an iteration of the STOPPING loop leaves of a leg: a leg in correct phase keeps its
phase, and its state unless it is forced to stop; a leg that is not in correct phase is either
admitted on this iteration (forced to stop, or at phase 0) or advances by one with its state kept
or forced to stop. -/
theorem stopping_leg_cases (g : GaitTiming) (fl b : Bool) (c : Counters) (leg : LegStepper) :
    ((legPhaseUpdate g WalkState.STOPPING fl b c leg).2.state = StepState.FORCE_STOP
        ∧ ((legPhaseUpdate g WalkState.STOPPING fl b c leg).2.inCorrectPhase = true →
            leg.inCorrectPhase = true ∨ fl = false))
      ∨ ((legPhaseUpdate g WalkState.STOPPING fl b c leg).2.phase = 0
          ∧ (legPhaseUpdate g WalkState.STOPPING fl b c leg).2.inCorrectPhase = true
          ∧ leg.inCorrectPhase = false)
      ∨ ((legPhaseUpdate g WalkState.STOPPING fl b c leg).2.state = leg.state
          ∧ (legPhaseUpdate g WalkState.STOPPING fl b c leg).2.inCorrectPhase = leg.inCorrectPhase
          ∧ (legPhaseUpdate g WalkState.STOPPING fl b c leg).2.phase
            = if leg.inCorrectPhase = true then leg.phase
              else Int.tmod (leg.phase + 1) g.phaseLength) := by
  obtain ⟨p, o, s, f, d⟩ := leg
  cases f <;> cases fl <;> cases b <;>
    simp only [legPhaseUpdate, stoppingForceStop, stoppingAdvance] <;>
    split_ifs <;> simp_all

/-- A phase that has advanced into the swing band, but not onto `swingStart`, comes from the phase
before it in the band, without wrapping round. -/
theorem band_pred (g : GaitTiming) (hs0 : 0 ≤ g.swingStart) (p : Int)
    (hp : 0 ≤ p ∧ p < g.phaseLength)
    (h1 : g.swingStart ≤ Int.tmod (p + 1) g.phaseLength)
    (h2 : Int.tmod (p + 1) g.phaseLength < g.swingEnd)
    (hne : Int.tmod (p + 1) g.phaseLength ≠ g.swingStart) :
    Int.tmod (p + 1) g.phaseLength = p + 1 ∧ g.swingStart ≤ p ∧ p < g.swingEnd := by
  rw [tmod_succ_eq hp.1 hp.2] at h1 h2 hne ⊢
  split_ifs at h1 h2 hne ⊢ <;> omega

/-- One leg over one tick: if the tick leaves the leg in SWING at a phase other than `swingStart`,
the leg was in SWING before the tick, one phase earlier. `st` is the walk state before the tick
and `st1` the walk state after its transition step. -/
theorem swing_leg_step (g : GaitTiming) (hs0 : 0 ≤ g.swingStart)
    (st st1 : WalkState) (fl sz : Bool) (c : Counters) (leg : LegStepper)
    (htr : st1 = st ∨ st1 = st.next)
    (hrange : 0 ≤ leg.phase ∧ leg.phase < g.phaseLength)
    (hoff : 0 ≤ leg.phaseOffset ∧ leg.phaseOffset < g.phaseLength)
    (hclear : st = WalkState.MOVING ∨ st = WalkState.STOPPED → leg.inCorrectPhase = false)
    (hgo : st = WalkState.STARTING → st1 = WalkState.MOVING → leg.inCorrectPhase = true)
    (hinv : SwingLegInv g st leg)
    (hswing : (legStateMachine g
      (legPhaseUpdate g st1 fl sz c (seededLeg st st1 leg)).2).state = StepState.SWING)
    (hne : (legStateMachine g
      (legPhaseUpdate g st1 fl sz c (seededLeg st st1 leg)).2).phase ≠ g.swingStart) :
    leg.state = StepState.SWING
      ∧ (legStateMachine g (legPhaseUpdate g st1 fl sz c (seededLeg st st1 leg)).2).phase
        = leg.phase + 1 := by
  obtain ⟨hx1, hx2, hb1, hb2⟩ := legStateMachine_swing g _ hswing
  rw [legStateMachine_phase] at hne ⊢
  obtain ⟨_, hi2, hi3⟩ := hinv
  -- the loop in MOVING
  have hmoving : st ≠ WalkState.STOPPED → st1 = WalkState.MOVING →
      leg.state = StepState.SWING
        ∧ (legPhaseUpdate g st1 fl sz c (seededLeg st st1 leg)).2.phase = leg.phase + 1 := by
    intro hst h1
    subst h1
    have hseed : seededLeg st WalkState.MOVING leg = leg := by simp [seededLeg]
    rw [hseed] at hx1 hx2 hb1 hb2 hne ⊢
    change g.swingStart ≤ Int.tmod (leg.phase + 1) g.phaseLength at hb1
    change Int.tmod (leg.phase + 1) g.phaseLength < g.swingEnd at hb2
    change Int.tmod (leg.phase + 1) g.phaseLength ≠ g.swingStart at hne
    change leg.state ≠ StepState.FORCE_STOP at hx2
    obtain ⟨e, b1, b2⟩ := band_pred g hs0 leg.phase hrange hb1 hb2 hne
    refine ⟨?_, e⟩
    rcases hi2 hst ⟨b1, b2⟩ with h | h | h
    · exact h
    · exact absurd h hx2
    · have := hgo h.1 rfl
      rw [h.2.1] at this
      exact absurd this (by decide)
  -- the loop in STOPPED
  have hstopped : st1 = WalkState.STOPPED → False := by
    intro h1
    subst h1
    change g.swingStart ≤ (0 : Int) at hb1
    change (0 : Int) ≠ g.swingStart at hne
    omega
  -- the loop in STOPPING
  have hstopping : st ≠ WalkState.STOPPED → st ≠ WalkState.STARTING →
      st1 = WalkState.STOPPING →
      leg.state = StepState.SWING
        ∧ (legPhaseUpdate g st1 fl sz c (seededLeg st st1 leg)).2.phase = leg.phase + 1 := by
    intro hst hst2 h1
    subst h1
    have hseed : seededLeg st WalkState.STOPPING leg = leg := by simp [seededLeg]
    rw [hseed] at hx1 hx2 hb1 hb2 hne ⊢
    rcases stopping_leg_cases g fl sz c leg with h | h | h
    · exact absurd h.1 hx2
    · rw [h.1] at hb1 hne
      omega
    · rw [h.1] at hx2
      rw [h.2.2] at hb1 hb2 hne ⊢
      by_cases hf : leg.inCorrectPhase = true
      · rw [if_pos hf] at hb1 hb2 hne
        have hs : st = WalkState.STOPPING := by
          cases st
          · exact absurd rfl hst2
          · have := hclear (Or.inl rfl)
            rw [hf] at this
            exact absurd this (by decide)
          · rfl
          · exact absurd rfl hst
        rcases hi3 hs hf with h3 | h3
        · exact absurd h3 hx2
        · omega
      · rw [if_neg hf] at hb1 hb2 hne ⊢
        obtain ⟨e, b1, b2⟩ := band_pred g hs0 leg.phase hrange hb1 hb2 hne
        refine ⟨?_, e⟩
        rcases hi2 hst ⟨b1, b2⟩ with h | h | h
        · exact h
        · exact absurd h hx2
        · exact absurd h.1 hst2
  -- the loop in STARTING
  have hstarting : st1 = WalkState.STARTING →
      (st = WalkState.STOPPED ∨ st = WalkState.STARTING) →
      leg.state = StepState.SWING
        ∧ (legPhaseUpdate g st1 fl sz c (seededLeg st st1 leg)).2.phase = leg.phase + 1 := by
    intro h1 hst
    subst h1
    rw [starting_leg_phase] at hb1 hb2 hne ⊢
    rw [starting_leg_state] at hx1 hx2
    rcases hst with hst | hst
    · subst hst
      have hseed : seededLeg WalkState.STOPPED WalkState.STARTING leg
          = { leg with phase := leg.phaseOffset } := by simp [seededLeg]
      rw [hseed] at hx1 hx2 hb1 hb2 hne ⊢
      simp only at hx1 hb1 hb2 hne
      obtain ⟨_, b1, b2⟩ := band_pred g hs0 leg.phaseOffset hoff hb1 hb2 hne
      have hf := hclear (Or.inr rfl)
      rw [if_pos ⟨hf, ⟨b1, b2⟩, by omega⟩] at hx1
      exact absurd rfl hx1
    · subst hst
      have hseed : seededLeg WalkState.STARTING WalkState.STARTING leg = leg := by
        simp [seededLeg]
      rw [hseed] at hx1 hx2 hb1 hb2 hne ⊢
      obtain ⟨e, b1, b2⟩ := band_pred g hs0 leg.phase hrange hb1 hb2 hne
      have hnf : ¬ (leg.inCorrectPhase = false
          ∧ (g.swingStart ≤ leg.phaseOffset ∧ leg.phaseOffset < g.swingEnd)
          ∧ leg.phase ≠ g.swingEnd) := by
        intro hcon
        rw [if_pos hcon] at hx1
        exact absurd rfl hx1
      rw [if_neg hnf] at hx2
      refine ⟨?_, e⟩
      rcases hi2 (by decide) ⟨b1, b2⟩ with h | h | h
      · exact h
      · exact absurd h hx2
      · exact absurd ⟨h.2.1, h.2.2, by omega⟩ hnf
  rcases htr with h | h
  · subst h
    cases st1
    · exact hstarting rfl (Or.inr rfl)
    · exact hmoving (by decide) rfl
    · exact hstopping (by decide) (by decide) rfl
    · exact absurd rfl hstopped
  · cases st
    · exact hmoving (by decide) h
    · exact hstopping (by decide) (by decide) h
    · exact absurd h hstopped
    · exact hstarting h (Or.inl rfl)

theorem stopping_leg_not_forceStance (g : GaitTiming) (fl b : Bool) (c : Counters)
    (leg : LegStepper) (h : leg.state ≠ StepState.FORCE_STANCE) :
    (legPhaseUpdate g WalkState.STOPPING fl b c leg).2.state ≠ StepState.FORCE_STANCE := by
  obtain ⟨p, o, s, f, d⟩ := leg
  simp only at h
  cases f <;> cases fl <;> cases b <;>
    simp only [legPhaseUpdate, stoppingForceStop, stoppingAdvance] <;>
    split_ifs <;> simp_all

theorem seededLeg_members (st st1 : WalkState) (leg : LegStepper) :
    (seededLeg st st1 leg).state = leg.state
      ∧ (seededLeg st st1 leg).phaseOffset = leg.phaseOffset
      ∧ (seededLeg st st1 leg).inCorrectPhase = leg.inCorrectPhase := by
  unfold seededLeg
  split_ifs <;> exact ⟨rfl, rfl, rfl⟩

/-- One leg over one tick: the invariant of the legs in the swing band is kept. -/
theorem swingLegInv_step (g : GaitTiming) (st st1 : WalkState) (fl sz : Bool) (c : Counters)
    (leg : LegStepper) (htr : st1 = st ∨ st1 = st.next)
    (hclear : st = WalkState.MOVING ∨ st = WalkState.STOPPED → leg.inCorrectPhase = false)
    (hinv : SwingLegInv g st leg) :
    SwingLegInv g st1
      (legStateMachine g (legPhaseUpdate g st1 fl sz c (seededLeg st st1 leg)).2) := by
  obtain ⟨hi1, _, hi3⟩ := hinv
  obtain ⟨hs1, hs2, hs3⟩ := seededLeg_members st st1 leg
  refine ⟨legStateMachine_not_forceStance g _, ?_, ?_⟩
  · intro hst hband
    rw [legStateMachine_phase] at hband
    rw [legStateMachine_band g _ hband, legStateMachine_inCorrectPhase]
    by_cases hfs : (legPhaseUpdate g st1 fl sz c (seededLeg st st1 leg)).2.state
        = StepState.FORCE_STANCE
    · right
      right
      cases st1
      · rw [starting_leg_state, hs1] at hfs
        split_ifs at hfs with hcond
        · refine ⟨rfl, ?_, ?_⟩
          · cases hflag : (legPhaseUpdate g WalkState.STARTING fl sz c
                (seededLeg st WalkState.STARTING leg)).2.inCorrectPhase
            · rfl
            · rw [starting_leg_flag_iff] at hflag
              rcases hflag with h | h | h
              · rw [hcond.1] at h
                exact absurd h (by decide)
              · exact absurd hcond.2.1 h
              · exact absurd h hcond.2.2
          · rw [legStateMachine_phaseOffset, starting_leg_offset]
            exact hcond.2.1
        · exact absurd hfs hi1
      · change (seededLeg st WalkState.MOVING leg).state = StepState.FORCE_STANCE at hfs
        rw [hs1] at hfs
        exact absurd hfs hi1
      · exact absurd hfs (stopping_leg_not_forceStance g fl sz c _ (by rw [hs1]; exact hi1))
      · exact absurd rfl hst
    · rw [if_neg hfs]
      split_ifs
      · exact Or.inr (Or.inl rfl)
      · exact Or.inl rfl
  · intro hst hflag
    subst hst
    rw [legStateMachine_inCorrectPhase] at hflag
    rw [legStateMachine_phase, legStateMachine_forceStop_iff]
    have hseed : seededLeg st WalkState.STOPPING leg = leg := by simp [seededLeg]
    rw [hseed] at hflag ⊢
    rcases stopping_leg_cases g fl sz c leg with h | h | h
    · exact Or.inl h.1
    · exact Or.inr h.1
    · rw [h.2.1] at hflag
      rw [h.1, h.2.2, if_pos hflag]
      have hs : st = WalkState.STOPPING := by
        rcases htr with h1 | h1
        · exact h1.symm
        · cases st
          · exact absurd h1 (by decide)
          · have := hclear (Or.inl rfl)
            rw [hflag] at this
            exact absurd this (by decide)
          · rfl
          · exact absurd h1 (by decide)
      exact hi3 hs hflag

/-! ## C31: the legs of the walk controller over one tick -/

theorem walkTransition_legs_seeded (b : Bool) (w : WalkController) :
    (walkTransition b w).legSteppers
      = w.legSteppers.map (seededLeg w.state (walkTransition b w).state) := by
  have hid : ∀ st1, ¬ (w.state = WalkState.STOPPED ∧ st1 = WalkState.STARTING) →
      w.legSteppers.map (seededLeg w.state st1) = w.legSteppers := by
    intro st1 hno
    have : seededLeg w.state st1 = id := by
      funext leg
      unfold seededLeg
      rw [if_neg hno]
      rfl
    rw [this, List.map_id]
  unfold walkTransition
  split_ifs with h1 h2 h3 h4
  · simp only [h1.1]
    congr 1
  · exact (hid _ (fun h => by rw [h2.1] at h; exact absurd h.1 (by decide))).symm
  · exact (hid _ (fun h => by rw [h3.1] at h; exact absurd h.1 (by decide))).symm
  · exact (hid _ (fun h => by rw [h4.1] at h; exact absurd h.1 (by decide))).symm
  · exact (hid _ (fun h => by rw [h.1] at h; exact absurd h.2 (by decide))).symm

theorem walkTransition_next (b : Bool) (w : WalkController) :
    (walkTransition b w).state = w.state ∨ (walkTransition b w).state = w.state.next := by
  unfold walkTransition
  split_ifs with h1 h2 h3 h4
  · right
    simp only [h1.1, WalkState.next]
  · right
    simp only [h2.1, WalkState.next]
  · right
    simp only [h3.1, WalkState.next]
  · right
    simp only [h4.1, WalkState.next]
  · left
    rfl

/-- The leg with index `k` after a tick: the leg state machine applied to the result of the loop
body on the leg as the transition step leaves it. -/
theorem tick_get (g : GaitTiming) (b : Bool) (sz : Nat → Bool) (w : WalkController)
    (k : Nat) (leg : LegStepper) (hk : w.legSteppers[k]? = some leg) :
    ∃ c1, (updateWalkCore g b sz w).legSteppers[k]?
      = some (legStateMachine g
          (legPhaseUpdate g (walkTransition b w).state (decide (0 + k = 0)) (sz (0 + k)) c1
            (seededLeg w.state (walkTransition b w).state leg)).2) := by
  have hk1 : (walkTransition b w).legSteppers[k]?
      = some (seededLeg w.state (walkTransition b w).state leg) := by
    rw [walkTransition_legs_seeded, List.getElem?_map, hk]
    rfl
  obtain ⟨c1, _, hget⟩ := robotStateMachine_get g (walkTransition b w).state sz
    (fun _ => True) (fun _ => True) (fun _ _ _ _ _ _ => trivial)
    (walkTransition b w).legSteppers 0
    ⟨(walkTransition b w).legsInCorrectPhase, (walkTransition b w).legsCompletedFirstStep⟩ trivial
    (fun _ _ => trivial) k _ hk1
  refine ⟨c1, ?_⟩
  show ((robotStateMachine g (walkTransition b w).state sz 0
      ⟨(walkTransition b w).legsInCorrectPhase, (walkTransition b w).legsCompletedFirstStep⟩
      (walkTransition b w).legSteppers).2.map (legStateMachine g))[k]? = _
  rw [List.getElem?_map, hget]
  rfl

theorem updateWalkCore_length (g : GaitTiming) (b : Bool) (sz : Nat → Bool)
    (w : WalkController) :
    (updateWalkCore g b sz w).legSteppers.length = w.legSteppers.length := by
  show ((robotStateMachine g (walkTransition b w).state sz 0
      ⟨(walkTransition b w).legsInCorrectPhase, (walkTransition b w).legsCompletedFirstStep⟩
      (walkTransition b w).legSteppers).2.map (legStateMachine g)).length = _
  rw [List.length_map, robotStateMachine_length, walkTransition_legs_seeded, List.length_map]

/-- When the walk state goes from STARTING to MOVING every leg is in correct phase. -/
theorem walkTransition_go_flags (g : GaitTiming) (b : Bool) (w : WalkController)
    (h : Consistent g w) (hs : w.state = WalkState.STARTING)
    (hgo : (walkTransition b w).state = WalkState.MOVING) :
    ∀ leg ∈ w.legSteppers, leg.inCorrectPhase = true := by
  obtain ⟨hlen, hcount, _, _⟩ := h
  have h6 : w.legsInCorrectPhase = 6 := by
    by_contra hne
    rw [walkTransition_starting_stay b w hs (fun hcon => hne hcon.1), hs] at hgo
    exact absurd hgo (by decide)
  apply (flagCount_eq_length_iff w.legSteppers).mp
  rw [← hcount, h6, hlen]
  rfl

/-- The invariant of the legs in the swing band is kept by every tick. -/
theorem updateWalkCore_swingInv (g : GaitTiming) (hg : g.Cyclic) (b : Bool)
    (sz : Nat → Bool) (w : WalkController) (h : SwingInv g w) :
    SwingInv g (updateWalkCore g b sz w) := by
  obtain ⟨hcons, hlegs⟩ := h
  refine ⟨updateWalkCore_consistent g hg b sz w hcons, ?_⟩
  intro leg1 hmem
  obtain ⟨k, hklt, hkget⟩ := List.getElem_of_mem hmem
  have hk1 : (updateWalkCore g b sz w).legSteppers[k]? = some leg1 := by
    rw [List.getElem?_eq_getElem hklt, hkget]
  have hkw : k < w.legSteppers.length := by
    rw [← updateWalkCore_length g b sz w]
    exact hklt
  have hk0 : w.legSteppers[k]? = some w.legSteppers[k] := List.getElem?_eq_getElem hkw
  obtain ⟨c1, hget⟩ := tick_get g b sz w k _ hk0
  rw [hk1] at hget
  rw [Option.some.inj hget]
  have hm : w.legSteppers[k] ∈ w.legSteppers := List.getElem_mem _
  exact swingLegInv_step g w.state (walkTransition b w).state _ _ c1 _
    (walkTransition_next b w) (fun hs => hcons.2.2.1 hs _ hm) (hlegs _ hm)

/-- One tick: a leg that the tick leaves in SWING at a phase other than `swingStart` was in SWING
before the tick, one phase earlier. -/
theorem swing_tick_pred (g : GaitTiming) (hs0 : 0 ≤ g.swingStart) (b : Bool)
    (sz : Nat → Bool) (w : WalkController) (h : SwingInv g w) (k : Nat) (leg1 : LegStepper)
    (hk1 : (updateWalkCore g b sz w).legSteppers[k]? = some leg1)
    (hswing : leg1.state = StepState.SWING) (hne : leg1.phase ≠ g.swingStart) :
    ∃ leg, w.legSteppers[k]? = some leg ∧ leg.state = StepState.SWING
      ∧ leg1.phase = leg.phase + 1 := by
  obtain ⟨hcons, hlegs⟩ := h
  have hkw : k < w.legSteppers.length := by
    rw [← updateWalkCore_length g b sz w]
    by_contra hcon
    rw [List.getElem?_eq_none (by omega)] at hk1
    exact Option.noConfusion hk1
  have hk0 : w.legSteppers[k]? = some w.legSteppers[k] := List.getElem?_eq_getElem hkw
  obtain ⟨c1, hget⟩ := tick_get g b sz w k _ hk0
  rw [hk1] at hget
  have heq := Option.some.inj hget
  have hm : w.legSteppers[k] ∈ w.legSteppers := List.getElem_mem _
  rw [heq] at hswing hne
  obtain ⟨r1, r2⟩ := swing_leg_step g hs0 w.state (walkTransition b w).state _ _ c1
    w.legSteppers[k] (walkTransition_next b w) (hcons.2.2.2 _ hm).1 (hcons.2.2.2 _ hm).2
    (fun hs => hcons.2.2.1 hs _ hm)
    (fun hs hgo => walkTransition_go_flags g b w hcons hs hgo _ hm)
    (hlegs _ hm) hswing hne
  exact ⟨_, hk0, r1, by rw [heq]; exact r2⟩

/-! ## C31: the swing of a leg over a run -/

theorem initController_get (offs : List Int) (i : Nat) (leg : LegStepper)
    (h : (initController offs).legSteppers[i]? = some leg) :
    leg.state = StepState.STANCE := by
  have hm := List.getElem?_mem h
  simp only [initController, List.mem_map] at hm
  obtain ⟨off, _, rfl⟩ := hm
  rfl

theorem initController_swingInv (g : GaitTiming) (hg : g.Cyclic) (offs : List Int)
    (hlen : offs.length = 6) (hoffs : ∀ off ∈ offs, 0 ≤ off ∧ off < g.phaseLength) :
    SwingInv g (initController offs) := by
  refine ⟨initController_consistent g hg offs hlen hoffs, ?_⟩
  intro leg hleg
  simp only [initController, List.mem_map] at hleg
  obtain ⟨off, _, rfl⟩ := hleg
  refine ⟨fun h => StepState.noConfusion h, fun h => absurd rfl h, fun h => ?_⟩
  exact WalkState.noConfusion (h : WalkState.STOPPED = WalkState.STOPPING)

theorem runCore_swingInv (g : GaitTiming) (hg : g.Cyclic) (offs : List Int)
    (hlen : offs.length = 6) (hoffs : ∀ off ∈ offs, 0 ≤ off ∧ off < g.phaseLength)
    (inp : Nat → TickInput) (n : Nat) : SwingInv g (runCore g inp n (initController offs)) := by
  induction n with
  | zero => exact initController_swingInv g hg offs hlen hoffs
  | succ n ih => exact updateWalkCore_swingInv g hg _ _ _ ih

/-- A leg that is in SWING after `n` ticks has been in SWING on each of the ticks since its phase
was `swingStart`, its phase going up by one per tick. -/
theorem swing_trace (g : GaitTiming) (hg : g.Cyclic) (hs0 : 0 ≤ g.swingStart) (offs : List Int)
    (hlen : offs.length = 6) (hoffs : ∀ off ∈ offs, 0 ≤ off ∧ off < g.phaseLength)
    (inp : Nat → TickInput) (i n : Nat) (leg : LegStepper)
    (hleg : (runCore g inp n (initController offs)).legSteppers[i]? = some leg)
    (hswing : leg.state = StepState.SWING) :
    ∀ j : Nat, (j : Int) ≤ leg.phase - g.swingStart →
      j + 1 ≤ n ∧ ∃ legj, (runCore g inp (n - j) (initController offs)).legSteppers[i]? = some legj
        ∧ legj.state = StepState.SWING ∧ legj.phase = leg.phase - j := by
  intro j
  induction j with
  | zero =>
    intro _
    refine ⟨?_, leg, hleg, hswing, by simp⟩
    rcases Nat.eq_zero_or_pos n with h0 | h0
    · subst h0
      have := initController_get offs i leg hleg
      rw [hswing] at this
      exact absurd this (by decide)
    · exact h0
  | succ j ih =>
    intro hj
    obtain ⟨hjn, legj, hget, hsw, hph⟩ := ih (by push_cast at hj; omega)
    obtain ⟨m, hm⟩ : ∃ m, n - j = m + 1 := ⟨n - j - 1, by omega⟩
    rw [hm] at hget
    have hne : legj.phase ≠ g.swingStart := by
      push_cast at hj
      omega
    obtain ⟨leg1, hget1, hsw1, hph1⟩ := swing_tick_pred g hs0 _ _ _
      (runCore_swingInv g hg offs hlen hoffs inp m) i legj hget hsw hne
    have hm1 : 1 ≤ m := by
      rcases Nat.eq_zero_or_pos m with h0 | h0
      · subst h0
        have := initController_get offs i leg1 hget1
        rw [hsw1] at this
        exact absurd this (by decide)
      · exact h0
    refine ⟨by omega, leg1, ?_, hsw1, ?_⟩
    · rw [show n - (j + 1) = m by omega]
      exact hget1
    · push_cast
      omega

/-! ## C31: the origin of a swing -/

/-- `updateSwingPos` assigns `originTipPosition` only when `phase == swingStart` (iteration 1),
and then it assigns `*pos`. -/
theorem updateSwingPos_origin {K : Type} [LinearOrderedField K] [FloorRing K]
    (walker : WalkerMembers K) (overread : K) (leg : TipStepper K) (pos : Vector3d K) :
    (updateSwingPos walker overread leg pos).1.originTipPosition
      = if leg.phase = walker.timing.swingStart then pos else leg.originTipPosition := by
  unfold updateSwingPos
  simp only []
  by_cases h : leg.phase = walker.timing.swingStart
  · rw [if_pos h, if_pos (by omega)]
  · rw [if_neg h, if_neg (by omega)]

theorem updatePosition_origin {K : Type} [LinearOrderedField K] [FloorRing K]
    (walker : WalkerMembers K) (overread : K) (t : TipStepper K) :
    (updatePosition walker overread t).originTipPosition
      = if t.state = StepState.SWING ∧ t.phase = walker.timing.swingStart then
          t.currentTipPosition
        else t.originTipPosition := by
  unfold updatePosition
  by_cases hs : t.state = StepState.SWING
  · rw [if_pos hs]
    simp only [updateSwingPos_origin, hs, true_and]
  · have hno : ¬ (t.state = StepState.SWING ∧ t.phase = walker.timing.swingStart) :=
      fun h => hs h.1
    rw [if_neg hs, if_neg hno]
    split_ifs <;> rfl

/-- The origin after the tip update of a leg on one tick: the current tip position as revised on
this tick when the leg is WALKING and in SWING at `phase == swingStart`, the origin it had
otherwise. -/
theorem tipTick_origin {K : Type} [LinearOrderedField K] [FloorRing K]
    (tin : TipInput K) (discrete : LegStepper) (t : TipStepper K) :
    (tipTick tin discrete t).originTipPosition
      = if tin.leg.state = LegState.WALKING ∧ discrete.state = StepState.SWING
            ∧ discrete.phase = tin.walker.timing.swingStart then
          (reviseTipPositions tin.leg.stanceTipPosition t).currentTipPosition
        else t.originTipPosition := by
  unfold tipTick updateTip
  by_cases hw : tin.leg.state = LegState.WALKING
  · rw [if_pos hw]
    simp only [updatePosition_origin, hw, true_and]
    rfl
  · rw [if_neg hw, if_neg (fun h => hw h.1)]

/-- A leg that a tick leaves in SWING has its phase in the swing band. -/
theorem updateWalkCore_swing_band (g : GaitTiming) (b : Bool) (sz : Nat → Bool)
    (w : WalkController) (i : Nat) (leg : LegStepper)
    (hleg : (updateWalkCore g b sz w).legSteppers[i]? = some leg)
    (hswing : leg.state = StepState.SWING) :
    g.swingStart ≤ leg.phase ∧ leg.phase < g.swingEnd := by
  have hmem := List.getElem?_mem hleg
  have hlegs : (updateWalkCore g b sz w).legSteppers
      = (robotStateMachine g (walkTransition b w).state sz 0
          ⟨(walkTransition b w).legsInCorrectPhase,
            (walkTransition b w).legsCompletedFirstStep⟩
          (walkTransition b w).legSteppers).2.map (legStateMachine g) := rfl
  rw [hlegs, List.mem_map] at hmem
  obtain ⟨x, _, rfl⟩ := hmem
  have h4 := legStateMachine_swing g x hswing
  rw [legStateMachine_phase]
  exact h4.2.2

theorem runTip_succ {K : Type} [LinearOrderedField K] [FloorRing K]
    (g : GaitTiming) (inp : Nat → TickInput) (w0 : WalkController) (i : Nat)
    (tin : Nat → TipInput K) (n : Nat) (t0 : TipStepper K) (discrete : LegStepper)
    (h : (runCore g inp (n + 1) w0).legSteppers[i]? = some discrete) :
    runTip g inp w0 i tin (n + 1) t0 = tipTick (tin n) discrete (runTip g inp w0 i tin n t0) := by
  simp only [runTip, h]

/-- C31 (amended): let the timing have `0 < phaseLength`, `0 <= swingStart` and
`0 <= swingEnd < phaseLength`, and run any number of ticks from the initial state (six legs with
offsets inside the cycle) with any inputs. `updateSwingPos` assigns `originTipPosition` only when
`phase == swingStart`, and then assigns `*pos`. If leg `i` ends a tick in SWING with phase `p`,
then the iteration index `p - swingStart + 1` lies in `1..(swingEnd - swingStart)`; the leg ended
each of the `k = p - swingStart` ticks before it in SWING as well, its phase going up by one per
tick from `swingStart`; and if the leg was WALKING on the tick that started the swing, the origin
after this tick, the one that `updateSwingPos` uses, is the current tip position (as revised from
the stance tip position) with which the tip update of that tick began. -/
theorem swing_origin_is_tip_at_swing_start {K : Type} [LinearOrderedField K] [FloorRing K]
    (g : GaitTiming) (hg : g.Cyclic) (hs0 : 0 ≤ g.swingStart) (offs : List Int)
    (hlen : offs.length = 6) (hoffs : ∀ off ∈ offs, 0 ≤ off ∧ off < g.phaseLength)
    (inp : Nat → TickInput) (tin : Nat → TipInput K) (htiming : ∀ m, (tin m).walker.timing = g)
    (t0 : TipStepper K) (i n : Nat) (leg : LegStepper)
    (hleg : (runCore g inp (n + 1) (initController offs)).legSteppers[i]? = some leg)
    (hswing : leg.state = StepState.SWING) :
    (∀ (t : TipStepper K) (pos : Vector3d K),
        (updateSwingPos (tin n).walker (tin n).overread t pos).1.originTipPosition
          = if t.phase = g.swingStart then pos else t.originTipPosition)
      ∧ (1 ≤ leg.phase - g.swingStart + 1
          ∧ leg.phase - g.swingStart + 1 ≤ g.swingEnd - g.swingStart)
      ∧ ∃ k : Nat, (k : Int) = leg.phase - g.swingStart ∧ k ≤ n
          ∧ (∀ j, j ≤ k → ∃ legj,
              (runCore g inp (n + 1 - j) (initController offs)).legSteppers[i]? = some legj
                ∧ legj.state = StepState.SWING ∧ legj.phase = leg.phase - j)
          ∧ ((tin (n - k)).leg.state = LegState.WALKING →
              (runTip g inp (initController offs) i tin (n + 1) t0).originTipPosition
                = (reviseTipPositions (tin (n - k)).leg.stanceTipPosition
                    (runTip g inp (initController offs) i tin (n - k) t0)).currentTipPosition) := by
  have hband : g.swingStart ≤ leg.phase ∧ leg.phase < g.swingEnd :=
    updateWalkCore_swing_band g _ _ _ i leg hleg hswing
  have htrace := swing_trace g hg hs0 offs hlen hoffs inp i (n + 1) leg hleg hswing
  obtain ⟨k, hk⟩ : ∃ k : Nat, (k : Int) = leg.phase - g.swingStart :=
    ⟨(leg.phase - g.swingStart).toNat, by omega⟩
  have hkn : k ≤ n := by
    have := (htrace k (by omega)).1
    omega
  refine ⟨?_, ⟨by omega, by omega⟩, k, hk, hkn, ?_, ?_⟩
  · intro t pos
    rw [updateSwingPos_origin, htiming]
  · intro j hj
    exact (htrace j (by omega)).2
  · intro hwalk
    have key : ∀ j, j ≤ k →
        (runTip g inp (initController offs) i tin (n - k + 1 + j) t0).originTipPosition
          = (reviseTipPositions (tin (n - k)).leg.stanceTipPosition
              (runTip g inp (initController offs) i tin (n - k) t0)).currentTipPosition := by
      intro j
      induction j with
      | zero =>
        intro _
        obtain ⟨legk, hgetk, hswk, hphk⟩ := (htrace k (by omega)).2
        rw [show n + 1 - k = n - k + 1 by omega] at hgetk
        rw [Nat.add_zero, runTip_succ g inp _ i tin (n - k) t0 legk hgetk, tipTick_origin,
          if_pos ⟨hwalk, hswk, by rw [htiming]; omega⟩]
      | succ j ih =>
        intro hj
        obtain ⟨legj, hgetj, hswj, hphj⟩ := (htrace (k - (j + 1)) (by omega)).2
        rw [show n + 1 - (k - (j + 1)) = n - k + 1 + j + 1 by omega] at hgetj
        rw [show n - k + 1 + (j + 1) = n - k + 1 + j + 1 by omega,
          runTip_succ g inp _ i tin (n - k + 1 + j) t0 legj hgetj, tipTick_origin,
          if_neg (fun h => by
            have h3 := h.2.2
            rw [htiming] at h3
            have : ((k - (j + 1) : Nat) : Int) = (k : Int) - (j + 1) := by omega
            omega)]
        exact ih (by omega)
    have := key k (le_refl _)
    rw [show n - k + 1 + k = n + 1 by omega] at this
    exact this

theorem tripod_run_leg0_tick1 :
    (runCore ⟨8, 2, 2, 6, 6⟩ (fun _ => ⟨true, fun _ => false⟩) 1
      (initController [0, 4, 4, 0, 0, 4])).legSteppers[0]?
      = some ⟨1, 0, StepState.STANCE, true, false⟩ := by decide

theorem tripod_run_leg0_tick2 :
    (runCore ⟨8, 2, 2, 6, 6⟩ (fun _ => ⟨true, fun _ => false⟩) 2
      (initController [0, 4, 4, 0, 0, 4])).legSteppers[0]?
      = some ⟨2, 0, StepState.SWING, true, false⟩ := by decide

theorem tripod_run_leg0_tick3 :
    (runCore ⟨8, 2, 2, 6, 6⟩ (fun _ => ⟨true, fun _ => false⟩) 3
      (initController [0, 4, 4, 0, 0, 4])).legSteppers[0]?
      = some ⟨3, 0, StepState.SWING, true, false⟩ := by decide

/-- Witness for C31 (amended): the tripod gait under a non-zero command, leg 0 after three ticks:
it is in SWING at phase 3, one tick after its swing started. -/
theorem swing_origin_is_tip_at_swing_start_witness :
    (∀ (t : TipStepper ℚ) (pos : Vector3d ℚ),
        (updateSwingPos (walkingInputs 2).walker (walkingInputs 2).overread t pos).1.originTipPosition
          = if t.phase = (⟨8, 2, 2, 6, 6⟩ : GaitTiming).swingStart then pos
            else t.originTipPosition)
      ∧ (1 ≤ (⟨3, 0, StepState.SWING, true, false⟩ : LegStepper).phase
              - (⟨8, 2, 2, 6, 6⟩ : GaitTiming).swingStart + 1
          ∧ (⟨3, 0, StepState.SWING, true, false⟩ : LegStepper).phase
              - (⟨8, 2, 2, 6, 6⟩ : GaitTiming).swingStart + 1
            ≤ (⟨8, 2, 2, 6, 6⟩ : GaitTiming).swingEnd - (⟨8, 2, 2, 6, 6⟩ : GaitTiming).swingStart)
      ∧ ∃ k : Nat, (k : Int) = (⟨3, 0, StepState.SWING, true, false⟩ : LegStepper).phase
            - (⟨8, 2, 2, 6, 6⟩ : GaitTiming).swingStart ∧ k ≤ 2
          ∧ (∀ j, j ≤ k → ∃ legj,
              (runCore ⟨8, 2, 2, 6, 6⟩ (fun _ => ⟨true, fun _ => false⟩) (2 + 1 - j)
                  (initController [0, 4, 4, 0, 0, 4])).legSteppers[0]? = some legj
                ∧ legj.state = StepState.SWING
                ∧ legj.phase = (⟨3, 0, StepState.SWING, true, false⟩ : LegStepper).phase - j)
          ∧ ((walkingInputs (2 - k)).leg.state = LegState.WALKING →
              (runTip ⟨8, 2, 2, 6, 6⟩ (fun _ => ⟨true, fun _ => false⟩)
                  (initController [0, 4, 4, 0, 0, 4]) 0 walkingInputs (2 + 1)
                  staleLeg).originTipPosition
                = (reviseTipPositions (walkingInputs (2 - k)).leg.stanceTipPosition
                    (runTip ⟨8, 2, 2, 6, 6⟩ (fun _ => ⟨true, fun _ => false⟩)
                      (initController [0, 4, 4, 0, 0, 4]) 0 walkingInputs (2 - k)
                      staleLeg)).currentTipPosition) :=
  swing_origin_is_tip_at_swing_start ⟨8, 2, 2, 6, 6⟩ (by unfold GaitTiming.Cyclic; decide)
    (by decide) [0, 4, 4, 0, 0, 4] rfl (by decide) (fun _ => ⟨true, fun _ => false⟩)
    walkingInputs (fun _ => rfl) staleLeg 0 2 ⟨3, 0, StepState.SWING, true, false⟩
    tripod_run_leg0_tick3 rfl

/-- The stance update of the first tick moves the tip of the stale leg to
`(151/160, 161/80, -1)`. -/
theorem staleLeg_after_first_tick (tin : Nat → TipInput ℚ)
    (h0 : tin 0 = ⟨tripodMembers, 0, ⟨LegState.WALKING, ⟨1, 2, -1⟩⟩, 0, (2, 0)⟩) :
    (runTip ⟨8, 2, 2, 6, 6⟩ (fun _ => ⟨true, fun _ => false⟩)
        (initController [0, 4, 4, 0, 0, 4]) 0 tin 1 staleLeg).currentTipPosition
        = ⟨151 / 160, 161 / 80, -1⟩
      ∧ (runTip ⟨8, 2, 2, 6, 6⟩ (fun _ => ⟨true, fun _ => false⟩)
        (initController [0, 4, 4, 0, 0, 4]) 0 tin 1 staleLeg).defaultTipPosition
        = ⟨1, 2, -1⟩ := by
  rw [runTip_succ _ _ _ 0 tin 0 staleLeg _ tripod_run_leg0_tick1, h0]
  simp only [runTip, tipTick, updateTip, updatePosition, reviseTipPositions, staleLeg, stanceLeg,
    tripodMembers]
  constructor
  · ext <;> simp <;> norm_num
  · ext <;> simp

/-- C31 as stated fails: the tripod gait under a non-zero command, leg 0. The leg ends the second
tick in SWING at `phase == swingStart = 2` and the third tick in SWING at phase 3. On the second
tick the model's leg is in MANUAL, so `updateWalk` skips its tip update and `updateSwingPos` is
not called at iteration 1; on the third tick the leg is WALKING and `updateSwingPos` is called at
iteration 2. The origin it uses is `(7, 7, 7)`, left from an earlier swing, and not the tip
position `(151/160, 161/80, -1)` that the leg had when this swing started. -/
theorem swing_origin_missed_by_manual_leg :
    (runCore ⟨8, 2, 2, 6, 6⟩ (fun _ => ⟨true, fun _ => false⟩) 2
        (initController [0, 4, 4, 0, 0, 4])).legSteppers[0]?
        = some ⟨2, 0, StepState.SWING, true, false⟩
      ∧ (runCore ⟨8, 2, 2, 6, 6⟩ (fun _ => ⟨true, fun _ => false⟩) 3
        (initController [0, 4, 4, 0, 0, 4])).legSteppers[0]?
        = some ⟨3, 0, StepState.SWING, true, false⟩
      ∧ (manualOnSecondTick 1).leg.state = LegState.MANUAL
      ∧ (manualOnSecondTick 2).leg.state = LegState.WALKING
      ∧ (reviseTipPositions (manualOnSecondTick 1).leg.stanceTipPosition
          (runTip ⟨8, 2, 2, 6, 6⟩ (fun _ => ⟨true, fun _ => false⟩)
            (initController [0, 4, 4, 0, 0, 4]) 0 manualOnSecondTick 1
            staleLeg)).currentTipPosition = ⟨151 / 160, 161 / 80, -1⟩
      ∧ (runTip ⟨8, 2, 2, 6, 6⟩ (fun _ => ⟨true, fun _ => false⟩)
          (initController [0, 4, 4, 0, 0, 4]) 0 manualOnSecondTick 2
          staleLeg).currentTipPosition = ⟨151 / 160, 161 / 80, -1⟩
      ∧ (runTip ⟨8, 2, 2, 6, 6⟩ (fun _ => ⟨true, fun _ => false⟩)
          (initController [0, 4, 4, 0, 0, 4]) 0 manualOnSecondTick 3
          staleLeg).originTipPosition = ⟨7, 7, 7⟩ := by
  obtain ⟨hcur, hdef⟩ := staleLeg_after_first_tick manualOnSecondTick rfl
  refine ⟨tripod_run_leg0_tick2, tripod_run_leg0_tick3, rfl, rfl, ?_, ?_, ?_⟩
  · unfold reviseTipPositions
    simp only [hcur, hdef]
    ext <;> simp [manualOnSecondTick]
  · rw [runTip_succ _ _ _ 0 manualOnSecondTick 1 staleLeg _ tripod_run_leg0_tick2]
    have hskip : ∀ t : TipStepper ℚ,
        (tipTick (manualOnSecondTick 1) ⟨2, 0, StepState.SWING, true, false⟩ t).currentTipPosition
          = t.currentTipPosition := by
      intro t
      rfl
    rw [hskip, hcur]
  · rw [runTip_succ _ _ _ 0 manualOnSecondTick 2 staleLeg _ tripod_run_leg0_tick3,
      tipTick_origin, if_neg (by decide),
      runTip_succ _ _ _ 0 manualOnSecondTick 1 staleLeg _ tripod_run_leg0_tick2,
      tipTick_origin, if_neg (by decide),
      runTip_succ _ _ _ 0 manualOnSecondTick 0 staleLeg _ tripod_run_leg0_tick1,
      tipTick_origin, if_neg (by decide)]
    rfl

/-! ## The binary64 model: rounding is to nearest -/

theorem binLog_spec : ∀ (f n : Nat), 0 < n → n ≤ f →
    2 ^ binLog f n ≤ n ∧ n < 2 ^ (binLog f n + 1) := by
  intro f
  induction f with
  | zero => intro n h0 h1; omega
  | succ f ih =>
    intro n h0 h1
    unfold binLog
    split_ifs with h2
    · constructor <;> simp <;> omega
    · obtain ⟨i1, i2⟩ := ih (n / 2) (by omega) (by omega)
      constructor
      · rw [pow_succ]
        omega
      · rw [pow_succ]
        omega

/-- The result of `roundHalfEven p q` is within one half of `p / q`, and even when `p / q` is
half way between two integers. -/
theorem roundHalfEven_spec (p q : Nat) (hq : 0 < q) :
    2 * (roundHalfEven p q * q) ≤ 2 * p + q ∧ 2 * p ≤ 2 * (roundHalfEven p q * q) + q
      ∧ (2 * (p % q) = q → roundHalfEven p q % 2 = 0) := by
  have hp := Nat.div_add_mod p q
  have hr := Nat.mod_lt p hq
  have hc : p / q * q = q * (p / q) := Nat.mul_comm _ _
  have hd : (p / q + 1) * q = q * (p / q) + q := by rw [Nat.add_mul, Nat.one_mul, hc]
  unfold roundHalfEven
  split_ifs with h1 h2 h3
  · rw [hc]
    refine ⟨by omega, by omega, fun h => by omega⟩
  · rw [hd]
    refine ⟨by omega, by omega, fun h => by omega⟩
  · rw [hc]
    exact ⟨by omega, by omega, fun _ => h3⟩
  · rw [hd]
    refine ⟨by omega, by omega, fun _ => by omega⟩

/-- The position `lg` of the leading binary digit chosen by `roundPos`:
`2^lg ≤ p / q < 2^(lg + 1)`. -/
theorem leading_digit_spec (p q : Nat) (hp : 0 < p) (hq : 0 < q) (lg : Int)
    (hlg : lg = if q * 2 ^ binLog p p ≤ p * 2 ^ binLog q q
      then (binLog p p : Int) - (binLog q q : Int)
      else (binLog p p : Int) - (binLog q q : Int) - 1) :
    (2 : ℚ) ^ lg ≤ (p : ℚ) / q ∧ (p : ℚ) / q < 2 * 2 ^ lg := by
  obtain ⟨a1, a2⟩ := binLog_spec p p hp le_rfl
  obtain ⟨b1, b2⟩ := binLog_spec q q hq le_rfl
  have hqQ : (0 : ℚ) < q := by exact_mod_cast hq
  have hA : (0 : ℚ) < 2 ^ binLog p p := by positivity
  have hB : (0 : ℚ) < 2 ^ binLog q q := by positivity
  have a1Q : (2 : ℚ) ^ binLog p p ≤ p := by exact_mod_cast a1
  have a2Q : (p : ℚ) < 2 * 2 ^ binLog p p := by
    have : (p : ℚ) < 2 ^ (binLog p p + 1) := by exact_mod_cast a2
    rw [pow_succ] at this
    linarith
  have b1Q : (2 : ℚ) ^ binLog q q ≤ q := by exact_mod_cast b1
  have b2Q : (q : ℚ) < 2 * 2 ^ binLog q q := by
    have : (q : ℚ) < 2 ^ (binLog q q + 1) := by exact_mod_cast b2
    rw [pow_succ] at this
    linarith
  have hk : (2 : ℚ) ^ ((binLog p p : Int) - (binLog q q : Int))
      = 2 ^ binLog p p / 2 ^ binLog q q := by
    rw [zpow_sub₀ (by norm_num : (2 : ℚ) ≠ 0), zpow_natCast, zpow_natCast]
  split_ifs at hlg with hc
  · have hcQ : (q : ℚ) * 2 ^ binLog p p ≤ p * 2 ^ binLog q q := by exact_mod_cast hc
    rw [hlg, hk]
    constructor
    · rw [div_le_div_iff₀ hB hqQ]
      linarith
    · rw [← mul_div_assoc, div_lt_div_iff₀ hqQ hB]
      nlinarith
  · have hcQ : (p : ℚ) * 2 ^ binLog q q < q * 2 ^ binLog p p := by
      exact_mod_cast not_le.mp hc
    have hk1 : (2 : ℚ) ^ ((binLog p p : Int) - (binLog q q : Int) - 1)
        = 2 ^ binLog p p / 2 ^ binLog q q / 2 := by
      rw [zpow_sub₀ (by norm_num : (2 : ℚ) ≠ 0), hk, zpow_one]
    rw [hlg, hk1]
    constructor
    · rw [div_div, div_le_div_iff₀ (by positivity) hqQ]
      nlinarith
    · rw [mul_div_cancel₀ _ (by norm_num : (2 : ℚ) ≠ 0), div_lt_div_iff₀ hqQ hB]
      linarith

/-- The quotient that `roundPos` rounds to an integer is `p / q` scaled by `2^(-s)`. -/
theorem scaled_quotient (p q : Nat) (hq : 0 < q) (s : Int) :
    ((p * 2 ^ (-s).toNat : Nat) : ℚ) / ((q * 2 ^ s.toNat : Nat) : ℚ)
      = (p : ℚ) / q * 2 ^ (-s) := by
  have hqQ : (q : ℚ) ≠ 0 := by exact_mod_cast (ne_of_gt hq)
  rcases le_or_lt 0 s with h | h
  · have e1 : (-s).toNat = 0 := Int.toNat_eq_zero.mpr (by omega)
    have e2 : ((s.toNat : Nat) : Int) = s := Int.toNat_of_nonneg h
    have e3 : (2 : ℚ) ^ (-s) = 1 / 2 ^ s.toNat := by
      rw [zpow_neg, ← zpow_natCast, e2, one_div]
    rw [e1, e3]
    push_cast
    field_simp
  · have e1 : s.toNat = 0 := Int.toNat_eq_zero.mpr (by omega)
    have e2 : (((-s).toNat : Nat) : Int) = -s := Int.toNat_of_nonneg (by omega)
    have e3 : (2 : ℚ) ^ (-s) = 2 ^ (-s).toNat := by
      rw [← zpow_natCast, e2]
    rw [e1, e3]
    push_cast
    field_simp

/-- Rounding of a positive quotient is to nearest: the result of `roundPos p q e` has a mantissa
between `2^52` and `2^53` and differs from `p / q * 2^e` by at most half a unit of its last
place. -/
theorem roundPos_spec (p q : Nat) (e : Int) (hp : 0 < p) (hq : 0 < q) :
    2 ^ 52 ≤ (Double.roundPos p q e).man ∧ (Double.roundPos p q e).man ≤ 2 ^ 53
      ∧ |(Double.roundPos p q e).toRat - (p : ℚ) / q * 2 ^ e|
          ≤ 2 ^ (Double.roundPos p q e).exp / 2 := by
  obtain ⟨l1, l2⟩ := leading_digit_spec p q hp hq _ rfl
  generalize hlg : (if q * 2 ^ binLog p p ≤ p * 2 ^ binLog q q
      then (binLog p p : Int) - (binLog q q : Int)
      else (binLog p p : Int) - (binLog q q : Int) - 1) = lg at l1 l2
  have hdef : Double.roundPos p q e
      = ⟨(roundHalfEven (p * 2 ^ (-(lg - 52)).toNat) (q * 2 ^ (lg - 52).toNat) : Nat),
          lg - 52 + e⟩ := by
    unfold Double.roundPos
    simp only [hlg]
  have hQ : 0 < q * 2 ^ (lg - 52).toNat := Nat.mul_pos hq (by positivity)
  obtain ⟨r1, r2, _⟩ := roundHalfEven_spec (p * 2 ^ (-(lg - 52)).toNat)
    (q * 2 ^ (lg - 52).toNat) hQ
  have hR := scaled_quotient p q hq (lg - 52)
  generalize roundHalfEven (p * 2 ^ (-(lg - 52)).toNat) (q * 2 ^ (lg - 52).toNat) = m
    at hdef r1 r2
  generalize p * 2 ^ (-(lg - 52)).toNat = P at r1 r2 hR
  generalize q * 2 ^ (lg - 52).toNat = Q at r1 r2 hR hQ
  have hQQ : (0 : ℚ) < Q := by exact_mod_cast hQ
  have r1Q : 2 * ((m : ℚ) * Q) ≤ 2 * P + Q := by exact_mod_cast r1
  have r2Q : 2 * (P : ℚ) ≤ 2 * ((m : ℚ) * Q) + Q := by exact_mod_cast r2
  -- the scaled quotient lies in [2^52, 2^53)
  have hs : (2 : ℚ) ^ (-(lg - 52)) = 2 ^ 52 / 2 ^ lg := by
    rw [neg_sub, zpow_sub₀ (by norm_num : (2 : ℚ) ≠ 0)]
    norm_num
  have hT : (0 : ℚ) < 2 ^ lg := by positivity
  have hlow : (2 : ℚ) ^ 52 ≤ (P : ℚ) / Q := by
    rw [hR, hs, ← mul_div_assoc, le_div_iff₀ hT]
    nlinarith
  have hhigh : (P : ℚ) / Q < 2 ^ 53 := by
    rw [hR, hs, ← mul_div_assoc, div_lt_iff₀ hT]
    nlinarith
  -- the rounded mantissa is within one half of it
  have hm1 : (m : ℚ) ≤ (P : ℚ) / Q + 1 / 2 := by
    have h : (P : ℚ) / Q + 1 / 2 = (2 * P + Q) / (2 * Q) := by
      field_simp
      ring
    rw [h, le_div_iff₀ (by positivity)]
    linarith
  have hm2 : (P : ℚ) / Q - 1 / 2 ≤ (m : ℚ) := by
    have h : (P : ℚ) / Q - 1 / 2 = (2 * P - Q) / (2 * Q) := by
      field_simp
      ring
    rw [h, div_le_iff₀ (by positivity)]
    linarith
  rw [hdef]
  refine ⟨?_, ?_, ?_⟩
  · show (2 : Int) ^ 52 ≤ (m : Int)
    have h : ((2 ^ 52 - 1 : Nat) : ℚ) < (m : ℚ) := by
      push_cast
      linarith
    have := Nat.cast_lt.mp h
    omega
  · show (m : Int) ≤ 2 ^ 53
    have h : (m : ℚ) < ((2 ^ 53 + 1 : Nat) : ℚ) := by
      push_cast
      linarith
    have := Nat.cast_lt.mp h
    omega
  · show |((m : Int) : ℚ) * 2 ^ (lg - 52 + e) - (p : ℚ) / q * 2 ^ e| ≤ 2 ^ (lg - 52 + e) / 2
    have hX : (p : ℚ) / q = (P : ℚ) / Q * 2 ^ (lg - 52) := by
      rw [hR, mul_assoc, ← zpow_add₀ (by norm_num : (2 : ℚ) ≠ 0)]
      simp
    have hE : (2 : ℚ) ^ (lg - 52 + e) = 2 ^ (lg - 52) * 2 ^ e :=
      zpow_add₀ (by norm_num) _ _
    have hpos : (0 : ℚ) < 2 ^ (lg - 52) * 2 ^ e := by positivity
    rw [hX, hE, Int.cast_natCast,
      show (m : ℚ) * (2 ^ (lg - 52) * 2 ^ e) - (P : ℚ) / Q * 2 ^ (lg - 52) * 2 ^ e
        = ((m : ℚ) - (P : ℚ) / Q) * (2 ^ (lg - 52) * 2 ^ e) by ring,
      abs_mul, abs_of_pos hpos]
    have habs : |(m : ℚ) - (P : ℚ) / Q| ≤ 1 / 2 := by
      rw [abs_le]
      constructor <;> linarith
    calc |(m : ℚ) - (P : ℚ) / Q| * (2 ^ (lg - 52) * 2 ^ e)
        ≤ 1 / 2 * (2 ^ (lg - 52) * 2 ^ e) :=
          mul_le_mul_of_nonneg_right habs (le_of_lt hpos)
      _ = 2 ^ (lg - 52) * 2 ^ e / 2 := by ring

/-- Rounding is to nearest: the result of `Double.round n q e` differs from `n / q * 2^e` by at
most half a unit of its last place, and its mantissa is zero or between `2^52` and `2^53` in
absolute value. -/
theorem round_spec (n : Int) (q : Nat) (e : Int) (hq : 0 < q) :
    ((Double.round n q e).man = 0 ∨
        (2 ^ 52 ≤ |(Double.round n q e).man| ∧ |(Double.round n q e).man| ≤ 2 ^ 53))
      ∧ |(Double.round n q e).toRat - (n : ℚ) / q * 2 ^ e|
          ≤ 2 ^ (Double.round n q e).exp / 2 := by
  by_cases hn : n = 0
  · subst hn
    refine ⟨Or.inl ?_, ?_⟩
    · simp [Double.round]
    · simp [Double.round, Double.toRat]
  · have hp : 0 < n.natAbs := Int.natAbs_pos.mpr hn
    obtain ⟨s1, s2, s3⟩ := roundPos_spec n.natAbs q e hp hq
    have hdef : Double.round n q e
        = ⟨Int.sign n * (Double.roundPos n.natAbs q e).man,
            (Double.roundPos n.natAbs q e).exp⟩ := by
      unfold Double.round
      rw [if_neg hn]
    rw [hdef]
    generalize Double.roundPos n.natAbs q e = r at s1 s2 s3
    rcases lt_or_gt_of_ne hn with hneg | hpos
    · have hsign : Int.sign n = -1 := Int.sign_eq_neg_one_of_neg hneg
      have habs : ((n.natAbs : Nat) : ℚ) = -(n : ℚ) := by
        have : ((n.natAbs : Nat) : Int) = -n := by omega
        rw [← Int.cast_natCast, this, Int.cast_neg]
      rw [hsign]
      refine ⟨Or.inr ?_, ?_⟩
      · show 2 ^ 52 ≤ |(-1 : Int) * r.man| ∧ |(-1 : Int) * r.man| ≤ 2 ^ 53
        rw [neg_one_mul, abs_neg, abs_of_nonneg (by omega)]
        exact ⟨s1, s2⟩
      · show |(((-1 : Int) * r.man : Int) : ℚ) * 2 ^ r.exp - (n : ℚ) / q * 2 ^ e|
            ≤ 2 ^ r.exp / 2
        rw [habs] at s3
        have e1 : (((-1 : Int) * r.man : Int) : ℚ) * 2 ^ r.exp - (n : ℚ) / q * 2 ^ e
            = -(r.toRat - -(n : ℚ) / q * 2 ^ e) := by
          unfold Double.toRat
          push_cast
          ring
        rw [e1, abs_neg]
        exact s3
    · have hsign : Int.sign n = 1 := Int.sign_eq_one_of_pos hpos
      have habs : ((n.natAbs : Nat) : ℚ) = (n : ℚ) := by
        have : ((n.natAbs : Nat) : Int) = n := by omega
        rw [← Int.cast_natCast, this]
      rw [hsign]
      refine ⟨Or.inr ?_, ?_⟩
      · show 2 ^ 52 ≤ |(1 : Int) * r.man| ∧ |(1 : Int) * r.man| ≤ 2 ^ 53
        rw [one_mul, abs_of_nonneg (by omega)]
        exact ⟨s1, s2⟩
      · show |(((1 : Int) * r.man : Int) : ℚ) * 2 ^ r.exp - (n : ℚ) / q * 2 ^ e|
            ≤ 2 ^ r.exp / 2
        rw [habs] at s3
        rw [one_mul]
        exact s3

/-- The product of two `double`s is the `double` nearest to the product of their values. -/
theorem double_mul_spec (x y : Double) :
    |(x * y).toRat - x.toRat * y.toRat| ≤ 2 ^ (x * y).exp / 2 := by
  have h := (round_spec (x.man * y.man) 1 (x.exp + y.exp) (by norm_num)).2
  have e : ((x.man * y.man : Int) : ℚ) / ((1 : Nat) : ℚ) * 2 ^ (x.exp + y.exp)
      = x.toRat * y.toRat := by
    unfold Double.toRat
    rw [zpow_add₀ (by norm_num : (2 : ℚ) ≠ 0)]
    push_cast
    ring
  rw [e] at h
  exact h

/-- The quotient of two `double`s, the divisor not zero, is the `double` nearest to the quotient
of their values. -/
theorem double_div_spec (x y : Double) (hy : y.man ≠ 0) :
    |(x / y).toRat - x.toRat / y.toRat| ≤ 2 ^ (x / y).exp / 2 := by
  have hq : 0 < y.man.natAbs := Int.natAbs_pos.mpr hy
  have h := (round_spec (x.man * Int.sign y.man) y.man.natAbs (x.exp - y.exp) hq).2
  have hdef : x / y
      = Double.round (x.man * Int.sign y.man) y.man.natAbs (x.exp - y.exp) := by
    show Double.div x y = _
    unfold Double.div
    rw [if_neg hy]
  have hyQ : (y.man : ℚ) ≠ 0 := by exact_mod_cast hy
  have e : ((x.man * Int.sign y.man : Int) : ℚ) / ((y.man.natAbs : Nat) : ℚ)
        * 2 ^ (x.exp - y.exp)
      = x.toRat / y.toRat := by
    have h2 : (2 : ℚ) ^ y.exp ≠ 0 := by positivity
    unfold Double.toRat
    rw [zpow_sub₀ (by norm_num : (2 : ℚ) ≠ 0)]
    rcases lt_or_gt_of_ne hy with hneg | hpos
    · have habs : ((y.man.natAbs : Nat) : ℚ) = -(y.man : ℚ) := by
        have : ((y.man.natAbs : Nat) : Int) = -y.man := by omega
        rw [← Int.cast_natCast, this, Int.cast_neg]
      rw [Int.sign_eq_neg_one_of_neg hneg, habs]
      push_cast
      field_simp
    · have habs : ((y.man.natAbs : Nat) : ℚ) = (y.man : ℚ) := by
        have : ((y.man.natAbs : Nat) : Int) = y.man := by omega
        rw [← Int.cast_natCast, this]
      rw [Int.sign_eq_one_of_pos hpos, habs]
      push_cast
      field_simp
  rw [hdef]
  rw [e] at h
  exact h

/-- The sum of two `double`s is the `double` nearest to the sum of their values. -/
theorem double_add_spec (x y : Double) :
    |(x + y).toRat - (x.toRat + y.toRat)| ≤ 2 ^ (x + y).exp / 2 := by
  have h := (round_spec (x.man * 2 ^ (x.exp - min x.exp y.exp).toNat
    + y.man * 2 ^ (y.exp - min x.exp y.exp).toNat) 1 (min x.exp y.exp) (by norm_num)).2
  have hx : (((x.exp - min x.exp y.exp).toNat : Nat) : Int) = x.exp - min x.exp y.exp :=
    Int.toNat_of_nonneg (by have := min_le_left x.exp y.exp; omega)
  have hy : (((y.exp - min x.exp y.exp).toNat : Nat) : Int) = y.exp - min x.exp y.exp :=
    Int.toNat_of_nonneg (by have := min_le_right x.exp y.exp; omega)
  have e : ((x.man * 2 ^ (x.exp - min x.exp y.exp).toNat
        + y.man * 2 ^ (y.exp - min x.exp y.exp).toNat : Int) : ℚ) / ((1 : Nat) : ℚ)
        * 2 ^ (min x.exp y.exp)
      = x.toRat + y.toRat := by
    unfold Double.toRat
    push_cast
    rw [← zpow_natCast (2 : ℚ) (x.exp - min x.exp y.exp).toNat,
      ← zpow_natCast (2 : ℚ) (y.exp - min x.exp y.exp).toNat, hx, hy, div_one, add_mul,
      mul_assoc, mul_assoc, ← zpow_add₀ (by norm_num : (2 : ℚ) ≠ 0),
      ← zpow_add₀ (by norm_num : (2 : ℚ) ≠ 0), sub_add_cancel, sub_add_cancel]
  rw [e] at h
  exact h

/-- The quotient of an integer by a positive integer, truncated toward zero. -/
theorem toInt_div_natCast (a : Int) (d : Nat) (hd : 0 < d) :
    toInt ((a : ℚ) / (d : ℚ)) = Int.tdiv a d := by
  have hdQ : (0 : ℚ) < d := by exact_mod_cast hd
  unfold toInt
  rcases le_or_lt 0 a with h | h
  · rw [if_pos (div_nonneg (by exact_mod_cast h) (le_of_lt hdQ)),
      Rat.floor_intCast_div_natCast, Int.tdiv_eq_ediv h (by omega)]
  · have hneg : ¬ (0 : ℚ) ≤ (a : ℚ) / d := by
      rw [not_le]
      exact div_neg_of_neg_of_pos (by exact_mod_cast h) hdQ
    have e : (a : ℚ) / d = -(((-a : Int) : ℚ) / d) := by
      push_cast
      ring
    rw [if_neg hneg, e, Int.ceil_neg, Rat.floor_intCast_div_natCast,
      ← Int.tdiv_eq_ediv (by omega) (by omega), Int.neg_tdiv, neg_neg]

/-- The conversion of a `double` to `int` is the conversion `toInt` of its value. -/
theorem double_toInt_eq (x : Double) : Double.toInt x = toInt x.toRat := by
  unfold Double.toInt Double.toRat
  split_ifs with h
  · have e : (x.man : ℚ) * 2 ^ x.exp = ((x.man * 2 ^ x.exp.toNat : Int) : ℚ) := by
      push_cast
      rw [← zpow_natCast (2 : ℚ) x.exp.toNat, Int.toNat_of_nonneg h]
    rw [e, toInt_intCast]
  · have hk : (((-x.exp).toNat : Nat) : Int) = -x.exp := Int.toNat_of_nonneg (by omega)
    have e : (x.man : ℚ) * 2 ^ x.exp = (x.man : ℚ) / ((2 ^ (-x.exp).toNat : Nat) : ℚ) := by
      push_cast
      rw [← zpow_natCast (2 : ℚ) (-x.exp).toNat, hk, zpow_neg, div_eq_mul_inv, inv_inv]
    rw [e, toInt_div_natCast _ _ (by positivity)]
    push_cast
    rfl

/-- The function `Double.roundToInt` is `roundToInt` of the value of the `double`. -/
theorem double_roundToInt_eq (x : Double) : Double.roundToInt x = roundToInt x.toRat := by
  unfold Double.roundToInt
  split_ifs with h
  · have e : x.toRat = ((x.man * 2 ^ x.exp.toNat : Int) : ℚ) := by
      unfold Double.toRat
      push_cast
      rw [← zpow_natCast (2 : ℚ) x.exp.toNat, Int.toNat_of_nonneg h]
    rw [e, roundToInt_intCast]
  · have hk : (((-x.exp).toNat : Nat) : Int) = -x.exp := Int.toNat_of_nonneg (by omega)
    generalize hkk : (-x.exp).toNat = k at hk
    have hpow : (0 : ℚ) < 2 ^ k := by positivity
    have e : x.toRat = (x.man : ℚ) / 2 ^ k := by
      unfold Double.toRat
      rw [← zpow_natCast (2 : ℚ) k, hk, zpow_neg, div_eq_mul_inv, inv_inv]
    have hd : (0 : Nat) < 2 ^ (k + 1) := by positivity
    rw [e]
    unfold roundToInt
    rcases lt_trichotomy x.man 0 with hneg | hzero | hpos
    · have hlt : ¬ (0 : ℚ) ≤ (x.man : ℚ) / 2 ^ k := by
        rw [not_le]
        exact div_neg_of_neg_of_pos (by exact_mod_cast hneg) hpow
      have e2 : (1 : ℚ) / 2 - (x.man : ℚ) / 2 ^ k
          = (((2 * x.man.natAbs + 2 ^ k : Nat) : Int) : ℚ) / ((2 ^ (k + 1) : Nat) : ℚ) := by
        push_cast
        rw [abs_of_neg (by exact_mod_cast hneg : (x.man : ℚ) < 0)]
        rw [pow_succ]
        field_simp
        ring
      rw [if_neg hlt, e2, toInt_div_natCast _ _ hd, Int.sign_eq_neg_one_of_neg hneg,
        ← Int.ofNat_tdiv]
      simp
    · rw [hzero]
      have e2 : ((0 : Int) : ℚ) / 2 ^ k + 1 / 2
          = (((2 ^ k : Nat) : Int) : ℚ) / ((2 ^ (k + 1) : Nat) : ℚ) := by
        push_cast
        rw [pow_succ]
        field_simp
      have hsmall : (2 ^ k : Nat) / 2 ^ (k + 1) = 0 :=
        Nat.div_eq_of_lt (by rw [pow_succ]; omega)
      rw [if_pos (by simp), e2, toInt_div_natCast _ _ hd, ← Int.ofNat_tdiv, hsmall]
      simp
    · have hge : (0 : ℚ) ≤ (x.man : ℚ) / 2 ^ k :=
        div_nonneg (by exact_mod_cast le_of_lt hpos) (le_of_lt hpow)
      have e2 : (x.man : ℚ) / 2 ^ k + 1 / 2
          = (((2 * x.man.natAbs + 2 ^ k : Nat) : Int) : ℚ) / ((2 ^ (k + 1) : Nat) : ℚ) := by
        push_cast
        rw [abs_of_pos (by exact_mod_cast hpos : (0 : ℚ) < x.man)]
        rw [pow_succ]
        field_simp
        ring
      rw [if_pos hge, e2, toInt_div_natCast _ _ hd, Int.sign_eq_one_of_pos hpos,
        ← Int.ofNat_tdiv]
      simp

/-! ## C4: phase quantisation in binary64 arithmetic -/

theorem longSwing_roundedTicks : roundedTicks longSwingParameters (1 / 8) = 1 := by
  unfold roundedTicks longSwingParameters roundToInt toInt
  norm_num [Int.floor_eq_iff]

theorem longSwing_basePhaseLength : basePhaseLength longSwingParameters = 14 := by
  have h : (4 : ℚ) + 8 + 1 * 2 = ((14 : Int) : ℚ) := by norm_num
  simp only [basePhaseLength, longSwingParameters, h, toInt_intCast]

set_option maxRecDepth 100000 in
/-- C4 (code defect): `setGaitParams` for `stance_phase = 4`, `swing_phase = 8`,
`transition_period = 1`, `step_frequency = 0.5` and `time_delta = 0.125`, all held exactly by a
`double`. In exact arithmetic the rounded tick count is 1 and line 297 gives `1 * 14 = 14`, as the
claim says. In binary64 arithmetic `swingRatio = 9/14` is rounded up to
`5790342378047781 * 2^-53`, `basePhaseLength*swingRatio` is rounded to `9`, the count is 1, and
the quotient `9 / swingRatio` is `14 - 2^-49` (13.999999999999998); its conversion to `int`
truncates, so `phaseLength` is 13, `phaseLength % basePhaseLength` is 13 and the condition of
the `ASSERT` on line 299 is false. -/
theorem phase_length_truncated_below_multiple :
    (longSwingDoubles.stancePhase.toRat = longSwingParameters.stancePhase
        ∧ longSwingDoubles.swingPhase.toRat = longSwingParameters.swingPhase
        ∧ longSwingDoubles.transitionPeriod.toRat = longSwingParameters.transitionPeriod
        ∧ longSwingDoubles.stepFrequency.toRat = longSwingParameters.stepFrequency
        ∧ (⟨1, -3⟩ : Double).toRat = 1 / 8)
      ∧ (roundedTicks longSwingParameters (1 / 8) = 1
        ∧ basePhaseLength longSwingParameters = 14
        ∧ phaseLengthOf longSwingParameters (1 / 8) = 14)
      ∧ basePhaseLengthDouble longSwingDoubles = 14
      ∧ swingRatioDouble longSwingDoubles = ⟨5790342378047781, -53⟩
      ∧ (Double.ofInt (basePhaseLengthDouble longSwingDoubles)
          * swingRatioDouble longSwingDoubles).toRat = 9
      ∧ Double.roundToInt (ticksPerUnitDouble longSwingDoubles ⟨1, -3⟩) = 1
      ∧ phaseQuotientDouble longSwingDoubles ⟨1, -3⟩ = ⟨7881299347898367, -49⟩
      ∧ (phaseQuotientDouble longSwingDoubles ⟨1, -3⟩).toRat = 14 - 1 / 2 ^ 49
      ∧ phaseLengthDouble longSwingDoubles ⟨1, -3⟩ = 13
      ∧ Int.tmod (phaseLengthDouble longSwingDoubles ⟨1, -3⟩)
          (basePhaseLengthDouble longSwingDoubles) = 13
      ∧ ¬ gaitAssertDouble longSwingDoubles ⟨1, -3⟩ := by
  have h4 : longSwingDoubles.stancePhase = ⟨4503599627370496, -50⟩ := by decide
  have h8 : longSwingDoubles.swingPhase = ⟨4503599627370496, -49⟩ := by decide
  have h1 : longSwingDoubles.transitionPeriod = ⟨4503599627370496, -52⟩ := by decide
  have hx : Double.ofInt (basePhaseLengthDouble longSwingDoubles)
      * swingRatioDouble longSwingDoubles = ⟨5066549580791808, -49⟩ := by decide
  have hq : phaseQuotientDouble longSwingDoubles ⟨1, -3⟩ = ⟨7881299347898367, -49⟩ := by
    decide
  have hL : phaseLengthDouble longSwingDoubles ⟨1, -3⟩ = 13 := by decide
  have hb : basePhaseLengthDouble longSwingDoubles = 14 := by decide
  refine ⟨⟨?_, ?_, ?_, ?_, ?_⟩, ⟨longSwing_roundedTicks, longSwing_basePhaseLength, ?_⟩, hb,
    by decide, ?_, by decide, hq, ?_, hL, ?_, ?_⟩
  · rw [h4]
    norm_num [Double.toRat, longSwingParameters]
  · rw [h8]
    norm_num [Double.toRat, longSwingParameters]
  · rw [h1]
    norm_num [Double.toRat, longSwingParameters]
  · norm_num [Double.toRat, longSwingDoubles, longSwingParameters]
  · norm_num [Double.toRat]
  · rw [phaseLengthOf_eq _ _ (by rw [longSwing_basePhaseLength]; norm_num)
      (by norm_num [longSwingParameters]), longSwing_roundedTicks, longSwing_basePhaseLength]
    rfl
  · rw [hx]
    norm_num [Double.toRat]
  · rw [hq]
    norm_num [Double.toRat]
  · rw [hL, hb]
    rfl
  · unfold gaitAssertDouble
    rw [hL, hb]
    decide

set_option maxRecDepth 100000 in
/-- Scenario S1 in binary64 arithmetic, with `time_delta` the `double` nearest to `0.02`:
`swingRatio = 3/8` is held exactly, every step of line 297 is exact after the rounding to the
count 8, `phaseLength` is 64 as in exact arithmetic and the condition of the `ASSERT` holds. -/
theorem s1_phase_length_in_doubles :
    Double.round 2 100 0 = ⟨5764607523034235, -58⟩
      ∧ (swingRatioDouble s1Doubles).toRat = 3 / 8
      ∧ Double.roundToInt (ticksPerUnitDouble s1Doubles (Double.round 2 100 0)) = 8
      ∧ phaseLengthDouble s1Doubles (Double.round 2 100 0) = 64
      ∧ gaitAssertDouble s1Doubles (Double.round 2 100 0) := by
  have hs : swingRatioDouble s1Doubles = ⟨6755399441055744, -54⟩ := by decide
  have hL : phaseLengthDouble s1Doubles (Double.round 2 100 0) = 64 := by decide
  have hb : basePhaseLengthDouble s1Doubles = 8 := by decide
  refine ⟨by decide, ?_, by decide, hL, ?_⟩
  · rw [hs]
    norm_num [Double.toRat]
  · unfold gaitAssertDouble
    rw [hL, hb]
    decide

/-! ## C27: completion of the first step on every reachable tick -/

/-- One iteration of the STARTING loop takes a leg from `t` to `t + 1` iterations. -/
theorem startClockLeg_step (g : GaitTiming) (hg : g.Cyclic) (fl b : Bool) (c : Counters)
    (leg : LegStepper) (t : Int) (ht : 0 ≤ t)
    (hoff : 0 ≤ leg.phaseOffset ∧ leg.phaseOffset < g.phaseLength)
    (h : StartClockLeg g t leg) :
    StartClockLeg g (t + 1)
      (legStateMachine g (legPhaseUpdate g WalkState.STARTING fl b c leg).2) := by
  obtain ⟨hL, hse0, hseL⟩ := hg
  obtain ⟨hp, hfalse, htrue⟩ := h
  have hpr : 0 ≤ leg.phase ∧ leg.phase < g.phaseLength := by
    rw [hp]
    exact ⟨Int.emod_nonneg _ (ne_of_gt hL), Int.emod_lt_of_pos _ hL⟩
  have hflag := starting_leg_flag_iff g fl b c leg
  have hoff1 := starting_leg_offset g fl b c leg
  have hphase1 := starting_leg_phase g fl b c leg
  -- the phase of a leg that has not passed swingEnd is offset + t
  have hsmall : leg.phaseOffset + t ≤ g.swingEnd → leg.phase = leg.phaseOffset + t := by
    intro hle
    rw [hp]
    exact Int.emod_eq_of_lt (by omega) (by omega)
  refine ⟨?_, ?_, ?_⟩
  · rw [legStateMachine_phase, legStateMachine_phaseOffset, hphase1, hoff1,
      Int.tmod_eq_emod (by omega) (by omega), hp, Int.emod_add_emod, add_assoc]
  · intro hf
    rw [legStateMachine_inCorrectPhase] at hf
    rw [legStateMachine_phaseOffset, hoff1]
    have hn : ¬ (leg.inCorrectPhase = true
          ∨ ¬ (g.swingStart ≤ leg.phaseOffset ∧ leg.phaseOffset < g.swingEnd)
          ∨ leg.phase = g.swingEnd) := by
      intro hcon
      rw [hflag.mpr hcon] at hf
      exact Bool.noConfusion hf
    have h1 : leg.inCorrectPhase = false := by
      cases hx : leg.inCorrectPhase
      · rfl
      · exact absurd (Or.inl hx) hn
    have h2 : g.swingStart ≤ leg.phaseOffset ∧ leg.phaseOffset < g.swingEnd := by
      by_contra hcon
      exact hn (Or.inr (Or.inl hcon))
    have h3 : leg.phase ≠ g.swingEnd := fun hcon => hn (Or.inr (Or.inr hcon))
    right
    refine ⟨h2.1, h2.2, ?_⟩
    rcases hfalse h1 with h0 | ⟨_, _, hle⟩
    · omega
    · have := hsmall hle
      omega
  · intro hf
    rw [legStateMachine_inCorrectPhase] at hf
    rw [legStateMachine_phaseOffset, hoff1]
    rcases hflag.mp hf with h1 | h1 | h1
    · rcases htrue h1 with h2 | h2
      · exact Or.inl h2
      · right
        omega
    · exact Or.inl h1
    · by_cases hband : g.swingStart ≤ leg.phaseOffset ∧ leg.phaseOffset < g.swingEnd
      · right
        cases hx : leg.inCorrectPhase
        · rcases hfalse hx with h0 | ⟨_, _, hle⟩
          · have := hsmall (by omega)
            omega
          · have := hsmall hle
            omega
        · rcases htrue hx with h2 | h2
          · exact absurd hband h2
          · omega
      · exact Or.inl hband

/-- The leg that the transition from STOPPED to STARTING has seeded has run no iteration. -/
theorem startClockLeg_seeded (g : GaitTiming) (leg : LegStepper)
    (hoff : 0 ≤ leg.phaseOffset ∧ leg.phaseOffset < g.phaseLength)
    (hf : leg.inCorrectPhase = false) :
    StartClockLeg g 0 (seededLeg WalkState.STOPPED WalkState.STARTING leg) := by
  have hs : seededLeg WalkState.STOPPED WalkState.STARTING leg
      = { leg with phase := leg.phaseOffset } := by
    unfold seededLeg
    rw [if_pos ⟨rfl, rfl⟩]
  rw [hs]
  refine ⟨?_, fun _ => Or.inl rfl, fun h => ?_⟩
  · show leg.phaseOffset = (leg.phaseOffset + 0) % g.phaseLength
    rw [add_zero, Int.emod_eq_of_lt hoff.1 hoff.2]
  · rw [hf] at h
    exact Bool.noConfusion h

/-- A tick that ends in STARTING started in STARTING or in STOPPED. -/
theorem walkTransition_starting_from (b : Bool) (w : WalkController)
    (h : (walkTransition b w).state = WalkState.STARTING) :
    w.state = WalkState.STARTING ∨ w.state = WalkState.STOPPED := by
  rcases walkTransition_next b w with h1 | h1
  · left
    rw [← h1]
    exact h
  · right
    rw [h] at h1
    cases hs : w.state <;> rw [hs] at h1 <;> simp [WalkState.next] at h1

/-- The clock invariant is kept by every tick. -/
theorem updateWalkCore_startClock (g : GaitTiming) (hg : g.Cyclic) (b : Bool)
    (sz : Nat → Bool) (w : WalkController) (h : StartClock g w) :
    StartClock g (updateWalkCore g b sz w) := by
  obtain ⟨hcons, hclock⟩ := h
  refine ⟨updateWalkCore_consistent g hg b sz w hcons, ?_⟩
  intro hst
  rw [updateWalkCore_state] at hst
  -- every leg after the tick, from the leg before it
  have hleg : ∀ t : Int, 0 ≤ t →
      (∀ leg ∈ w.legSteppers,
        StartClockLeg g t (seededLeg w.state WalkState.STARTING leg)) →
      ∀ leg1 ∈ (updateWalkCore g b sz w).legSteppers, StartClockLeg g (t + 1) leg1 := by
    intro t ht hall leg1 hmem
    obtain ⟨k, hklt, hkget⟩ := List.getElem_of_mem hmem
    have hk1 : (updateWalkCore g b sz w).legSteppers[k]? = some leg1 := by
      rw [List.getElem?_eq_getElem hklt, hkget]
    have hkw : k < w.legSteppers.length := by
      rw [← updateWalkCore_length g b sz w]
      exact hklt
    have hk0 : w.legSteppers[k]? = some w.legSteppers[k] := List.getElem?_eq_getElem hkw
    obtain ⟨c1, hget⟩ := tick_get g b sz w k _ hk0
    rw [hk1, hst] at hget
    rw [Option.some.inj hget]
    have hm : w.legSteppers[k] ∈ w.legSteppers := List.getElem_mem _
    apply startClockLeg_step g hg _ _ c1 _ t ht
    · rw [(seededLeg_members _ _ _).2.1]
      exact (hcons.2.2.2 _ hm).2
    · exact hall _ hm
  rcases walkTransition_starting_from b w hst with hs | hs
  · obtain ⟨t, ht, hall⟩ := hclock hs
    refine ⟨t + 1, by omega, hleg t (by omega) ?_⟩
    intro leg hm
    have : seededLeg w.state WalkState.STARTING leg = leg := by
      unfold seededLeg
      rw [if_neg (fun hcon => by rw [hs] at hcon; exact absurd hcon.1 (by decide))]
    rw [this]
    exact hall leg hm
  · refine ⟨0 + 1, by omega, hleg 0 (le_refl _) ?_⟩
    intro leg hm
    rw [hs]
    exact startClockLeg_seeded g leg (hcons.2.2.2 _ hm).2
      (hcons.2.2.1 (Or.inr hs) leg hm)

theorem initController_startClock (g : GaitTiming) (hg : g.Cyclic) (offs : List Int)
    (hlen : offs.length = 6) (hoffs : ∀ off ∈ offs, 0 ≤ off ∧ off < g.phaseLength) :
    StartClock g (initController offs) :=
  ⟨initController_consistent g hg offs hlen hoffs,
    fun h => WalkState.noConfusion (h : WalkState.STOPPED = WalkState.STARTING)⟩

theorem reachable_startClock (g : GaitTiming) (hg : g.Cyclic) (offs : List Int)
    (hlen : offs.length = 6) (hoffs : ∀ off ∈ offs, 0 ≤ off ∧ off < g.phaseLength)
    (w : WalkController) (hw : Reachable g (initController offs) w) : StartClock g w := by
  induction hw with
  | start => exact initController_startClock g hg offs hlen hoffs
  | tick b sz w _ ih => exact updateWalkCore_startClock g hg b sz w ih

/-- While STARTING, once a leg in correct phase stands at `swingEnd`, every leg is in correct
phase: a leg that is still waiting has an offset in the swing band and has not reached
`swingEnd`, and then no leg in correct phase can be at `swingEnd`. -/
theorem all_admitted_at_swing_end (g : GaitTiming) (hg : g.Cyclic) (w : WalkController)
    (h : StartClock g w) (hs : w.state = WalkState.STARTING)
    (leg : LegStepper) (hm : leg ∈ w.legSteppers)
    (hin : leg.inCorrectPhase = true) (hphase : leg.phase = g.swingEnd) :
    ∀ other ∈ w.legSteppers, other.inCorrectPhase = true := by
  obtain ⟨hcons, hclock⟩ := h
  obtain ⟨hL, hse0, hseL⟩ := hg
  obtain ⟨t, ht, hall⟩ := hclock hs
  intro other hmo
  cases hx : other.inCorrectPhase
  · exfalso
    obtain ⟨_, hof, _⟩ := hall other hmo
    obtain ⟨hip, _, hit⟩ := hall leg hm
    have hoo := (hcons.2.2.2 other hmo).2
    have hoi := (hcons.2.2.2 leg hm).2
    rcases hof hx with h0 | ⟨hb1, hb2, hle⟩
    · omega
    · rw [hphase] at hip
      by_cases hlt : leg.phaseOffset + t < g.phaseLength
      · rw [Int.emod_eq_of_lt (by omega) hlt] at hip
        rcases hit hin with h1 | h1
        · apply h1
          constructor <;> omega
        · omega
      · have e : (leg.phaseOffset + t) % g.phaseLength
            = leg.phaseOffset + t - g.phaseLength := by
          rw [Int.emod_eq_sub_self_emod]
          exact Int.emod_eq_of_lt (by omega) (by omega)
        rw [e] at hip
        omega
  · rfl

/-- Two lists of the same length in which a flag set at a position of the first is set at the
same position of the second: the second has at least as many flags set. -/
theorem countP_le_of_pointwise {α : Type} (p : α → Bool) :
    ∀ (l1 l2 : List α), l1.length = l2.length →
      (∀ (i : Nat) (a b : α), l1[i]? = some a → l2[i]? = some b → p a = true → p b = true) →
      l1.countP p ≤ l2.countP p := by
  intro l1
  induction l1 with
  | nil => intro l2 _ _; simp
  | cons a rest ih =>
    intro l2 hlen hmono
    cases l2 with
    | nil => simp at hlen
    | cons b rest2 =>
      have h0 := hmono 0 a b (List.getElem?_cons_zero) (List.getElem?_cons_zero)
      have ht := ih rest2 (by simpa using hlen)
        (fun i x y hx hy => hmono (i + 1) x y (by simpa using hx) (by simpa using hy))
      simp only [List.countP_cons]
      split_ifs with ha hb hb
      · omega
      · exact absurd (h0 ha) hb
      · omega
      · omega

/-- If moreover the flag is clear at some position of the first list and set at the same
position of the second, the second list has more flags set. -/
theorem countP_lt_of_pointwise {α : Type} (p : α → Bool) :
    ∀ (l1 l2 : List α), l1.length = l2.length →
      (∀ (i : Nat) (a b : α), l1[i]? = some a → l2[i]? = some b → p a = true → p b = true) →
      ∀ (k : Nat) (a b : α), l1[k]? = some a → l2[k]? = some b → p a = false → p b = true →
      l1.countP p < l2.countP p := by
  intro l1
  induction l1 with
  | nil => intro l2 _ _ k a b hk; simp at hk
  | cons a0 rest ih =>
    intro l2 hlen hmono k a b hka hkb hpa hpb
    cases l2 with
    | nil => simp at hlen
    | cons b0 rest2 =>
      have hlen2 : rest.length = rest2.length := by simpa using hlen
      have hmono2 : ∀ (i : Nat) (x y : α), rest[i]? = some x → rest2[i]? = some y →
          p x = true → p y = true :=
        fun i x y hx hy => hmono (i + 1) x y (by simpa using hx) (by simpa using hy)
      cases k with
      | zero =>
        simp only [List.getElem?_cons_zero, Option.some.injEq] at hka hkb
        subst hka
        subst hkb
        have ht := countP_le_of_pointwise p rest rest2 hlen2 hmono2
        simp only [List.countP_cons, hpa, hpb, if_true, Bool.false_eq_true, if_false]
        omega
      | succ k =>
        simp only [List.getElem?_cons_succ] at hka hkb
        have ht := ih rest2 hlen2 hmono2 k a b hka hkb hpa hpb
        have h0 := hmono 0 a0 b0 (List.getElem?_cons_zero) (List.getElem?_cons_zero)
        simp only [List.countP_cons]
        split_ifs with ha hb hb
        · omega
        · exact absurd (h0 ha) hb
        · omega
        · omega

/-- C27: during STARTING, in every state reachable from the initial state (any inputs; phase
length positive, `0 ≤ swingEnd < phaseLength`, offsets inside the cycle), a leg that is already
in correct phase, is not yet marked as having completed its first step and whose phase equals
`swingEnd` is marked on this tick and `legsCompletedFirstStep` goes up, by exactly the number
of legs newly marked. Nothing is assumed about the other legs: the code tests
`legsInCorrectPhase == NUM_LEGS` first, and in a reachable state that test holds whenever such a
leg exists, since a leg in correct phase stands at `swingEnd` only after every leg that started
in mid swing has been admitted. -/
theorem first_step_marked_at_swing_end (g : GaitTiming) (hg : g.Cyclic) (offs : List Int)
    (hlen : offs.length = 6) (hoffs : ∀ off ∈ offs, 0 ≤ off ∧ off < g.phaseLength)
    (w : WalkController) (hw : Reachable g (initController offs) w)
    (b : Bool) (sz : Nat → Bool) (hs : w.state = WalkState.STARTING)
    (k : Nat) (leg : LegStepper) (hk : w.legSteppers[k]? = some leg)
    (hin : leg.inCorrectPhase = true) (hdone : leg.completedFirstStep = false)
    (hphase : leg.phase = g.swingEnd) :
    w.legsInCorrectPhase = 6
      ∧ (updateWalkCore g b sz w).state = WalkState.STARTING
      ∧ (∃ leg1, (updateWalkCore g b sz w).legSteppers[k]? = some leg1
          ∧ leg1.completedFirstStep = true ∧ leg1.inCorrectPhase = true)
      ∧ w.legsCompletedFirstStep < (updateWalkCore g b sz w).legsCompletedFirstStep
      ∧ (updateWalkCore g b sz w).legsCompletedFirstStep - w.legsCompletedFirstStep
          = doneCount (updateWalkCore g b sz w).legSteppers - doneCount w.legSteppers := by
  have hclock := reachable_startClock g hg offs hlen hoffs w hw
  obtain ⟨hl6, hcount, hdoneCount, _, _, _⟩ := reachable_countersMatch g offs hlen w hw
  have hall := all_admitted_at_swing_end g hg w hclock hs leg (List.getElem?_mem hk) hin hphase
  have h6 : w.legsInCorrectPhase = 6 := by
    rw [hcount, (flagCount_eq_length_iff w.legSteppers).mpr hall, hl6]
    rfl
  have hno : w.legsCompletedFirstStep ≠ 6 := by
    intro hcon
    rw [hdoneCount hs] at hcon
    have := (doneCount_eq_length_iff w.legSteppers).mp (by rw [hcon, hl6]; rfl) leg
      (List.getElem?_mem hk)
    rw [hdone] at this
    exact Bool.noConfusion this
  obtain ⟨r1, r2, r3⟩ := first_step_marked_when_all_admitted g b sz w hs h6 hall hno
  obtain ⟨leg1, hk1, hd1, hf1⟩ := r2 k leg hk hphase hdone
  have hmono : ∀ (i : Nat) (x y : LegStepper), w.legSteppers[i]? = some x →
      (updateWalkCore g b sz w).legSteppers[i]? = some y →
      x.completedFirstStep = true → y.completedFirstStep = true := by
    intro i x y hx hy hxd
    obtain ⟨c1, hget⟩ := starting_tick_get g b sz w hs (fun hcon => hno hcon.2) i x hx
    rw [hy] at hget
    rw [Option.some.inj hget, legStateMachine_completedFirstStep]
    exact (starting_leg_done_iff g _ _ c1 x).mpr (Or.inl hxd)
  have hlt := countP_lt_of_pointwise (fun l : LegStepper => l.completedFirstStep)
    w.legSteppers (updateWalkCore g b sz w).legSteppers
    (updateWalkCore_length g b sz w).symm hmono k leg leg1 hk hk1 hdone hd1
  have hlt2 : doneCount w.legSteppers < doneCount (updateWalkCore g b sz w).legSteppers := by
    unfold doneCount
    exact_mod_cast hlt
  refine ⟨h6, r1, ⟨leg1, hk1, hd1, hf1⟩, ?_, ?_⟩
  · omega
  · omega

/-- Witness for C27: the tripod gait (`phaseLength = 8`, swing band `[2, 6)`, offsets 0 and 4)
under a non-zero command. After six ticks the front-left leg is in correct phase, has not
completed its first step and stands at `swingEnd = 6`; the seventh tick marks it. -/
theorem first_step_marked_at_swing_end_witness :
    (runCore ⟨8, 2, 2, 6, 6⟩ (fun _ => ⟨true, fun _ => false⟩) 6
        (initController [0, 4, 4, 0, 0, 4])).legSteppers[0]?
        = some ⟨6, 0, StepState.STANCE, true, false⟩
      ∧ (runCore ⟨8, 2, 2, 6, 6⟩ (fun _ => ⟨true, fun _ => false⟩) 6
          (initController [0, 4, 4, 0, 0, 4])).legsInCorrectPhase = 6
      ∧ (updateWalkCore ⟨8, 2, 2, 6, 6⟩ true (fun _ => false)
          (runCore ⟨8, 2, 2, 6, 6⟩ (fun _ => ⟨true, fun _ => false⟩) 6
            (initController [0, 4, 4, 0, 0, 4]))).state = WalkState.STARTING
      ∧ (∃ leg1, (updateWalkCore ⟨8, 2, 2, 6, 6⟩ true (fun _ => false)
          (runCore ⟨8, 2, 2, 6, 6⟩ (fun _ => ⟨true, fun _ => false⟩) 6
            (initController [0, 4, 4, 0, 0, 4]))).legSteppers[0]? = some leg1
          ∧ leg1.completedFirstStep = true ∧ leg1.inCorrectPhase = true)
      ∧ (runCore ⟨8, 2, 2, 6, 6⟩ (fun _ => ⟨true, fun _ => false⟩) 6
          (initController [0, 4, 4, 0, 0, 4])).legsCompletedFirstStep
        < (updateWalkCore ⟨8, 2, 2, 6, 6⟩ true (fun _ => false)
          (runCore ⟨8, 2, 2, 6, 6⟩ (fun _ => ⟨true, fun _ => false⟩) 6
            (initController [0, 4, 4, 0, 0, 4]))).legsCompletedFirstStep
      ∧ (updateWalkCore ⟨8, 2, 2, 6, 6⟩ true (fun _ => false)
          (runCore ⟨8, 2, 2, 6, 6⟩ (fun _ => ⟨true, fun _ => false⟩) 6
            (initController [0, 4, 4, 0, 0, 4]))).legsCompletedFirstStep
          - (runCore ⟨8, 2, 2, 6, 6⟩ (fun _ => ⟨true, fun _ => false⟩) 6
            (initController [0, 4, 4, 0, 0, 4])).legsCompletedFirstStep
        = doneCount (updateWalkCore ⟨8, 2, 2, 6, 6⟩ true (fun _ => false)
            (runCore ⟨8, 2, 2, 6, 6⟩ (fun _ => ⟨true, fun _ => false⟩) 6
              (initController [0, 4, 4, 0, 0, 4]))).legSteppers
          - doneCount (runCore ⟨8, 2, 2, 6, 6⟩ (fun _ => ⟨true, fun _ => false⟩) 6
              (initController [0, 4, 4, 0, 0, 4])).legSteppers :=
  ⟨by decide,
    first_step_marked_at_swing_end ⟨8, 2, 2, 6, 6⟩ ⟨by decide, by decide, by decide⟩
      [0, 4, 4, 0, 0, 4] rfl (by decide) _ (reachable_runCore _ _ _ 6) true (fun _ => false)
      (by decide) 0 ⟨6, 0, StepState.STANCE, true, false⟩ (by decide) rfl rfl rfl⟩

/-- The tripod run of the witness, tick by tick: the legs with offset 0 are in correct phase
from the first tick, the legs with offset 4 from the third; the three legs with offset 0 are
marked on the seventh tick and the three legs with offset 4 on the eleventh. -/
theorem tripod_run_first_steps :
    (List.range 12).map (fun n =>
        ((runCore ⟨8, 2, 2, 6, 6⟩ (fun _ => ⟨true, fun _ => false⟩) n
            (initController [0, 4, 4, 0, 0, 4])).legsInCorrectPhase,
          (runCore ⟨8, 2, 2, 6, 6⟩ (fun _ => ⟨true, fun _ => false⟩) n
            (initController [0, 4, 4, 0, 0, 4])).legsCompletedFirstStep))
      = [(0, 0), (3, 0), (3, 0), (6, 0), (6, 0), (6, 0), (6, 0), (6, 3), (6, 3), (6, 3),
          (6, 3), (6, 6)] := by
  decide

end Syropod
